import Mathlib

/-! # Sandpile simulation engine

A shallow embedding of the simulation core of the sandpile repository
(`Cell`, `Grid`, `Toppling`, `SandPile`) together with theorems about it.

Conventions of the embedding.

* `GrainType` is `double` in `Typedefs.h`; arithmetic is taken as exact, so
  grain counts are rationals.  A value that the C++ code obtains from a
  division by zero has no exact counterpart: using it is the fault
  `Fault.notANumber`.
* C++ `int`/`long` values are mathematical integers (no overflow occurs at
  the grid sizes the program handles); `%` and `/` on them are the
  truncating `Int.tmod` and `Int.tdiv`.
* Arrays are total maps from the index (`Nat → α`); their length is kept by
  the owning object (`width * height`).  A pointer into the cell array is a
  `CellRef.cell n` with an integer offset `n`; dereferencing an offset
  outside the array is the fault `Fault.outOfBounds`.
* A `boost::mt19937` generator is represented by the stream of its upcoming
  outputs.  The function-local `static` generators of the C++ code are
  process-wide; they live in `Statics` and are seeded on first use.
* Loops without a bound take a `fuel` argument; running out of it is the
  fault `Fault.outOfFuel`.
-/

namespace Sandpile

/-! ## Basic types -/

/-- Grain counts (`typedef double GrainType`), taken as exact. -/
abbrev GrainType := ℚ

/-- Ways in which a run of the program stops without a result. -/
inductive Fault
  | assertion
  | nullPointer
  | outOfBounds
  | notANumber
  | outOfFuel
  deriving DecidableEq, Repr

/-- A computation that either yields a value or stops with a fault. -/
abbrev Run := Except Fault

/-- Upcoming outputs of a `boost::mt19937` generator. -/
abbrev Gen := Nat → Nat

/-- The generator after one output has been consumed. -/
def Gen.tail (g : Gen) : Gen := fun k => g (k + 1)

/-- The draw `uniform_smallint<size_t>(0, size-1)(g)` / `uniform_int<size_t>(0, size-1)(g)`. -/
def Gen.below (g : Gen) (size : Nat) : Nat := g 0 % size

/-- The draw `uniform_01<mt19937>()`: a 32-bit output scaled into `[0, 1)`. -/
def Gen.zeroone (g : Gen) : GrainType := ((g 0 % 4294967296 : Nat) : GrainType) / 4294967296

/-- Wind directions (`enum Direction { NORTH, WEST, SOUTH, EAST }`). -/
def NORTH : Nat := 0

/-- Second value of `enum Direction`. -/
def WEST : Nat := 1

/-- Third value of `enum Direction`. -/
def SOUTH : Nat := 2

/-- Fourth value of `enum Direction`. -/
def EAST : Nat := 3

/-- Boundary topologies (`enum BoundaryType`). -/
inductive BoundaryType
  | BT_UNDEFINED
  | BT_PERIODIC
  | BT_DISSIPATING
  | BT_WALL_DISSIPATING
  | BT_CIRCULAR
  | BT_RANDOM_NEIGHBOURS
  | BT_FULLY_CONNECTED
  deriving DecidableEq, Repr

/-- Toppling rules (`enum TopplingMethod`). -/
inductive TopplingMethod
  | TM_UNDEFINED
  | Manna_Lin2010
  | Bak_Tang_Wiesenfeld1987
  | Lin_etal2006
  | Rossum2011
  | Rossum2011_diss
  deriving DecidableEq, Repr

/-- Iteration strategies (`enum TopplingIterator`). -/
inductive TopplingIterator
  | RANDOM_ALL
  | RANDOM_FRACTION
  | FOLLOW_ACTIVITY
  deriving DecidableEq, Repr

/-! ## Process-wide state: feeds and static generators -/

/-- The static feeds of the classes and the function-local static generators.
`seed` stands for the constructor `boost::mt19937(feed)`; a generator that
is `none` has not been constructed yet. -/
structure Statics where
  seed : Int → Gen
  grid_feed : Int
  toppling_feed : Int
  direction_feed : Int
  drive_feed : Int
  diss_feed : Int
  neighbour_feed : Int
  cellGen : Option Gen
  neighGen : Option Gen
  gridGen : Option Gen
  toppleGen : Option Gen
  splitZeroone : Option Gen
  linZeroone : Option Gen
  dissZeroone : Option Gen
  driveGen : Option Gen
  populateGen : Option Gen
  populateZeroone : Option Gen

/-- A process right after start-up: the feeds have the initial values of the
static members, no generator has been constructed. -/
def Statics.initial (seed : Int → Gen) : Statics :=
  { seed := seed
    grid_feed := 230895
    toppling_feed := 9237593
    direction_feed := 33480
    drive_feed := 233480
    diss_feed := 1233480
    neighbour_feed := 334340
    cellGen := none
    neighGen := none
    gridGen := none
    toppleGen := none
    splitZeroone := none
    linZeroone := none
    dissZeroone := none
    driveGen := none
    populateGen := none
    populateZeroone := none }

/-- The six feeds in the order in which the configuration supplies them:
grid sweep, toppling, cell direction, drive, dissipation, neighbours
(`Toppling::SetGridFeed`, `Toppling::SetTopplingFeed`, `Cell::SetDirectionFeed`,
`SandPile::SetDriveFeed`, `SandPile::SetDissipationFeed`, `Grid::SetNeighbourFeed`). -/
def Statics.SetFeeds (st : Statics) (f0 f1 f2 f3 f4 f5 : Int) : Statics :=
  { st with
    grid_feed := f0
    toppling_feed := f1
    direction_feed := f2
    drive_feed := f3
    diss_feed := f4
    neighbour_feed := f5 }

/-- `boost_random_neigh(size)`: a draw below `size` from the static generator
seeded with the neighbour feed. -/
def boost_random_neigh (st : Statics) (size : Nat) : Nat × Statics :=
  let g := st.neighGen.getD (st.seed st.neighbour_feed)
  (g.below size, { st with neighGen := some g.tail })

/-- `boost_random(size)`: a draw below `size` from the static generator
seeded with the grid feed. -/
def boost_random (st : Statics) (size : Nat) : Nat × Statics :=
  let g := st.gridGen.getD (st.seed st.grid_feed)
  (g.below size, { st with gridGen := some g.tail })

/-! ## Cell -/

/-- A cell (`class Cell`).  `altered_function` records whether a callback
is registered (`altered_function != NULL`). -/
structure Cell where
  altered_function : Bool
  height : GrainType
  direction : Int
  max_capacity : GrainType
  id : Int

/-- The constructor `Cell::Cell()`: height 0, a direction drawn from the static
direction generator, capacity 10, no callback.  The identifier is not
initialised by the constructor; it is shown as 0 until `SetId`. -/
def Cell.new (st : Statics) : Cell × Statics :=
  let g := st.cellGen.getD (st.seed st.direction_feed)
  ({ altered_function := false
     height := 0
     direction := (g.below 4 : Nat)
     max_capacity := 10
     id := 0 },
   { st with cellGen := some g.tail })

/-- The amount `Cell::Transfer` moves from `src` (the object the method is
called on) to `cell` when `number` grains are requested. -/
def Cell.transferAmount (src cell : Cell) (number : GrainType) : GrainType :=
  let target_max := src.max_capacity - cell.height
  let source_max := src.height
  let transfer := target_max
  let transfer := if transfer < number then transfer else number
  let transfer := if transfer < source_max then transfer else source_max
  transfer

/-- The method `Cell::Transfer` on two distinct cells: returns the amount moved, the
source afterwards and the target afterwards. -/
def Cell.Transfer (src cell : Cell) (number : GrainType) : GrainType × Cell × Cell :=
  let transfer := Cell.transferAmount src cell number
  (transfer, { src with height := src.height - transfer },
    { cell with height := cell.height + transfer })

/-! ## Grid -/

/-- A pointer to a cell: an offset into the cell array of a grid, or the
reservoir of that grid. -/
inductive CellRef
  | cell (n : Int)
  | reservoir
  deriving DecidableEq, Repr

/-- A grid (`class Grid`). -/
structure Grid where
  width : Nat
  height : Nat
  cells : Nat → Cell
  boundary_type : BoundaryType
  reservoir : Cell
  random_indices : Nat → Nat

/-- Number of cells of the array (`width * height`). -/
def Grid.size (g : Grid) : Nat := g.width * g.height

/-- Exchange of two array entries (`iter_swap`). -/
def swapAt {α : Type} (a : Nat → α) (i j : Nat) : Nat → α :=
  fun k => if k = i then a j else if k = j then a i else a k

/-- The loop of `std::random_shuffle(first, last, rand)`: for the positions
`i, i+1, ..` (`count` of them) swap position `i` with position `rand(i+1)`. -/
def shuffleLoop {α : Type} (rand : Statics → Nat → Nat × Statics) :
    Nat → Nat → (Nat → α) → Statics → (Nat → α) × Statics
  | _, 0, a, st => (a, st)
  | i, count + 1, a, st =>
    let (j, st1) := rand st (i + 1)
    shuffleLoop rand (i + 1) count (if i ≠ j then swapAt a i j else a) st1

/-- Shuffle `std::random_shuffle` over an array of `n` entries. -/
def random_shuffle {α : Type} (rand : Statics → Nat → Nat × Statics) (n : Nat) (a : Nat → α)
    (st : Statics) : (Nat → α) × Statics :=
  shuffleLoop rand 1 (n - 1) a st

/-- The constructor `Grid::Grid(width, height, boundary_type)`.  The reservoir member is
constructed first, then the `width * height` cells in index order (each
construction draws one direction); cell `i` gets identity `i`, the
reservoir `-1 - width`; the index table is the shuffled identity. -/
def Grid.new (width height : Nat) (boundary_type : BoundaryType) (st : Statics) :
    Grid × Statics :=
  let g := st.cellGen.getD (st.seed st.direction_feed)
  let size := width * height
  let reservoir : Cell :=
    { altered_function := false, height := 0, direction := (g.below 4 : Nat),
      max_capacity := 10, id := -1 - (width : Int) }
  let cells : Nat → Cell := fun i =>
    { altered_function := false, height := 0
      direction := ((fun k => g (k + (i + 1))) 0 % 4 : Nat)
      max_capacity := 10, id := (i : Int) }
  let st1 := { st with cellGen := some (fun k => g (k + (size + 1))) }
  let (table, st2) := random_shuffle boost_random_neigh size (fun i => i) st1
  ({ width := width, height := height, cells := cells, boundary_type := boundary_type,
     reservoir := reservoir, random_indices := table }, st2)

/-- The lookup `Grid::GetCell(int i, int j)`: the two assertions, then a reference to
`cells[j*width+i]`. -/
def Grid.GetCell (g : Grid) (i j : Int) : Run CellRef :=
  if ¬ (j < (g.height : Int)) then throw Fault.assertion
  else if ¬ (i < (g.width : Int)) then throw Fault.assertion
  else pure (CellRef.cell (j * (g.width : Int) + i))

/-- The lookup `Grid::GetCell(int n)`: the assertion, then a reference to `cells[n]`. -/
def Grid.GetCellAt (g : Grid) (n : Int) : Run CellRef :=
  if ¬ (n < (g.height : Int) * (g.width : Int)) then throw Fault.assertion
  else pure (CellRef.cell n)

/-- Reading through a cell pointer. -/
def Grid.read (g : Grid) (r : CellRef) : Run Cell :=
  match r with
  | CellRef.reservoir => pure g.reservoir
  | CellRef.cell n =>
    if 0 ≤ n ∧ n < (g.size : Int) then pure (g.cells n.toNat) else throw Fault.outOfBounds

/-- Writing through a cell pointer. -/
def Grid.write (g : Grid) (r : CellRef) (c : Cell) : Run Grid :=
  match r with
  | CellRef.reservoir => pure { g with reservoir := c }
  | CellRef.cell n =>
    if 0 ≤ n ∧ n < (g.size : Int) then
      pure { g with cells := Function.update g.cells n.toNat c }
    else throw Fault.outOfBounds

/-- The test `Grid::WithinCircle(i, j)`. -/
def Grid.WithinCircle (g : Grid) (i j : Int) : Run Bool :=
  if g.width ≠ g.height then throw Fault.assertion
  else if g.width % 2 ≠ 0 then throw Fault.assertion
  else
    let d_i : ℚ := |(g.width : ℚ) / 2 - ((i : ℚ) + 1 / 2)|
    let d_j : ℚ := |(g.width : ℚ) / 2 - ((j : ℚ) + 1 / 2)|
    let c : ℚ := d_i * d_i + d_j * d_j
    let r : Int := ((g.width : Int) - 1).tdiv 2
    pure (decide (c ≤ ((r * r : Int) : ℚ)))

/-- The order in which the two nested loops `for n = -1, 1` / `for xy_toggle = 0, 1`
of `GetNeighbours` run. -/
def neighbourLoop : List (Int × Int) := [(-1, 0), (-1, 1), (1, 0), (1, 1)]

/-- The `do .. while (cnt != no_n)` loop of the fully connected case. -/
def fullyConnectedLoop (g : Grid) (this_i : Int) :
    Nat → Nat → List CellRef → Statics → Run (List CellRef × Statics)
  | 0, _, _, _ => throw Fault.outOfFuel
  | fuel + 1, cnt, neighbours, st =>
    let (n, st1) := boost_random_neigh st (g.width * g.height)
    if (n : Int) ≠ this_i then do
      let cptr ← g.GetCellAt n
      if cnt + 1 ≠ 4 then fullyConnectedLoop g this_i fuel (cnt + 1) (neighbours ++ [cptr]) st1
      else pure (neighbours ++ [cptr], st1)
    else if cnt ≠ 4 then fullyConnectedLoop g this_i fuel cnt neighbours st1
    else pure (neighbours, st1)

/-- The method `Grid::GetNeighbours(i, j, neighbours)`: the neighbour list that the call leaves
in `neighbours`. -/
def Grid.GetNeighbours (g : Grid) (i j : Int) (st : Statics) (fuel : Nat) :
    Run (List CellRef × Statics) :=
  let width : Int := g.width
  let height : Int := g.height
  if g.width = 0 then throw Fault.assertion
  else if g.height = 0 then throw Fault.assertion
  else
    match g.boundary_type with
    | BoundaryType.BT_PERIODIC =>
      let t_i := i + width
      let t_j := j + height
      pure (neighbourLoop.map (fun p =>
        let n_i := (t_i + p.1 * p.2).tmod width
        let n_j := (t_j + p.1 * (1 - p.2)).tmod height
        CellRef.cell (n_j * width + n_i)), st)
    | BoundaryType.BT_DISSIPATING =>
      pure ([ if i = 0 then CellRef.reservoir else CellRef.cell (j * width + (i - 1)),
              if i = width - 1 then CellRef.reservoir else CellRef.cell (j * width + (i + 1)),
              if j = 0 then CellRef.reservoir else CellRef.cell ((j - 1) * width + i),
              if j = height - 1 then CellRef.reservoir else CellRef.cell ((j + 1) * width + i) ],
            st)
    | BoundaryType.BT_WALL_DISSIPATING =>
      pure ((if i ≠ 0 then [CellRef.cell (j * width + (i - 1))] else [])
            ++ [if i = width - 1 then CellRef.reservoir else CellRef.cell (j * width + (i + 1))]
            ++ (if j ≠ 0 then [CellRef.cell ((j - 1) * width + i)] else [])
            ++ [if j = height - 1 then CellRef.reservoir
                else CellRef.cell ((j + 1) * width + i)],
            st)
    | BoundaryType.BT_CIRCULAR => do
      let neighbours ← neighbourLoop.mapM (fun p => do
        let n_i := i + p.1 * p.2
        let n_j := j + p.1 * (1 - p.2)
        let cptr ← g.GetCell n_i n_j
        let inside ← g.WithinCircle n_i n_j
        pure (if ¬ inside then CellRef.reservoir else cptr))
      pure (neighbours, st)
    | BoundaryType.BT_FULLY_CONNECTED =>
      fullyConnectedLoop g (j * width + i) fuel 0 [] st
    | BoundaryType.BT_RANDOM_NEIGHBOURS => do
      let t_i := i + width
      let t_j := j + height
      let neighbours ← neighbourLoop.mapM (fun p => do
        let n_i := (t_i + p.1 * p.2).tmod width
        let n_j := (t_j + p.1 * (1 - p.2)).tmod height
        let k := n_j * width + n_i
        if ¬ (0 ≤ k ∧ k < (g.size : Int)) then throw Fault.outOfBounds
        else g.GetCellAt (g.random_indices k.toNat))
      pure (neighbours, st)
    | BoundaryType.BT_UNDEFINED => throw Fault.assertion

/-- The loop of `Grid::CountGrains`: the sum of the heights of the first `n` cells. -/
def sumHeights (cells : Nat → Cell) : Nat → GrainType
  | 0 => 0
  | n + 1 => sumHeights cells n + (cells n).height

/-- The method `Grid::CountGrains()`. -/
def Grid.CountGrains (g : Grid) : GrainType := sumHeights g.cells (g.width * g.height)

/-! ## Toppling -/

/-- Modelled from the spec: the header `EventCounter.hpp` is not among the sources.  An event
counter is "a mapping from avalanche size to occurrence count"; `AddEvent`
adds one occurrence of the given size. -/
structure EventCounter where
  events : Int → Nat

/-- Modelled from the spec: the counter without any event (`EventCounter.hpp` is absent). -/
def EventCounter.empty : EventCounter := { events := fun _ => 0 }

/-- Modelled from the spec: `AddEvent` of the absent `EventCounter.hpp`, one more occurrence
of the size `e`. -/
def EventCounter.AddEvent (c : EventCounter) (e : Int) : EventCounter :=
  { events := Function.update c.events e (c.events e + 1) }

/-- The members of `class Toppling`, apart from the grid pointers.  `diss_grid`
records whether the pointer is set; `active_cells` holds the array offsets of
the cells in the set (`std::set<Cell*>`); `random_indices` is `none` for a
NULL pointer. -/
structure Toppling where
  diss_grid : Bool
  noDuringAvalanches : Option EventCounter
  countDuringAvalanches : Bool
  active_cells : List Nat
  topple_threshold : GrainType
  dissipative_mode : Bool
  diss_rate : ℚ
  diss_threshold : GrainType
  diss_amount : GrainType
  toppling_method : TopplingMethod
  toppling_iterator : TopplingIterator
  random_indices : Option (Nat → Nat)

/-- The constructor `Toppling::Toppling(grid)`. -/
def Toppling.new : Toppling :=
  { diss_grid := false
    noDuringAvalanches := none
    countDuringAvalanches := false
    active_cells := []
    topple_threshold := 4
    dissipative_mode := false
    diss_rate := 1 / 10
    diss_threshold := 0
    diss_amount := 4
    toppling_method := TopplingMethod.TM_UNDEFINED
    toppling_iterator := TopplingIterator.FOLLOW_ACTIVITY
    random_indices := none }

/-- The setter `Toppling::SetTopplingMethod`. -/
def Toppling.SetTopplingMethod (t : Toppling) (m : TopplingMethod) : Run Toppling :=
  match m with
  | TopplingMethod.Manna_Lin2010 => pure { t with toppling_method := m, topple_threshold := 2 }
  | TopplingMethod.Lin_etal2006 => pure { t with toppling_method := m, topple_threshold := 4 }
  | TopplingMethod.Rossum2011 => pure { t with toppling_method := m, topple_threshold := 4 }
  | TopplingMethod.Bak_Tang_Wiesenfeld1987 =>
    pure { t with toppling_method := m, topple_threshold := 4 }
  | TopplingMethod.Rossum2011_diss => pure { t with toppling_method := m, topple_threshold := 0 }
  | TopplingMethod.TM_UNDEFINED => throw Fault.assertion

/-- The setter `Toppling::SetTopplingThreshold`. -/
def Toppling.SetTopplingThreshold (t : Toppling) (threshold : GrainType) : Run Toppling :=
  if t.toppling_method = TopplingMethod.TM_UNDEFINED then throw Fault.assertion
  else if threshold < 0 then t.SetTopplingMethod t.toppling_method
  else if threshold ≠ t.topple_threshold then pure { t with topple_threshold := threshold }
  else pure t

/-- The setter `Toppling::SetTopplingIterator` for a grid of `size` cells. -/
def Toppling.SetTopplingIterator (t : Toppling) (size : Nat) (it : TopplingIterator) :
    Toppling :=
  let _ := size
  match it with
  | TopplingIterator.RANDOM_FRACTION =>
    { t with toppling_iterator := it, random_indices := some (fun i => i) }
  | TopplingIterator.RANDOM_ALL =>
    { t with toppling_iterator := it, random_indices := some (fun i => i) }
  | TopplingIterator.FOLLOW_ACTIVITY => { t with toppling_iterator := it, active_cells := [] }

/-- The setter `Toppling::SetCounterDuringAvalanches`. -/
def Toppling.SetCounterDuringAvalanches (t : Toppling) (count : Bool) : Toppling :=
  { t with countDuringAvalanches := count
           noDuringAvalanches := if count then some EventCounter.empty else none }

/-- Insertion `std::set::insert` on the offsets, kept in ascending order. -/
def setInsert (l : List Nat) (n : Nat) : List Nat :=
  if n ∈ l then l else List.orderedInsert (fun a b => a ≤ b) n l

/-- Removal `std::set::erase` of a key. -/
def setErase (l : List Nat) (n : Nat) : List Nat := l.filter (fun k => k ≠ n)

/-- The callback `Toppling::CheckCell(cell)` for the cell at array offset `n`. -/
def Toppling.CheckCell (t : Toppling) (n : Nat) (cell : Cell) : Toppling :=
  match t.toppling_iterator with
  | TopplingIterator.RANDOM_FRACTION => t
  | TopplingIterator.RANDOM_ALL => t
  | TopplingIterator.FOLLOW_ACTIVITY =>
    if cell.height < t.topple_threshold then
      { t with active_cells := setErase t.active_cells n }
    else { t with active_cells := setInsert t.active_cells n }

/-- A grid together with the `Toppling` bound to it.  The only callback the
program installs on a cell is `CheckCell` of the `Toppling` of the grid the
cell belongs to, and it is installed on array cells only. -/
structure Engine where
  grid : Grid
  toppling : Toppling

/-- The common part of `Cell::Increase`, `Cell::Decrease` and `Cell::Clear`: the height
becomes `f height`, then the callback runs if one is registered. -/
def Engine.alter (e : Engine) (r : CellRef) (f : GrainType → GrainType) : Run Engine := do
  let c ← e.grid.read r
  let c1 : Cell := { c with height := f c.height }
  let g1 ← e.grid.write r c1
  match r with
  | CellRef.cell n =>
    if c.altered_function then
      pure { grid := g1, toppling := e.toppling.CheckCell n.toNat c1 }
    else pure { e with grid := g1 }
  | CellRef.reservoir => pure { e with grid := g1 }

/-- The method `Cell::Increase(number)` on the cell behind `r`. -/
def Engine.Increase (e : Engine) (r : CellRef) (number : GrainType) : Run Engine :=
  e.alter r (fun h => h + number)

/-- The method `Cell::Decrease(number)` on the cell behind `r`. -/
def Engine.Decrease (e : Engine) (r : CellRef) (number : GrainType) : Run Engine :=
  e.alter r (fun h => h - number)

/-- The method `Cell::Clear()` on the cell behind `r`. -/
def Engine.Clear (e : Engine) (r : CellRef) : Run Engine :=
  e.alter r (fun _ => 0)

/-- The method `Cell::SetDirection(direction)` on the cell behind `r`. -/
def Engine.SetDirection (e : Engine) (r : CellRef) (direction : Int) : Run Engine := do
  let c ← e.grid.read r
  let g1 ← e.grid.write r { c with direction := direction }
  pure { e with grid := g1 }

/-- The call `src.Transfer(target, number)` through pointers: the amount is computed from the
two cells, then taken from the source and added to the target (no callback). -/
def Engine.Transfer (e : Engine) (src target : CellRef) (number : GrainType) :
    Run (GrainType × Engine) := do
  let s ← e.grid.read src
  let t ← e.grid.read target
  let transfer := Cell.transferAmount s t number
  let g1 ← e.grid.write src { s with height := s.height - transfer }
  let t1 ← g1.read target
  let g2 ← g1.write target { t1 with height := t1.height + transfer }
  pure (transfer, { e with grid := g2 })

/-- The values `zeroone()` delivers in `count` successive draws. -/
def splitDraws : Nat → Gen → List GrainType × Gen
  | 0, z => ([], z)
  | count + 1, z =>
    let (l, z1) := splitDraws count z.tail
    (z.zeroone :: l, z1)

/-- The array `increase_neighbour` after normalisation: the draws scaled by
`decrease / sum_increase`; `none` when `sum_increase` is zero. -/
def normalise (decrease : GrainType) (draws : List GrainType) : Option (List GrainType) :=
  let sum_increase := draws.sum
  if sum_increase = 0 then none
  else some (draws.map (fun x => x * (decrease / sum_increase)))

/-- The loop `neighbours[n]->Increase(increase_neighbour[n])` over all `n`. -/
def Engine.increaseEach : Engine → List CellRef → List GrainType → Run Engine
  | e, r :: rs, x :: xs => do
    let e1 ← e.Increase r x
    Engine.increaseEach e1 rs xs
  | e, _, _ => pure e

/-- The loop of the Manna-Lin case: each portion goes to a freshly drawn neighbour. -/
def Engine.mannaLoop (neighbours : List CellRef) :
    Engine → List GrainType → Gen → Run (Engine × Gen)
  | e, [], gen => pure (e, gen)
  | e, x :: xs, gen =>
    match neighbours[gen.below neighbours.length]? with
    | none => throw Fault.outOfBounds
    | some r => do
      let e1 ← e.Increase r x
      Engine.mannaLoop neighbours e1 xs gen.tail

/-- The loop of the dissipative Lin case: a portion is delivered when the draw
exceeds the dissipation rate. -/
def Engine.linLoop (diss_rate : ℚ) :
    Engine → List CellRef → List GrainType → Gen → Run (Engine × Gen)
  | e, r :: rs, x :: xs, z =>
    if z.zeroone > diss_rate then do
      let e1 ← e.Increase r x
      Engine.linLoop diss_rate e1 rs xs z.tail
    else Engine.linLoop diss_rate e rs xs z.tail
  | e, _, _, z => pure (e, z)

/-- The static generator of the per-cell `Topple`, constructed from the toppling feed
on first use. -/
def Statics.toppleGenerator (st : Statics) : Gen := st.toppleGen.getD (st.seed st.toppling_feed)

/-- The amount `decrease` of the per-cell `Topple`: the dissipation amount if positive,
else the number of neighbour entries. -/
def Toppling.decrease (t : Toppling) (size : Nat) : GrainType :=
  if t.diss_amount ≤ 0 then (size : GrainType) else t.diss_amount

/-- The `size` draws of the split (`zeroone` is a copy of the static generator made
on first use) and the generators afterwards. -/
def Statics.drawSplit (st : Statics) (size : Nat) : List GrainType × Statics :=
  let gen := st.toppleGenerator
  let z := st.splitZeroone.getD gen
  let (draws, z1) := splitDraws size z
  (draws, { st with toppleGen := some gen, splitZeroone := some z1 })

/-- The per-cell `Toppling::Topple(cell, neighbours)`; `dg` is the grid behind the
`diss_grid` pointer. -/
def Engine.Topple (e : Engine) (dg : Option Grid) (cell : CellRef) (neighbours : List CellRef)
    (st : Statics) : Run (Bool × Engine × Statics) := do
  let t := e.toppling
  let gen := st.toppleGenerator
  let size := neighbours.length
  let decrease := t.decrease size
  let increase_neighbour := normalise decrease (st.drawSplit size).1
  let st1 : Statics := (st.drawSplit size).2
  let c ← e.grid.read cell
  if c.height ≥ t.topple_threshold then
    match t.toppling_method with
    | TopplingMethod.Manna_Lin2010 =>
      let e1 ← e.Decrease cell decrease
      match increase_neighbour with
      | none => throw Fault.notANumber
      | some inc =>
        let (e2, gen1) ← Engine.mannaLoop neighbours e1 inc gen
        pure (true, e2, { st1 with toppleGen := some gen1 })
    | TopplingMethod.Bak_Tang_Wiesenfeld1987 =>
      let e1 ← e.Decrease cell decrease
      match increase_neighbour with
      | none => throw Fault.notANumber
      | some inc =>
        let e2 ← Engine.increaseEach e1 neighbours inc
        pure (true, e2, st1)
    | TopplingMethod.Lin_etal2006 =>
      let e1 ← e.Decrease cell decrease
      match increase_neighbour with
      | none => throw Fault.notANumber
      | some inc =>
        if t.dissipative_mode then
          let zl := st1.linZeroone.getD gen
          let (e2, zl1) ← Engine.linLoop t.diss_rate e1 neighbours inc zl
          pure (true, e2, { st1 with linZeroone := some zl1 })
        else
          let e2 ← Engine.increaseEach e1 neighbours inc
          pure (true, e2, st1)
    | TopplingMethod.Rossum2011_diss =>
      if c.height > 0 then
        let dir := c.direction
        if ¬ (0 ≤ dir) then throw Fault.outOfBounds
        else
          match neighbours[dir.toNat]? with
          | none => throw Fault.outOfBounds
          | some target =>
            let (_, e1) ← e.Transfer cell target 1
            let e2 ← e1.SetDirection target dir
            let zd := st1.dissZeroone.getD gen
            let st2 : Statics := { st1 with dissZeroone := some zd.tail }
            if zd.zeroone < 1 / 100 then
              let dir2 := gen.below size
              let dir1 := gen.tail.below size
              match neighbours[dir2]? with
              | none => throw Fault.outOfBounds
              | some r =>
                let e3 ← e2.SetDirection r (dir1 : Nat)
                pure (false, e3, { st2 with toppleGen := some gen.tail.tail })
            else pure (false, e2, st2)
      else pure (false, e, st1)
    | TopplingMethod.Rossum2011 =>
      if ¬ (t.diss_threshold > 0) then throw Fault.assertion
      else
        match dg with
        | none => throw Fault.nullPointer
        | some d =>
          let dref ← d.GetCellAt c.id
          let dcell ← d.read dref
          let diss := dcell.height
          let e1 ← e.Decrease cell decrease
          if diss ≥ t.diss_threshold then pure (true, e1, st1)
          else
            match increase_neighbour with
            | none => throw Fault.notANumber
            | some inc =>
              let e2 ← Engine.increaseEach e1 neighbours inc
              pure (true, e2, st1)
    | TopplingMethod.TM_UNDEFINED => throw Fault.assertion
  else pure (false, e, st1)

/-- One iteration of the `for` loops of `Toppling::Topple(avalanche_size)`: neighbours of the
cell with index `cell_index`, then the per-cell `Topple`. -/
def Engine.visit (e : Engine) (dg : Option Grid) (fuel : Nat) (cell_index : Int)
    (st : Statics) : Run (Bool × Engine × Statics) := do
  let i := cell_index.tmod (e.grid.width : Int)
  let j := cell_index.tdiv (e.grid.width : Int)
  let (neighbours, st1) ← e.grid.GetNeighbours i j st fuel
  let c ← e.grid.GetCell i j
  e.Topple dg c neighbours st1

/-- The `for` loop over the cell indices of one pass: returns the number of cells
that toppled, with the engine and the generators afterwards. -/
def Engine.sweep (dg : Option Grid) (fuel : Nat) :
    List Int → Engine → Statics → Run (Nat × Engine × Statics)
  | [], e, st => pure (0, e, st)
  | cell_index :: rest, e, st => do
    let (toppled, e1, st1) ← e.visit dg fuel cell_index st
    let (k, e2, st2) ← Engine.sweep dg fuel rest e1 st1
    pure ((if toppled then 1 else 0) + k, e2, st2)

/-- Conversion of a grain count to `long int` (truncation toward zero). -/
def truncate (q : GrainType) : Int := q.num.tdiv q.den

/-- Record the grain count when counting during avalanches is on. -/
def Toppling.countGrains (t : Toppling) (enabled : Bool) (n : Int) : Run Toppling :=
  if enabled then
    match t.noDuringAvalanches with
    | none => throw Fault.nullPointer
    | some c => pure { t with noDuringAvalanches := some (c.AddEvent n) }
  else pure t

/-- One pass of the `do .. while (!quit)` loop of `Toppling::Topple(avalanche_size)`:
returns the number of toppling events of the pass and the value of `quit`. -/
def Engine.pass (e : Engine) (dg : Option Grid) (fuel : Nat) (it_n : Nat) (st : Statics) :
    Run (Nat × Bool × Engine × Statics) :=
  let size := e.grid.width * e.grid.height
  let randomPass (iterate_number : Nat) : Run (Nat × Bool × Engine × Statics) :=
    match e.toppling.random_indices with
    | none => throw Fault.nullPointer
    | some table => do
      let (table1, st1) := random_shuffle boost_random size table st
      let e1 : Engine := { e with toppling := { e.toppling with random_indices := some table1 } }
      let indices := (List.range iterate_number).map (fun c => (table1 c : Int))
      let (k, e2, st2) ← Engine.sweep dg fuel indices e1 st1
      pure (k, decide (k = 0), e2, st2)
  match e.toppling.toppling_iterator with
  | TopplingIterator.RANDOM_FRACTION => randomPass e.grid.width
  | TopplingIterator.RANDOM_ALL => randomPass size
  | TopplingIterator.FOLLOW_ACTIVITY => do
    let ids : List Int := e.toppling.active_cells.map (fun n => (e.grid.cells n).id)
    let (shuffled, st1) :=
      random_shuffle boost_random ids.length (fun k => ids.getD k 0) st
    let c_indices := (List.range ids.length).map shuffled
    let t1 : Toppling := { e.toppling with active_cells := [] }
    let t2 ← t1.countGrains (e.toppling.countDuringAvalanches && it_n == 0)
      (truncate e.grid.CountGrains)
    let (k, e2, st2) ← Engine.sweep dg fuel c_indices { e with toppling := t2 } st1
    let t3 ← e2.toppling.countGrains e2.toppling.countDuringAvalanches
      (truncate e2.grid.CountGrains)
    pure (k, decide (t3.active_cells = []), { e2 with toppling := t3 }, st2)

/-- The `do .. while (!quit)` loop of `Toppling::Topple(avalanche_size)`; the first argument
bounds the number of passes. -/
def Engine.toppleLoop (dg : Option Grid) (fuel : Nat) :
    Nat → Nat → Int → Engine → Statics → Run (Int × Engine × Statics)
  | 0, _, _, _, _ => throw Fault.outOfFuel
  | passes + 1, it_n, avalanche_size, e, st => do
    let (k, quit, e1, st1) ← e.pass dg fuel it_n st
    if quit then pure (avalanche_size + k, e1, st1)
    else Engine.toppleLoop dg fuel passes (it_n + 1) (avalanche_size + k) e1 st1

/-- The relaxation `Toppling::Topple(long int & avalanche_size)`: the argument is set to 0 on
entry; the result is its value on return. -/
def Engine.ToppleAll (e : Engine) (dg : Option Grid) (avalanche_size : Int) (st : Statics)
    (fuel : Nat) : Run (Int × Engine × Statics) :=
  let _ := avalanche_size
  Engine.toppleLoop dg fuel fuel 0 0 e st

/-! ## SandPile -/

/-- The members of `class SandPile`. -/
structure SandPile where
  L : Nat
  grid : Option Grid
  diss_grid : Option Grid
  toppling : Option Toppling
  diss_toppling : Option Toppling
  boundary_type : BoundaryType
  avalanches : EventCounter

/-- The method `SandPile::DissipationGrid(method, width, height)`: the new dissipation grid, the
primary toppling with its `diss_grid` pointer set, and the new dissipation
toppling. -/
def SandPile.DissipationGrid (toppling : Option Toppling) (method : TopplingMethod)
    (width height : Nat) (st : Statics) : Run (Grid × Option Toppling × Toppling × Statics) := do
  let (dgrid, st1) := Grid.new width height BoundaryType.BT_PERIODIC st
  let toppling1 := toppling.map (fun t => { t with diss_grid := true })
  let dt ← Toppling.new.SetTopplingMethod method
  let dt1 := dt.SetTopplingIterator (width * height) TopplingIterator.RANDOM_ALL
  let dt2 := dt1.SetCounterDuringAvalanches false
  pure (dgrid, toppling1, dt2, st1)

/-- The default boundary of a rule (the `switch` of the constructor); the undefined
rule leaves the member unset, shown as `BT_UNDEFINED`. -/
def defaultBoundary (m : TopplingMethod) : BoundaryType :=
  match m with
  | TopplingMethod.Rossum2011 => BoundaryType.BT_PERIODIC
  | TopplingMethod.Rossum2011_diss => BoundaryType.BT_PERIODIC
  | TopplingMethod.Lin_etal2006 => BoundaryType.BT_PERIODIC
  | TopplingMethod.Manna_Lin2010 => BoundaryType.BT_CIRCULAR
  | TopplingMethod.Bak_Tang_Wiesenfeld1987 => BoundaryType.BT_WALL_DISSIPATING
  | TopplingMethod.TM_UNDEFINED => BoundaryType.BT_UNDEFINED

/-- The boundary the constructor selects: the explicit argument when it is given
and differs from the default of the rule, else that default. -/
def resolvedBoundary (m : TopplingMethod) (type : BoundaryType) : BoundaryType :=
  if type ≠ BoundaryType.BT_UNDEFINED ∧ type ≠ defaultBoundary m then type else defaultBoundary m

/-- The loop `grid->GetCell(i).SetAlteredFunction(callback)` for `i < count`. -/
def Grid.registerCallbacks (g : Grid) (count : Nat) : Grid :=
  { g with cells := fun i =>
      if i < count then { g.cells i with altered_function := true } else g.cells i }

/-- The primary toppling as the constructor configures it: rule, `FOLLOW_ACTIVITY`,
no counting during avalanches. -/
def SandPile.primaryToppling (L : Nat) (toppling_method : TopplingMethod) : Run Toppling := do
  let t ← Toppling.new.SetTopplingMethod toppling_method
  let t1 := t.SetTopplingIterator (L * L) TopplingIterator.FOLLOW_ACTIVITY
  pure (t1.SetCounterDuringAvalanches false)

/-- The constructor `SandPile::SandPile(L, toppling_method, type)`. -/
def SandPile.new (L : Nat) (toppling_method : TopplingMethod) (type : BoundaryType)
    (st : Statics) : Run (SandPile × Statics) := do
  let boundary_type := resolvedBoundary toppling_method type
  if toppling_method = TopplingMethod.Rossum2011_diss then
    let (dgrid, _, dt, st1) ← SandPile.DissipationGrid none TopplingMethod.Rossum2011_diss L L st
    pure ({ L := L, grid := none, diss_grid := some dgrid, toppling := none,
            diss_toppling := some dt, boundary_type := boundary_type,
            avalanches := EventCounter.empty }, st1)
  else
    let gs := Grid.new L L boundary_type st
    let t2 ← SandPile.primaryToppling L toppling_method
    let grid1 := gs.1.registerCallbacks (L * L)
    if toppling_method = TopplingMethod.Rossum2011 then
      let (dgrid, t3, dt, st2) ←
        SandPile.DissipationGrid (some t2) TopplingMethod.Rossum2011_diss L L gs.2
      pure ({ L := L, grid := some grid1, diss_grid := some dgrid, toppling := t3,
              diss_toppling := some dt, boundary_type := boundary_type,
              avalanches := EventCounter.empty }, st2)
    else
      pure ({ L := L, grid := some grid1, diss_grid := none, toppling := some t2,
              diss_toppling := none, boundary_type := boundary_type,
              avalanches := EventCounter.empty }, gs.2)

/-- The loop of `SandPile::Clear()`: `grid->GetCell(i).Clear()` for the offsets `i, i+1, ..`
(`count` of them). -/
def clearLoop : Nat → Nat → Engine → Run Engine
  | _, 0, e => pure e
  | i, count + 1, e => do
    let r ← e.grid.GetCellAt i
    let e1 ← e.Clear r
    clearLoop (i + 1) count e1

/-- The method `SandPile::Clear()`. -/
def SandPile.Clear (s : SandPile) : Run SandPile :=
  match s.grid with
  | none => if s.L * s.L = 0 then pure s else throw Fault.nullPointer
  | some g =>
    match s.toppling with
    | none => throw Fault.nullPointer
    | some t => do
      let e ← clearLoop 0 (s.L * s.L) { grid := g, toppling := t }
      pure { s with grid := some e.grid, toppling := some e.toppling }

/-- The `do .. while (!success)` loop of `SandPile::Drive()`. -/
def driveLoop (boundary_type : BoundaryType) :
    Nat → Engine → Gen → Run (Engine × Gen)
  | 0, _, _ => throw Fault.outOfFuel
  | fuel + 1, e, gen =>
    let x : Int := (gen.below e.grid.width : Nat)
    let y : Int := (gen.tail.below e.grid.height : Nat)
    let gen1 := gen.tail.tail
    if boundary_type = BoundaryType.BT_CIRCULAR then do
      let inside ← e.grid.WithinCircle x y
      if inside then
        let r ← e.grid.GetCell x y
        let e1 ← e.Increase r 1
        pure (e1, gen1)
      else driveLoop boundary_type fuel e gen1
    else if boundary_type = BoundaryType.BT_WALL_DISSIPATING then do
      if y < ((e.grid.height : Int)).tdiv 2 then
        let r ← e.grid.GetCell x 0
        let e1 ← e.Increase r 1
        pure (e1, gen1)
      else
        let r ← e.grid.GetCell 0 x
        let e1 ← e.Increase r 1
        pure (e1, gen1)
    else do
      let r ← e.grid.GetCell x y
      let e1 ← e.Increase r 1
      pure (e1, gen1)

/-- The method `SandPile::Drive()`. -/
def SandPile.Drive (s : SandPile) (st : Statics) (fuel : Nat) : Run (SandPile × Statics) :=
  let gen := st.driveGen.getD (st.seed st.drive_feed)
  match s.grid with
  | none => throw Fault.assertion
  | some g =>
    match s.toppling with
    | none => throw Fault.nullPointer
    | some t => do
      let (e, gen1) ← driveLoop s.boundary_type fuel { grid := g, toppling := t } gen
      pure ({ s with grid := some e.grid, toppling := some e.toppling },
            { st with driveGen := some gen1 })

/-- First statement of `SandPile::Relax`: `if (diss_toppling != NULL) diss_toppling->Topple(avalanche_size)`. -/
def SandPile.relaxDiss (s : SandPile) (avalanche_size : Int) (st : Statics) (fuel : Nat) :
    Run (Int × SandPile × Statics) :=
  match s.diss_toppling with
  | none => pure (avalanche_size, s, st)
  | some dt =>
    match s.diss_grid with
    | none => throw Fault.nullPointer
    | some dg => do
      let (a, e, st1) ← Engine.ToppleAll { grid := dg, toppling := dt } none avalanche_size st fuel
      pure (a, { s with diss_grid := some e.grid, diss_toppling := some e.toppling }, st1)

/-- Second statement of `SandPile::Relax`: `if (toppling != NULL) toppling->Topple(avalanche_size)`. -/
def SandPile.relaxPrimary (s : SandPile) (avalanche_size : Int) (st : Statics) (fuel : Nat) :
    Run (Int × SandPile × Statics) :=
  match s.toppling with
  | none => pure (avalanche_size, s, st)
  | some t =>
    match s.grid with
    | none => throw Fault.nullPointer
    | some g => do
      let (a, e, st1) ←
        Engine.ToppleAll { grid := g, toppling := t } s.diss_grid avalanche_size st fuel
      pure (a, { s with grid := some e.grid, toppling := some e.toppling }, st1)

/-- The method `SandPile::Relax(measure)`: the returned avalanche size, the sandpile and the
generators afterwards. -/
def SandPile.Relax (s : SandPile) (measure : Bool) (st : Statics) (fuel : Nat) :
    Run (Int × SandPile × Statics) := do
  let avalanche_size : Int := 0
  let (avalanche_size, s1, st1) ← s.relaxDiss avalanche_size st fuel
  let (avalanche_size, s2, st2) ← s1.relaxPrimary avalanche_size st1 fuel
  if avalanche_size > 0 ∧ measure then
    pure (avalanche_size, { s2 with avalanches := s2.avalanches.AddEvent avalanche_size }, st2)
  else pure (0, s2, st2)

/-- The loop of `SandPile::Populate` over the offsets `i, i+1, ..` (`count` of them) of the
dissipation grid: a cell whose draw is below `place` is increased by `no_particles`,
which is added to the `long int` sum; every other cell is cleared. -/
def populateLoop (place no_particles : GrainType) :
    Nat → Nat → Engine → Gen → Int → Run (Engine × Gen × Int)
  | _, 0, e, z, sum => pure (e, z, sum)
  | i, count + 1, e, z, sum =>
    if z.zeroone < place then do
      let r ← e.grid.GetCellAt i
      let e1 ← e.Increase r no_particles
      populateLoop place no_particles (i + 1) count e1 z.tail
        (truncate ((sum : GrainType) + no_particles))
    else do
      let r ← e.grid.GetCellAt i
      let e1 ← e.Clear r
      populateLoop place no_particles (i + 1) count e1 z.tail sum

/-- The method `SandPile::Populate(no_cells, no_particles)`.  Without a dissipation grid it
prints a message and returns.  The static generator is constructed from the
dissipation feed, `zeroone` is a copy of it made in the first iteration; the
callbacks of the cells of the dissipation grid, if there are any, belong to the
dissipation toppling. -/
def SandPile.Populate (s : SandPile) (no_cells : Int) (no_particles : GrainType)
    (st : Statics) : Run (SandPile × Statics) :=
  match s.diss_grid with
  | none => pure (s, st)
  | some dg =>
    let gen := st.populateGen.getD (st.seed st.diss_feed)
    if ¬ (no_cells < ((s.L * s.L : Nat) : Int)) then throw Fault.assertion
    else do
      let place : GrainType := (no_cells : GrainType) / ((s.L * s.L : Nat) : GrainType)
      let z := st.populateZeroone.getD gen
      let (e, z1, sum) ← populateLoop place no_particles 0 (s.L * s.L)
        { grid := dg, toppling := s.diss_toppling.getD Toppling.new } z 0
      if ¬ (sum > 10) then throw Fault.assertion
      else
        pure ({ s with diss_grid := some e.grid
                       diss_toppling := s.diss_toppling.map (fun _ => e.toppling) },
              { st with populateGen := some gen, populateZeroone := some z1 })

end Sandpile

namespace Sandpile

/-! ## Invariants used in the proofs -/

/-- A chain of height changes (`Increase`, `Decrease`, `Clear`) leading from one engine
state to another. -/
inductive Alters : Engine → Engine → Prop
  | refl (e : Engine) : Alters e e
  | step {e e1 e2 : Engine} (r : CellRef) (f : GrainType → GrainType) :
      e.alter r f = Except.ok e1 → Alters e1 e2 → Alters e e2


/-- What a run of the engine never changes: the geometry of the grid, the
registration and identity of every cell, the identity of the reservoir, and the
configuration of the toppling (everything but heights, directions and the active
set). -/
structure Engine.Frame (e e1 : Engine) : Prop where
  width : e1.grid.width = e.grid.width
  height : e1.grid.height = e.grid.height
  boundary_type : e1.grid.boundary_type = e.grid.boundary_type
  table : e1.grid.random_indices = e.grid.random_indices
  hooked : ∀ n, (e1.grid.cells n).altered_function = (e.grid.cells n).altered_function
  id : ∀ n, (e1.grid.cells n).id = (e.grid.cells n).id
  capacity : ∀ n, (e1.grid.cells n).max_capacity = (e.grid.cells n).max_capacity
  threshold : e1.toppling.topple_threshold = e.toppling.topple_threshold
  iterator : e1.toppling.toppling_iterator = e.toppling.toppling_iterator
  method : e1.toppling.toppling_method = e.toppling.toppling_method
  diss_amount : e1.toppling.diss_amount = e.toppling.diss_amount
  diss_rate : e1.toppling.diss_rate = e.toppling.diss_rate
  diss_threshold : e1.toppling.diss_threshold = e.toppling.diss_threshold
  dissipative_mode : e1.toppling.dissipative_mode = e.toppling.dissipative_mode
  diss_grid : e1.toppling.diss_grid = e.toppling.diss_grid
  count : e1.toppling.countDuringAvalanches = e.toppling.countDuringAvalanches
  reservoir_id : e1.grid.reservoir.id = e.grid.reservoir.id

/-- The event counter and the index table of the toppling are the same in both
states (true of everything that happens inside one pass). -/
def Engine.Kept (e e1 : Engine) : Prop :=
  e1.toppling.noDuringAvalanches = e.toppling.noDuringAvalanches
  ∧ e1.toppling.random_indices = e.toppling.random_indices

/-- The active set lists only offsets of array cells. -/
def Bounded (e : Engine) : Prop := ∀ n, n ∈ e.toppling.active_cells → n < e.grid.size

/-- The engine follows the activity and every array cell has its callback
registered and carries its offset as identity. -/
def Hooked (e : Engine) : Prop :=
  e.toppling.toppling_iterator = TopplingIterator.FOLLOW_ACTIVITY
  ∧ ∀ n, n < e.grid.size →
      (e.grid.cells n).altered_function = true ∧ (e.grid.cells n).id = (n : Int)

/-- The active set is consistent with the heights up to the cells excused by `P`:
a listed cell is at or above the threshold, and a cell at or above the
threshold is listed or excused. -/
def Tracked (e : Engine) (P : Nat → Prop) : Prop :=
  ∀ n, n < e.grid.size →
    (n ∈ e.toppling.active_cells → e.toppling.topple_threshold ≤ (e.grid.cells n).height)
    ∧ (e.toppling.topple_threshold ≤ (e.grid.cells n).height →
        n ∈ e.toppling.active_cells ∨ P n)

/-- The state of a sandpile with a primary grid right after construction, as far as
the proofs need it. -/
structure Fresh (L : Nat) (m : TopplingMethod) (type : BoundaryType) (s : SandPile)
    (g : Grid) (t : Toppling) : Prop where
  grid : s.grid = some g
  toppling : s.toppling = some t
  size : s.L = L
  boundary : s.boundary_type = resolvedBoundary m type
  width : g.width = L
  height : g.height = L
  boundary_type : g.boundary_type = resolvedBoundary m type
  empty : ∀ n, (g.cells n).height = 0
  hooked : ∀ n, n < L * L → (g.cells n).altered_function = true
  id : ∀ n, (g.cells n).id = (n : Int)
  iterator : t.toppling_iterator = TopplingIterator.FOLLOW_ACTIVITY
  active : t.active_cells = []
  method : t.toppling_method = m
  threshold : t.topple_threshold = (if m = TopplingMethod.Manna_Lin2010 then 2 else 4)
  diss_amount : t.diss_amount = 4
  count : t.countDuringAvalanches = false
  diss : (m ≠ TopplingMethod.Rossum2011 → s.diss_toppling = none ∧ s.diss_grid = none)

/-! ## Test access and projections of results -/

/-- Modelled from the spec: `TestCell.cpp` is not among the sources.  By `TestCell.h` the
method `SetHeight(i, value)` "just overwrites the height in a cell with index i
by a certain value": the private member is written directly, no callback runs. -/
def TestCell.SetHeight (g : Grid) (i : Int) (value : GrainType) : Run Grid := do
  let r ← g.GetCellAt i
  let c ← g.read r
  g.write r { c with height := value }

/-- Direct mutation of a height of the primary grid of a sandpile through `TestCell`. -/
def SandPile.SetHeight (s : SandPile) (i : Int) (value : GrainType) : Run SandPile :=
  match s.grid with
  | none => throw Fault.nullPointer
  | some g => do
    let g1 ← TestCell.SetHeight g i value
    pure { s with grid := some g1 }

/-- The heights of the cells of a grid in index order. -/
def Grid.heights (g : Grid) : List GrainType :=
  (List.range (g.width * g.height)).map (fun n => (g.cells n).height)

/-- The heights of the primary grid of a sandpile (empty when there is none). -/
def SandPile.heights (s : SandPile) : List GrainType :=
  match s.grid with
  | none => []
  | some g => g.heights

/-- The value of a run, if it has one. -/
def Run.value {α : Type} : Run α → Option α
  | Except.ok a => some a
  | Except.error _ => none

/-! ## Example inputs -/

/-- A seeding function whose generators deliver the output `v` forever. -/
def constSeed (v : Nat) : Int → Gen := fun _ _ => v

/-- A freshly constructed 4 by 4 grid of the given boundary type, in a process
whose generators deliver 0 forever. -/
def exampleGrid (bt : BoundaryType) : Grid := (Grid.new 4 4 bt (Statics.initial (constSeed 0))).1

/-- The scenario of a direct mutation: a 4 by 4 Periodic sandpile with the BTW rule
(threshold 4) is built, the height of cell 5 is set to 4 through `TestCell`, and
`Relax` is called.  The result is the avalanche size and the heights afterwards. -/
def directMutationScenario : Run (Int × List GrainType) := do
  let (s, st) ← SandPile.new 4 TopplingMethod.Bak_Tang_Wiesenfeld1987 BoundaryType.BT_PERIODIC
    (Statics.initial (constSeed 1))
  let s1 ← s.SetHeight 5 4
  let (a, s2, _) ← s1.Relax true st 10
  pure (a, s2.heights)

/-- A seeding function: the generator seeded with the initial drive feed delivers
0, 1, 0, 1, .. (every `Drive` on a grid of width 2 then hits the cell (0, 1)),
every other generator delivers 1 forever. -/
def driveSeed : Int → Gen := fun feed => if feed = 233480 then (fun k => k % 2) else (fun _ => 1)

/-- A 2 by 2 Dissipating sandpile with the BTW rule whose primary toppling is switched
to `RANDOM_FRACTION` (`GetToppling()->SetTopplingIterator`) and which is driven four
times, so that cell 2 holds 4 grains. -/
def randomFractionPile : Run (SandPile × Statics) := do
  let (s, st) ← SandPile.new 2 TopplingMethod.Bak_Tang_Wiesenfeld1987 BoundaryType.BT_DISSIPATING
    (Statics.initial driveSeed)
  let s : SandPile :=
    { s with toppling :=
        s.toppling.map (fun t => t.SetTopplingIterator 4 TopplingIterator.RANDOM_FRACTION) }
  let (s, st) ← s.Drive st 10
  let (s, st) ← s.Drive st 10
  let (s, st) ← s.Drive st 10
  s.Drive st 10

/-- Two calls of `Relax` in a row on `randomFractionPile`: the avalanche size and the
heights after the first call, then after the second call. -/
def relaxTwiceScenario : Run (Int × List GrainType × Int × List GrainType) := do
  let (s, st) ← randomFractionPile
  let (a1, s1, st1) ← s.Relax true st 10
  let (a2, s2, _) ← s1.Relax true st1 10
  pure (a1, s1.heights, a2, s2.heights)

/-- A 2 by 2 Dissipating sandpile with the BTW rule, as the constructor builds it
(FollowActivity), driven four times so that cell 2 holds 4 grains. -/
def drivenPile : Run (SandPile × Statics) := do
  let (s, st) ← SandPile.new 2 TopplingMethod.Bak_Tang_Wiesenfeld1987 BoundaryType.BT_DISSIPATING
    (Statics.initial driveSeed)
  let (s, st) ← s.Drive st 10
  let (s, st) ← s.Drive st 10
  let (s, st) ← s.Drive st 10
  s.Drive st 10

/-- What the examples inspect of a sandpile: whether it has a primary grid, the strategy
of the primary toppling and whether it has a dissipation toppling. -/
def SandPile.shape (s : SandPile) : Bool × Option TopplingIterator × Bool :=
  (s.grid.isSome, s.toppling.map (fun t => t.toppling_iterator), s.diss_toppling.isSome)

/-- `N` cycles of the experiment loop: `Drive()` followed by `Relax(measure)`, `N` times. -/
def SandPile.cycles : Nat → SandPile → Bool → Statics → Nat → Run (SandPile × Statics)
  | 0, s, _, st, _ => pure (s, st)
  | n + 1, s, measure, st, fuel => do
    let (s1, st1) ← s.Drive st fuel
    let (_, s2, st2) ← s1.Relax measure st1 fuel
    SandPile.cycles n s2 measure st2 fuel

/-- The grains the loop `neighbours[n]->Increase(increase_neighbour[n])` hands out: the
portions that have a neighbour entry. -/
def handedOut : List CellRef → List GrainType → GrainType
  | _ :: rs, x :: xs => x + handedOut rs xs
  | _, _ => 0

/-- A sandpile with the BTW rule on a Periodic primary grid that holds `c` grains. -/
def Conserving (s : SandPile) (c : GrainType) : Prop :=
  ∃ g t, s.grid = some g ∧ s.toppling = some t
    ∧ s.boundary_type = BoundaryType.BT_PERIODIC
    ∧ g.boundary_type = BoundaryType.BT_PERIODIC
    ∧ t.toppling_method = TopplingMethod.Bak_Tang_Wiesenfeld1987
    ∧ g.CountGrains = c

/-- The sandpiles the program can be in between calls: built by the constructor, then
changed by `Drive()`, `Clear()` and calls of `Relax()` that return. -/
inductive Reachable : SandPile → Prop
  | new {L : Nat} {m : TopplingMethod} {type : BoundaryType} {st : Statics} {s : SandPile}
      {st1 : Statics} : SandPile.new L m type st = Except.ok (s, st1) → Reachable s
  | drive {s : SandPile} {st : Statics} {fuel : Nat} {s1 : SandPile} {st1 : Statics} :
      Reachable s → s.Drive st fuel = Except.ok (s1, st1) → Reachable s1
  | clear {s s1 : SandPile} : Reachable s → s.Clear = Except.ok s1 → Reachable s1
  | relax {s : SandPile} {measure : Bool} {st : Statics} {fuel : Nat} {a : Int} {s1 : SandPile}
      {st1 : Statics} :
      Reachable s → s.Relax measure st fuel = Except.ok (a, s1, st1) → Reachable s1

/-- The primary engine of a sandpile, if it has one, follows the activity with all
callbacks registered, has a rule other than Rossum2011-diss, and its active set
is exactly the set of array cells at or above the threshold. -/
def Consistent (s : SandPile) : Prop :=
  ∀ g t, s.grid = some g → s.toppling = some t →
    Hooked { grid := g, toppling := t }
    ∧ Tracked { grid := g, toppling := t } (fun _ => False)
    ∧ Bounded { grid := g, toppling := t }
    ∧ t.toppling_method ≠ TopplingMethod.Rossum2011_diss

/-- The call `GetToppling()->Topple(avalanche_size)` on a sandpile: the relaxation of its
primary engine alone. -/
def SandPile.topplePrimary (s : SandPile) (st : Statics) (fuel : Nat) :
    Run (Int × Engine × Statics) :=
  match s.toppling with
  | none => throw Fault.nullPointer
  | some t =>
    match s.grid with
    | none => throw Fault.nullPointer
    | some g => Engine.ToppleAll { grid := g, toppling := t } s.diss_grid 0 st fuel

/-- The relaxation `Toppling::Topple(avalanche_size)` of the primary engine of
`randomFractionPile` (strategy `RANDOM_FRACTION`, cell 2 at height 4): the avalanche size,
the heights and the threshold on return. -/
def randomFractionTopple : Run (Int × List GrainType × GrainType) := do
  let (s, st) ← randomFractionPile
  let (a, e, _) ← s.topplePrimary st 10
  pure (a, e.grid.heights, e.toppling.topple_threshold)

/-- The relaxation `Toppling::Topple(avalanche_size)` of the dissipation engine of a freshly
built 2 by 2 Rossum2011-diss sandpile (strategy `RANDOM_ALL`): the avalanche size, the
heights and the threshold on return. -/
def dissipationTopple : Run (Int × List GrainType × GrainType) := do
  let (s, st) ← SandPile.new 2 TopplingMethod.Rossum2011_diss BoundaryType.BT_UNDEFINED
    (Statics.initial driveSeed)
  match s.diss_grid, s.diss_toppling with
  | some g, some t => do
    let (a, e, _) ← Engine.ToppleAll { grid := g, toppling := t } none 0 st 10
    pure (a, e.grid.heights, e.toppling.topple_threshold)
  | _, _ => throw Fault.nullPointer

/-- The index table of the toppling is present and lists every cell index. -/
def OntoTable (e : Engine) : Prop :=
  ∃ table, e.toppling.random_indices = some table
    ∧ ∀ c, c < e.grid.width * e.grid.height →
        ∃ k, k < e.grid.width * e.grid.height ∧ table k = c

/-! ## Reproducibility -/

/-- The avalanche sizes that `n` cycles `Drive(); Relax(measure)` return, in order, with
the sandpile and the generators afterwards. -/
def SandPile.avalancheSizes : Nat → SandPile → Bool → Statics → Nat →
    Run (List Int × SandPile × Statics)
  | 0, s, _, st, _ => pure ([], s, st)
  | n + 1, s, measure, st, fuel => do
    let (s1, st1) ← s.Drive st fuel
    let (a, s2, st2) ← s1.Relax measure st1 fuel
    let (rest, s3, st3) ← SandPile.avalancheSizes n s2 measure st2 fuel
    pure (a :: rest, s3, st3)

/-- One instance from construction on: `SandPile(L, toppling_method, type)` followed by `n`
cycles `Drive(); Relax(measure)`.  The result is the sequence of avalanche sizes and the
process state the instance leaves behind. -/
def SandPile.run (L : Nat) (toppling_method : TopplingMethod) (type : BoundaryType) (n : Nat)
    (measure : Bool) (st : Statics) (fuel : Nat) : Run (List Int × Statics) := do
  let (s, st1) ← SandPile.new L toppling_method type st
  let (sizes, _, st2) ← s.avalancheSizes n measure st1 fuel
  pure (sizes, st2)

/-- Two process states in which the static generators that construction, `Drive` and
`Relax` use are in the same state: each of the five `mt19937` generators delivers the same
upcoming outputs (whether it is constructed already or will be seeded from its feed on
first use), and the three `uniform_01` copies are the same (both not yet made, or both
made and equal).  Feeds, seeding function and the generators of `Populate` may differ. -/
structure Statics.Same (a b : Statics) : Prop where
  cell : a.cellGen.getD (a.seed a.direction_feed) = b.cellGen.getD (b.seed b.direction_feed)
  neigh : a.neighGen.getD (a.seed a.neighbour_feed) = b.neighGen.getD (b.seed b.neighbour_feed)
  grid : a.gridGen.getD (a.seed a.grid_feed) = b.gridGen.getD (b.seed b.grid_feed)
  topple : a.toppleGenerator = b.toppleGenerator
  drive : a.driveGen.getD (a.seed a.drive_feed) = b.driveGen.getD (b.seed b.drive_feed)
  split : a.splitZeroone = b.splitZeroone
  lin : a.linZeroone = b.linZeroone
  diss : a.dissZeroone = b.dissZeroone

/-- A process in which none of the generators of construction, `Drive` and `Relax` has
been constructed yet. -/
def Statics.Unused (st : Statics) : Prop :=
  st.cellGen = none ∧ st.neighGen = none ∧ st.gridGen = none ∧ st.toppleGen = none
    ∧ st.driveGen = none ∧ st.splitZeroone = none ∧ st.linZeroone = none
    ∧ st.dissZeroone = none

/-- The six feeds of a process, in configuration order. -/
def Statics.feeds (st : Statics) : Int × Int × Int × Int × Int × Int :=
  (st.grid_feed, st.toppling_feed, st.direction_feed, st.drive_feed, st.diss_feed,
    st.neighbour_feed)

/-- Two outcomes that agree: both abort with the same fault, or both return and the
results are related by `R`. -/
def Run.Agree {α : Type} (R : α → α → Prop) (x y : Run α) : Prop :=
  match x, y with
  | Except.ok a, Except.ok b => R a b
  | Except.error e, Except.error f => e = f
  | _, _ => False

/-- Two results with the same first component whose remainders are related by `R`. -/
def Paired {α β : Type} (R : β → β → Prop) (p q : α × β) : Prop := p.1 = q.1 ∧ R p.2 q.2

/-- A seeding function: the generator seeded with feed 4 delivers 0 eight times and
from then on `k / 2` as its output number `k` (4, 4, 5, 5, ..); every other generator
delivers 1 forever. -/
def burstSeed : Int → Gen :=
  fun feed => if feed = 4 then (fun k => if k < 8 then 0 else k / 2) else (fun _ => 1)

/-- Two instances in one process: the feeds are set to 1, .., 6, a 2 by 2 Dissipating
sandpile with the BTW rule is built and run for four cycles; then the same feeds are
set again and a second sandpile of the same size, rule and boundary is built and run
for four cycles.  The result is the two sequences of avalanche sizes. -/
def twoInstances : Run (List Int × List Int) := do
  let w := (Statics.initial burstSeed).SetFeeds 1 2 3 4 5 6
  let (first, w1) ← SandPile.run 2 TopplingMethod.Bak_Tang_Wiesenfeld1987
    BoundaryType.BT_DISSIPATING 4 true w 10
  let (second, _) ← SandPile.run 2 TopplingMethod.Bak_Tang_Wiesenfeld1987
    BoundaryType.BT_DISSIPATING 4 true (w1.SetFeeds 1 2 3 4 5 6) 10
  pure (first, second)

/-! ## Later states of a sandpile -/

/-- A sandpile at a later time: its state after any number of calls of `Drive`, `Clear`,
`Relax` and `Populate`. -/
inductive SandPile.Later : SandPile → SandPile → Prop
  | now (s : SandPile) : SandPile.Later s s
  | populate {s s1 s2 : SandPile} {no_cells : Int} {no_particles : GrainType}
      {st st2 : Statics} :
      SandPile.Later s s1 → s1.Populate no_cells no_particles st = Except.ok (s2, st2) →
      SandPile.Later s s2
  | drive {s s1 s2 : SandPile} {st st2 : Statics} {fuel : Nat} :
      SandPile.Later s s1 → s1.Drive st fuel = Except.ok (s2, st2) → SandPile.Later s s2
  | clear {s s1 s2 : SandPile} :
      SandPile.Later s s1 → s1.Clear = Except.ok s2 → SandPile.Later s s2
  | relax {s s1 s2 : SandPile} {measure : Bool} {st st2 : Statics} {fuel : Nat} {a : Int} :
      SandPile.Later s s1 → s1.Relax measure st fuel = Except.ok (a, s2, st2) →
      SandPile.Later s s2

/-- Two grids with the same dimensions, boundary type and index table. -/
def Grid.SameLayout (g g1 : Grid) : Prop :=
  g1.width = g.width ∧ g1.height = g.height ∧ g1.boundary_type = g.boundary_type
    ∧ g1.random_indices = g.random_indices

/-- The grids of the second sandpile have the layout of the grids of the first. -/
def SandPile.SameLayout (s s1 : SandPile) : Prop :=
  (∀ g, s.grid = some g → ∃ g1, s1.grid = some g1 ∧ g.SameLayout g1)
    ∧ (∀ d, s.diss_grid = some d → ∃ d1, s1.diss_grid = some d1 ∧ d.SameLayout d1)

/-! ## The draws of the fully connected case -/

/-- The static generator of `boost_random_neigh`, constructed from the neighbour feed on
first use. -/
def Statics.neighbourGenerator (st : Statics) : Gen :=
  st.neighGen.getD (st.seed st.neighbour_feed)

/-- Of the next `fuel` draws `boost_random_neigh(size)`, those that differ from `this_i`,
in the order of the draws. -/
def keptDraws (gen : Gen) (size : Nat) (this_i : Int) (fuel : Nat) : List Nat :=
  ((List.range fuel).map (fun k => gen k % size)).filter (fun n => decide ((n : Int) ≠ this_i))

/-! ## The record of the per-cell topple calls -/

/-- The `for` loop over the cell indices of one pass, with a record: the results of the
per-cell `Topple` calls in call order, with the engine and the generators afterwards. -/
def Engine.sweepLog (dg : Option Grid) (fuel : Nat) :
    List Int → Engine → Statics → Run (List Bool × Engine × Statics)
  | [], e, st => pure ([], e, st)
  | cell_index :: rest, e, st => do
    let (toppled, e1, st1) ← e.visit dg fuel cell_index st
    let (log, e2, st2) ← Engine.sweepLog dg fuel rest e1 st1
    pure (toppled :: log, e2, st2)

/-- One pass of the `do .. while (!quit)` loop of `Toppling::Topple(avalanche_size)`, with the
record of its per-cell `Topple` calls in place of the counter; in the two random
strategies `quit` stays true unless one of the calls returned true. -/
def Engine.passLog (e : Engine) (dg : Option Grid) (fuel : Nat) (it_n : Nat) (st : Statics) :
    Run (List Bool × Bool × Engine × Statics) :=
  let size := e.grid.width * e.grid.height
  let randomPass (iterate_number : Nat) : Run (List Bool × Bool × Engine × Statics) :=
    match e.toppling.random_indices with
    | none => throw Fault.nullPointer
    | some table => do
      let (table1, st1) := random_shuffle boost_random size table st
      let e1 : Engine := { e with toppling := { e.toppling with random_indices := some table1 } }
      let indices := (List.range iterate_number).map (fun c => (table1 c : Int))
      let (log, e2, st2) ← Engine.sweepLog dg fuel indices e1 st1
      pure (log, !(log.any (fun b => b)), e2, st2)
  match e.toppling.toppling_iterator with
  | TopplingIterator.RANDOM_FRACTION => randomPass e.grid.width
  | TopplingIterator.RANDOM_ALL => randomPass size
  | TopplingIterator.FOLLOW_ACTIVITY => do
    let ids : List Int := e.toppling.active_cells.map (fun n => (e.grid.cells n).id)
    let (shuffled, st1) :=
      random_shuffle boost_random ids.length (fun k => ids.getD k 0) st
    let c_indices := (List.range ids.length).map shuffled
    let t1 : Toppling := { e.toppling with active_cells := [] }
    let t2 ← t1.countGrains (e.toppling.countDuringAvalanches && it_n == 0)
      (truncate e.grid.CountGrains)
    let (log, e2, st2) ← Engine.sweepLog dg fuel c_indices { e with toppling := t2 } st1
    let t3 ← e2.toppling.countGrains e2.toppling.countDuringAvalanches
      (truncate e2.grid.CountGrains)
    pure (log, decide (t3.active_cells = []), { e2 with toppling := t3 }, st2)

/-- The `do .. while (!quit)` loop with the record of all per-cell `Topple` calls so far. -/
def Engine.toppleLogLoop (dg : Option Grid) (fuel : Nat) :
    Nat → Nat → List Bool → Engine → Statics → Run (List Bool × Engine × Statics)
  | 0, _, _, _, _ => throw Fault.outOfFuel
  | passes + 1, it_n, log, e, st => do
    let (l, quit, e1, st1) ← e.passLog dg fuel it_n st
    if quit then pure (log ++ l, e1, st1)
    else Engine.toppleLogLoop dg fuel passes (it_n + 1) (log ++ l) e1 st1

/-- The relaxation `Toppling::Topple(long int & avalanche_size)` with the record of the results
of all its per-cell `Topple(cell, neighbours)` calls, in call order over all passes. -/
def Engine.ToppleLog (e : Engine) (dg : Option Grid) (st : Statics) (fuel : Nat) :
    Run (List Bool × Engine × Statics) :=
  Engine.toppleLogLoop dg fuel fuel 0 [] e st

/-- The call `GetToppling()->Topple(avalanche_size)` on the four times driven sandpile
`drivenPile`, with the variable `avalanche_size` holding 7 on entry: the value of the variable
on return and the record of the per-cell `Topple` calls. -/
def toppleFromSeven : Run (Int × List Bool) := do
  let (s, st) ← drivenPile
  match s.grid, s.toppling with
  | some g, some t =>
    let (a, _, _) ← Engine.ToppleAll { grid := g, toppling := t } s.diss_grid 7 st 10
    let (log, _, _) ← Engine.ToppleLog { grid := g, toppling := t } s.diss_grid st 10
    pure (a, log)
  | _, _ => throw Fault.nullPointer

/-! ## The records of a relaxation -/

/-- First statement of `SandPile::Relax` with the record of the per-cell `Topple` calls of the
dissipation toppling (empty when there is none). -/
def SandPile.relaxDissLog (s : SandPile) (st : Statics) (fuel : Nat) :
    Run (List Bool × SandPile × Statics) :=
  match s.diss_toppling with
  | none => pure ([], s, st)
  | some dt =>
    match s.diss_grid with
    | none => throw Fault.nullPointer
    | some dg => do
      let (log, e, st1) ← Engine.ToppleLog { grid := dg, toppling := dt } none st fuel
      pure (log, { s with diss_grid := some e.grid, diss_toppling := some e.toppling }, st1)

/-- Second statement of `SandPile::Relax` with the record of the per-cell `Topple` calls of the
primary toppling (empty when there is none). -/
def SandPile.relaxPrimaryLog (s : SandPile) (st : Statics) (fuel : Nat) :
    Run (List Bool × SandPile × Statics) :=
  match s.toppling with
  | none => pure ([], s, st)
  | some t =>
    match s.grid with
    | none => throw Fault.nullPointer
    | some g => do
      let (log, e, st1) ← Engine.ToppleLog { grid := g, toppling := t } s.diss_grid st fuel
      pure (log, { s with grid := some e.grid, toppling := some e.toppling }, st1)

/-- The two `Topple` calls of `SandPile::Relax` with their records: the record of the
dissipation toppling, the record of the primary toppling, and the sandpile and the
generators after the two calls. -/
def SandPile.relaxLog (s : SandPile) (st : Statics) (fuel : Nat) :
    Run (List Bool × List Bool × SandPile × Statics) := do
  let (dlog, s1, st1) ← s.relaxDissLog st fuel
  let (plog, s2, st2) ← s1.relaxPrimaryLog st1 fuel
  pure (dlog, plog, s2, st2)

/-- The value of the variable `avalanche_size` of `SandPile::Relax` after its two `Topple`
calls, in terms of their records: each call leaves the count of its own record, so the
count of the primary toppling stands when there is one, else that of the dissipation
toppling. -/
def SandPile.relaxSize (s : SandPile) (dlog plog : List Bool) : Int :=
  if s.toppling.isSome then ((plog.count true : Nat) : Int) else ((dlog.count true : Nat) : Int)

/-- A seeding function: the generator seeded with the initial dissipation feed delivers
0 as its outputs number 0, 4 and 8 and 2^31 otherwise (so `Populate` with a place
value between 0 and 1/2 fills the cells 0, 4 and 8); every other generator delivers
1 forever. -/
def populateSeed : Int → Gen :=
  fun feed =>
    if feed = 1233480 then (fun k => if k = 0 ∨ k = 4 ∨ k = 8 then 0 else 2147483648)
    else (fun _ => 1)

/-- A 3 by 3 sandpile with the Rossum2011 rule whose dissipation toppling is given the BTW
rule (`GetDissToppling()->SetTopplingMethod`) and whose dissipation grid is populated
with 4 particles on three cells, is relaxed once with `measure` true.  The result is
the value `Relax` returns, the number of true entries in the record of the dissipation
toppling and in that of the primary toppling, and the number of occurrences of
size 3 in the histogram afterwards. -/
def dissipationCountScenario : Run (Int × Nat × Nat × Nat) := do
  let (s, st) ← SandPile.new 3 TopplingMethod.Rossum2011 BoundaryType.BT_UNDEFINED
    (Statics.initial populateSeed)
  match s.diss_toppling with
  | none => throw Fault.nullPointer
  | some dt =>
    let dt1 ← dt.SetTopplingMethod TopplingMethod.Bak_Tang_Wiesenfeld1987
    let s1 : SandPile := { s with diss_toppling := some dt1 }
    let (s2, st2) ← s1.Populate 3 4 st
    let (dlog, plog, _, _) ← s2.relaxLog st2 10
    let (a, s3, _) ← s2.Relax true st2 10
    pure (a, dlog.count true, plog.count true, s3.avalanches.events 3)

/-! ## Pointers into a grid -/

/-- Whether a pointer refers to the reservoir or to a cell of the array of the grid. -/
def Grid.holds (g : Grid) : CellRef → Bool
  | CellRef.reservoir => true
  | CellRef.cell n => decide (0 ≤ n ∧ n < (g.size : Int))

/-! ## The same engine under another rule -/

/-- The engine with the rule of its toppling replaced (nothing else changes, the threshold
in particular). -/
def Engine.withMethod (e : Engine) (m : TopplingMethod) : Engine :=
  { e with toppling := { e.toppling with toppling_method := m } }

/-- An engine for the examples of the Rossum2011 rule: an empty 4 by 4 Periodic grid and a
toppling with the Rossum2011 rule, toppling threshold 0 and dissipation threshold 1. -/
def rossumEngine : Engine :=
  { grid := exampleGrid BoundaryType.BT_PERIODIC
    toppling := { Toppling.new with
      toppling_method := TopplingMethod.Rossum2011, topple_threshold := 0, diss_threshold := 1 } }

/-- An engine for the examples of the Lin2006 rule: an empty 4 by 4 Periodic grid and a
toppling with the Lin2006 rule, as the constructor of `Toppling` leaves the other
members (threshold 4, dissipative mode disabled). -/
def linEngine : Engine :=
  { grid := exampleGrid BoundaryType.BT_PERIODIC
    toppling := { Toppling.new with toppling_method := TopplingMethod.Lin_etal2006 } }

/-! ## Counting critical cells -/

/-- The loop of `Toppling::CountCriticalCells()` over the offsets `c, c+1, ..` (`count` of them).
The comparison of the `if` is evaluated, its statement is the empty statement `;`
that follows the condition, and `sum++` is the next statement of the loop body. -/
def countCriticalLoop (e : Engine) : Nat → Nat → Int → Run Int
  | _, 0, sum => pure sum
  | c, count + 1, sum => do
    let r ← e.grid.GetCellAt c
    let cell ← e.grid.read r
    if cell.height = e.toppling.topple_threshold - e.toppling.diss_amount / 4 then
      countCriticalLoop e (c + 1) count (sum + 1)
    else countCriticalLoop e (c + 1) count (sum + 1)

/-- The method `Toppling::CountCriticalCells()` of the toppling bound to the grid. -/
def Engine.CountCriticalCells (e : Engine) : Run Int :=
  countCriticalLoop e 0 (e.grid.width * e.grid.height) 0

/-- Modelled from the spec: the number of cells of the grid "whose height equals
threshold - dissipationAmount/4". -/
def criticalCells (e : Engine) : Nat :=
  ((List.range (e.grid.width * e.grid.height)).filter (fun k =>
    decide ((e.grid.cells k).height
      = e.toppling.topple_threshold - e.toppling.diss_amount / 4))).length

/-! ## Examples for `Cell::Transfer` through pointers -/

/-- An engine whose cells are hooked to a FollowActivity toppling: a 2 by 2 Periodic grid with
the callback registered on every cell and cell 2 at height 4, under the BTW rule with
threshold 4, the active set being {2}. -/
def hookedEngine : Engine :=
  let g := (Grid.new 2 2 BoundaryType.BT_PERIODIC
    (Statics.initial (constSeed 0))).1.registerCallbacks 4
  { grid := { g with cells := Function.update g.cells 2 { g.cells 2 with height := 4 } }
    toppling := { Toppling.new with
      toppling_method := TopplingMethod.Bak_Tang_Wiesenfeld1987, active_cells := [2] } }

/-! ## Examples for the Rossum2011-diss rule -/

/-- An engine for the examples of the Rossum2011-diss rule: a 2 by 2 Periodic grid (every
direction 0, capacity 10) with cell 0 at height 3, and a toppling with the
Rossum2011-diss rule and the given toppling threshold. -/
def dissEngine (threshold : GrainType) : Engine :=
  let g := (Grid.new 2 2 BoundaryType.BT_PERIODIC (Statics.initial (constSeed 0))).1
  { grid := { g with cells := Function.update g.cells 0 { g.cells 0 with height := 3 } }
    toppling := { Toppling.new with
      toppling_method := TopplingMethod.Rossum2011_diss, topple_threshold := threshold } }

/-! ## Snapshot queries -/

/-- The kinds of values (`enum GridValueType`). -/
inductive GridValueType
  | GVT_HEIGHT
  | GVT_HEIGHT_SCALED
  | GVT_CRITICAL_CELLS
  | GVT_DISSIPATION
  | GVT_DIRECTION
  | GVT_NCN
  | GVT_ORDERPARAM1
  | GVT_NOF_TYPES
  deriving DecidableEq, Repr

/-- The quotient `x / (float) y` stored in a `float`: `none` stands for the infinities and the NaN
of a zero divisor, which are stored without any abort. -/
def floatQuotient (x y : GrainType) : Option GrainType := if y = 0 then none else some (x / y)

/-- The body of the loop of `SandPile::GetValues` for the index `i`: the `switch` over the kind.
The array `values` is the one of the caller (its length is not known to the method).
In the `GVT_CRITICAL_CELLS` case the local vector `neighbours` is empty, so
`GetDissipationAmount() / neighbours.size()` divides by zero: the bound of the comparison
is minus infinity for a positive dissipation amount (the comparison holds), plus
infinity or NaN otherwise (it fails). -/
def SandPile.getValuesStep (s : SandPile) (gvt : GridValueType) (i : Nat)
    (values : Nat → Option GrainType) (st : Statics) (fuel : Nat) :
    Run ((Nat → Option GrainType) × Statics) :=
  match gvt with
  | GridValueType.GVT_HEIGHT_SCALED =>
    match s.grid with
    | none => throw Fault.nullPointer
    | some g => do
      let r ← g.GetCellAt i
      let c ← g.read r
      pure (Function.update values i (floatQuotient c.height c.max_capacity), st)
  | GridValueType.GVT_HEIGHT =>
    match s.grid with
    | none => throw Fault.nullPointer
    | some g => do
      let r ← g.GetCellAt i
      let c ← g.read r
      pure (Function.update values i (some c.height), st)
  | GridValueType.GVT_NCN =>
    match s.grid with
    | none => throw Fault.nullPointer
    | some g => do
      let (neighbours, st1) ←
        g.GetNeighbours ((i : Int).tmod (g.width : Int)) ((i : Int).tdiv (g.width : Int)) st fuel
      let flags ← neighbours.mapM (fun r =>
        match s.toppling with
        | none => throw Fault.nullPointer
        | some t => do
          let c ← g.read r
          pure (decide (c.height
            ≥ t.topple_threshold - t.diss_amount / (neighbours.length : GrainType))))
      pure (Function.update values i (some (if flags.any id then 1 else 0)), st1)
  | GridValueType.GVT_CRITICAL_CELLS =>
    match s.grid with
    | none => throw Fault.nullPointer
    | some g =>
      match s.toppling with
      | none => throw Fault.nullPointer
      | some t => do
        let r ← g.GetCellAt i
        let c ← g.read r
        pure (Function.update values i (some (if 0 < t.diss_amount then c.max_capacity else 0)),
          st)
  | GridValueType.GVT_DISSIPATION =>
    match s.diss_grid with
    | none => throw Fault.assertion
    | some d => do
      let r ← d.GetCellAt i
      let c ← d.read r
      pure (Function.update values i (floatQuotient c.height c.max_capacity), st)
  | GridValueType.GVT_DIRECTION =>
    match s.diss_grid with
    | none => throw Fault.assertion
    | some d => do
      let r ← d.GetCellAt i
      let c ← d.read r
      pure (Function.update values i (some ((c.direction : GrainType) / 4)), st)
  | GridValueType.GVT_ORDERPARAM1 => pure (values, st)
  | GridValueType.GVT_NOF_TYPES => pure (values, st)

/-- The loop of `SandPile::GetValues` over the indices `i, i+1, ..` (`count` of them). -/
def getValuesLoop (s : SandPile) (gvt : GridValueType) (fuel : Nat) :
    Nat → Nat → (Nat → Option GrainType) → Statics → Run ((Nat → Option GrainType) × Statics)
  | _, 0, values, st => pure (values, st)
  | i, count + 1, values, st => do
    let (values1, st1) ← s.getValuesStep gvt i values st fuel
    getValuesLoop s gvt fuel (i + 1) count values1 st1

/-- The method `SandPile::GetValues(values, gvt)`: the array afterwards and the generators
afterwards (`GetNeighbours` may draw). -/
def SandPile.GetValues (s : SandPile) (values : Nat → Option GrainType) (gvt : GridValueType)
    (st : Statics) (fuel : Nat) : Run ((Nat → Option GrainType) × Statics) :=
  getValuesLoop s gvt fuel 0 (s.L * s.L) values st

/-- The method `SandPile::GetValue(value, gvt)`: the variable `value` afterwards. -/
def SandPile.GetValue (s : SandPile) (value : Int) (gvt : GridValueType) : Run Int :=
  match gvt with
  | GridValueType.GVT_HEIGHT_SCALED =>
    match s.grid with
    | none => throw Fault.nullPointer
    | some g => pure (truncate g.CountGrains)
  | GridValueType.GVT_CRITICAL_CELLS =>
    match s.toppling with
    | none => throw Fault.nullPointer
    | some t =>
      match s.grid with
      | none => throw Fault.nullPointer
      | some g => Engine.CountCriticalCells { grid := g, toppling := t }
  | GridValueType.GVT_DISSIPATION =>
    match s.diss_grid with
    | none => throw Fault.assertion
    | some _ => pure (-1)
  | GridValueType.GVT_DIRECTION =>
    match s.diss_grid with
    | none => throw Fault.assertion
    | some _ => pure (-1)
  | GridValueType.GVT_HEIGHT => throw Fault.assertion
  | GridValueType.GVT_NCN => throw Fault.assertion
  | GridValueType.GVT_ORDERPARAM1 => pure value
  | GridValueType.GVT_NOF_TYPES => pure value

/-! ## The draws of `Populate` -/

/-- The generator after `k` draws. -/
def Gen.drop (g : Gen) (k : Nat) : Gen := fun j => g (j + k)

/-- The stream `zeroone` of `SandPile::Populate` draws from at its next call: the static copy if it
exists, else a copy of the static generator, which is constructed from the
dissipation feed on first use. -/
def Statics.populateStream (st : Statics) : Gen :=
  st.populateZeroone.getD (st.populateGen.getD (st.seed st.diss_feed))

/-- The heights of the dissipation grid of a sandpile (empty without one). -/
def SandPile.dissHeights (s : SandPile) : List GrainType :=
  match s.diss_grid with
  | some d => d.heights
  | none => []

/-- A 2 by 2 sandpile with the Rossum2011 rule populated twice with `Populate(3, 4)`, every draw
being 0: the heights of the dissipation grid after the first and after the second
call. -/
def populateTwice : Run (List GrainType × List GrainType) := do
  let (s, st) ← SandPile.new 2 TopplingMethod.Rossum2011 BoundaryType.BT_UNDEFINED
    (Statics.initial (constSeed 0))
  let (s1, st1) ← s.Populate 3 4 st
  let (s2, _) ← s1.Populate 3 4 st1
  pure (s1.dissHeights, s2.dissHeights)

/-! ## The draws of `Drive` -/

/-- The identities of a grid are in order: the cell at offset `k` has identity `k` for every
`k < width * height`, and the identity of the reservoir is none of these offsets. -/
def Grid.IdsInOrder (g : Grid) : Prop :=
  (∀ k, k < g.width * g.height → (g.cells k).id = (k : Int))
    ∧ ¬ (0 ≤ g.reservoir.id ∧ g.reservoir.id < ((g.width * g.height : Nat) : Int))

/-- Two grids with the same dimensions and the same identities. -/
def Grid.SameIds (g g1 : Grid) : Prop :=
  g1.width = g.width ∧ g1.height = g.height ∧ (∀ n, (g1.cells n).id = (g.cells n).id)
    ∧ g1.reservoir.id = g.reservoir.id

/-- Each grid of the second sandpile comes from a grid of the first with the same dimensions
and identities. -/
def SandPile.SameIds (s s1 : SandPile) : Prop :=
  (∀ g1, s1.grid = some g1 → ∃ g, s.grid = some g ∧ g.SameIds g1)
    ∧ (∀ d1, s1.diss_grid = some d1 → ∃ d, s.diss_grid = some d ∧ d.SameIds d1)

/-- The identities of the grids of a sandpile (primary and dissipation grid, as far as they
exist) are in order. -/
def SandPile.IdsInOrder (s : SandPile) : Prop :=
  (∀ g, s.grid = some g → g.IdsInOrder) ∧ (∀ d, s.diss_grid = some d → d.IdsInOrder)

/-! ## Grains in the grid and in the reservoir -/

/-- The grains of a grid together with those of its reservoir: `CountGrains()` plus the height of
the reservoir. -/
def Grid.total (g : Grid) : GrainType := g.CountGrains + g.reservoir.height

/-! ## Non-negative heights -/

/-- Every cell of the grid and the reservoir have a non-negative height. -/
def Grid.NonNegative (g : Grid) : Prop :=
  (∀ k, k < g.width * g.height → 0 ≤ (g.cells k).height) ∧ 0 ≤ g.reservoir.height

/-- A chain of `Increase` calls with non-negative amounts leading from one engine state to
another. -/
inductive Raises : Engine → Engine → Prop
  | refl (e : Engine) : Raises e e
  | step {e e1 e2 : Engine} (r : CellRef) (x : GrainType) :
      0 ≤ x → e.Increase r x = Except.ok e1 → Raises e1 e2 → Raises e e2

/-- An engine for the examples of the Manna-Lin rule: a 2 by 2 Periodic grid with cell 0 at
height 2 and a toppling as `SetTopplingMethod(Manna_Lin2010)` leaves the one the constructor
builds (threshold 2, dissipation amount 4). -/
def mannaEngine : Engine :=
  let g := (Grid.new 2 2 BoundaryType.BT_PERIODIC (Statics.initial (constSeed 0))).1
  { grid := { g with cells := Function.update g.cells 0 { g.cells 0 with height := 2 } }
    toppling := { Toppling.new with
      toppling_method := TopplingMethod.Manna_Lin2010, topple_threshold := 2 } }

/-! ## Heights within the capacity -/

/-- Every cell of the grid has the capacity `C` and a height between 0 and `C`. -/
def Grid.Within (g : Grid) (C : GrainType) : Prop :=
  ∀ k, k < g.width * g.height →
    (g.cells k).max_capacity = C ∧ 0 ≤ (g.cells k).height ∧ (g.cells k).height ≤ C

/-- An engine like the dissipation side of a sandpile: the grid of `dissEngine` (2 by 2, Periodic,
cell 0 at height 3, every capacity 10, every direction 0) with a toppling that has
the Rossum2011-diss rule, threshold 0 and the RandomAll strategy. -/
def dissRelaxEngine : Engine :=
  { grid := (dissEngine 0).grid
    toppling := ((dissEngine 0).toppling.SetTopplingIterator 4 TopplingIterator.RANDOM_ALL) }

/-! ## Directions -/

/-- Every cell of the grid and the reservoir have a direction among 0, 1, 2, 3. -/
def Grid.DirectionsInRange (g : Grid) : Prop :=
  (∀ k, k < g.width * g.height → 0 ≤ (g.cells k).direction ∧ (g.cells k).direction < 4)
    ∧ 0 ≤ g.reservoir.direction ∧ g.reservoir.direction < 4

/-! ## The index table of a toppling -/

/-- The engine with the array `random_indices` of its toppling replaced (nothing else
changes): the state in which the `for` loop of a random pass starts. -/
def Engine.withTable (e : Engine) (table : Nat → Nat) : Engine :=
  { e with toppling := { e.toppling with random_indices := some table } }

/-- The array `random_indices` of the toppling is allocated and its `width * height` entries are
a permutation of 0, .., width*height-1. -/
def Engine.TablePermutation (e : Engine) : Prop :=
  ∃ table, e.toppling.random_indices = some table
    ∧ ((List.range (e.grid.width * e.grid.height)).map table).Perm
        (List.range (e.grid.width * e.grid.height))

/-- The number of iterations of the `for` loop of a random pass (`iterate_number`): the
width of the grid under RandomFraction, the number of cells otherwise. -/
def Engine.iterateNumber (e : Engine) : Nat :=
  match e.toppling.toppling_iterator with
  | TopplingIterator.RANDOM_FRACTION => e.grid.width
  | _ => e.grid.width * e.grid.height

/-! ## Coarsening -/

/-- The two inner loops of `SandPile::Coarsen` for the patch at column `i` and row `j`:
`sum += grid->GetCell(i+p, j+q).GetHeight()` for `q` and `p` from 0 below `patch_L`.  The
variable `sum` is an `int`: every addition is carried out on grain counts and the
result is converted back (truncation toward zero). -/
def patchSum (g : Option Grid) (i j patch_L : Int) : Run Int :=
  (List.range patch_L.toNat).foldlM (fun (sum : Int) (q : Nat) =>
    (List.range patch_L.toNat).foldlM (fun (sum : Int) (p : Nat) =>
      match g with
      | none => throw Fault.nullPointer
      | some grid => do
        let r ← grid.GetCell (i + p) (j + q)
        let c ← grid.read r
        pure (truncate ((sum : GrainType) + c.height))) sum) 0

/-- The loop `for (int i = 0; i < L; i+=patch_L)` of `SandPile::Coarsen` in row `j`, from
column `i` on: the patch sum is stored at `values[i/patch_L + (j/patch_L)*patch_width]`
(a negative index is outside the array). -/
def coarsenRow (g : Option Grid) (L patch_L patch_width j : Int) :
    Nat → Int → (Nat → Option GrainType) → Run (Nat → Option GrainType)
  | 0, _, _ => throw Fault.outOfFuel
  | fuel + 1, i, values =>
    if i < L then do
      let sum ← patchSum g i j patch_L
      let index := i.tdiv patch_L + j.tdiv patch_L * patch_width
      if index < 0 then throw Fault.outOfBounds
      else
        coarsenRow g L patch_L patch_width j fuel (i + patch_L)
          (Function.update values index.toNat (some (sum : GrainType)))
    else pure values

/-- The loop `for (int j = 0; j < L; j+=patch_L)` of `SandPile::Coarsen`, from row `j` on. -/
def coarsenLoop (g : Option Grid) (L patch_L patch_width : Int) (rowFuel : Nat) :
    Nat → Int → (Nat → Option GrainType) → Run (Nat → Option GrainType)
  | 0, _, _ => throw Fault.outOfFuel
  | fuel + 1, j, values =>
    if j < L then do
      let values1 ← coarsenRow g L patch_L patch_width j rowFuel 0 values
      coarsenLoop g L patch_L patch_width rowFuel fuel (j + patch_L) values1
    else pure values

/-- The method `SandPile::Coarsen(values, array_size, patch_L)`: the array afterwards and the
generators afterwards.  With `patch_L == 1` it is `GetValues(values, GVT_HEIGHT)`;
otherwise the two assertions come first (with `patch_L == 0` the first one divides by
zero), then the loops over the patches. -/
def SandPile.Coarsen (s : SandPile) (values : Nat → Option GrainType)
    (array_size patch_L : Int) (st : Statics) (fuel : Nat) :
    Run ((Nat → Option GrainType) × Statics) :=
  if patch_L = 1 then s.GetValues values GridValueType.GVT_HEIGHT st fuel
  else if patch_L * patch_L = 0 then throw Fault.notANumber
  else if ¬ (array_size = ((s.L : Int) * (s.L : Int)).tdiv (patch_L * patch_L)) then
    throw Fault.assertion
  else if ¬ ((s.L : Int).tmod patch_L = 0) then throw Fault.assertion
  else do
    let patch_width := (s.L : Int).tdiv patch_L
    let values1 ← coarsenLoop s.grid s.L patch_L patch_width fuel fuel 0 values
    pure (values1, st)

/-- A 2 by 2 Periodic sandpile with the BTW rule in which every cell is given the height 1/2
through `TestCell`. -/
def halfGrainPile : Run (SandPile × Statics) := do
  let (s, st) ← SandPile.new 2 TopplingMethod.Bak_Tang_Wiesenfeld1987 BoundaryType.BT_PERIODIC
    (Statics.initial (constSeed 0))
  let s0 ← s.SetHeight 0 (1 / 2)
  let s1 ← s0.SetHeight 1 (1 / 2)
  let s2 ← s1.SetHeight 2 (1 / 2)
  let s3 ← s2.SetHeight 3 (1 / 2)
  pure (s3, st)

/-- The call `Coarsen(values, 1, 2)` on `halfGrainPile` with an array that holds 7: the entry 0
of the array afterwards, next to the result of `CountGrains()`. -/
def halfGrainCoarsen : Run (Option GrainType × GrainType) := do
  let (s, st) ← halfGrainPile
  let (values, _) ← s.Coarsen (fun _ => some 7) 1 2 st 5
  match s.grid with
  | none => throw Fault.nullPointer
  | some g => pure (values 0, g.CountGrains)

/-- Every cell of the grid holds a whole number of grains. -/
def Grid.IntegerHeights (g : Grid) : Prop :=
  ∀ k, k < g.width * g.height → (g.cells k).height.den = 1

/-- Modelled from the spec: "the sum of the heights of the patch_L×patch_L cells with i in
[a·patch_L, (a+1)·patch_L) and j in [b·patch_L, (b+1)·patch_L)", the cell in column `i`
and row `j` being `cells[j*L+i]`. -/
def patchTotal (g : Grid) (L p a b : Nat) : GrainType :=
  ∑ q in Finset.range p, ∑ r in Finset.range p, (g.cells ((b * p + q) * L + (a * p + r))).height

/-- The value that the accumulation of `patchSum` reaches on the patch at column `i` and row `j`
of a grid of width `L`, when no access fails. -/
def patchFold (g : Grid) (L p i j : Nat) : Int :=
  (List.range p).foldl (fun (sum : Int) (q : Nat) =>
    (List.range p).foldl (fun (sum : Int) (r : Nat) =>
      truncate ((sum : GrainType) + (g.cells ((j + q) * L + (i + r))).height)) sum) 0

/-- A 2 by 2 Periodic sandpile with the BTW rule whose cells 0, 1, 2, 3 hold 1, 2, 3, 4 grains. -/
def wholeGrainPile : SandPile :=
  let g := (Grid.new 2 2 BoundaryType.BT_PERIODIC (Statics.initial (constSeed 0))).1
  { L := 2
    grid := some { g with cells := fun k => { g.cells k with height := (k : GrainType) + 1 } }
    diss_grid := none
    toppling := some { Toppling.new with
      toppling_method := TopplingMethod.Bak_Tang_Wiesenfeld1987 }
    diss_toppling := none
    boundary_type := BoundaryType.BT_PERIODIC
    avalanches := EventCounter.empty }

/-- The primary grid of `wholeGrainPile`. -/
def wholeGrainGrid : Grid :=
  let g := (Grid.new 2 2 BoundaryType.BT_PERIODIC (Statics.initial (constSeed 0))).1
  { g with cells := fun k => { g.cells k with height := (k : GrainType) + 1 } }

/-! ## Queries on a fully connected grid -/

/-- A seeding function whose generators deliver 0, 1, 2, .. -/
def countingSeed : Int → Gen := fun _ k => k

/-- A 2 by 2 FullyConnected sandpile with the BTW rule is built and `GetValues(values, GVT_NCN)` is
called on it.  The result is the draw `boost_random_neigh(1000)` would deliver next
before the call, and the one it would deliver next after the call. -/
def fullyConnectedQuery : Run (Nat × Nat) := do
  let (s, st) ← SandPile.new 2 TopplingMethod.Bak_Tang_Wiesenfeld1987
    BoundaryType.BT_FULLY_CONNECTED (Statics.initial countingSeed)
  let (_, st1) ← s.GetValues (fun _ => none) GridValueType.GVT_NCN st 20
  pure ((boost_random_neigh st 1000).1, (boost_random_neigh st1 1000).1)

/-! ## Two relaxations in a row -/

/-- The loop iteration at the cell with index `idx` finds its neighbours and finds the cell below
the toppling threshold: `GetNeighbours` returns for some state of the generators, `GetCell`
returns, and the height of the cell is below the threshold. -/
def Engine.QuietAt (e : Engine) (idx : Int) : Prop :=
  ∃ (st : Statics) (fuel : Nat) (nb : List CellRef) (st1 : Statics) (r : CellRef) (c : Cell),
    e.grid.GetNeighbours (idx.tmod (e.grid.width : Int)) (idx.tdiv (e.grid.width : Int)) st fuel
        = Except.ok (nb, st1)
    ∧ e.grid.GetCell (idx.tmod (e.grid.width : Int)) (idx.tdiv (e.grid.width : Int))
        = Except.ok r
    ∧ e.grid.read r = Except.ok c
    ∧ c.height < e.toppling.topple_threshold

/-- A relaxation of the engine that returns leaves nothing that a following relaxation could
topple: the strategy is FollowActivity, or it is RandomAll with an index table that is a
permutation of the cell indices, or the rule is Rossum2011-diss (which never reports a
toppling event). -/
def Engine.Settles (e : Engine) : Prop :=
  e.toppling.toppling_iterator = TopplingIterator.FOLLOW_ACTIVITY
  ∨ (e.toppling.toppling_iterator = TopplingIterator.RANDOM_ALL ∧ e.TablePermutation)
  ∨ e.toppling.toppling_method = TopplingMethod.Rossum2011_diss

/-- The engines for which a relaxation that follows a returned relaxation is shown to return:
FollowActivity; RandomAll with a permutation table under a rule other than
Rossum2011-diss on a grid that is not FullyConnected (the neighbours of a cell then do
not depend on draws); and the dissipation side as the constructor of the sandpile
builds it (Rossum2011-diss, RandomAll with a permutation table, Periodic grid,
directions among 0..3). -/
def Engine.Resumes (e : Engine) : Prop :=
  e.toppling.toppling_iterator = TopplingIterator.FOLLOW_ACTIVITY
  ∨ (e.toppling.toppling_iterator = TopplingIterator.RANDOM_ALL ∧ e.TablePermutation
      ∧ e.toppling.toppling_method ≠ TopplingMethod.Rossum2011_diss
      ∧ e.grid.boundary_type ≠ BoundaryType.BT_FULLY_CONNECTED)
  ∨ (e.toppling.toppling_method = TopplingMethod.Rossum2011_diss
      ∧ e.toppling.toppling_iterator = TopplingIterator.RANDOM_ALL ∧ e.TablePermutation
      ∧ e.grid.boundary_type = BoundaryType.BT_PERIODIC ∧ e.grid.DirectionsInRange)

end Sandpile

namespace Sandpile

/-! ## Theorems -/

/-! ### Cell::Transfer -/

/-- The amount moved by `Cell::Transfer` is the least of the requested number, the
height of the source and the capacity of the *source* minus the height of
the target. -/
theorem transferAmount_eq_min (src cell : Cell) (number : GrainType) :
    Cell.transferAmount src cell number
      = min (min (src.max_capacity - cell.height) number) src.height := by
  unfold Cell.transferAmount
  simp only [min_def]
  split_ifs <;> first | rfl | linarith

/-- C4: `Cell::Transfer` from a source of height 5 and capacity 10 to a target of
height 0 and capacity 2, asked to move 5 grains, returns 5 and leaves the
target at height 5, above its capacity 2, whereas the least of the request, the
source height and the remaining capacity of the target is 2. -/
theorem C4_transfer_uses_source_capacity :
    (Cell.Transfer
        { altered_function := false, height := 5, direction := 0, max_capacity := 10, id := 0 }
        { altered_function := false, height := 0, direction := 0, max_capacity := 2, id := 1 }
        5).1 = 5
    ∧ (Cell.Transfer
        { altered_function := false, height := 5, direction := 0, max_capacity := 10, id := 0 }
        { altered_function := false, height := 0, direction := 0, max_capacity := 2, id := 1 }
        5).2.2.height = 5
    ∧ min (5 : GrainType) (min (5 : GrainType) ((2 : GrainType) - 0)) = 2
    ∧ ¬ ((Cell.Transfer
        { altered_function := false, height := 5, direction := 0, max_capacity := 10, id := 0 }
        { altered_function := false, height := 0, direction := 0, max_capacity := 2, id := 1 }
        5).2.2.height ≤ 2) := by
  norm_num [Cell.Transfer, Cell.transferAmount]

/-! ### Grid::GetNeighbours -/

/-- Wraparound of the periodic case: for `0 ≤ a < m` and an offset `k ≥ -1` the truncating
remainder of `a + m + k` is the mathematical remainder of `a + k`. -/
theorem wrap_tmod (a m k : Int) (ha : 0 ≤ a) (ham : a < m) (hk : -1 ≤ k) :
    (a + m + k).tmod m = (a + k) % m := by
  rw [Int.tmod_eq_emod (by omega) (by omega)]
  have : a + m + k = (a + k) + m := by ring
  rw [this, Int.add_emod_self]

/-- The neighbour list of the periodic case, written out. -/
theorem GetNeighbours_periodic (g : Grid) (i j : Int) (st : Statics) (fuel : Nat)
    (hb : g.boundary_type = BoundaryType.BT_PERIODIC)
    (hi : 0 ≤ i) (hi2 : i < (g.width : Int)) (hj : 0 ≤ j) (hj2 : j < (g.height : Int)) :
    g.GetNeighbours i j st fuel = Except.ok
      ([CellRef.cell (((j - 1) % (g.height : Int)) * (g.width : Int) + i),
        CellRef.cell (j * (g.width : Int) + (i - 1) % (g.width : Int)),
        CellRef.cell (((j + 1) % (g.height : Int)) * (g.width : Int) + i),
        CellRef.cell (j * (g.width : Int) + (i + 1) % (g.width : Int))], st) := by
  have hw : g.width ≠ 0 := by intro h; rw [h] at hi2; simp at hi2; omega
  have hh : g.height ≠ 0 := by intro h; rw [h] at hj2; simp at hj2; omega
  have a1 := wrap_tmod j g.height (-1) hj hj2 (by omega)
  have a2 := wrap_tmod i g.width 0 hi hi2 (by omega)
  have a3 := wrap_tmod i g.width (-1) hi hi2 (by omega)
  have a4 := wrap_tmod j g.height 0 hj hj2 (by omega)
  have a5 := wrap_tmod j g.height 1 hj hj2 (by omega)
  have a7 := wrap_tmod i g.width 1 hi hi2 (by omega)
  have b1 : i % (g.width : Int) = i := Int.emod_eq_of_lt hi hi2
  have b2 : j % (g.height : Int) = j := Int.emod_eq_of_lt hj hj2
  unfold Grid.GetNeighbours
  simp only [hw, hh, hb, if_false, neighbourLoop, List.map]
  norm_num
  simp only [add_zero] at a2 a4
  rw [a1, a2, a3, a4, a5, a7, b1, b2]
  simp [pure, Except.pure, sub_eq_add_neg]

/-- C8: on a Circular grid (square, even width) `GetNeighbours(width-1, j)` does not
return a neighbour list: the lookup `GetCell(width, j)` of the east neighbour
runs before the circle test and its assertion `i < width` fails. -/
theorem C8_circular_edge_aborts (g : Grid) (j : Int) (st : Statics) (fuel : Nat)
    (hb : g.boundary_type = BoundaryType.BT_CIRCULAR)
    (hsq : g.width = g.height) (hev : g.width % 2 = 0) (hw : 0 < g.width)
    (_hj : 0 ≤ j) (hj2 : j < (g.height : Int)) :
    g.GetNeighbours ((g.width : Int) - 1) j st fuel = Except.error Fault.assertion := by
  have hw0 : g.width ≠ 0 := by omega
  have hh0 : g.height ≠ 0 := by omega
  have hne : ¬ (g.width ≠ g.height) := by simpa using hsq
  unfold Grid.GetNeighbours
  simp only [hw0, hh0, hb, if_false, neighbourLoop, List.mapM_cons, List.mapM_nil]
  simp only [Grid.GetCell, Grid.WithinCircle, hne, hev]
  norm_num
  have h1 : j + -1 < (g.height : Int) := by omega
  simp only [h1, hj2, bind, Except.bind, pure, Except.pure, if_true]
  norm_num
  have f1 : ¬ ((g.height : Int) + 1 ≤ j) := by omega
  have f2 : ¬ ((g.height : Int) ≤ j) := by omega
  have f3 : ¬ ((g.width : Int) + 1 ≤ (g.width : Int) - 1) := by omega
  simp only [f1, f2, f3, if_false]
  by_cases h2 : (g.height : Int) ≤ j + 1
  · simp only [h2, if_true]
  · simp only [h2, if_false]
    rfl

/-- Witness of C8: the cell (3, 0) of a freshly built 4 by 4 Circular grid. -/
theorem C8_circular_edge_aborts_witness :
    (exampleGrid BoundaryType.BT_CIRCULAR).boundary_type = BoundaryType.BT_CIRCULAR
    ∧ (exampleGrid BoundaryType.BT_CIRCULAR).width = 4
    ∧ (exampleGrid BoundaryType.BT_CIRCULAR).GetNeighbours
        (((exampleGrid BoundaryType.BT_CIRCULAR).width : Int) - 1) 0
        (Statics.initial (constSeed 0)) 0 = Except.error Fault.assertion :=
  ⟨rfl, rfl, C8_circular_edge_aborts (exampleGrid BoundaryType.BT_CIRCULAR) 0
    (Statics.initial (constSeed 0)) 0 rfl rfl (by decide) (by decide) (by decide) (by decide)⟩

/-- C9: on a Periodic grid, for every valid (i, j), `GetNeighbours` returns four entries
which are, at the positions NORTH, WEST, SOUTH and EAST, the cells at
(i, (j-1) mod h), ((i-1) mod w, j), (i, (j+1) mod h) and ((i+1) mod w, j); the
reservoir is not among them and no random draw is consumed. -/
theorem C9_periodic_neighbours (g : Grid) (i j : Int) (st : Statics) (fuel : Nat)
    (hb : g.boundary_type = BoundaryType.BT_PERIODIC)
    (hi : 0 ≤ i) (hi2 : i < (g.width : Int)) (hj : 0 ≤ j) (hj2 : j < (g.height : Int)) :
    ∃ nb, g.GetNeighbours i j st fuel = Except.ok (nb, st) ∧ nb.length = 4
      ∧ g.GetCell i ((j - 1) % (g.height : Int)) = Except.ok (nb.getD NORTH CellRef.reservoir)
      ∧ g.GetCell ((i - 1) % (g.width : Int)) j = Except.ok (nb.getD WEST CellRef.reservoir)
      ∧ g.GetCell i ((j + 1) % (g.height : Int)) = Except.ok (nb.getD SOUTH CellRef.reservoir)
      ∧ g.GetCell ((i + 1) % (g.width : Int)) j = Except.ok (nb.getD EAST CellRef.reservoir)
      ∧ CellRef.reservoir ∉ nb := by
  have hwpos : (0 : Int) < g.width := by omega
  have hhpos : (0 : Int) < g.height := by omega
  have m1 := Int.emod_lt_of_pos (j - 1) hhpos
  have m2 := Int.emod_lt_of_pos (i - 1) hwpos
  have m3 := Int.emod_lt_of_pos (j + 1) hhpos
  have m4 := Int.emod_lt_of_pos (i + 1) hwpos
  refine ⟨_, GetNeighbours_periodic g i j st fuel hb hi hi2 hj hj2, rfl, ?_, ?_, ?_, ?_, ?_⟩
  · simp [Grid.GetCell, NORTH, m1, hi2, pure, Except.pure]
  · simp [Grid.GetCell, WEST, m2, hj2, pure, Except.pure]
  · simp [Grid.GetCell, SOUTH, m3, hi2, pure, Except.pure]
  · simp [Grid.GetCell, EAST, m4, hj2, pure, Except.pure]
  · simp

/-- Witness of C9: the cell (0, 0) of a freshly built 4 by 4 Periodic grid. -/
theorem C9_periodic_neighbours_witness :
    ∃ nb, (exampleGrid BoundaryType.BT_PERIODIC).GetNeighbours 0 0
        (Statics.initial (constSeed 0)) 0 = Except.ok (nb, Statics.initial (constSeed 0))
      ∧ nb.length = 4
      ∧ (exampleGrid BoundaryType.BT_PERIODIC).GetCell 0
          ((0 - 1) % ((exampleGrid BoundaryType.BT_PERIODIC).height : Int))
          = Except.ok (nb.getD NORTH CellRef.reservoir)
      ∧ (exampleGrid BoundaryType.BT_PERIODIC).GetCell
          ((0 - 1) % ((exampleGrid BoundaryType.BT_PERIODIC).width : Int)) 0
          = Except.ok (nb.getD WEST CellRef.reservoir)
      ∧ (exampleGrid BoundaryType.BT_PERIODIC).GetCell 0
          ((0 + 1) % ((exampleGrid BoundaryType.BT_PERIODIC).height : Int))
          = Except.ok (nb.getD SOUTH CellRef.reservoir)
      ∧ (exampleGrid BoundaryType.BT_PERIODIC).GetCell
          ((0 + 1) % ((exampleGrid BoundaryType.BT_PERIODIC).width : Int)) 0
          = Except.ok (nb.getD EAST CellRef.reservoir)
      ∧ CellRef.reservoir ∉ nb :=
  C9_periodic_neighbours (exampleGrid BoundaryType.BT_PERIODIC) 0 0
    (Statics.initial (constSeed 0)) 0 rfl (by decide) (by decide) (by decide) (by decide)

/-- C10: on a Dissipating grid, for every valid (i, j), `GetNeighbours` returns exactly four
entries, one for each of (i-1, j), (i+1, j), (i, j-1), (i, j+1): the entry is the
reservoir iff the coordinate lies outside [0,width) x [0,height), and otherwise
it is the grid cell at that coordinate. -/
theorem C10_dissipating_neighbours (g : Grid) (i j : Int) (st : Statics) (fuel : Nat)
    (hb : g.boundary_type = BoundaryType.BT_DISSIPATING)
    (hi : 0 ≤ i) (hi2 : i < (g.width : Int)) (hj : 0 ≤ j) (hj2 : j < (g.height : Int)) :
    ∃ a b c d, g.GetNeighbours i j st fuel = Except.ok ([a, b, c, d], st)
      ∧ (a = CellRef.reservoir
          ↔ ¬ (0 ≤ i - 1 ∧ i - 1 < (g.width : Int) ∧ 0 ≤ j ∧ j < (g.height : Int)))
      ∧ (a ≠ CellRef.reservoir → g.GetCell (i - 1) j = Except.ok a)
      ∧ (b = CellRef.reservoir
          ↔ ¬ (0 ≤ i + 1 ∧ i + 1 < (g.width : Int) ∧ 0 ≤ j ∧ j < (g.height : Int)))
      ∧ (b ≠ CellRef.reservoir → g.GetCell (i + 1) j = Except.ok b)
      ∧ (c = CellRef.reservoir
          ↔ ¬ (0 ≤ i ∧ i < (g.width : Int) ∧ 0 ≤ j - 1 ∧ j - 1 < (g.height : Int)))
      ∧ (c ≠ CellRef.reservoir → g.GetCell i (j - 1) = Except.ok c)
      ∧ (d = CellRef.reservoir
          ↔ ¬ (0 ≤ i ∧ i < (g.width : Int) ∧ 0 ≤ j + 1 ∧ j + 1 < (g.height : Int)))
      ∧ (d ≠ CellRef.reservoir → g.GetCell i (j + 1) = Except.ok d) := by
  have hw : g.width ≠ 0 := by intro h; rw [h] at hi2; simp at hi2; omega
  have hh : g.height ≠ 0 := by intro h; rw [h] at hj2; simp at hj2; omega
  refine ⟨if i = 0 then CellRef.reservoir else CellRef.cell (j * (g.width : Int) + (i - 1)),
    if i = (g.width : Int) - 1 then CellRef.reservoir
      else CellRef.cell (j * (g.width : Int) + (i + 1)),
    if j = 0 then CellRef.reservoir else CellRef.cell ((j - 1) * (g.width : Int) + i),
    if j = (g.height : Int) - 1 then CellRef.reservoir
      else CellRef.cell ((j + 1) * (g.width : Int) + i), ?_, ?_⟩
  · unfold Grid.GetNeighbours
    simp only [hw, hh, hb, if_false]
    rfl
  · simp only [Grid.GetCell, pure, Except.pure, throw, throwThe, MonadExceptOf.throw]
    refine ⟨?_, ?_, ?_, ?_, ?_, ?_, ?_, ?_⟩
    all_goals split_ifs <;> simp <;> omega

/-- Witness of C10: the corner cell (0, 3) of a freshly built 4 by 4 Dissipating grid has
the reservoir to its west and south and grid cells to its east and north. -/
theorem C10_dissipating_neighbours_witness :
    ∃ a b c d, (exampleGrid BoundaryType.BT_DISSIPATING).GetNeighbours 0 3
        (Statics.initial (constSeed 0)) 0
        = Except.ok ([a, b, c, d], Statics.initial (constSeed 0))
      ∧ (a = CellRef.reservoir
          ↔ ¬ ((0 : Int) ≤ 0 - 1 ∧ (0 : Int) - 1 < ((exampleGrid BoundaryType.BT_DISSIPATING).width : Int)
              ∧ (0 : Int) ≤ 3 ∧ (3 : Int) < ((exampleGrid BoundaryType.BT_DISSIPATING).height : Int)))
      ∧ (a ≠ CellRef.reservoir
          → (exampleGrid BoundaryType.BT_DISSIPATING).GetCell (0 - 1) 3 = Except.ok a)
      ∧ (b = CellRef.reservoir
          ↔ ¬ ((0 : Int) ≤ 0 + 1 ∧ (0 : Int) + 1 < ((exampleGrid BoundaryType.BT_DISSIPATING).width : Int)
              ∧ (0 : Int) ≤ 3 ∧ (3 : Int) < ((exampleGrid BoundaryType.BT_DISSIPATING).height : Int)))
      ∧ (b ≠ CellRef.reservoir
          → (exampleGrid BoundaryType.BT_DISSIPATING).GetCell (0 + 1) 3 = Except.ok b)
      ∧ (c = CellRef.reservoir
          ↔ ¬ ((0 : Int) ≤ 0 ∧ (0 : Int) < ((exampleGrid BoundaryType.BT_DISSIPATING).width : Int)
              ∧ (0 : Int) ≤ 3 - 1 ∧ (3 : Int) - 1 < ((exampleGrid BoundaryType.BT_DISSIPATING).height : Int)))
      ∧ (c ≠ CellRef.reservoir
          → (exampleGrid BoundaryType.BT_DISSIPATING).GetCell 0 (3 - 1) = Except.ok c)
      ∧ (d = CellRef.reservoir
          ↔ ¬ ((0 : Int) ≤ 0 ∧ (0 : Int) < ((exampleGrid BoundaryType.BT_DISSIPATING).width : Int)
              ∧ (0 : Int) ≤ 3 + 1 ∧ (3 : Int) + 1 < ((exampleGrid BoundaryType.BT_DISSIPATING).height : Int)))
      ∧ (d ≠ CellRef.reservoir
          → (exampleGrid BoundaryType.BT_DISSIPATING).GetCell 0 (3 + 1) = Except.ok d) :=
  C10_dissipating_neighbours (exampleGrid BoundaryType.BT_DISSIPATING) 0 3
    (Statics.initial (constSeed 0)) 0 rfl (by decide) (by decide) (by decide) (by decide)

/-! ### Basic facts about reading, writing and altering cells -/

theorem bind_ok {α β : Type} {x : Run α} {f : α → Run β} {b : β}
    (h : (x >>= f) = Except.ok b) : ∃ a, x = Except.ok a ∧ f a = Except.ok b := by
  cases x with
  | error err => simp [bind, Except.bind] at h
  | ok a => exact ⟨a, rfl, by simpa [bind, Except.bind] using h⟩

theorem read_cell_ok {g : Grid} {n : Int} {c : Cell}
    (h : g.read (CellRef.cell n) = Except.ok c) :
    0 ≤ n ∧ n < (g.size : Int) ∧ c = g.cells n.toNat := by
  unfold Grid.read at h
  by_cases hb : 0 ≤ n ∧ n < (g.size : Int)
  · simp only [hb, and_self, if_true, pure, Except.pure] at h
    exact ⟨hb.1, hb.2, (Except.ok.inj h).symm⟩
  · simp [hb, throw, throwThe, MonadExceptOf.throw] at h

theorem read_cell_of_lt (g : Grid) {n : Int} (h0 : 0 ≤ n) (h1 : n < (g.size : Int)) :
    g.read (CellRef.cell n) = Except.ok (g.cells n.toNat) := by
  unfold Grid.read
  simp [h0, h1, pure, Except.pure]

theorem write_cell_ok {g g1 : Grid} {n : Int} {c : Cell}
    (h : g.write (CellRef.cell n) c = Except.ok g1) :
    0 ≤ n ∧ n < (g.size : Int) ∧ g1 = { g with cells := Function.update g.cells n.toNat c } := by
  unfold Grid.write at h
  by_cases hb : 0 ≤ n ∧ n < (g.size : Int)
  · simp only [hb, and_self, if_true, pure, Except.pure] at h
    exact ⟨hb.1, hb.2, (Except.ok.inj h).symm⟩
  · simp [hb, throw, throwThe, MonadExceptOf.throw] at h

theorem alter_cell_ok {e e1 : Engine} {n : Int} {f : GrainType → GrainType}
    (h : e.alter (CellRef.cell n) f = Except.ok e1) :
    0 ≤ n ∧ n < (e.grid.size : Int)
    ∧ e1.grid = { e.grid with cells := (Function.update e.grid.cells n.toNat
        { e.grid.cells n.toNat with height := f (e.grid.cells n.toNat).height }) }
    ∧ e1.toppling = (if (e.grid.cells n.toNat).altered_function then
        e.toppling.CheckCell n.toNat
          { e.grid.cells n.toNat with height := f (e.grid.cells n.toNat).height }
        else e.toppling) := by
  unfold Engine.alter at h
  obtain ⟨c, hc, h⟩ := bind_ok h
  obtain ⟨g1, hg, h⟩ := bind_ok h
  obtain ⟨h0, h1, rfl⟩ := read_cell_ok hc
  obtain ⟨-, -, rfl⟩ := write_cell_ok hg
  refine ⟨h0, h1, ?_⟩
  by_cases hh : (e.grid.cells n.toNat).altered_function
  · simp only [hh, if_true, pure, Except.pure] at h ⊢
    have := Except.ok.inj h
    subst this
    exact ⟨rfl, rfl⟩
  · simp only [hh, pure, Except.pure] at h ⊢
    have := Except.ok.inj h
    subst this
    exact ⟨rfl, rfl⟩

theorem alter_reservoir_ok {e e1 : Engine} {f : GrainType → GrainType}
    (h : e.alter CellRef.reservoir f = Except.ok e1) :
    e1.grid = { e.grid with reservoir := { e.grid.reservoir with height := f e.grid.reservoir.height } }
    ∧ e1.toppling = e.toppling := by
  unfold Engine.alter at h
  simp only [Grid.read, Grid.write, bind, Except.bind, pure, Except.pure] at h
  have := Except.ok.inj h
  subst this
  exact ⟨rfl, rfl⟩


theorem mem_setInsert (l : List Nat) (n k : Nat) : k ∈ setInsert l n ↔ k = n ∨ k ∈ l := by
  unfold setInsert
  by_cases h : n ∈ l
  · simp only [h, if_true]
    constructor
    · intro hk; exact Or.inr hk
    · rintro (rfl | hk)
      · exact h
      · exact hk
  · simp only [h, if_false, List.mem_orderedInsert]

theorem mem_setErase (l : List Nat) (n k : Nat) : k ∈ setErase l n ↔ k ∈ l ∧ k ≠ n := by
  unfold setErase
  simp [List.mem_filter]

theorem Engine.Frame.refl (e : Engine) : Engine.Frame e e :=
  ⟨rfl, rfl, rfl, rfl, fun _ => rfl, fun _ => rfl, fun _ => rfl, rfl, rfl, rfl, rfl, rfl, rfl,
    rfl, rfl, rfl, rfl⟩

theorem Engine.Frame.frame_trans {e e1 e2 : Engine} (a : Engine.Frame e e1) (b : Engine.Frame e1 e2) :
    Engine.Frame e e2 :=
  ⟨b.width.trans a.width, b.height.trans a.height, b.boundary_type.trans a.boundary_type,
    b.table.trans a.table, fun n => (b.hooked n).trans (a.hooked n),
    fun n => (b.id n).trans (a.id n), fun n => (b.capacity n).trans (a.capacity n),
    b.threshold.trans a.threshold, b.iterator.trans a.iterator,
    b.method.trans a.method, b.diss_amount.trans a.diss_amount, b.diss_rate.trans a.diss_rate,
    b.diss_threshold.trans a.diss_threshold, b.dissipative_mode.trans a.dissipative_mode,
    b.diss_grid.trans a.diss_grid, b.count.trans a.count,
    b.reservoir_id.trans a.reservoir_id⟩

theorem Engine.Frame.size {e e1 : Engine} (a : Engine.Frame e e1) :
    e1.grid.size = e.grid.size := by
  unfold Grid.size
  rw [a.width, a.height]

theorem CheckCell_config (t : Toppling) (n : Nat) (c : Cell) :
    (t.CheckCell n c).topple_threshold = t.topple_threshold
    ∧ (t.CheckCell n c).toppling_iterator = t.toppling_iterator
    ∧ (t.CheckCell n c).toppling_method = t.toppling_method
    ∧ (t.CheckCell n c).diss_amount = t.diss_amount
    ∧ (t.CheckCell n c).diss_rate = t.diss_rate
    ∧ (t.CheckCell n c).diss_threshold = t.diss_threshold
    ∧ (t.CheckCell n c).dissipative_mode = t.dissipative_mode
    ∧ (t.CheckCell n c).diss_grid = t.diss_grid
    ∧ (t.CheckCell n c).countDuringAvalanches = t.countDuringAvalanches
    ∧ (t.CheckCell n c).noDuringAvalanches = t.noDuringAvalanches
    ∧ (t.CheckCell n c).random_indices = t.random_indices := by
  unfold Toppling.CheckCell
  split
  · simp
  · simp
  · split_ifs <;> simp

theorem update_field_ne {n m : Nat} (cells : Nat → Cell) (c : Cell) (h : n ≠ m) :
    Function.update cells m c n = cells n := Function.update_noteq h c cells

theorem alter_frame {e e1 : Engine} {r : CellRef} {f : GrainType → GrainType}
    (h : e.alter r f = Except.ok e1) : Engine.Frame e e1 := by
  cases r with
  | reservoir =>
    obtain ⟨hg, ht⟩ := alter_reservoir_ok h
    constructor <;> simp [hg, ht]
  | cell n =>
    obtain ⟨-, -, hg, ht⟩ := alter_cell_ok h
    have hc := CheckCell_config e.toppling n.toNat
      { e.grid.cells n.toNat with height := f (e.grid.cells n.toNat).height }
    have hcell : ∀ k, (e1.grid.cells k).altered_function = (e.grid.cells k).altered_function
        ∧ (e1.grid.cells k).id = (e.grid.cells k).id
        ∧ (e1.grid.cells k).max_capacity = (e.grid.cells k).max_capacity := by
      intro k
      rw [hg]
      by_cases hk : k = n.toNat
      · subst hk; simp
      · simp [Function.update_noteq hk]
    by_cases hh : (e.grid.cells n.toNat).altered_function
    · rw [if_pos hh] at ht
      constructor
      · simp [hg]
      · simp [hg]
      · simp [hg]
      · simp [hg]
      · exact fun k => (hcell k).1
      · exact fun k => (hcell k).2.1
      · exact fun k => (hcell k).2.2
      · rw [ht]; exact hc.1
      · rw [ht]; exact hc.2.1
      · rw [ht]; exact hc.2.2.1
      · rw [ht]; exact hc.2.2.2.1
      · rw [ht]; exact hc.2.2.2.2.1
      · rw [ht]; exact hc.2.2.2.2.2.1
      · rw [ht]; exact hc.2.2.2.2.2.2.1
      · rw [ht]; exact hc.2.2.2.2.2.2.2.1
      · rw [ht]; exact hc.2.2.2.2.2.2.2.2.1
      · simp [hg]
    · rw [if_neg hh] at ht
      constructor
      · simp [hg]
      · simp [hg]
      · simp [hg]
      · simp [hg]
      · exact fun k => (hcell k).1
      · exact fun k => (hcell k).2.1
      · exact fun k => (hcell k).2.2
      all_goals first | rw [ht] | simp [hg]

theorem alter_kept {e e1 : Engine} {r : CellRef} {f : GrainType → GrainType}
    (h : e.alter r f = Except.ok e1) : Engine.Kept e e1 := by
  cases r with
  | reservoir =>
    obtain ⟨-, ht⟩ := alter_reservoir_ok h
    rw [Engine.Kept, ht]; exact ⟨rfl, rfl⟩
  | cell n =>
    obtain ⟨-, -, -, ht⟩ := alter_cell_ok h
    have hc := CheckCell_config e.toppling n.toNat
      { e.grid.cells n.toNat with height := f (e.grid.cells n.toNat).height }
    rw [Engine.Kept, ht]
    split_ifs
    · exact ⟨hc.2.2.2.2.2.2.2.2.2.1, hc.2.2.2.2.2.2.2.2.2.2⟩
    · exact ⟨rfl, rfl⟩

theorem Engine.Kept.kept_trans {e e1 e2 : Engine} (a : Engine.Kept e e1) (b : Engine.Kept e1 e2) :
    Engine.Kept e e2 := ⟨b.1.trans a.1, b.2.trans a.2⟩

theorem Alters.kept {e e1 : Engine} (h : Alters e e1) : Engine.Kept e e1 := by
  induction h with
  | refl e => exact ⟨rfl, rfl⟩
  | step r f h _ ih => exact (alter_kept h).kept_trans ih

theorem Alters.frame {e e1 : Engine} (h : Alters e e1) : Engine.Frame e e1 := by
  induction h with
  | refl e => exact Engine.Frame.refl e
  | step r f h _ ih => exact (alter_frame h).frame_trans ih

theorem Alters.alters_trans {e e1 e2 : Engine} (a : Alters e e1) (b : Alters e1 e2) : Alters e e2 := by
  induction a with
  | refl e => exact b
  | step r f h _ ih => exact Alters.step r f h (ih b)

theorem Alters.single {e e1 : Engine} {r : CellRef} {f : GrainType → GrainType}
    (h : e.alter r f = Except.ok e1) : Alters e e1 :=
  Alters.step r f h (Alters.refl e1)

theorem increaseEach_alters : ∀ (rs : List CellRef) (xs : List GrainType) (e e1 : Engine),
    Engine.increaseEach e rs xs = Except.ok e1 → Alters e e1
  | [], _, e, e1, h => by
    simp only [Engine.increaseEach, pure, Except.pure] at h
    cases Except.ok.inj h; exact Alters.refl e
  | _ :: _, [], e, e1, h => by
    simp only [Engine.increaseEach, pure, Except.pure] at h
    cases Except.ok.inj h; exact Alters.refl e
  | r :: rs, x :: xs, e, e1, h => by
    simp only [Engine.increaseEach] at h
    obtain ⟨e2, h2, h⟩ := bind_ok h
    exact Alters.step r _ h2 (increaseEach_alters rs xs e2 e1 h)

theorem mannaLoop_alters (nb : List CellRef) : ∀ (xs : List GrainType) (e : Engine) (gen : Gen)
    (e1 : Engine) (gen1 : Gen),
    Engine.mannaLoop nb e xs gen = Except.ok (e1, gen1) → Alters e e1
  | [], e, gen, e1, gen1, h => by
    simp only [Engine.mannaLoop, pure, Except.pure] at h
    cases Except.ok.inj h; exact Alters.refl e
  | x :: xs, e, gen, e1, gen1, h => by
    simp only [Engine.mannaLoop] at h
    split at h
    · simp [throw, throwThe, MonadExceptOf.throw] at h
    · obtain ⟨e2, h2, h⟩ := bind_ok h
      exact Alters.step _ _ h2 (mannaLoop_alters nb xs e2 gen.tail e1 gen1 h)

theorem linLoop_alters (rate : ℚ) : ∀ (rs : List CellRef) (xs : List GrainType) (e : Engine)
    (z : Gen) (e1 : Engine) (z1 : Gen),
    Engine.linLoop rate e rs xs z = Except.ok (e1, z1) → Alters e e1
  | [], _, e, z, e1, z1, h => by
    simp only [Engine.linLoop, pure, Except.pure] at h
    cases Except.ok.inj h; exact Alters.refl e
  | _ :: _, [], e, z, e1, z1, h => by
    simp only [Engine.linLoop, pure, Except.pure] at h
    cases Except.ok.inj h; exact Alters.refl e
  | r :: rs, x :: xs, e, z, e1, z1, h => by
    simp only [Engine.linLoop] at h
    split at h
    · obtain ⟨e2, h2, h⟩ := bind_ok h
      exact Alters.step _ _ h2 (linLoop_alters rate rs xs e2 z.tail e1 z1 h)
    · exact linLoop_alters rate rs xs e z.tail e1 z1 h


theorem Topple_below {e : Engine} {cell : CellRef} {c : Cell} (dg : Option Grid)
    (nb : List CellRef) (st : Statics)
    (hc : e.grid.read cell = Except.ok c) (hlt : c.height < e.toppling.topple_threshold) :
    e.Topple dg cell nb st = Except.ok (false, e, (st.drawSplit nb.length).2) := by
  unfold Engine.Topple
  simp only [hc, bind, Except.bind, ge_iff_le, not_le.mpr hlt, if_false, pure, Except.pure]

theorem Topple_cases {e : Engine} {dg : Option Grid} {cell : CellRef} {nb : List CellRef}
    {st : Statics} {b : Bool} {e1 : Engine} {st1 : Statics}
    (h : e.Topple dg cell nb st = Except.ok (b, e1, st1))
    (hm : e.toppling.toppling_method ≠ TopplingMethod.Rossum2011_diss) :
    ∃ c, e.grid.read cell = Except.ok c ∧
      ((c.height < e.toppling.topple_threshold ∧ b = false ∧ e1 = e)
       ∨ (e.toppling.topple_threshold ≤ c.height ∧ b = true ∧
          ∃ e2, e.Decrease cell (e.toppling.decrease nb.length) = Except.ok e2 ∧ Alters e2 e1)) := by
  unfold Engine.Topple at h
  simp only [] at h
  obtain ⟨c, hc, h⟩ := bind_ok h
  refine ⟨c, hc, ?_⟩
  by_cases hge : c.height ≥ e.toppling.topple_threshold
  · right
    rw [if_pos hge] at h
    refine ⟨hge, ?_⟩
    cases hmeth : e.toppling.toppling_method with
    | TM_UNDEFINED =>
      simp [hmeth, throw, throwThe, MonadExceptOf.throw] at h
    | Rossum2011_diss => exact absurd hmeth hm
    | Manna_Lin2010 =>
      simp only [hmeth] at h
      obtain ⟨e2, h2, h⟩ := bind_ok h
      split at h
      · simp [throw, throwThe, MonadExceptOf.throw] at h
      · obtain ⟨p, hp, h⟩ := bind_ok h
        simp only [pure, Except.pure] at h
        have := Except.ok.inj h
        simp only [Prod.mk.injEq] at this
        obtain ⟨rfl, rfl, -⟩ := this
        exact ⟨rfl, e2, h2, mannaLoop_alters nb _ e2 _ p.1 p.2 hp⟩
    | Bak_Tang_Wiesenfeld1987 =>
      simp only [hmeth] at h
      obtain ⟨e2, h2, h⟩ := bind_ok h
      split at h
      · simp [throw, throwThe, MonadExceptOf.throw] at h
      · obtain ⟨e3, h3, h⟩ := bind_ok h
        simp only [pure, Except.pure] at h
        have := Except.ok.inj h
        simp only [Prod.mk.injEq] at this
        obtain ⟨rfl, rfl, -⟩ := this
        exact ⟨rfl, e2, h2, increaseEach_alters nb _ e2 _ h3⟩
    | Lin_etal2006 =>
      simp only [hmeth] at h
      obtain ⟨e2, h2, h⟩ := bind_ok h
      split at h
      · simp [throw, throwThe, MonadExceptOf.throw] at h
      · split at h
        · obtain ⟨p, hp, h⟩ := bind_ok h
          simp only [pure, Except.pure] at h
          have := Except.ok.inj h
          simp only [Prod.mk.injEq] at this
          obtain ⟨rfl, rfl, -⟩ := this
          exact ⟨rfl, e2, h2, linLoop_alters _ nb _ e2 _ p.1 p.2 hp⟩
        · obtain ⟨e3, h3, h⟩ := bind_ok h
          simp only [pure, Except.pure] at h
          have := Except.ok.inj h
          simp only [Prod.mk.injEq] at this
          obtain ⟨rfl, rfl, -⟩ := this
          exact ⟨rfl, e2, h2, increaseEach_alters nb _ e2 _ h3⟩
    | Rossum2011 =>
      simp only [hmeth] at h
      split at h
      · simp [throw, throwThe, MonadExceptOf.throw] at h
      · split at h
        · simp [throw, throwThe, MonadExceptOf.throw] at h
        · obtain ⟨dref, hd, h⟩ := bind_ok h
          obtain ⟨dcell, hdc, h⟩ := bind_ok h
          obtain ⟨e2, h2, h⟩ := bind_ok h
          split at h
          · simp only [pure, Except.pure] at h
            have := Except.ok.inj h
            simp only [Prod.mk.injEq] at this
            obtain ⟨rfl, rfl, -⟩ := this
            exact ⟨rfl, e2, h2, Alters.refl _⟩
          · split at h
            · simp [throw, throwThe, MonadExceptOf.throw] at h
            · obtain ⟨e3, h3, h⟩ := bind_ok h
              simp only [pure, Except.pure] at h
              have := Except.ok.inj h
              simp only [Prod.mk.injEq] at this
              obtain ⟨rfl, rfl, -⟩ := this
              exact ⟨rfl, e2, h2, increaseEach_alters nb _ e2 _ h3⟩
  · left
    rw [if_neg hge] at h
    simp only [pure, Except.pure] at h
    have := Except.ok.inj h
    simp only [Prod.mk.injEq] at this
    obtain ⟨rfl, rfl, -⟩ := this
    exact ⟨not_le.mp hge, rfl, rfl⟩

/-! ### The active set follows the heights -/


theorem Hooked.of_frame {e e1 : Engine} (hf : Engine.Frame e e1) (hk : Hooked e) : Hooked e1 := by
  refine ⟨hf.iterator.trans hk.1, fun n hn => ?_⟩
  rw [hf.size] at hn
  rw [hf.hooked n, hf.id n]
  exact hk.2 n hn

theorem Tracked.mono {e : Engine} {P Q : Nat → Prop} (h : Tracked e P) (hPQ : ∀ n, P n → Q n) :
    Tracked e Q := fun n hn =>
  ⟨(h n hn).1, fun hh => ((h n hn).2 hh).imp id (hPQ n)⟩

theorem visit_ok {e : Engine} {dg : Option Grid} {fuel : Nat} {idx : Int} {st : Statics}
    {b : Bool} {e1 : Engine} {st1 : Statics}
    (h : e.visit dg fuel idx st = Except.ok (b, e1, st1)) :
    ∃ nb st0, e.grid.GetNeighbours (idx.tmod e.grid.width) (idx.tdiv e.grid.width) st fuel
        = Except.ok (nb, st0)
      ∧ e.Topple dg (CellRef.cell idx) nb st0 = Except.ok (b, e1, st1) := by
  unfold Engine.visit at h
  simp only [] at h
  obtain ⟨p, hp, h⟩ := bind_ok h
  obtain ⟨c, hc, h⟩ := bind_ok h
  refine ⟨p.1, p.2, hp, ?_⟩
  unfold Grid.GetCell at hc
  split at hc
  · simp [throw, throwThe, MonadExceptOf.throw] at hc
  · split at hc
    · simp [throw, throwThe, MonadExceptOf.throw] at hc
    · simp only [pure, Except.pure] at hc
      have hc := Except.ok.inj hc
      have key : idx.tdiv (e.grid.width : Int) * (e.grid.width : Int)
          + idx.tmod (e.grid.width : Int) = idx := by
        rw [mul_comm]; exact Int.tdiv_add_tmod idx _
      rw [key] at hc
      rw [hc]; exact h

theorem alter_tracked {e e1 : Engine} {r : CellRef} {f : GrainType → GrainType} {P : Nat → Prop}
    (hk : Hooked e) (hT : Tracked e P) (h : e.alter r f = Except.ok e1) :
    Tracked e1 (fun n => P n ∧ ∀ m : Int, r = CellRef.cell m → n ≠ m.toNat) := by
  have hf := alter_frame h
  cases r with
  | reservoir =>
    obtain ⟨hg, ht⟩ := alter_reservoir_ok h
    intro n hn
    rw [hf.size] at hn
    have := hT n hn
    rw [ht, hg]
    exact ⟨this.1, fun hh => (this.2 hh).imp id (fun hp => ⟨hp, fun m hm => by cases hm⟩)⟩
  | cell m =>
    obtain ⟨h0, h1, hg, ht⟩ := alter_cell_ok h
    have hm : m.toNat < e.grid.size := by omega
    rw [if_pos (hk.2 _ hm).1] at ht
    intro n hn
    rw [hf.size] at hn
    have hT' := hT n hn
    have hact : ∀ k, k ∈ e1.toppling.active_cells ↔
        (if f (e.grid.cells m.toNat).height < e.toppling.topple_threshold
          then k ∈ e.toppling.active_cells ∧ k ≠ m.toNat
          else k = m.toNat ∨ k ∈ e.toppling.active_cells) := by
      intro k
      rw [ht]
      unfold Toppling.CheckCell
      rw [hk.1]
      simp only []
      split_ifs with hlt
      · exact mem_setErase _ _ _
      · exact mem_setInsert _ _ _
    rw [hf.threshold]
    by_cases hnm : n = m.toNat
    · subst hnm
      have hh : (e1.grid.cells m.toNat).height = f (e.grid.cells m.toNat).height := by
        rw [hg]; simp
      rw [hh, hact]
      by_cases hlt : f (e.grid.cells m.toNat).height < e.toppling.topple_threshold
      · rw [if_pos hlt]
        exact ⟨fun hmem => absurd rfl hmem.2, fun hge => absurd hlt (not_lt.mpr hge)⟩
      · rw [if_neg hlt]
        exact ⟨fun _ => not_lt.mp hlt, fun _ => Or.inl (Or.inl rfl)⟩
    · have hh : (e1.grid.cells n).height = (e.grid.cells n).height := by
        rw [hg]; simp [Function.update_noteq hnm]
      rw [hh, hact]
      split_ifs with hlt
      · refine ⟨fun hmem => hT'.1 hmem.1, fun hge => ?_⟩
        rcases hT'.2 hge with ha | hp
        · exact Or.inl ⟨ha, hnm⟩
        · exact Or.inr ⟨hp, fun m' hm' => by cases hm'; exact hnm⟩
      · refine ⟨fun hmem => ?_, fun hge => ?_⟩
        · rcases hmem with rfl | hmem
          · exact absurd rfl hnm
          · exact hT'.1 hmem
        · rcases hT'.2 hge with ha | hp
          · exact Or.inl (Or.inr ha)
          · exact Or.inr ⟨hp, fun m' hm' => by cases hm'; exact hnm⟩

theorem alter_bounded {e e1 : Engine} {r : CellRef} {f : GrainType → GrainType}
    (hb : Bounded e) (h : e.alter r f = Except.ok e1) : Bounded e1 := by
  have hf := alter_frame h
  cases r with
  | reservoir =>
    obtain ⟨-, ht⟩ := alter_reservoir_ok h
    intro n hn
    rw [hf.size]; rw [ht] at hn; exact hb n hn
  | cell m =>
    obtain ⟨h0, h1, -, ht⟩ := alter_cell_ok h
    intro n hn
    rw [hf.size]
    rw [ht] at hn
    split_ifs at hn with hh
    · unfold Toppling.CheckCell at hn
      split at hn
      · exact hb n hn
      · exact hb n hn
      · split_ifs at hn
        · exact hb n ((mem_setErase _ _ _).mp hn).1
        · rcases (mem_setInsert _ _ _).mp hn with rfl | hn
          · omega
          · exact hb n hn
    · exact hb n hn

theorem Alters.tracked {e e1 : Engine} {P : Nat → Prop} (h : Alters e e1)
    (hk : Hooked e) (hT : Tracked e P) : Tracked e1 P := by
  induction h with
  | refl e => exact hT
  | step r f h _ ih =>
    exact ih (Hooked.of_frame (alter_frame h) hk)
      ((alter_tracked hk hT h).mono (fun n hp => hp.1))

theorem Alters.bounded {e e1 : Engine} (h : Alters e e1) (hb : Bounded e) : Bounded e1 := by
  induction h with
  | refl e => exact hb
  | step r f h _ ih => exact ih (alter_bounded hb h)

theorem Topple_frame {e : Engine} {dg : Option Grid} {cell : CellRef} {nb : List CellRef}
    {st : Statics} {b : Bool} {e1 : Engine} {st1 : Statics}
    (h : e.Topple dg cell nb st = Except.ok (b, e1, st1))
    (hm : e.toppling.toppling_method ≠ TopplingMethod.Rossum2011_diss) :
    Engine.Frame e e1 ∧ Engine.Kept e e1 := by
  obtain ⟨c, -, hcase⟩ := Topple_cases h hm
  rcases hcase with ⟨-, -, rfl⟩ | ⟨-, -, e2, h2, ha⟩
  · exact ⟨Engine.Frame.refl _, rfl, rfl⟩
  · exact ⟨(alter_frame h2).frame_trans ha.frame, (alter_kept h2).kept_trans ha.kept⟩

theorem Topple_tracked {e : Engine} {dg : Option Grid} {m : Int} {nb : List CellRef}
    {st : Statics} {b : Bool} {e1 : Engine} {st1 : Statics} {P : Nat → Prop}
    (hk : Hooked e) (hT : Tracked e P) (hb : Bounded e)
    (hm : e.toppling.toppling_method ≠ TopplingMethod.Rossum2011_diss)
    (h : e.Topple dg (CellRef.cell m) nb st = Except.ok (b, e1, st1)) :
    Tracked e1 (fun n => P n ∧ (n : Int) ≠ m) ∧ Bounded e1 := by
  obtain ⟨c, hc, hcase⟩ := Topple_cases h hm
  obtain ⟨h0, h1, rfl⟩ := read_cell_ok hc
  have hcast : ∀ n : Nat, n ≠ m.toNat → (n : Int) ≠ m := by
    intro n hn hnm; apply hn; omega
  rcases hcase with ⟨hlt, -, rfl⟩ | ⟨-, -, e2, h2, ha⟩
  · refine ⟨fun n hn => ⟨(hT n hn).1, fun hge => ?_⟩, hb⟩
    rcases (hT n hn).2 hge with ha | hp
    · exact Or.inl ha
    · refine Or.inr ⟨hp, hcast n ?_⟩
      rintro rfl
      exact absurd hlt (not_lt.mpr hge)
  · have t2 := alter_tracked hk hT h2
    have t3 := ha.tracked (Hooked.of_frame (alter_frame h2) hk) t2
    exact ⟨t3.mono (fun n hp => ⟨hp.1, hcast n (hp.2 m rfl)⟩), ha.bounded (alter_bounded hb h2)⟩

theorem sweep_tracked (dg : Option Grid) (fuel : Nat) : ∀ (l : List Int) (e : Engine)
    (st : Statics) (k : Nat) (e1 : Engine) (st1 : Statics) (P : Nat → Prop),
    Hooked e → e.toppling.toppling_method ≠ TopplingMethod.Rossum2011_diss →
    Tracked e P → Bounded e → Engine.sweep dg fuel l e st = Except.ok (k, e1, st1) →
    Engine.Frame e e1 ∧ Engine.Kept e e1
      ∧ Tracked e1 (fun n => P n ∧ (n : Int) ∉ l) ∧ Bounded e1
  | [], e, st, k, e1, st1, P, _, _, hT, hb, h => by
    simp only [Engine.sweep, pure, Except.pure] at h
    have := Except.ok.inj h
    simp only [Prod.mk.injEq] at this
    obtain ⟨-, rfl, -⟩ := this
    exact ⟨Engine.Frame.refl _, ⟨rfl, rfl⟩, hT.mono (fun n hp => ⟨hp, by simp⟩), hb⟩
  | idx :: rest, e, st, k, e1, st1, P, hk, hm, hT, hb, h => by
    simp only [Engine.sweep] at h
    obtain ⟨p, hp, h⟩ := bind_ok h
    obtain ⟨q, hq, h⟩ := bind_ok h
    simp only [pure, Except.pure] at h
    have := Except.ok.inj h
    simp only [Prod.mk.injEq] at this
    obtain ⟨-, rfl, -⟩ := this
    obtain ⟨nb, st0, -, ht⟩ := @visit_ok _ _ _ _ _ p.1 p.2.1 p.2.2 hp
    have hfr := Topple_frame ht hm
    have htr := Topple_tracked hk hT hb hm ht
    have ih := sweep_tracked dg fuel rest p.2.1 p.2.2 q.1 q.2.1 q.2.2 _
      (Hooked.of_frame hfr.1 hk) (by rw [hfr.1.method]; exact hm) htr.1 htr.2 hq
    refine ⟨hfr.1.frame_trans ih.1, hfr.2.kept_trans ih.2.1, ih.2.2.1.mono (fun n hp => ⟨hp.1.1, ?_⟩),
      ih.2.2.2⟩
    simp only [List.mem_cons, not_or]
    exact ⟨hp.1.2, hp.2⟩

theorem Tracked.weaken {e : Engine} {P Q : Nat → Prop} (h : Tracked e P)
    (hPQ : ∀ n, n < e.grid.size → P n → Q n) : Tracked e Q := fun n hn =>
  ⟨(h n hn).1, fun hh => ((h n hn).2 hh).imp id (hPQ n hn)⟩

theorem swapAt_onto {α : Type} (a : Nat → α) (n i j : Nat) (hi : i < n) (hj : j < n) (k : Nat)
    (hk : k < n) : ∃ k1, k1 < n ∧ swapAt a i j k1 = a k := by
  by_cases h1 : k = i
  · subst h1
    refine ⟨j, hj, ?_⟩
    unfold swapAt
    by_cases h2 : j = k
    · subst h2; simp
    · simp [h2]
  · by_cases h2 : k = j
    · subst h2
      exact ⟨i, hi, by simp [swapAt]⟩
    · exact ⟨k, hk, by simp [swapAt, h1, h2]⟩

theorem shuffleLoop_onto {α : Type} (rand : Statics → Nat → Nat × Statics)
    (hrand : ∀ st size, 0 < size → (rand st size).1 < size) (n : Nat) :
    ∀ (count i : Nat) (a : Nat → α) (st : Statics), i + count ≤ n →
      ∀ k, k < n → ∃ k1, k1 < n ∧ (shuffleLoop rand i count a st).1 k1 = a k
  | 0, i, a, st, _, k, hk => ⟨k, hk, by simp [shuffleLoop]⟩
  | count + 1, i, a, st, hle, k, hk => by
    simp only [shuffleLoop]
    have hj := hrand st (i + 1) (Nat.succ_pos i)
    by_cases hne : i ≠ (rand st (i + 1)).1
    · rw [if_pos hne]
      obtain ⟨k0, hk0, e0⟩ := swapAt_onto a n i (rand st (i + 1)).1 (by omega) (by omega) k hk
      obtain ⟨k1, hk1, e1⟩ := shuffleLoop_onto rand hrand n count (i + 1)
        (swapAt a i (rand st (i + 1)).1) (rand st (i + 1)).2 (by omega) k0 hk0
      exact ⟨k1, hk1, e1.trans e0⟩
    · rw [if_neg hne]
      exact shuffleLoop_onto rand hrand n count (i + 1) a (rand st (i + 1)).2 (by omega) k hk

theorem boost_random_lt (st : Statics) (size : Nat) (h : 0 < size) :
    (boost_random st size).1 < size := by
  simp only [boost_random, Gen.below]
  exact Nat.mod_lt _ h

theorem random_shuffle_onto {α : Type} (n : Nat) (a : Nat → α) (st : Statics) (k : Nat)
    (hk : k < n) : ∃ k1, k1 < n ∧ (random_shuffle boost_random n a st).1 k1 = a k := by
  unfold random_shuffle
  exact shuffleLoop_onto boost_random boost_random_lt n (n - 1) 1 a st (by omega) k hk

theorem countGrains_ok {t t1 : Toppling} {b : Bool} {n : Int}
    (h : t.countGrains b n = Except.ok t1) :
    t1.active_cells = t.active_cells ∧ t1.topple_threshold = t.topple_threshold
    ∧ t1.toppling_iterator = t.toppling_iterator ∧ t1.toppling_method = t.toppling_method
    ∧ t1.diss_amount = t.diss_amount ∧ t1.diss_rate = t.diss_rate
    ∧ t1.diss_threshold = t.diss_threshold ∧ t1.dissipative_mode = t.dissipative_mode
    ∧ t1.diss_grid = t.diss_grid ∧ t1.countDuringAvalanches = t.countDuringAvalanches
    ∧ t1.random_indices = t.random_indices
    ∧ (b = false → t1 = t)
    ∧ (t.noDuringAvalanches.isSome → t1.noDuringAvalanches.isSome)
    ∧ (b = true → t1.noDuringAvalanches.isSome) := by
  unfold Toppling.countGrains at h
  cases b with
  | false =>
    simp only [Bool.false_eq_true, if_false, pure, Except.pure] at h
    cases Except.ok.inj h
    simp
  | true =>
    simp only [if_true] at h
    split at h
    · simp [throw, throwThe, MonadExceptOf.throw] at h
    · simp only [pure, Except.pure] at h
      cases Except.ok.inj h
      simp

theorem pass_follow {e : Engine} {dg : Option Grid} {fuel it_n : Nat} {st : Statics}
    {k : Nat} {quit : Bool} {e1 : Engine} {st1 : Statics}
    (hk : Hooked e) (hm : e.toppling.toppling_method ≠ TopplingMethod.Rossum2011_diss)
    (hsup : ∀ n, n < e.grid.size →
      e.toppling.topple_threshold ≤ (e.grid.cells n).height → n ∈ e.toppling.active_cells)
    (h : e.pass dg fuel it_n st = Except.ok (k, quit, e1, st1)) :
    Engine.Frame e e1 ∧ Tracked e1 (fun _ => False) ∧ Bounded e1
      ∧ quit = decide (e1.toppling.active_cells = [])
      ∧ (e.toppling.noDuringAvalanches.isSome → e1.toppling.noDuringAvalanches.isSome)
      ∧ (e.toppling.countDuringAvalanches = true → e1.toppling.noDuringAvalanches.isSome) := by
  unfold Engine.pass at h
  simp only [] at h
  split at h
  · rename_i heq; rw [hk.1] at heq; cases heq
  · rename_i heq; rw [hk.1] at heq; cases heq
  obtain ⟨t2, ht2, h⟩ := bind_ok h
  obtain ⟨p, hp, h⟩ := bind_ok h
  obtain ⟨t3, ht3, h⟩ := bind_ok h
  simp only [pure, Except.pure] at h
  have := Except.ok.inj h
  simp only [Prod.mk.injEq] at this
  obtain ⟨-, hquit, he1, -⟩ := this
  have c2 := countGrains_ok ht2
  have c3 := countGrains_ok ht3
  simp only [] at c2
  -- the state in which the sweep starts
  have hk0 : Hooked { e with toppling := t2 } := ⟨c2.2.2.1.trans hk.1, hk.2⟩
  have hm0 : ({ e with toppling := t2 } : Engine).toppling.toppling_method
      ≠ TopplingMethod.Rossum2011_diss := by
    show t2.toppling_method ≠ _
    rw [c2.2.2.2.1]; exact hm
  have hT0 : Tracked { e with toppling := t2 } (fun n => n ∈ e.toppling.active_cells) := by
    intro n hn
    show (n ∈ t2.active_cells → t2.topple_threshold ≤ _) ∧ (t2.topple_threshold ≤ _ → _)
    rw [c2.1, c2.2.1]
    exact ⟨fun hmem => by simp at hmem, fun hge => Or.inr (hsup n hn hge)⟩
  have hb0 : Bounded { e with toppling := t2 } := by
    intro n hn
    have : n ∈ t2.active_cells := hn
    rw [c2.1] at this
    simp at this
  obtain ⟨hfr, hkept, hT1, hb1⟩ := sweep_tracked dg fuel _ _ _ p.1 p.2.1 p.2.2 _ hk0 hm0 hT0 hb0 hp
  have hsz : p.2.1.grid.size = e.grid.size := hfr.size
  have hT2 : Tracked p.2.1 (fun _ => False) := by
    refine hT1.weaken (fun n hn hP => hP.2 ?_)
    rw [hsz] at hn
    obtain ⟨hmem, -⟩ := hP
    -- the identity of a listed cell is among the shuffled indices
    obtain ⟨pos, hpos, hget⟩ := List.mem_iff_getElem.mp hmem
    have hlen : (e.toppling.active_cells.map (fun n => (e.grid.cells n).id)).length
        = e.toppling.active_cells.length := List.length_map _ _
    obtain ⟨k1, hk1, hk1e⟩ := random_shuffle_onto
      (e.toppling.active_cells.map (fun n => (e.grid.cells n).id)).length
      (fun k => (e.toppling.active_cells.map (fun n => (e.grid.cells n).id)).getD k 0)
      st pos (by rw [hlen]; exact hpos)
    rw [List.mem_map]
    refine ⟨k1, List.mem_range.mpr hk1, ?_⟩
    rw [hk1e]
    simp only [List.getD_eq_getElem?_getD, List.getElem?_map]
    rw [List.getElem?_eq_getElem hpos, hget]
    simp [(hk.2 n hn).2]
  subst he1
  refine ⟨?_, ?_, ?_, ?_, ?_, ?_⟩
  · have f0 : Engine.Frame e { e with toppling := t2 } :=
      ⟨rfl, rfl, rfl, rfl, fun _ => rfl, fun _ => rfl, fun _ => rfl, c2.2.1, c2.2.2.1,
        c2.2.2.2.1, c2.2.2.2.2.1, c2.2.2.2.2.2.1, c2.2.2.2.2.2.2.1, c2.2.2.2.2.2.2.2.1,
        c2.2.2.2.2.2.2.2.2.1, c2.2.2.2.2.2.2.2.2.2.1, rfl⟩
    have f1 : Engine.Frame p.2.1 { p.2.1 with toppling := t3 } :=
      ⟨rfl, rfl, rfl, rfl, fun _ => rfl, fun _ => rfl, fun _ => rfl, c3.2.1, c3.2.2.1,
        c3.2.2.2.1, c3.2.2.2.2.1, c3.2.2.2.2.2.1, c3.2.2.2.2.2.2.1, c3.2.2.2.2.2.2.2.1,
        c3.2.2.2.2.2.2.2.2.1, c3.2.2.2.2.2.2.2.2.2.1, rfl⟩
    exact (f0.frame_trans hfr).frame_trans f1
  · intro n hn
    show (n ∈ t3.active_cells → t3.topple_threshold ≤ _) ∧ (t3.topple_threshold ≤ _ → _)
    rw [c3.1, c3.2.1]
    exact hT2 n hn
  · intro n hn
    have : n ∈ t3.active_cells := hn
    rw [c3.1] at this
    exact hb1 n this
  · exact hquit.symm
  · intro hs
    exact c3.2.2.2.2.2.2.2.2.2.2.2.2.1 (by
      rw [hkept.1]
      exact c2.2.2.2.2.2.2.2.2.2.2.2.2.1 hs)
  · intro hc
    refine c3.2.2.2.2.2.2.2.2.2.2.2.2.2 ?_
    rw [hfr.count]
    show t2.countDuringAvalanches = true
    rw [c2.2.2.2.2.2.2.2.2.2.1]; exact hc

theorem toppleLoop_follow (dg : Option Grid) (fuel : Nat) : ∀ (passes it_n : Nat) (av : Int)
    (e : Engine) (st : Statics) (a : Int) (e1 : Engine) (st1 : Statics),
    Hooked e → e.toppling.toppling_method ≠ TopplingMethod.Rossum2011_diss →
    (∀ n, n < e.grid.size →
      e.toppling.topple_threshold ≤ (e.grid.cells n).height → n ∈ e.toppling.active_cells) →
    Engine.toppleLoop dg fuel passes it_n av e st = Except.ok (a, e1, st1) →
    Engine.Frame e e1 ∧ e1.toppling.active_cells = [] ∧ Tracked e1 (fun _ => False)
      ∧ (e.toppling.noDuringAvalanches.isSome → e1.toppling.noDuringAvalanches.isSome)
      ∧ (e.toppling.countDuringAvalanches = true → e1.toppling.noDuringAvalanches.isSome)
  | 0, _, _, _, _, _, _, _, _, _, _, h => by
    simp [Engine.toppleLoop, throw, throwThe, MonadExceptOf.throw] at h
  | passes + 1, it_n, av, e, st, a, e1, st1, hk, hm, hsup, h => by
    simp only [Engine.toppleLoop] at h
    obtain ⟨p, hp, h⟩ := bind_ok h
    obtain ⟨hfr, hT, -, hquit, hs, hc⟩ :=
      @pass_follow _ _ _ _ _ p.1 p.2.1 p.2.2.1 p.2.2.2 hk hm hsup hp
    by_cases hq : p.2.1 = true
    · rw [if_pos hq] at h
      simp only [pure, Except.pure] at h
      have := Except.ok.inj h
      simp only [Prod.mk.injEq] at this
      obtain ⟨-, rfl, -⟩ := this
      rw [hquit] at hq
      exact ⟨hfr, of_decide_eq_true hq, hT, hs, hc⟩
    · rw [if_neg hq] at h
      have ih := toppleLoop_follow dg fuel passes (it_n + 1) (av + p.1) p.2.2.1 p.2.2.2 a e1 st1
        (Hooked.of_frame hfr hk) (by rw [hfr.method]; exact hm)
        (fun n hn hge => ((hT n hn).2 hge).elim id False.elim) h
      refine ⟨hfr.frame_trans ih.1, ih.2.1, ih.2.2.1, fun x => ih.2.2.2.1 (hs x), fun x => ?_⟩
      exact ih.2.2.2.1 (hc x)

theorem ToppleAll_follow {e : Engine} {dg : Option Grid} {av : Int} {st : Statics} {fuel : Nat}
    {a : Int} {e1 : Engine} {st1 : Statics}
    (hk : Hooked e) (hm : e.toppling.toppling_method ≠ TopplingMethod.Rossum2011_diss)
    (hsup : ∀ n, n < e.grid.size →
      e.toppling.topple_threshold ≤ (e.grid.cells n).height → n ∈ e.toppling.active_cells)
    (h : e.ToppleAll dg av st fuel = Except.ok (a, e1, st1)) :
    Engine.Frame e e1 ∧ e1.toppling.active_cells = []
      ∧ ∀ n, n < e1.grid.size → (e1.grid.cells n).height < e1.toppling.topple_threshold := by
  unfold Engine.ToppleAll at h
  obtain ⟨hfr, hnil, hT, -, -⟩ := toppleLoop_follow dg fuel fuel 0 0 e st a e1 st1 hk hm hsup h
  refine ⟨hfr, hnil, fun n hn => ?_⟩
  by_contra hge
  rcases (hT n hn).2 (not_lt.mp hge) with hmem | hf
  · rw [hnil] at hmem; simp at hmem
  · exact hf

/-- A pass of an engine that follows the activity and whose active set is empty
visits no cell. -/
theorem pass_idle {e : Engine} {dg : Option Grid} {fuel it_n : Nat} {st : Statics}
    {k : Nat} {quit : Bool} {e1 : Engine} {st1 : Statics}
    (hit : e.toppling.toppling_iterator = TopplingIterator.FOLLOW_ACTIVITY)
    (hnil : e.toppling.active_cells = [])
    (h : e.pass dg fuel it_n st = Except.ok (k, quit, e1, st1)) :
    k = 0 ∧ quit = true ∧ e1.grid = e.grid ∧ e1.toppling.active_cells = []
      ∧ e1.toppling.toppling_iterator = TopplingIterator.FOLLOW_ACTIVITY ∧ st1 = st
      ∧ (e.toppling.countDuringAvalanches = false → e1 = e) := by
  unfold Engine.pass at h
  simp only [] at h
  split at h
  · rename_i heq; rw [hit] at heq; cases heq
  · rename_i heq; rw [hit] at heq; cases heq
  obtain ⟨t2, ht2, h⟩ := bind_ok h
  obtain ⟨p, hp, h⟩ := bind_ok h
  obtain ⟨t3, ht3, h⟩ := bind_ok h
  simp only [pure, Except.pure] at h
  have := Except.ok.inj h
  simp only [Prod.mk.injEq] at this
  obtain ⟨hk1, hquit, he1, hst⟩ := this
  have c2 := countGrains_ok ht2
  have c3 := countGrains_ok ht3
  simp only [] at c2
  simp only [hnil, List.map_nil, List.length_nil, List.range_zero, Engine.sweep, pure,
    Except.pure, random_shuffle, shuffleLoop] at hp
  have := Except.ok.inj hp
  subst this
  simp only [] at hk1 hquit he1 hst c3
  subst he1
  have hact : t3.active_cells = [] := by rw [c3.1, c2.1]
  refine ⟨hk1.symm, ?_, rfl, hact, ?_, hst.symm, fun hc => ?_⟩
  · rw [← hquit]; simp [hact]
  · show t3.toppling_iterator = _
    rw [c3.2.2.1, c2.2.2.1]; exact hit
  · have h2 : t2 = { e.toppling with active_cells := [] } :=
      c2.2.2.2.2.2.2.2.2.2.2.2.1 (by rw [hc]; rfl)
    have h3 : t3 = t2 := c3.2.2.2.2.2.2.2.2.2.2.2.1 (by
      show t2.countDuringAvalanches = false
      rw [c2.2.2.2.2.2.2.2.2.2.1]; exact hc)
    rw [h3, h2]
    cases e with
    | mk g t =>
      simp only [] at hnil ⊢
      cases t
      simp only [] at hnil
      subst hnil
      rfl

theorem write_frame {g g1 : Grid} {r : CellRef} {c c1 : Cell}
    (hr : g.read r = Except.ok c) (hw : g.write r c1 = Except.ok g1)
    (h1 : c1.altered_function = c.altered_function) (h2 : c1.id = c.id)
    (h3 : c1.max_capacity = c.max_capacity) (t : Toppling) :
    Engine.Frame { grid := g, toppling := t } { grid := g1, toppling := t } := by
  cases r with
  | reservoir =>
    simp only [Grid.write, pure, Except.pure] at hw
    cases Except.ok.inj hw
    simp only [Grid.read, pure, Except.pure] at hr
    cases Except.ok.inj hr
    exact ⟨rfl, rfl, rfl, rfl, fun _ => rfl, fun _ => rfl, fun _ => rfl, rfl, rfl, rfl, rfl, rfl,
      rfl, rfl, rfl, rfl, h2⟩
  | cell n =>
    obtain ⟨-, -, rfl⟩ := read_cell_ok hr
    obtain ⟨-, -, rfl⟩ := write_cell_ok hw
    have hcell : ∀ k, (Function.update g.cells n.toNat c1 k).altered_function
          = (g.cells k).altered_function
        ∧ (Function.update g.cells n.toNat c1 k).id = (g.cells k).id
        ∧ (Function.update g.cells n.toNat c1 k).max_capacity = (g.cells k).max_capacity := by
      intro k
      by_cases hk : k = n.toNat
      · subst hk; simp [h1, h2, h3]
      · simp [Function.update_noteq hk]
    exact ⟨rfl, rfl, rfl, rfl, fun k => (hcell k).1, fun k => (hcell k).2.1,
      fun k => (hcell k).2.2, rfl, rfl, rfl, rfl, rfl, rfl, rfl, rfl, rfl, rfl⟩

theorem SetDirection_frame {e e1 : Engine} {r : CellRef} {d : Int}
    (h : e.SetDirection r d = Except.ok e1) : Engine.Frame e e1 ∧ e1.toppling = e.toppling := by
  unfold Engine.SetDirection at h
  obtain ⟨c, hc, h⟩ := bind_ok h
  obtain ⟨g1, hg, h⟩ := bind_ok h
  simp only [pure, Except.pure] at h
  cases Except.ok.inj h
  exact ⟨write_frame hc hg rfl rfl rfl e.toppling, rfl⟩

theorem Transfer_frame {e e1 : Engine} {src target : CellRef} {number x : GrainType}
    (h : e.Transfer src target number = Except.ok (x, e1)) :
    Engine.Frame e e1 ∧ e1.toppling = e.toppling := by
  unfold Engine.Transfer at h
  obtain ⟨s, hs, h⟩ := bind_ok h
  obtain ⟨t, ht, h⟩ := bind_ok h
  obtain ⟨g1, hg1, h⟩ := bind_ok h
  obtain ⟨t1, ht1, h⟩ := bind_ok h
  obtain ⟨g2, hg2, h⟩ := bind_ok h
  simp only [pure, Except.pure] at h
  have := Except.ok.inj h
  simp only [Prod.mk.injEq] at this
  obtain ⟨-, rfl⟩ := this
  have f1 := write_frame hs hg1 rfl rfl rfl e.toppling
  have f2 := write_frame ht1 hg2 rfl rfl rfl e.toppling
  exact ⟨f1.frame_trans f2, rfl⟩

/-- Under every rule the per-cell `Topple` leaves the configuration untouched. -/
theorem Topple_frame_all {e : Engine} {dg : Option Grid} {cell : CellRef} {nb : List CellRef}
    {st : Statics} {b : Bool} {e1 : Engine} {st1 : Statics}
    (h : e.Topple dg cell nb st = Except.ok (b, e1, st1)) :
    Engine.Frame e e1 ∧ Engine.Kept e e1
      ∧ (e.toppling.toppling_method = TopplingMethod.Rossum2011_diss →
          b = false ∧ e1.toppling = e.toppling) := by
  by_cases hm : e.toppling.toppling_method = TopplingMethod.Rossum2011_diss
  · unfold Engine.Topple at h
    simp only [] at h
    obtain ⟨c, hc, h⟩ := bind_ok h
    have key : b = false ∧ Engine.Frame e e1 ∧ e1.toppling = e.toppling := by
      split at h
      · simp only [hm] at h
        split at h
        · split at h
          · simp [throw, throwThe, MonadExceptOf.throw] at h
          · split at h
            · simp [throw, throwThe, MonadExceptOf.throw] at h
            · obtain ⟨p, hp, h⟩ := bind_ok h
              obtain ⟨e2, h2, h⟩ := bind_ok h
              have f1 := @Transfer_frame _ p.2 _ _ _ p.1 hp
              have f2 := SetDirection_frame h2
              split at h
              · split at h
                · simp [throw, throwThe, MonadExceptOf.throw] at h
                · obtain ⟨e3, h3, h⟩ := bind_ok h
                  have f3 := SetDirection_frame h3
                  simp only [pure, Except.pure] at h
                  have := Except.ok.inj h
                  simp only [Prod.mk.injEq] at this
                  obtain ⟨rfl, rfl, -⟩ := this
                  exact ⟨rfl, (f1.1.frame_trans f2.1).frame_trans f3.1, by rw [f3.2, f2.2, f1.2]⟩
              · simp only [pure, Except.pure] at h
                have := Except.ok.inj h
                simp only [Prod.mk.injEq] at this
                obtain ⟨rfl, rfl, -⟩ := this
                exact ⟨rfl, f1.1.frame_trans f2.1, by rw [f2.2, f1.2]⟩
        · simp only [pure, Except.pure] at h
          have := Except.ok.inj h
          simp only [Prod.mk.injEq] at this
          obtain ⟨rfl, rfl, -⟩ := this
          exact ⟨rfl, Engine.Frame.refl _, rfl⟩
      · simp only [pure, Except.pure] at h
        have := Except.ok.inj h
        simp only [Prod.mk.injEq] at this
        obtain ⟨rfl, rfl, -⟩ := this
        exact ⟨rfl, Engine.Frame.refl _, rfl⟩
    refine ⟨key.2.1, ?_, fun _ => ⟨key.1, key.2.2⟩⟩
    rw [Engine.Kept, key.2.2]
    exact ⟨rfl, rfl⟩
  · obtain ⟨f, k⟩ := Topple_frame h hm
    exact ⟨f, k, fun h' => absurd h' hm⟩

theorem sweep_frame (dg : Option Grid) (fuel : Nat) : ∀ (l : List Int) (e : Engine)
    (st : Statics) (k : Nat) (e1 : Engine) (st1 : Statics),
    Engine.sweep dg fuel l e st = Except.ok (k, e1, st1) →
    Engine.Frame e e1 ∧ Engine.Kept e e1
      ∧ (e.toppling.toppling_method = TopplingMethod.Rossum2011_diss →
          k = 0 ∧ e1.toppling = e.toppling)
  | [], e, st, k, e1, st1, h => by
    simp only [Engine.sweep, pure, Except.pure] at h
    have := Except.ok.inj h
    simp only [Prod.mk.injEq] at this
    obtain ⟨rfl, rfl, -⟩ := this
    exact ⟨Engine.Frame.refl _, ⟨rfl, rfl⟩, fun _ => ⟨rfl, rfl⟩⟩
  | idx :: rest, e, st, k, e1, st1, h => by
    simp only [Engine.sweep] at h
    obtain ⟨p, hp, h⟩ := bind_ok h
    obtain ⟨q, hq, h⟩ := bind_ok h
    simp only [pure, Except.pure] at h
    have := Except.ok.inj h
    simp only [Prod.mk.injEq] at this
    obtain ⟨rfl, rfl, -⟩ := this
    obtain ⟨nb, st0, -, ht⟩ := @visit_ok _ _ _ _ _ p.1 p.2.1 p.2.2 hp
    obtain ⟨f1, k1, d1⟩ := Topple_frame_all ht
    obtain ⟨f2, k2, d2⟩ := sweep_frame dg fuel rest p.2.1 p.2.2 q.1 q.2.1 q.2.2 hq
    refine ⟨f1.frame_trans f2, k1.kept_trans k2, fun hm => ?_⟩
    obtain ⟨hb, ht1⟩ := d1 hm
    obtain ⟨hk, ht2⟩ := d2 (by rw [f1.method]; exact hm)
    rw [hb, hk, ht2, ht1]
    exact ⟨by simp, rfl⟩

theorem Frame.of_toppling {e : Engine} {t : Toppling}
    (h1 : t.topple_threshold = e.toppling.topple_threshold)
    (h2 : t.toppling_iterator = e.toppling.toppling_iterator)
    (h3 : t.toppling_method = e.toppling.toppling_method)
    (h4 : t.diss_amount = e.toppling.diss_amount)
    (h5 : t.diss_rate = e.toppling.diss_rate)
    (h6 : t.diss_threshold = e.toppling.diss_threshold)
    (h7 : t.dissipative_mode = e.toppling.dissipative_mode)
    (h8 : t.diss_grid = e.toppling.diss_grid)
    (h9 : t.countDuringAvalanches = e.toppling.countDuringAvalanches) :
    Engine.Frame e { e with toppling := t } :=
  ⟨rfl, rfl, rfl, rfl, fun _ => rfl, fun _ => rfl, fun _ => rfl, h1, h2, h3, h4, h5, h6, h7, h8,
    h9, rfl⟩

theorem Frame.from_toppling {e e1 : Engine} {t : Toppling}
    (h : Engine.Frame { e with toppling := t } e1)
    (h1 : t.topple_threshold = e.toppling.topple_threshold)
    (h2 : t.toppling_iterator = e.toppling.toppling_iterator)
    (h3 : t.toppling_method = e.toppling.toppling_method)
    (h4 : t.diss_amount = e.toppling.diss_amount)
    (h5 : t.diss_rate = e.toppling.diss_rate)
    (h6 : t.diss_threshold = e.toppling.diss_threshold)
    (h7 : t.dissipative_mode = e.toppling.dissipative_mode)
    (h8 : t.diss_grid = e.toppling.diss_grid)
    (h9 : t.countDuringAvalanches = e.toppling.countDuringAvalanches) :
    Engine.Frame e e1 :=
  (Frame.of_toppling h1 h2 h3 h4 h5 h6 h7 h8 h9).frame_trans h

theorem Frame.of_countGrains {e : Engine} {t1 : Toppling} {b : Bool} {n : Int}
    (h : e.toppling.countGrains b n = Except.ok t1) : Engine.Frame e { e with toppling := t1 } := by
  have c := countGrains_ok h
  exact Frame.of_toppling c.2.1 c.2.2.1 c.2.2.2.1 c.2.2.2.2.1 c.2.2.2.2.2.1 c.2.2.2.2.2.2.1
    c.2.2.2.2.2.2.2.1 c.2.2.2.2.2.2.2.2.1 c.2.2.2.2.2.2.2.2.2.1

/-- What one pass guarantees in every state of the engine. -/
theorem pass_general {e : Engine} {dg : Option Grid} {fuel it_n : Nat} {st : Statics}
    {k : Nat} {quit : Bool} {e1 : Engine} {st1 : Statics}
    (h : e.pass dg fuel it_n st = Except.ok (k, quit, e1, st1)) :
    Engine.Frame e e1
    ∧ (e.toppling.toppling_method = TopplingMethod.Rossum2011_diss → k = 0)
    ∧ (e.toppling.toppling_iterator = TopplingIterator.FOLLOW_ACTIVITY →
        quit = decide (e1.toppling.active_cells = [])
        ∧ (e.toppling.countDuringAvalanches = true → e1.toppling.noDuringAvalanches.isSome))
    ∧ (e.toppling.toppling_iterator ≠ TopplingIterator.FOLLOW_ACTIVITY →
        quit = decide (k = 0)) := by
  unfold Engine.pass at h
  simp only [] at h
  split at h
  · rename_i heq
    split at h
    · simp [throw, throwThe, MonadExceptOf.throw] at h
    · rename_i table htab
      obtain ⟨p, hp, h⟩ := bind_ok h
      simp only [pure, Except.pure] at h
      have := Except.ok.inj h
      simp only [Prod.mk.injEq] at this
      obtain ⟨rfl, rfl, rfl, -⟩ := this
      obtain ⟨f, -, d⟩ := sweep_frame dg fuel _ _ _ p.1 p.2.1 p.2.2 hp
      refine ⟨Frame.from_toppling f rfl rfl rfl rfl rfl rfl rfl rfl rfl, fun hm => (d hm).1, fun hit => ?_, fun _ => rfl⟩
      rw [heq] at hit; cases hit
  · rename_i heq
    split at h
    · simp [throw, throwThe, MonadExceptOf.throw] at h
    · rename_i table htab
      obtain ⟨p, hp, h⟩ := bind_ok h
      simp only [pure, Except.pure] at h
      have := Except.ok.inj h
      simp only [Prod.mk.injEq] at this
      obtain ⟨rfl, rfl, rfl, -⟩ := this
      obtain ⟨f, -, d⟩ := sweep_frame dg fuel _ _ _ p.1 p.2.1 p.2.2 hp
      refine ⟨Frame.from_toppling f rfl rfl rfl rfl rfl rfl rfl rfl rfl, fun hm => (d hm).1, fun hit => ?_, fun _ => rfl⟩
      rw [heq] at hit; cases hit
  · rename_i heq
    obtain ⟨t2, ht2, h⟩ := bind_ok h
    obtain ⟨p, hp, h⟩ := bind_ok h
    obtain ⟨t3, ht3, h⟩ := bind_ok h
    simp only [pure, Except.pure] at h
    have := Except.ok.inj h
    simp only [Prod.mk.injEq] at this
    obtain ⟨rfl, rfl, rfl, -⟩ := this
    have c2 := countGrains_ok ht2
    have c3 := countGrains_ok ht3
    simp only [] at c2
    obtain ⟨f, -, d⟩ := sweep_frame dg fuel _ _ _ p.1 p.2.1 p.2.2 hp
    have f0 : Engine.Frame e { e with toppling := t2 } :=
      Frame.of_toppling c2.2.1 c2.2.2.1 c2.2.2.2.1 c2.2.2.2.2.1 c2.2.2.2.2.2.1 c2.2.2.2.2.2.2.1
        c2.2.2.2.2.2.2.2.1 c2.2.2.2.2.2.2.2.2.1 c2.2.2.2.2.2.2.2.2.2.1
    have f1 := Frame.of_countGrains ht3
    refine ⟨(f0.frame_trans f).frame_trans f1, fun hm => (d (by
      show t2.toppling_method = _
      rw [c2.2.2.2.1]; exact hm)).1, fun _ => ⟨rfl, fun hc => ?_⟩, fun hne => absurd heq hne⟩
    refine c3.2.2.2.2.2.2.2.2.2.2.2.2.2 ?_
    rw [f.count]
    show t2.countDuringAvalanches = true
    rw [c2.2.2.2.2.2.2.2.2.2.1]; exact hc

/-- What the relaxation loop guarantees in every state of the engine. -/
theorem toppleLoop_general (dg : Option Grid) (fuel : Nat) : ∀ (passes it_n : Nat) (av : Int)
    (e : Engine) (st : Statics) (a : Int) (e1 : Engine) (st1 : Statics),
    Engine.toppleLoop dg fuel passes it_n av e st = Except.ok (a, e1, st1) →
    Engine.Frame e e1
    ∧ (e.toppling.toppling_method = TopplingMethod.Rossum2011_diss → a = av)
    ∧ (e.toppling.toppling_iterator = TopplingIterator.FOLLOW_ACTIVITY →
        e1.toppling.active_cells = []
        ∧ (e.toppling.countDuringAvalanches = true → e1.toppling.noDuringAvalanches.isSome))
  | 0, _, _, _, _, _, _, _, h => by
    simp [Engine.toppleLoop, throw, throwThe, MonadExceptOf.throw] at h
  | passes + 1, it_n, av, e, st, a, e1, st1, h => by
    simp only [Engine.toppleLoop] at h
    obtain ⟨p, hp, h⟩ := bind_ok h
    obtain ⟨f, d, fo, -⟩ :=
      @pass_general _ _ _ _ _ p.1 p.2.1 p.2.2.1 p.2.2.2 hp
    by_cases hq : p.2.1 = true
    · rw [if_pos hq] at h
      simp only [pure, Except.pure] at h
      have := Except.ok.inj h
      simp only [Prod.mk.injEq] at this
      obtain ⟨rfl, rfl, -⟩ := this
      refine ⟨f, fun hm => by rw [d hm]; simp, fun hit => ?_⟩
      obtain ⟨hquit, hc⟩ := fo hit
      rw [hquit] at hq
      exact ⟨of_decide_eq_true hq, hc⟩
    · rw [if_neg hq] at h
      obtain ⟨f2, d2, fo2⟩ :=
        toppleLoop_general dg fuel passes (it_n + 1) (av + p.1) p.2.2.1 p.2.2.2 a e1 st1 h
      refine ⟨f.frame_trans f2, fun hm => ?_, fun hit => ?_⟩
      · rw [d2 (by rw [f.method]; exact hm), d hm]; simp
      · obtain ⟨h1, h2⟩ := fo2 (by rw [f.iterator]; exact hit)
        exact ⟨h1, fun hc => h2 (by rw [f.count]; exact hc)⟩

/-- The relaxation of an engine that follows the activity and has an empty
active set: a single idle pass, no toppling event. -/
theorem ToppleAll_idle {e : Engine} {dg : Option Grid} {av : Int} {st : Statics} {fuel : Nat}
    {a : Int} {e1 : Engine} {st1 : Statics}
    (hit : e.toppling.toppling_iterator = TopplingIterator.FOLLOW_ACTIVITY)
    (hnil : e.toppling.active_cells = [])
    (h : e.ToppleAll dg av st fuel = Except.ok (a, e1, st1)) :
    a = 0 ∧ e1.grid = e.grid ∧ st1 = st := by
  unfold Engine.ToppleAll at h
  cases fuel with
  | zero => simp [Engine.toppleLoop, throw, throwThe, MonadExceptOf.throw] at h
  | succ fuel =>
    simp only [Engine.toppleLoop] at h
    obtain ⟨p, hp, h⟩ := bind_ok h
    obtain ⟨hk, hq, hg, -, -, hst, -⟩ :=
      @pass_idle _ _ _ _ _ p.1 p.2.1 p.2.2.1 p.2.2.2 hit hnil hp
    rw [if_pos hq] at h
    simp only [pure, Except.pure] at h
    have := Except.ok.inj h
    simp only [Prod.mk.injEq] at this
    obtain ⟨rfl, rfl, rfl⟩ := this
    exact ⟨by rw [hk]; simp, hg, hst⟩

/-- An idle relaxation returns: with an empty active set and a counter that is
present whenever counting is on, one pass suffices. -/
theorem ToppleAll_idle_returns (e : Engine) (dg : Option Grid) (av : Int) (st : Statics)
    (fuel : Nat)
    (hit : e.toppling.toppling_iterator = TopplingIterator.FOLLOW_ACTIVITY)
    (hnil : e.toppling.active_cells = [])
    (hc : e.toppling.countDuringAvalanches = true → e.toppling.noDuringAvalanches.isSome) :
    ∃ e1, e.ToppleAll dg av st (fuel + 1) = Except.ok (0, e1, st) ∧ e1.grid = e.grid
      ∧ (e.toppling.countDuringAvalanches = false → e1 = e) := by
  have hp : ∃ e1, e.pass dg (fuel + 1) 0 st = Except.ok (0, true, e1, st) := by
    unfold Engine.pass
    simp only [hit, hnil, List.map_nil, List.length_nil, List.range_zero, random_shuffle,
      shuffleLoop, Engine.sweep, Toppling.countGrains]
    by_cases hcount : e.toppling.countDuringAvalanches = true
    · obtain ⟨c, hcs⟩ := Option.isSome_iff_exists.mp (hc hcount)
      simp [hcount, hcs, bind, Except.bind, pure, Except.pure]
    · simp [hcount, bind, Except.bind, pure, Except.pure]
  obtain ⟨e1, he1⟩ := hp
  obtain ⟨-, -, hg, -, -, -, hsame⟩ := pass_idle hit hnil he1
  refine ⟨e1, ?_, hg, hsame⟩
  unfold Engine.ToppleAll
  simp only [Engine.toppleLoop, he1, bind, Except.bind, pure, Except.pure, if_true]
  simp

/-! ### The constructor -/

theorem Grid_new_fields (w h : Nat) (bt : BoundaryType) (st : Statics) :
    (Grid.new w h bt st).1.width = w ∧ (Grid.new w h bt st).1.height = h
    ∧ (Grid.new w h bt st).1.boundary_type = bt
    ∧ (∀ n, ((Grid.new w h bt st).1.cells n).height = 0)
    ∧ (∀ n, ((Grid.new w h bt st).1.cells n).id = (n : Int))
    ∧ (∀ n, ((Grid.new w h bt st).1.cells n).altered_function = false)
    ∧ (∀ n, ((Grid.new w h bt st).1.cells n).max_capacity = 10)
    ∧ (Grid.new w h bt st).1.reservoir.height = 0 := by
  simp [Grid.new]

theorem primaryToppling_ok {L : Nat} {m : TopplingMethod} {t : Toppling}
    (h : SandPile.primaryToppling L m = Except.ok t) :
    t.toppling_iterator = TopplingIterator.FOLLOW_ACTIVITY ∧ t.active_cells = []
    ∧ t.toppling_method = m
    ∧ t.topple_threshold = (if m = TopplingMethod.Manna_Lin2010 then 2
        else if m = TopplingMethod.Rossum2011_diss then 0 else 4)
    ∧ t.diss_amount = 4 ∧ t.countDuringAvalanches = false ∧ t.noDuringAvalanches = none
    ∧ t.diss_grid = false := by
  unfold SandPile.primaryToppling at h
  obtain ⟨t0, h0, h⟩ := bind_ok h
  simp only [pure, Except.pure] at h
  cases Except.ok.inj h
  cases m <;>
    simp [Toppling.SetTopplingMethod, throw, throwThe, MonadExceptOf.throw, pure,
      Except.pure] at h0 <;>
    subst h0 <;>
    simp [Toppling.SetTopplingIterator, Toppling.SetCounterDuringAvalanches, Toppling.new]

theorem new_fresh {L : Nat} {m : TopplingMethod} {type : BoundaryType} {st : Statics}
    {s : SandPile} {st1 : Statics}
    (h : SandPile.new L m type st = Except.ok (s, st1))
    (hm1 : m ≠ TopplingMethod.Rossum2011_diss) :
    ∃ g t, Fresh L m type s g t := by
  have gf := Grid_new_fields L L (resolvedBoundary m type) st
  unfold SandPile.new at h
  simp only [] at h
  rw [if_neg hm1] at h
  obtain ⟨t2, ht2, h⟩ := bind_ok h
  have pt := primaryToppling_ok ht2
  have hthr : t2.topple_threshold = (if m = TopplingMethod.Manna_Lin2010 then 2 else 4) := by
    rw [pt.2.2.2.1]
    by_cases h1 : m = TopplingMethod.Manna_Lin2010
    · simp [h1]
    · simp [h1, hm1]
  by_cases hr : m = TopplingMethod.Rossum2011
  · rw [if_pos hr] at h
    obtain ⟨q, hq, h⟩ := bind_ok h
    simp only [pure, Except.pure] at h
    have := Except.ok.inj h
    simp only [Prod.mk.injEq] at this
    obtain ⟨rfl, -⟩ := this
    unfold SandPile.DissipationGrid at hq
    simp only [Toppling.SetTopplingMethod, bind, Except.bind, pure, Except.pure] at hq
    have := Except.ok.inj hq
    subst this
    refine ⟨_, { t2 with diss_grid := true }, ⟨rfl, rfl, rfl, rfl, ?_, ?_, ?_, ?_, ?_, ?_, ?_, ?_,
      ?_, ?_, ?_, ?_, ?_⟩⟩
    · simp [Grid.registerCallbacks, gf]
    · simp [Grid.registerCallbacks, gf]
    · simp [Grid.registerCallbacks, gf]
    · intro n; simp only [Grid.registerCallbacks]; split_ifs <;> simp [gf]
    · intro n hn; simp [Grid.registerCallbacks, hn]
    · intro n; simp only [Grid.registerCallbacks]; split_ifs <;> simp [gf]
    · exact pt.1
    · exact pt.2.1
    · exact pt.2.2.1
    · exact hthr
    · exact pt.2.2.2.2.1
    · exact pt.2.2.2.2.2.1
    · intro hne; exact absurd hr hne
  · rw [if_neg hr] at h
    simp only [pure, Except.pure] at h
    have := Except.ok.inj h
    simp only [Prod.mk.injEq] at this
    obtain ⟨rfl, -⟩ := this
    refine ⟨_, t2, ⟨rfl, rfl, rfl, rfl, ?_, ?_, ?_, ?_, ?_, ?_, ?_, ?_, ?_, ?_, ?_, ?_, ?_⟩⟩
    · simp [Grid.registerCallbacks, gf]
    · simp [Grid.registerCallbacks, gf]
    · simp [Grid.registerCallbacks, gf]
    · intro n; simp only [Grid.registerCallbacks]; split_ifs <;> simp [gf]
    · intro n hn; simp [Grid.registerCallbacks, hn]
    · intro n; simp only [Grid.registerCallbacks]; split_ifs <;> simp [gf]
    · exact pt.1
    · exact pt.2.1
    · exact pt.2.2.1
    · exact hthr
    · exact pt.2.2.2.2.1
    · exact pt.2.2.2.2.2.1
    · intro _; exact ⟨rfl, rfl⟩

theorem new_returns (L : Nat) (m : TopplingMethod) (type : BoundaryType) (st : Statics)
    (hm : m ≠ TopplingMethod.TM_UNDEFINED) : ∃ p, SandPile.new L m type st = Except.ok p := by
  cases h : SandPile.new L m type st with
  | ok p => exact ⟨p, rfl⟩
  | error err =>
    exfalso
    cases m <;>
      simp [SandPile.new, SandPile.DissipationGrid, SandPile.primaryToppling,
        Toppling.SetTopplingMethod, bind, Except.bind, pure, Except.pure] at h
    exact hm rfl

/-! ### Relaxation after a direct mutation -/

/-- Counterexample to C7: in the scenario of the claim (4 by 4 Periodic grid, BTW rule,
threshold 4, cell 5 set to height 4 by direct mutation, all other cells 0) `Relax`
returns avalanche size 0, not 1, and leaves cell 5 at height 4 and its neighbours
at 0. -/
theorem C7_direct_mutation_counterexample :
    Run.value directMutationScenario
      = some (0, [0, 0, 0, 0, 0, 4, 0, 0, 0, 0, 0, 0, 0, 0, 0, 0]) := by
  decide!

theorem Relax_idle (s : SandPile) (g : Grid) (t : Toppling) (measure : Bool) (st : Statics)
    (fuel : Nat)
    (hg : s.grid = some g) (ht : s.toppling = some t) (hd : s.diss_toppling = none)
    (hit : t.toppling_iterator = TopplingIterator.FOLLOW_ACTIVITY)
    (hnil : t.active_cells = []) (hc : t.countDuringAvalanches = false) :
    s.Relax measure st (fuel + 1) = Except.ok (0, s, st) := by
  obtain ⟨e1, he1, -, hsame⟩ := ToppleAll_idle_returns { grid := g, toppling := t } s.diss_grid 0
    st fuel hit hnil (by intro h; rw [hc] at h; cases h)
  have he : e1 = { grid := g, toppling := t } := hsame hc
  subst he
  unfold SandPile.Relax SandPile.relaxDiss SandPile.relaxPrimary
  simp only [hd, hg, ht, he1, bind, Except.bind, pure, Except.pure]
  have hs : ({ s with grid := some g, toppling := some t, diss_toppling := none } : SandPile)
      = s := by
    cases s
    simp only [] at hg ht hd
    subst hg ht hd
    rfl
  simp [hs]

/-- C7 (amended): on a 4 by 4 Periodic grid with the BTW rule and threshold 4, after one
cell's height is set to exactly 4 by direct mutation (no Drive) and all other cells
are 0, `Relax` returns avalanche size 0 and leaves every height as it is: the
directly written height did not pass the notification hook, so the active set
of the FollowActivity strategy is empty and no cell is visited. -/
theorem C7_direct_mutation_not_relaxed (st : Statics) (i : Int) (hi0 : 0 ≤ i) (hi : i < 16) :
    ∃ s st1 s1,
      SandPile.new 4 TopplingMethod.Bak_Tang_Wiesenfeld1987 BoundaryType.BT_PERIODIC st
        = Except.ok (s, st1)
      ∧ s.SetHeight i 4 = Except.ok s1
      ∧ s1.heights
          = (List.range 16).map (fun n : Nat => if (n : Int) = i then (4 : GrainType) else 0)
      ∧ ∀ (measure : Bool) (st2 : Statics) (fuel : Nat),
          s1.Relax measure st2 (fuel + 1) = Except.ok (0, s1, st2) := by
  obtain ⟨⟨s, st1⟩, hnew⟩ := new_returns 4 TopplingMethod.Bak_Tang_Wiesenfeld1987
    BoundaryType.BT_PERIODIC st (by decide)
  obtain ⟨g, t, fr⟩ := new_fresh hnew (by decide)
  have hsz : (g.size : Int) = 16 := by
    unfold Grid.size; rw [fr.width, fr.height]; rfl
  have hset : TestCell.SetHeight g i 4 = Except.ok
      { g with cells := (Function.update g.cells i.toNat { g.cells i.toNat with height := 4 }) } := by
    unfold TestCell.SetHeight Grid.GetCellAt Grid.read Grid.write
    have h1 : i < (g.height : Int) * (g.width : Int) := by
      rw [fr.width, fr.height]; exact hi
    have h2 : 0 ≤ i ∧ i < (g.size : Int) := ⟨hi0, by rw [hsz]; exact hi⟩
    simp [h1, h2, bind, Except.bind, pure, Except.pure]
  refine ⟨s, st1, { s with grid := some { g with cells :=
    (Function.update g.cells i.toNat { g.cells i.toNat with height := 4 }) } }, hnew, ?_, ?_, ?_⟩
  · unfold SandPile.SetHeight
    simp [fr.grid, hset, bind, Except.bind, pure, Except.pure]
  · simp only [SandPile.heights, Grid.heights, fr.width, fr.height]
    apply List.map_congr_left
    intro n hn
    by_cases hni : (n : Int) = i
    · have : n = i.toNat := by omega
      subst this
      simp [hni]
    · have : n ≠ i.toNat := by omega
      simp [hni, Function.update_noteq this, fr.empty]
  · intro measure st2 fuel
    exact Relax_idle _ _ t measure st2 fuel rfl fr.toppling (fr.diss (by decide)).1 fr.iterator
      fr.active fr.count

/-- Witness of C7 (amended): the scenario with cell 5. -/
theorem C7_direct_mutation_not_relaxed_witness :
    (0 : Int) ≤ 5 ∧ (5 : Int) < 16 ∧
    ∃ s st1 s1,
      SandPile.new 4 TopplingMethod.Bak_Tang_Wiesenfeld1987 BoundaryType.BT_PERIODIC
        (Statics.initial (constSeed 1)) = Except.ok (s, st1)
      ∧ s.SetHeight 5 4 = Except.ok s1
      ∧ s1.heights
          = (List.range 16).map (fun n : Nat => if (n : Int) = 5 then (4 : GrainType) else 0)
      ∧ ∀ (measure : Bool) (st2 : Statics) (fuel : Nat),
          s1.Relax measure st2 (fuel + 1) = Except.ok (0, s1, st2) :=
  ⟨by decide, by decide,
    C7_direct_mutation_not_relaxed (Statics.initial (constSeed 1)) 5 (by decide) (by decide)⟩

/-! ### Two relaxations in a row -/



/-- Counterexample to C5: a sandpile whose primary toppling uses `RANDOM_FRACTION` and whose
cell 2 holds 4 grains.  The first `Relax` samples the cells 0 and 3, topples
nothing and returns 0; the immediately following `Relax` samples cell 2, which
topples, and returns avalanche size 1. -/
theorem C5_random_fraction_counterexample :
    Run.value relaxTwiceScenario = some (0, [0, 0, 4, 0], 1, [1, 0, 0, 1]) := by
  decide!

theorem relaxDiss_ok {s : SandPile} {av : Int} {st : Statics} {fuel : Nat} {a : Int}
    {s1 : SandPile} {st1 : Statics}
    (h : s.relaxDiss av st fuel = Except.ok (a, s1, st1)) :
    s1.grid = s.grid ∧ s1.toppling = s.toppling
    ∧ (s.diss_toppling = none → s1 = s ∧ st1 = st ∧ a = av)
    ∧ (∀ dt, s.diss_toppling = some dt →
        dt.toppling_method = TopplingMethod.Rossum2011_diss → a = 0) := by
  unfold SandPile.relaxDiss at h
  split at h
  · rename_i hn
    simp only [pure, Except.pure] at h
    have := Except.ok.inj h
    simp only [Prod.mk.injEq] at this
    obtain ⟨rfl, rfl, rfl⟩ := this
    exact ⟨rfl, rfl, fun _ => ⟨rfl, rfl, rfl⟩, fun dt hdt => (by rw [hn] at hdt; cases hdt)⟩
  · rename_i dt hdt
    split at h
    · simp [throw, throwThe, MonadExceptOf.throw] at h
    · obtain ⟨r, hr, h⟩ := bind_ok h
      simp only [pure, Except.pure] at h
      have := Except.ok.inj h
      simp only [Prod.mk.injEq] at this
      obtain ⟨rfl, rfl, rfl⟩ := this
      refine ⟨rfl, rfl, fun hn => (by rw [hn] at hdt; cases hdt), fun dt2 hdt2 hm => ?_⟩
      rw [hdt] at hdt2
      cases hdt2
      unfold Engine.ToppleAll at hr
      exact (toppleLoop_general none fuel fuel 0 0 _ st r.1 r.2.1 r.2.2 hr).2.1 hm

theorem relaxPrimary_ok {s : SandPile} {g : Grid} {t : Toppling} {av : Int} {st : Statics}
    {fuel : Nat} {a : Int} {s1 : SandPile} {st1 : Statics}
    (hg : s.grid = some g) (ht : s.toppling = some t)
    (h : s.relaxPrimary av st fuel = Except.ok (a, s1, st1)) :
    ∃ e, Engine.ToppleAll { grid := g, toppling := t } s.diss_grid av st fuel
        = Except.ok (a, e, st1)
      ∧ s1 = { s with grid := some e.grid, toppling := some e.toppling } := by
  unfold SandPile.relaxPrimary at h
  simp only [hg, ht] at h
  obtain ⟨r, hr, h⟩ := bind_ok h
  simp only [pure, Except.pure] at h
  have := Except.ok.inj h
  simp only [Prod.mk.injEq] at this
  obtain ⟨rfl, rfl, rfl⟩ := this
  exact ⟨r.2.1, hr, rfl⟩

theorem Relax_ok {s : SandPile} {measure : Bool} {st : Statics} {fuel : Nat} {a : Int}
    {s1 : SandPile} {st1 : Statics}
    (h : s.Relax measure st fuel = Except.ok (a, s1, st1)) :
    ∃ (a0 : Int) (sd : SandPile) (st0 : Statics) (a1 : Int) (sp : SandPile),
      s.relaxDiss 0 st fuel = Except.ok (a0, sd, st0)
      ∧ sd.relaxPrimary a0 st0 fuel = Except.ok (a1, sp, st1)
      ∧ a = (if a1 > 0 ∧ measure = true then a1 else 0)
      ∧ s1.grid = sp.grid ∧ s1.toppling = sp.toppling ∧ s1.diss_toppling = sp.diss_toppling
      ∧ s1.diss_grid = sp.diss_grid := by
  unfold SandPile.Relax at h
  simp only [] at h
  obtain ⟨p, hp, h⟩ := bind_ok h
  obtain ⟨q, hq, h⟩ := bind_ok h
  refine ⟨p.1, p.2.1, p.2.2, q.1, q.2.1, hp, ?_, ?_⟩
  · have : q.2.2 = st1 := by
      split at h <;>
      · simp only [pure, Except.pure] at h
        have := Except.ok.inj h
        simp only [Prod.mk.injEq] at this
        exact this.2.2
    rw [← this]; exact hq
  · by_cases hpos : q.1 > 0 ∧ measure = true
    · rw [if_pos hpos] at h
      simp only [pure, Except.pure] at h
      have := Except.ok.inj h
      simp only [Prod.mk.injEq] at this
      obtain ⟨rfl, rfl, -⟩ := this
      exact ⟨by rw [if_pos hpos], rfl, rfl, rfl, rfl⟩
    · rw [if_neg hpos] at h
      simp only [pure, Except.pure] at h
      have := Except.ok.inj h
      simp only [Prod.mk.injEq] at this
      obtain ⟨rfl, rfl, -⟩ := this
      exact ⟨by rw [if_neg hpos], rfl, rfl, rfl, rfl⟩

theorem Run.value_eq_some {α : Type} {r : Run α} {a : α} (h : Run.value r = some a) :
    r = Except.ok a := by
  cases r with
  | error e => simp [Run.value] at h
  | ok b => simp only [Run.value, Option.some.injEq] at h; rw [h]

theorem Run.of_isSome {α : Type} {r : Run α} (h : (Run.value r).isSome = true) :
    ∃ a, r = Except.ok a := by
  obtain ⟨a, ha⟩ := Option.isSome_iff_exists.mp h
  exact ⟨a, Run.value_eq_some ha⟩

theorem drivenPile_facts :
    ((Run.value drivenPile).map (fun p => p.1.shape)
        = some (true, some TopplingIterator.FOLLOW_ACTIVITY, false))
    ∧ ((Run.value (drivenPile >>= fun p => p.1.Relax true p.2 10)).map
        (fun r => (r.1, r.2.1.heights)) = some (1, [1, 0, 0, 1])) := by
  decide!


/-! ### Grain conservation -/

theorem sumHeights_update (cells : Nat → Cell) (m : Nat) (c : Cell) :
    ∀ n, sumHeights (Function.update cells m c) n
      = sumHeights cells n + (if m < n then c.height - (cells m).height else 0)
  | 0 => by simp [sumHeights]
  | n + 1 => by
    simp only [sumHeights, sumHeights_update cells m c n]
    by_cases h1 : m < n
    · have h2 : m < n + 1 := by omega
      have h3 : n ≠ m := by omega
      simp [h1, h2, Function.update_noteq h3]
      ring
    · by_cases h2 : m = n
      · subst h2
        simp
      · have h3 : ¬ m < n + 1 := by omega
        have h4 : n ≠ m := fun h => h2 h.symm
        simp [h1, h3, Function.update_noteq h4]

theorem alter_count {e e1 : Engine} {r : CellRef} {f : GrainType → GrainType}
    (h : e.alter r f = Except.ok e1) :
    ∃ c, e.grid.read r = Except.ok c
      ∧ e1.grid.CountGrains
          = e.grid.CountGrains + (if r = CellRef.reservoir then 0 else f c.height - c.height)
      ∧ e1.grid.reservoir.height
          = e.grid.reservoir.height + (if r = CellRef.reservoir then f c.height - c.height else 0)
      := by
  cases r with
  | reservoir =>
    obtain ⟨hg, -⟩ := alter_reservoir_ok h
    refine ⟨e.grid.reservoir, rfl, ?_, ?_⟩
    · rw [hg]; simp [Grid.CountGrains]
    · rw [hg]; simp
  | cell n =>
    obtain ⟨h0, h1, hg, -⟩ := alter_cell_ok h
    refine ⟨e.grid.cells n.toNat, read_cell_of_lt e.grid h0 h1, ?_, ?_⟩
    · rw [hg]
      simp only [Grid.CountGrains, sumHeights_update, reduceCtorEq, if_false]
      have : n.toNat < e.grid.width * e.grid.height := by
        have := h1; unfold Grid.size at this; omega
      simp [this]
    · rw [hg]; simp

theorem increaseEach_count : ∀ (rs : List CellRef) (xs : List GrainType) (e e1 : Engine),
    (∀ r, r ∈ rs → r ≠ CellRef.reservoir) →
    Engine.increaseEach e rs xs = Except.ok e1 →
    e1.grid.CountGrains = e.grid.CountGrains + handedOut rs xs
  | [], _, e, e1, _, h => by
    simp only [Engine.increaseEach, pure, Except.pure] at h
    cases Except.ok.inj h; simp [handedOut]
  | _ :: _, [], e, e1, _, h => by
    simp only [Engine.increaseEach, pure, Except.pure] at h
    cases Except.ok.inj h; simp [handedOut]
  | r :: rs, x :: xs, e, e1, hr, h => by
    simp only [Engine.increaseEach] at h
    obtain ⟨e2, h2, h⟩ := bind_ok h
    obtain ⟨c, -, hc, -⟩ := alter_count h2
    have hne : r ≠ CellRef.reservoir := hr r (List.mem_cons_self _ _)
    rw [if_neg hne] at hc
    rw [increaseEach_count rs xs e2 e1 (fun r' hr' => hr r' (List.mem_cons_of_mem _ hr')) h, hc]
    simp only [handedOut]
    ring

theorem splitDraws_length : ∀ (n : Nat) (z : Gen), (splitDraws n z).1.length = n
  | 0, _ => rfl
  | n + 1, z => by
    simp only [splitDraws, List.length_cons, splitDraws_length n z.tail]

theorem handedOut_eq_sum : ∀ (rs : List CellRef) (xs : List GrainType),
    rs.length = xs.length → handedOut rs xs = xs.sum
  | [], [], _ => rfl
  | [], _ :: _, h => by simp at h
  | _ :: _, [], h => by simp at h
  | _ :: rs, x :: xs, h => by
    simp only [handedOut, List.sum_cons]
    rw [handedOut_eq_sum rs xs (by simpa using h)]

theorem normalise_sum {decrease : GrainType} {draws inc : List GrainType}
    (h : normalise decrease draws = some inc) :
    inc.sum = decrease ∧ inc.length = draws.length := by
  unfold normalise at h
  simp only [] at h
  split_ifs at h with h0
  simp only [Option.some.injEq] at h
  subst h
  refine ⟨?_, by simp⟩
  rw [List.sum_map_mul_right]
  field_simp


theorem drawSplit_length (st : Statics) (n : Nat) : (st.drawSplit n).1.length = n := by
  simp only [Statics.drawSplit]
  exact splitDraws_length n _

/-- The BTW case of the per-cell `Topple`, step by step. -/
theorem Topple_BTW {e : Engine} {dg : Option Grid} {cell : CellRef} {nb : List CellRef}
    {st : Statics} {b : Bool} {e1 : Engine} {st1 : Statics}
    (hm : e.toppling.toppling_method = TopplingMethod.Bak_Tang_Wiesenfeld1987)
    (h : e.Topple dg cell nb st = Except.ok (b, e1, st1)) :
    (b = false ∧ e1 = e)
    ∨ (b = true ∧ ∃ e2 inc, e.Decrease cell (e.toppling.decrease nb.length) = Except.ok e2
        ∧ normalise (e.toppling.decrease nb.length) (st.drawSplit nb.length).1 = some inc
        ∧ Engine.increaseEach e2 nb inc = Except.ok e1) := by
  unfold Engine.Topple at h
  simp only [] at h
  obtain ⟨c, hc, h⟩ := bind_ok h
  split at h
  · right
    simp only [hm] at h
    obtain ⟨e2, h2, h⟩ := bind_ok h
    split at h
    · simp [throw, throwThe, MonadExceptOf.throw] at h
    · rename_i inc hinc
      obtain ⟨e3, h3, h⟩ := bind_ok h
      simp only [pure, Except.pure] at h
      have := Except.ok.inj h
      simp only [Prod.mk.injEq] at this
      obtain ⟨rfl, rfl, -⟩ := this
      exact ⟨rfl, e2, inc, h2, hinc, h3⟩
  · left
    simp only [pure, Except.pure] at h
    have := Except.ok.inj h
    simp only [Prod.mk.injEq] at this
    obtain ⟨rfl, rfl, -⟩ := this
    exact ⟨rfl, rfl⟩

/-- A BTW topple whose neighbour entries are all grid cells keeps the number of grains
of the grid. -/
theorem Topple_BTW_count {e : Engine} {dg : Option Grid} {m : Int} {nb : List CellRef}
    {st : Statics} {b : Bool} {e1 : Engine} {st1 : Statics}
    (hm : e.toppling.toppling_method = TopplingMethod.Bak_Tang_Wiesenfeld1987)
    (hnb : ∀ r, r ∈ nb → r ≠ CellRef.reservoir)
    (h : e.Topple dg (CellRef.cell m) nb st = Except.ok (b, e1, st1)) :
    e1.grid.CountGrains = e.grid.CountGrains := by
  rcases Topple_BTW hm h with ⟨-, rfl⟩ | ⟨-, e2, inc, h2, hinc, h3⟩
  · rfl
  · obtain ⟨c, -, hc, -⟩ := alter_count h2
    rw [if_neg (by simp)] at hc
    obtain ⟨hsum, hlen⟩ := normalise_sum hinc
    rw [increaseEach_count nb inc e2 e1 hnb h3, hc,
      handedOut_eq_sum nb inc (by rw [hlen, drawSplit_length]), hsum]
    ring

theorem GetNeighbours_periodic_cells {g : Grid} {i j : Int} {st : Statics} {fuel : Nat}
    {nb : List CellRef} {st1 : Statics}
    (hb : g.boundary_type = BoundaryType.BT_PERIODIC)
    (h : g.GetNeighbours i j st fuel = Except.ok (nb, st1)) :
    ∀ r, r ∈ nb → r ≠ CellRef.reservoir := by
  unfold Grid.GetNeighbours at h
  simp only [hb] at h
  split_ifs at h
  simp only [pure, Except.pure, neighbourLoop, List.map] at h
  have := Except.ok.inj h
  simp only [Prod.mk.injEq] at this
  obtain ⟨rfl, -⟩ := this
  intro r hr
  simp only [List.mem_cons, List.mem_singleton, List.not_mem_nil, or_false] at hr
  rcases hr with rfl | rfl | rfl | rfl <;> simp

theorem sweep_count (dg : Option Grid) (fuel : Nat) : ∀ (l : List Int) (e : Engine)
    (st : Statics) (k : Nat) (e1 : Engine) (st1 : Statics),
    Engine.sweep dg fuel l e st = Except.ok (k, e1, st1) →
    e.toppling.toppling_method = TopplingMethod.Bak_Tang_Wiesenfeld1987 →
    e.grid.boundary_type = BoundaryType.BT_PERIODIC →
    e1.grid.CountGrains = e.grid.CountGrains
  | [], e, st, k, e1, st1, h, _, _ => by
    simp only [Engine.sweep, pure, Except.pure] at h
    have := Except.ok.inj h
    simp only [Prod.mk.injEq] at this
    obtain ⟨-, rfl, -⟩ := this
    rfl
  | idx :: rest, e, st, k, e1, st1, h, hm, hb => by
    simp only [Engine.sweep] at h
    obtain ⟨p, hp, h⟩ := bind_ok h
    obtain ⟨q, hq, h⟩ := bind_ok h
    simp only [pure, Except.pure] at h
    have := Except.ok.inj h
    simp only [Prod.mk.injEq] at this
    obtain ⟨-, rfl, -⟩ := this
    obtain ⟨nb, st0, hnb, ht⟩ := @visit_ok _ _ _ _ _ p.1 p.2.1 p.2.2 hp
    obtain ⟨f1, -, -⟩ := Topple_frame_all ht
    rw [sweep_count dg fuel rest p.2.1 p.2.2 q.1 q.2.1 q.2.2 hq (by rw [f1.method]; exact hm)
      (by rw [f1.boundary_type]; exact hb),
      Topple_BTW_count hm (GetNeighbours_periodic_cells hb hnb) ht]

theorem pass_count {e : Engine} {dg : Option Grid} {fuel it_n : Nat} {st : Statics}
    {k : Nat} {quit : Bool} {e1 : Engine} {st1 : Statics}
    (hm : e.toppling.toppling_method = TopplingMethod.Bak_Tang_Wiesenfeld1987)
    (hb : e.grid.boundary_type = BoundaryType.BT_PERIODIC)
    (h : e.pass dg fuel it_n st = Except.ok (k, quit, e1, st1)) :
    e1.grid.CountGrains = e.grid.CountGrains := by
  unfold Engine.pass at h
  simp only [] at h
  split at h
  · split at h
    · simp [throw, throwThe, MonadExceptOf.throw] at h
    · obtain ⟨p, hp, h⟩ := bind_ok h
      simp only [pure, Except.pure] at h
      have := Except.ok.inj h
      simp only [Prod.mk.injEq] at this
      obtain ⟨-, -, rfl, -⟩ := this
      have key := sweep_count dg fuel _ _ _ p.1 p.2.1 p.2.2 hp hm hb
      exact key
  · split at h
    · simp [throw, throwThe, MonadExceptOf.throw] at h
    · obtain ⟨p, hp, h⟩ := bind_ok h
      simp only [pure, Except.pure] at h
      have := Except.ok.inj h
      simp only [Prod.mk.injEq] at this
      obtain ⟨-, -, rfl, -⟩ := this
      have key := sweep_count dg fuel _ _ _ p.1 p.2.1 p.2.2 hp hm hb
      exact key
  · obtain ⟨t2, ht2, h⟩ := bind_ok h
    obtain ⟨p, hp, h⟩ := bind_ok h
    obtain ⟨t3, ht3, h⟩ := bind_ok h
    simp only [pure, Except.pure] at h
    have := Except.ok.inj h
    simp only [Prod.mk.injEq] at this
    obtain ⟨-, -, rfl, -⟩ := this
    have c2 := countGrains_ok ht2
    simp only [] at c2
    have hm2 : t2.toppling_method = TopplingMethod.Bak_Tang_Wiesenfeld1987 := by
      rw [c2.2.2.2.1]; exact hm
    have key := sweep_count dg fuel _ _ _ p.1 p.2.1 p.2.2 hp hm2 hb
    exact key

theorem toppleLoop_count (dg : Option Grid) (fuel : Nat) : ∀ (passes it_n : Nat) (av : Int)
    (e : Engine) (st : Statics) (a : Int) (e1 : Engine) (st1 : Statics),
    e.toppling.toppling_method = TopplingMethod.Bak_Tang_Wiesenfeld1987 →
    e.grid.boundary_type = BoundaryType.BT_PERIODIC →
    Engine.toppleLoop dg fuel passes it_n av e st = Except.ok (a, e1, st1) →
    e1.grid.CountGrains = e.grid.CountGrains
  | 0, _, _, _, _, _, _, _, _, _, h => by
    simp [Engine.toppleLoop, throw, throwThe, MonadExceptOf.throw] at h
  | passes + 1, it_n, av, e, st, a, e1, st1, hm, hb, h => by
    simp only [Engine.toppleLoop] at h
    obtain ⟨p, hp, h⟩ := bind_ok h
    have hc := @pass_count _ _ _ _ _ p.1 p.2.1 p.2.2.1 p.2.2.2 hm hb hp
    obtain ⟨f, -, -, -⟩ := @pass_general _ _ _ _ _ p.1 p.2.1 p.2.2.1 p.2.2.2 hp
    by_cases hq : p.2.1 = true
    · rw [if_pos hq] at h
      simp only [pure, Except.pure] at h
      have := Except.ok.inj h
      simp only [Prod.mk.injEq] at this
      obtain ⟨-, rfl, -⟩ := this
      exact hc
    · rw [if_neg hq] at h
      rw [toppleLoop_count dg fuel passes (it_n + 1) (av + p.1) p.2.2.1 p.2.2.2 a e1 st1
        (by rw [f.method]; exact hm) (by rw [f.boundary_type]; exact hb) h, hc]


theorem sumHeights_zero (cells : Nat → Cell) (h : ∀ n, (cells n).height = 0) :
    ∀ n, sumHeights cells n = 0
  | 0 => rfl
  | n + 1 => by simp [sumHeights, sumHeights_zero cells h n, h n]

theorem driveLoop_plain {bt : BoundaryType} (h1 : bt ≠ BoundaryType.BT_CIRCULAR)
    (h2 : bt ≠ BoundaryType.BT_WALL_DISSIPATING) :
    ∀ (fuel : Nat) (e : Engine) (gen : Gen) (e1 : Engine) (gen1 : Gen),
      driveLoop bt fuel e gen = Except.ok (e1, gen1) →
      ∃ n : Int, e.Increase (CellRef.cell n) 1 = Except.ok e1
  | 0, _, _, _, _, h => by
    simp [driveLoop, throw, throwThe, MonadExceptOf.throw] at h
  | fuel + 1, e, gen, e1, gen1, h => by
    simp only [driveLoop, if_neg h1, if_neg h2] at h
    obtain ⟨r, hr, h⟩ := bind_ok h
    obtain ⟨e2, h2, h⟩ := bind_ok h
    simp only [pure, Except.pure] at h
    have := Except.ok.inj h
    simp only [Prod.mk.injEq] at this
    obtain ⟨rfl, -⟩ := this
    unfold Grid.GetCell at hr
    split_ifs at hr
    simp only [pure, Except.pure] at hr
    cases Except.ok.inj hr
    exact ⟨_, h2⟩

theorem Drive_conserving {s : SandPile} {c : GrainType} {st : Statics} {fuel : Nat}
    {s1 : SandPile} {st1 : Statics}
    (hc : Conserving s c) (h : s.Drive st fuel = Except.ok (s1, st1)) :
    Conserving s1 (c + 1) := by
  obtain ⟨g, t, hg, ht, hbs, hb, hm, hcount⟩ := hc
  unfold SandPile.Drive at h
  simp only [hg, ht] at h
  obtain ⟨p, hp, h⟩ := bind_ok h
  simp only [pure, Except.pure] at h
  have := Except.ok.inj h
  simp only [Prod.mk.injEq] at this
  obtain ⟨rfl, -⟩ := this
  obtain ⟨n, hn⟩ := driveLoop_plain (by rw [hbs]; decide) (by rw [hbs]; decide) fuel _ _ p.1 p.2 hp
  have fr := alter_frame hn
  obtain ⟨c0, -, hcnt, -⟩ := alter_count hn
  refine ⟨p.1.grid, p.1.toppling, rfl, rfl, hbs, by rw [fr.boundary_type]; exact hb,
    by rw [fr.method]; exact hm, ?_⟩
  rw [hcnt, if_neg (by simp)]
  show g.CountGrains + _ = c + 1
  rw [hcount]; ring

theorem Relax_conserving {s : SandPile} {c : GrainType} {measure : Bool} {st : Statics}
    {fuel : Nat} {a : Int} {s1 : SandPile} {st1 : Statics}
    (hc : Conserving s c) (h : s.Relax measure st fuel = Except.ok (a, s1, st1)) :
    Conserving s1 c := by
  obtain ⟨g, t, hg, ht, hbs, hb, hm, hcount⟩ := hc
  obtain ⟨a0, sd, st0, a1, sp, hd, hp, -, hg1, ht1, -, -⟩ := Relax_ok h
  obtain ⟨hgd, htd, -, -⟩ := relaxDiss_ok hd
  obtain ⟨e, he, hsp⟩ := relaxPrimary_ok (hgd.trans hg) (htd.trans ht) hp
  unfold Engine.ToppleAll at he
  have hcnt := toppleLoop_count sd.diss_grid fuel fuel 0 0 _ st0 a1 e st1 hm hb he
  obtain ⟨fr, -, -⟩ := toppleLoop_general sd.diss_grid fuel fuel 0 0 _ st0 a1 e st1 he
  have hbs1 : s1.boundary_type = BoundaryType.BT_PERIODIC := by
    have e1 : s1.boundary_type = sp.boundary_type := by
      unfold SandPile.Relax at h
      simp only [] at h
      obtain ⟨p, hp', h⟩ := bind_ok h
      obtain ⟨q, hq', h⟩ := bind_ok h
      rw [hd] at hp'
      cases Except.ok.inj hp'
      simp only [] at hq'
      rw [hp] at hq'
      cases Except.ok.inj hq'
      split_ifs at h <;>
      · simp only [pure, Except.pure] at h
        have := Except.ok.inj h
        simp only [Prod.mk.injEq] at this
        obtain ⟨-, rfl, -⟩ := this
        rfl
    have e2 : sd.boundary_type = s.boundary_type := by
      unfold SandPile.relaxDiss at hd
      split at hd
      · simp only [pure, Except.pure] at hd
        have := Except.ok.inj hd
        simp only [Prod.mk.injEq] at this
        obtain ⟨-, rfl, -⟩ := this
        rfl
      · split at hd
        · simp [throw, throwThe, MonadExceptOf.throw] at hd
        · obtain ⟨r, hr, hd⟩ := bind_ok hd
          simp only [pure, Except.pure] at hd
          have := Except.ok.inj hd
          simp only [Prod.mk.injEq] at this
          obtain ⟨-, rfl, -⟩ := this
          rfl
    rw [e1, hsp]
    show sd.boundary_type = _
    rw [e2]; exact hbs
  refine ⟨e.grid, e.toppling, by rw [hg1, hsp], by rw [ht1, hsp], hbs1,
    by rw [fr.boundary_type]; exact hb, by rw [fr.method]; exact hm, ?_⟩
  rw [hcnt]; exact hcount

theorem cycles_conserving : ∀ (n : Nat) (s : SandPile) (c : GrainType) (measure : Bool)
    (st : Statics) (fuel : Nat) (s1 : SandPile) (st1 : Statics),
    Conserving s c → s.cycles n measure st fuel = Except.ok (s1, st1) →
    Conserving s1 (c + n)
  | 0, s, c, _, st, _, s1, st1, hc, h => by
    simp only [SandPile.cycles, pure, Except.pure] at h
    have := Except.ok.inj h
    simp only [Prod.mk.injEq] at this
    obtain ⟨rfl, -⟩ := this
    simpa using hc
  | n + 1, s, c, measure, st, fuel, s1, st1, hc, h => by
    simp only [SandPile.cycles] at h
    obtain ⟨p, hp, h⟩ := bind_ok h
    obtain ⟨q, hq, h⟩ := bind_ok h
    have h1 := Drive_conserving hc hp
    have h2 := Relax_conserving h1 hq
    have h3 := cycles_conserving n q.2.1 (c + 1) measure q.2.2 fuel s1 st1 h2 h
    have : c + 1 + (n : GrainType) = c + ((n + 1 : Nat) : GrainType) := by push_cast; ring
    rw [this] at h3
    exact h3

/-- C1: a sandpile built with the BTW rule on a Periodic boundary starts with an empty
primary grid, and after every sequence of N cycles `Drive()` + `Relax()` that
returns (all relaxations terminated, arithmetic exact) its `CountGrains()` is N. -/
theorem C1_grain_conservation (L N : Nat) (measure : Bool) (st : Statics) (fuel : Nat)
    (s : SandPile) (st1 : Statics) (s1 : SandPile) (st2 : Statics)
    (hnew : SandPile.new L TopplingMethod.Bak_Tang_Wiesenfeld1987 BoundaryType.BT_PERIODIC st
      = Except.ok (s, st1))
    (hrun : s.cycles N measure st1 fuel = Except.ok (s1, st2)) :
    (∃ g, s.grid = some g ∧ g.CountGrains = 0)
    ∧ (∃ g, s1.grid = some g ∧ g.CountGrains = N) := by
  obtain ⟨g, t, fr⟩ := new_fresh hnew (by decide)
  have hb : resolvedBoundary TopplingMethod.Bak_Tang_Wiesenfeld1987 BoundaryType.BT_PERIODIC
      = BoundaryType.BT_PERIODIC := by decide
  have h0 : g.CountGrains = 0 := sumHeights_zero g.cells fr.empty _
  have hc : Conserving s 0 :=
    ⟨g, t, fr.grid, fr.toppling, by rw [fr.boundary, hb], by rw [fr.boundary_type, hb],
      fr.method, h0⟩
  obtain ⟨g1, t1, hg1, -, -, -, -, hcount⟩ :=
    cycles_conserving N s 0 measure st1 fuel s1 st2 hc hrun
  exact ⟨⟨g, fr.grid, h0⟩, ⟨g1, hg1, by rw [hcount]; simp⟩⟩


theorem Run.bind_value {α β γ : Type} {x : Run α} {f : α → Run β} {g : β → γ} {v : γ}
    (h : (Run.value (x >>= f)).map g = some v) :
    ∃ a b, x = Except.ok a ∧ f a = Except.ok b ∧ g b = v := by
  cases x with
  | error e => simp [Run.value, bind, Except.bind] at h
  | ok a =>
    simp only [bind, Except.bind] at h
    cases hf : f a with
    | error e => rw [hf] at h; simp [Run.value] at h
    | ok b =>
      rw [hf] at h
      simp only [Run.value, Option.map_some', Option.some.injEq] at h
      exact ⟨a, b, rfl, hf, h⟩

theorem fourCycles_heights :
    (Run.value (SandPile.new 2 TopplingMethod.Bak_Tang_Wiesenfeld1987 BoundaryType.BT_PERIODIC
        (Statics.initial driveSeed) >>= fun p => p.1.cycles 4 true p.2 10)).map
      (fun r => r.1.heights) = some [2, 0, 0, 2] := by
  decide!

/-- Witness of C1: a 2 by 2 Periodic BTW sandpile driven four times at cell 2; the fourth
relaxation topples that cell once and the four grains end up on the cells 0 and 3. -/
theorem C1_grain_conservation_witness :
    ∃ s st1 s1 st2,
      SandPile.new 2 TopplingMethod.Bak_Tang_Wiesenfeld1987 BoundaryType.BT_PERIODIC
        (Statics.initial driveSeed) = Except.ok (s, st1)
      ∧ s.cycles 4 true st1 10 = Except.ok (s1, st2)
      ∧ s1.heights = [2, 0, 0, 2]
      ∧ (∃ g, s.grid = some g ∧ g.CountGrains = 0)
      ∧ (∃ g, s1.grid = some g ∧ g.CountGrains = (4 : Nat)) := by
  obtain ⟨p, r, hp, hr, hh⟩ := Run.bind_value fourCycles_heights
  exact ⟨p.1, p.2, r.1, r.2, hp, hr, hh,
    C1_grain_conservation 2 4 true (Statics.initial driveSeed) 10 p.1 p.2 r.1 r.2 hp hr⟩

/-! ### The active set between calls -/

/-- Whatever the boundary, a `Drive` that returns has increased one array cell by 1. -/
theorem driveLoop_increase (bt : BoundaryType) :
    ∀ (fuel : Nat) (e : Engine) (gen : Gen) (e1 : Engine) (gen1 : Gen),
      driveLoop bt fuel e gen = Except.ok (e1, gen1) →
      ∃ n : Int, e.Increase (CellRef.cell n) 1 = Except.ok e1
  | 0, _, _, _, _, h => by
    simp [driveLoop, throw, throwThe, MonadExceptOf.throw] at h
  | fuel + 1, e, gen, e1, gen1, h => by
    have getCell : ∀ (x y : Int) (r : CellRef), e.grid.GetCell x y = Except.ok r →
        ∃ n : Int, r = CellRef.cell n := by
      intro x y r hr
      unfold Grid.GetCell at hr
      split_ifs at hr
      simp only [pure, Except.pure] at hr
      cases Except.ok.inj hr
      exact ⟨_, rfl⟩
    simp only [driveLoop] at h
    split_ifs at h with h1 h2 h3
    · obtain ⟨inside, hin, h⟩ := bind_ok h
      split_ifs at h with h4
      · obtain ⟨r, hr, h⟩ := bind_ok h
        obtain ⟨e2, h2, h⟩ := bind_ok h
        simp only [pure, Except.pure] at h
        have := Except.ok.inj h
        simp only [Prod.mk.injEq] at this
        obtain ⟨rfl, -⟩ := this
        obtain ⟨n, rfl⟩ := getCell _ _ r hr
        exact ⟨n, h2⟩
      · exact driveLoop_increase bt fuel e _ e1 gen1 h
    · obtain ⟨r, hr, h⟩ := bind_ok h
      obtain ⟨e2, h2, h⟩ := bind_ok h
      simp only [pure, Except.pure] at h
      have := Except.ok.inj h
      simp only [Prod.mk.injEq] at this
      obtain ⟨rfl, -⟩ := this
      obtain ⟨n, rfl⟩ := getCell _ _ r hr
      exact ⟨n, h2⟩
    · obtain ⟨r, hr, h⟩ := bind_ok h
      obtain ⟨e2, h2, h⟩ := bind_ok h
      simp only [pure, Except.pure] at h
      have := Except.ok.inj h
      simp only [Prod.mk.injEq] at this
      obtain ⟨rfl, -⟩ := this
      obtain ⟨n, rfl⟩ := getCell _ _ r hr
      exact ⟨n, h2⟩
    · obtain ⟨r, hr, h⟩ := bind_ok h
      obtain ⟨e2, h2, h⟩ := bind_ok h
      simp only [pure, Except.pure] at h
      have := Except.ok.inj h
      simp only [Prod.mk.injEq] at this
      obtain ⟨rfl, -⟩ := this
      obtain ⟨n, rfl⟩ := getCell _ _ r hr
      exact ⟨n, h2⟩

theorem alter_consistent {e e1 : Engine} {r : CellRef} {f : GrainType → GrainType}
    (hk : Hooked e) (hT : Tracked e (fun _ => False)) (hb : Bounded e)
    (hm : e.toppling.toppling_method ≠ TopplingMethod.Rossum2011_diss)
    (h : e.alter r f = Except.ok e1) :
    Hooked e1 ∧ Tracked e1 (fun _ => False) ∧ Bounded e1
      ∧ e1.toppling.toppling_method ≠ TopplingMethod.Rossum2011_diss :=
  ⟨Hooked.of_frame (alter_frame h) hk, (alter_tracked hk hT h).mono (fun _ hp => hp.1),
    alter_bounded hb h, by rw [(alter_frame h).method]; exact hm⟩

theorem clearLoop_consistent : ∀ (count i : Nat) (e e1 : Engine),
    Hooked e → Tracked e (fun _ => False) → Bounded e →
    e.toppling.toppling_method ≠ TopplingMethod.Rossum2011_diss →
    clearLoop i count e = Except.ok e1 →
    Hooked e1 ∧ Tracked e1 (fun _ => False) ∧ Bounded e1
      ∧ e1.toppling.toppling_method ≠ TopplingMethod.Rossum2011_diss
  | 0, i, e, e1, hk, hT, hb, hm, h => by
    simp only [clearLoop, pure, Except.pure] at h
    cases Except.ok.inj h
    exact ⟨hk, hT, hb, hm⟩
  | count + 1, i, e, e1, hk, hT, hb, hm, h => by
    simp only [clearLoop] at h
    obtain ⟨r, hr, h⟩ := bind_ok h
    obtain ⟨e2, h2, h⟩ := bind_ok h
    obtain ⟨a, b, c, d⟩ := alter_consistent hk hT hb hm h2
    exact clearLoop_consistent count (i + 1) e2 e1 a b c d h

theorem new_consistent {L : Nat} {m : TopplingMethod} {type : BoundaryType} {st : Statics}
    {s : SandPile} {st1 : Statics}
    (h : SandPile.new L m type st = Except.ok (s, st1)) : Consistent s := by
  by_cases hm : m = TopplingMethod.Rossum2011_diss
  · subst hm
    intro g t hg
    simp only [SandPile.new, SandPile.DissipationGrid, Toppling.SetTopplingMethod, bind,
      Except.bind, pure, Except.pure, if_true] at h
    have := Except.ok.inj h
    simp only [Prod.mk.injEq] at this
    obtain ⟨rfl, -⟩ := this
    cases hg
  · obtain ⟨g, t, fr⟩ := new_fresh h hm
    intro g1 t1 hg1 ht1
    rw [fr.grid] at hg1; rw [fr.toppling] at ht1
    cases hg1; cases ht1
    have hsz : g.size = L * L := by unfold Grid.size; rw [fr.width, fr.height]
    have hthr : (0 : GrainType) < t.topple_threshold := by
      rw [fr.threshold]; split_ifs <;> norm_num
    refine ⟨⟨fr.iterator, fun n hn => ⟨fr.hooked n (by rw [← hsz]; exact hn), fr.id n⟩⟩,
      fun n _ => ⟨fun hmem => ?_, fun hge => ?_⟩, fun n hmem => ?_, by rw [fr.method]; exact hm⟩
    · have : n ∈ t.active_cells := hmem
      rw [fr.active] at this; simp at this
    · have : t.topple_threshold ≤ (g.cells n).height := hge
      rw [fr.empty n] at this
      exact absurd hthr (not_lt.mpr this)
    · have : n ∈ t.active_cells := hmem
      rw [fr.active] at this; simp at this

theorem Drive_consistent {s : SandPile} {st : Statics} {fuel : Nat} {s1 : SandPile}
    {st1 : Statics} (hc : Consistent s) (h : s.Drive st fuel = Except.ok (s1, st1)) :
    Consistent s1 := by
  unfold SandPile.Drive at h
  simp only [] at h
  split at h
  · simp [throw, throwThe, MonadExceptOf.throw] at h
  · rename_i g hg
    split at h
    · simp [throw, throwThe, MonadExceptOf.throw] at h
    · rename_i t ht
      obtain ⟨p, hp, h⟩ := bind_ok h
      simp only [pure, Except.pure] at h
      have := Except.ok.inj h
      simp only [Prod.mk.injEq] at this
      obtain ⟨rfl, -⟩ := this
      obtain ⟨hk, hT, hb, hm⟩ := hc g t hg ht
      obtain ⟨n, hn⟩ := driveLoop_increase _ fuel _ _ p.1 p.2 hp
      intro g1 t1 hg1 ht1
      cases hg1; cases ht1
      exact alter_consistent hk hT hb hm hn

theorem Clear_consistent {s s1 : SandPile} (hc : Consistent s)
    (h : s.Clear = Except.ok s1) : Consistent s1 := by
  unfold SandPile.Clear at h
  split at h
  · split_ifs at h
    simp only [pure, Except.pure] at h
    cases Except.ok.inj h
    exact hc
  · rename_i g hg
    split at h
    · simp [throw, throwThe, MonadExceptOf.throw] at h
    · rename_i t ht
      obtain ⟨e, he, h⟩ := bind_ok h
      simp only [pure, Except.pure] at h
      cases Except.ok.inj h
      obtain ⟨hk, hT, hb, hm⟩ := hc g t hg ht
      intro g1 t1 hg1 ht1
      cases hg1; cases ht1
      exact clearLoop_consistent _ 0 _ e hk hT hb hm he

theorem Relax_consistent {s : SandPile} {measure : Bool} {st : Statics} {fuel : Nat} {a : Int}
    {s1 : SandPile} {st1 : Statics} (hc : Consistent s)
    (h : s.Relax measure st fuel = Except.ok (a, s1, st1)) : Consistent s1 := by
  obtain ⟨a0, sd, st0, a1, sp, hd, hp, -, hg1, ht1, -, -⟩ := Relax_ok h
  obtain ⟨hgd, htd, -, -⟩ := relaxDiss_ok hd
  intro g1 t1 hsg ht
  rw [hg1] at hsg; rw [ht1] at ht
  cases hts : s.toppling with
  | none =>
    unfold SandPile.relaxPrimary at hp
    rw [htd, hts] at hp
    simp only [pure, Except.pure] at hp
    have := Except.ok.inj hp
    simp only [Prod.mk.injEq] at this
    obtain ⟨-, rfl, -⟩ := this
    rw [htd, hts] at ht; cases ht
  | some t =>
    cases hsg0 : s.grid with
    | none =>
      unfold SandPile.relaxPrimary at hp
      rw [htd, hts, hgd, hsg0] at hp
      simp [throw, throwThe, MonadExceptOf.throw] at hp
    | some g =>
      obtain ⟨hk, hT, hb, hm⟩ := hc g t hsg0 hts
      obtain ⟨e, he, hsp⟩ := relaxPrimary_ok (hgd.trans hsg0) (htd.trans hts) hp
      rw [hsp] at hsg ht
      cases hsg; cases ht
      obtain ⟨fr, hnil, hlow⟩ := ToppleAll_follow hk hm
        (fun n hn hge => ((hT n hn).2 hge).elim id False.elim) he
      refine ⟨Hooked.of_frame fr hk, fun n hn => ⟨fun hmem => ?_, fun hge => ?_⟩,
        fun n hmem => ?_, by rw [fr.method]; exact hm⟩
      · have : n ∈ e.toppling.active_cells := hmem
        rw [hnil] at this; simp at this
      · exact absurd (hlow n hn) (not_lt.mpr hge)
      · have : n ∈ e.toppling.active_cells := hmem
        rw [hnil] at this; simp at this

theorem Reachable.consistent {s : SandPile} (h : Reachable s) : Consistent s := by
  induction h with
  | new h => exact new_consistent h
  | drive _ h ih => exact Drive_consistent ih h
  | clear _ h ih => exact Clear_consistent ih h
  | relax _ h ih => exact Relax_consistent ih h

/-- C3: for a sandpile with a primary grid (its toppling then uses FollowActivity), after
construction and after every `Drive()`, every `Clear()` and every `Relax()` that
returns, the active set is exactly the set of primary-grid cells whose height is at
or above the toppling threshold. -/
theorem C3_active_set_exact (s : SandPile) (g : Grid) (t : Toppling) (hr : Reachable s)
    (hg : s.grid = some g) (ht : s.toppling = some t) :
    t.toppling_iterator = TopplingIterator.FOLLOW_ACTIVITY
    ∧ ∀ n, n ∈ t.active_cells ↔ (n < g.width * g.height ∧ t.topple_threshold ≤ (g.cells n).height)
    := by
  obtain ⟨hk, hT, hb, -⟩ := hr.consistent g t hg ht
  refine ⟨hk.1, fun n => ⟨fun hmem => ⟨hb n hmem, (hT n (hb n hmem)).1 hmem⟩, fun h => ?_⟩⟩
  exact ((hT n h.1).2 h.2).elim id False.elim


theorem drivenPile_reachable {p : SandPile × Statics} (h : drivenPile = Except.ok p) :
    Reachable p.1 := by
  unfold drivenPile at h
  obtain ⟨p0, h0, h⟩ := bind_ok h
  obtain ⟨p1, h1, h⟩ := bind_ok h
  obtain ⟨p2, h2, h⟩ := bind_ok h
  obtain ⟨p3, h3, h⟩ := bind_ok h
  exact Reachable.drive (Reachable.drive (Reachable.drive (Reachable.drive
    (Reachable.new h0) h1) h2) h3) h

theorem drivenPile_state :
    (Run.value drivenPile).map (fun p => (p.1.heights,
        p.1.toppling.map (fun t => (t.active_cells, t.topple_threshold))))
      = some ([0, 0, 4, 0], some ([2], 4)) := by
  decide!

/-- Witness of C3: the 2 by 2 sandpile driven four times at cell 2: heights 0, 0, 4, 0,
threshold 4, active set {2}. -/
theorem C3_active_set_exact_witness :
    ∃ s st g t, drivenPile = Except.ok (s, st) ∧ Reachable s
      ∧ s.grid = some g ∧ s.toppling = some t
      ∧ g.heights = [0, 0, 4, 0] ∧ t.active_cells = [2] ∧ t.topple_threshold = 4
      ∧ t.toppling_iterator = TopplingIterator.FOLLOW_ACTIVITY
      ∧ ∀ n, n ∈ t.active_cells
          ↔ (n < g.width * g.height ∧ t.topple_threshold ≤ (g.cells n).height) := by
  have hst := drivenPile_state
  cases hd : drivenPile with
  | error e => rw [hd] at hst; simp [Run.value] at hst
  | ok p =>
    rw [hd] at hst
    simp only [Run.value, Option.map_some', Option.some.injEq, Prod.mk.injEq] at hst
    obtain ⟨hh, htop⟩ := hst
    have hr : Reachable p.1 := drivenPile_reachable hd
    cases hg : p.1.grid with
    | none => simp [SandPile.heights, hg] at hh
    | some g =>
      cases ht : p.1.toppling with
      | none => rw [ht] at htop; simp at htop
      | some t =>
        rw [ht] at htop
        simp only [Option.map_some', Option.some.injEq, Prod.mk.injEq] at htop
        simp only [SandPile.heights, hg] at hh
        exact ⟨p.1, p.2, g, t, rfl, hr, hg, ht, hh, htop.1, htop.2,
          C3_active_set_exact p.1 g t hr hg ht⟩

/-! ### What a relaxation leaves behind -/

/-- Counterexample to C2: (1) under RandomFraction the relaxation of a 2 by 2 grid with cell 2
at height 4 samples the cells 0 and 3, topples nothing and returns with cell 2
still at the threshold 4; (2) under the Rossum2011-diss rule (threshold 0,
RandomAll) the relaxation returns with every cell at height 0, which is not
strictly below the threshold 0. -/
theorem C2_cells_at_threshold_counterexample :
    Run.value randomFractionTopple = some (0, [0, 0, 4, 0], 4)
    ∧ Run.value dissipationTopple = some (0, [0, 0, 0, 0], 0) := by
  decide!

/-- A sweep without toppling event (rule other than Rossum2011-diss) changes nothing
and has found every visited cell below the threshold. -/
theorem sweep_quiet (dg : Option Grid) (fuel : Nat) : ∀ (l : List Int) (e : Engine)
    (st : Statics) (e1 : Engine) (st1 : Statics),
    Engine.sweep dg fuel l e st = Except.ok (0, e1, st1) →
    e.toppling.toppling_method ≠ TopplingMethod.Rossum2011_diss →
    e1 = e ∧ ∀ idx, idx ∈ l → ∃ c, e.grid.read (CellRef.cell idx) = Except.ok c
      ∧ c.height < e.toppling.topple_threshold
  | [], e, st, e1, st1, h, _ => by
    simp only [Engine.sweep, pure, Except.pure] at h
    have := Except.ok.inj h
    simp only [Prod.mk.injEq] at this
    obtain ⟨-, rfl, -⟩ := this
    exact ⟨rfl, by simp⟩
  | idx :: rest, e, st, e1, st1, h, hm => by
    simp only [Engine.sweep] at h
    obtain ⟨p, hp, h⟩ := bind_ok h
    obtain ⟨q, hq, h⟩ := bind_ok h
    simp only [pure, Except.pure] at h
    have := Except.ok.inj h
    simp only [Prod.mk.injEq] at this
    obtain ⟨hk, rfl, rfl⟩ := this
    have hk1 : p.1 = false ∧ q.1 = 0 := by
      cases hb : p.1 with
      | true => rw [hb] at hk; simp at hk
      | false => rw [hb] at hk; simp at hk; exact ⟨rfl, hk⟩
    obtain ⟨nb, st0, -, ht⟩ := @visit_ok _ _ _ _ _ p.1 p.2.1 p.2.2 hp
    obtain ⟨c, hc, hcase⟩ := Topple_cases ht hm
    rcases hcase with ⟨hlt, -, he⟩ | ⟨-, hb, -⟩
    · have hq' : Engine.sweep dg fuel rest p.2.1 p.2.2 = Except.ok (0, q.2.1, q.2.2) := by
        rw [hq, ← hk1.2]
      obtain ⟨h1, h2⟩ := sweep_quiet dg fuel rest p.2.1 p.2.2 q.2.1 q.2.2 hq'
        (by rw [he]; exact hm)
      rw [he] at h1 h2
      refine ⟨h1, fun i hi => ?_⟩
      rcases List.mem_cons.mp hi with rfl | hi
      · exact ⟨c, hc, hlt⟩
      · exact h2 i hi
    · rw [hk1.1] at hb; cases hb

theorem pass_randomAll {e : Engine} {dg : Option Grid} {fuel it_n : Nat} {st : Statics}
    {k : Nat} {quit : Bool} {e1 : Engine} {st1 : Statics}
    (hit : e.toppling.toppling_iterator = TopplingIterator.RANDOM_ALL)
    (hm : e.toppling.toppling_method ≠ TopplingMethod.Rossum2011_diss)
    (ht : OntoTable e)
    (h : e.pass dg fuel it_n st = Except.ok (k, quit, e1, st1)) :
    Engine.Frame e e1 ∧ OntoTable e1
    ∧ (quit = true → ∀ n, n < e1.grid.width * e1.grid.height →
        (e1.grid.cells n).height < e1.toppling.topple_threshold) := by
  obtain ⟨fr, -, -, -⟩ := pass_general h
  obtain ⟨table, htab, honto⟩ := ht
  unfold Engine.pass at h
  simp only [] at h
  split at h
  · rename_i heq; rw [hit] at heq; cases heq
  · rw [htab] at h
    simp only [] at h
    obtain ⟨p, hp, h⟩ := bind_ok h
    simp only [pure, Except.pure] at h
    have := Except.ok.inj h
    simp only [Prod.mk.injEq] at this
    obtain ⟨rfl, rfl, rfl, -⟩ := this
    have honto1 : ∀ c, c < e.grid.width * e.grid.height →
        ∃ k, k < e.grid.width * e.grid.height
          ∧ (random_shuffle boost_random (e.grid.width * e.grid.height) table st).1 k = c := by
      intro c hc
      obtain ⟨k0, hk0, e0⟩ := honto c hc
      obtain ⟨k1, hk1, e1⟩ := random_shuffle_onto (e.grid.width * e.grid.height) table st k0 hk0
      exact ⟨k1, hk1, e1.trans e0⟩
    obtain ⟨-, hkept, -⟩ := sweep_frame dg fuel _ _ _ p.1 p.2.1 p.2.2 hp
    refine ⟨fr, ⟨_, hkept.2, ?_⟩, fun hq => ?_⟩
    · rw [fr.width, fr.height]; exact honto1
    · have hk0 : p.1 = 0 := of_decide_eq_true hq
      have hp' := hp
      rw [show p = (p.1, p.2.1, p.2.2) from rfl, hk0] at hp'
      obtain ⟨he, hall⟩ := sweep_quiet dg fuel _ _ _ p.2.1 p.2.2 hp' hm
      intro n hn
      rw [fr.width, fr.height] at hn
      obtain ⟨k1, hk1, hk1e⟩ := honto1 n hn
      obtain ⟨c, hc, hlt⟩ := hall (n : Int) (by
        rw [List.mem_map]
        exact ⟨k1, List.mem_range.mpr hk1, by rw [hk1e]⟩)
      obtain ⟨-, -, rfl⟩ := read_cell_ok hc
      rw [he]
      simpa using hlt
  · rename_i heq; rw [hit] at heq; cases heq

theorem toppleLoop_randomAll (dg : Option Grid) (fuel : Nat) : ∀ (passes it_n : Nat) (av : Int)
    (e : Engine) (st : Statics) (a : Int) (e1 : Engine) (st1 : Statics),
    e.toppling.toppling_iterator = TopplingIterator.RANDOM_ALL →
    e.toppling.toppling_method ≠ TopplingMethod.Rossum2011_diss →
    OntoTable e →
    Engine.toppleLoop dg fuel passes it_n av e st = Except.ok (a, e1, st1) →
    ∀ n, n < e1.grid.width * e1.grid.height →
      (e1.grid.cells n).height < e1.toppling.topple_threshold
  | 0, _, _, _, _, _, _, _, _, _, _, h => by
    simp [Engine.toppleLoop, throw, throwThe, MonadExceptOf.throw] at h
  | passes + 1, it_n, av, e, st, a, e1, st1, hit, hm, ht, h => by
    simp only [Engine.toppleLoop] at h
    obtain ⟨p, hp, h⟩ := bind_ok h
    obtain ⟨fr, ht1, hq1⟩ := @pass_randomAll _ _ _ _ _ p.1 p.2.1 p.2.2.1 p.2.2.2 hit hm ht hp
    by_cases hq : p.2.1 = true
    · rw [if_pos hq] at h
      simp only [pure, Except.pure] at h
      have := Except.ok.inj h
      simp only [Prod.mk.injEq] at this
      obtain ⟨-, rfl, -⟩ := this
      exact hq1 hq
    · rw [if_neg hq] at h
      exact toppleLoop_randomAll dg fuel passes (it_n + 1) (av + p.1) p.2.2.1 p.2.2.2 a e1 st1
        (by rw [fr.iterator]; exact hit) (by rw [fr.method]; exact hm) ht1 h

/-- C2 (amended): under the RandomAll strategy (index table listing every cell index) and
under the FollowActivity strategy (callback registered on every grid cell, identities
row-major, and on entry the active set holding every cell at or above threshold), for
every rule other than Rossum2011-diss, whenever `Toppling::Topple(avalancheSize)`
returns, every cell of its grid has a height strictly below the toppling threshold. -/
theorem C2_topple_leaves_all_below (e : Engine) (dg : Option Grid) (av : Int) (st : Statics)
    (fuel : Nat) (a : Int) (e1 : Engine) (st1 : Statics)
    (hm : e.toppling.toppling_method ≠ TopplingMethod.Rossum2011_diss)
    (hcase :
      (e.toppling.toppling_iterator = TopplingIterator.RANDOM_ALL
        ∧ ∃ table, e.toppling.random_indices = some table
          ∧ ∀ c, c < e.grid.width * e.grid.height →
              ∃ k, k < e.grid.width * e.grid.height ∧ table k = c)
      ∨ (e.toppling.toppling_iterator = TopplingIterator.FOLLOW_ACTIVITY
        ∧ (∀ n, n < e.grid.width * e.grid.height →
            (e.grid.cells n).altered_function = true ∧ (e.grid.cells n).id = (n : Int))
        ∧ ∀ n, n < e.grid.width * e.grid.height →
            e.toppling.topple_threshold ≤ (e.grid.cells n).height →
            n ∈ e.toppling.active_cells))
    (h : e.ToppleAll dg av st fuel = Except.ok (a, e1, st1)) :
    ∀ n, n < e1.grid.width * e1.grid.height →
      (e1.grid.cells n).height < e1.toppling.topple_threshold := by
  rcases hcase with ⟨hit, ht⟩ | ⟨hit, hhook, hsup⟩
  · unfold Engine.ToppleAll at h
    exact toppleLoop_randomAll dg fuel fuel 0 0 e st a e1 st1 hit hm ht h
  · exact (ToppleAll_follow ⟨hit, hhook⟩ hm hsup h).2.2


theorem drivenPile_topple :
    (Run.value (drivenPile >>= fun p => p.1.topplePrimary p.2 10)).map
      (fun r => (r.1, r.2.1.grid.heights, r.2.1.toppling.topple_threshold))
      = some (1, [1, 0, 0, 1], 4) := by
  decide!

/-- Witness of C2 (amended): the primary engine (FollowActivity, BTW) of the 2 by 2 sandpile
driven four times at cell 2; its relaxation topples once and returns with the
heights 1, 0, 0, 1, all below the threshold 4. -/
theorem C2_topple_leaves_all_below_witness :
    ∃ s st g t a e1 st1, drivenPile = Except.ok (s, st)
      ∧ s.grid = some g ∧ s.toppling = some t
      ∧ Engine.ToppleAll { grid := g, toppling := t } s.diss_grid 0 st 10
          = Except.ok (a, e1, st1)
      ∧ a = 1 ∧ e1.grid.heights = [1, 0, 0, 1] ∧ e1.toppling.topple_threshold = 4
      ∧ ∀ n, n < e1.grid.width * e1.grid.height →
          (e1.grid.cells n).height < e1.toppling.topple_threshold := by
  obtain ⟨p, r, hp, hr, hv⟩ := Run.bind_value drivenPile_topple
  simp only [Prod.mk.injEq] at hv
  have hc := (drivenPile_reachable hp).consistent
  unfold SandPile.topplePrimary at hr
  cases ht : p.1.toppling with
  | none => rw [ht] at hr; simp [throw, throwThe, MonadExceptOf.throw] at hr
  | some t =>
    cases hg : p.1.grid with
    | none => rw [ht, hg] at hr; simp [throw, throwThe, MonadExceptOf.throw] at hr
    | some g =>
      rw [ht, hg] at hr
      simp only [] at hr
      obtain ⟨hk, hT, -, hm⟩ := hc g t hg ht
      exact ⟨p.1, p.2, g, t, r.1, r.2.1, r.2.2, hp, hg, ht, hr, hv.1, hv.2.1, hv.2.2,
        C2_topple_leaves_all_below { grid := g, toppling := t } p.1.diss_grid 0 p.2 10 r.1 r.2.1
          r.2.2 hm (Or.inr ⟨hk.1, hk.2, fun n hn hge => ((hT n hn).2 hge).elim id False.elim⟩)
          hr⟩

/-! ### Reproducibility: the outcome depends on the generator states only -/

/-- A process state is in the same generator state as itself. -/
theorem Statics.Same.same_refl (a : Statics) : a.Same a :=
  ⟨rfl, rfl, rfl, rfl, rfl, rfl, rfl, rfl⟩

/-- Two processes in which no generator has been constructed yet, with the same seeding
function and the same six feeds, are in the same generator state. -/
theorem Statics.Same.of_unused {a b : Statics} (ha : a.Unused) (hb : b.Unused)
    (hs : a.seed = b.seed) (hf : a.feeds = b.feeds) : a.Same b := by
  obtain ⟨a1, a2, a3, a4, a5, a6, a7, a8⟩ := ha
  obtain ⟨b1, b2, b3, b4, b5, b6, b7, b8⟩ := hb
  simp only [Statics.feeds, Prod.mk.injEq] at hf
  obtain ⟨f0, f1, f2, f3, -, f5⟩ := hf
  refine ⟨?_, ?_, ?_, ?_, ?_, ?_, ?_, ?_⟩
  · rw [a1, b1, hs, f2]
  · rw [a2, b2, hs, f5]
  · rw [a3, b3, hs, f0]
  · unfold Statics.toppleGenerator; rw [a4, b4, hs, f1]
  · rw [a5, b5, hs, f3]
  · rw [a6, b6]
  · rw [a7, b7]
  · rw [a8, b8]

/-- Outcomes that agree are carried through a sequencing step whose continuations agree
on related results. -/
theorem Agree.bind {α β : Type} {R : α → α → Prop} {S : β → β → Prop} {x y : Run α}
    {f g : α → Run β} (h : Run.Agree R x y) (hf : ∀ p q, R p q → Run.Agree S (f p) (g q)) :
    Run.Agree S (x >>= f) (y >>= g) := by
  cases x with
  | error e =>
    cases y with
    | error e1 => exact h
    | ok b => exact h.elim
  | ok a =>
    cases y with
    | error e1 => exact h.elim
    | ok b => exact hf a b h

/-- A sequencing step with a common first part agrees when the continuations agree. -/
theorem Agree.bind_same {α β : Type} {S : β → β → Prop} (x : Run α) {f g : α → Run β}
    (hf : ∀ p, Run.Agree S (f p) (g p)) : Run.Agree S (x >>= f) (x >>= g) := by
  cases x with
  | error e => exact rfl
  | ok a => exact hf a

theorem Agree.of_pure {α : Type} {R : α → α → Prop} {a b : α} (h : R a b) :
    Run.Agree R (pure a) (pure b) := h

theorem Agree.of_throw {α : Type} {R : α → α → Prop} (e : Fault) :
    Run.Agree R (throw e) (throw e) := rfl

/-- Outcomes that agree have the same first component, or the same fault. -/
theorem Agree.map_fst {α β : Type} {R : β → β → Prop} {x y : Run (α × β)}
    (h : Run.Agree (Paired R) x y) : Except.map Prod.fst x = Except.map Prod.fst y := by
  cases x with
  | error e =>
    cases y with
    | error e1 => have : e = e1 := h; rw [this]
    | ok b => exact h.elim
  | ok a =>
    cases y with
    | error e1 => exact h.elim
    | ok b => have : a.1 = b.1 := h.1; simp only [Except.map, this]

/-- The draw `boost_random_neigh` depends on the state of the neighbour generator only. -/
theorem boost_random_neigh_same {a b : Statics} (h : a.Same b) (size : Nat) :
    Paired Statics.Same (boost_random_neigh a size) (boost_random_neigh b size) := by
  unfold boost_random_neigh
  simp only [Paired]
  rw [h.neigh]
  exact ⟨rfl, h.cell, rfl, h.grid, h.topple, h.drive, h.split, h.lin, h.diss⟩

/-- The draw `boost_random` depends on the state of the grid generator only. -/
theorem boost_random_same {a b : Statics} (h : a.Same b) (size : Nat) :
    Paired Statics.Same (boost_random a size) (boost_random b size) := by
  unfold boost_random
  simp only [Paired]
  rw [h.grid]
  exact ⟨rfl, h.cell, h.neigh, rfl, h.topple, h.drive, h.split, h.lin, h.diss⟩

theorem shuffleLoop_same {α : Type} {rand : Statics → Nat → Nat × Statics}
    (hr : ∀ a b : Statics, a.Same b → ∀ size, Paired Statics.Same (rand a size) (rand b size)) :
    ∀ (count i : Nat) (t : Nat → α) (a b : Statics), a.Same b →
      Paired Statics.Same (shuffleLoop rand i count t a) (shuffleLoop rand i count t b)
  | 0, i, t, a, b, h => ⟨rfl, h⟩
  | count + 1, i, t, a, b, h => by
    simp only [shuffleLoop]
    have h1 := hr a b h (i + 1)
    rw [← h1.1]
    exact shuffleLoop_same hr count (i + 1) _ _ _ h1.2

theorem random_shuffle_same {α : Type} {rand : Statics → Nat → Nat × Statics}
    (hr : ∀ a b : Statics, a.Same b → ∀ size, Paired Statics.Same (rand a size) (rand b size))
    (n : Nat) (t : Nat → α) {a b : Statics} (h : a.Same b) :
    Paired Statics.Same (random_shuffle rand n t a) (random_shuffle rand n t b) :=
  shuffleLoop_same hr (n - 1) 1 t a b h

/-- The constructor `Grid::Grid` builds the same grid from the same generator states. -/
theorem Grid_new_same (width height : Nat) (bt : BoundaryType) {a b : Statics} (h : a.Same b) :
    Paired Statics.Same (Grid.new width height bt a) (Grid.new width height bt b) := by
  unfold Grid.new
  simp only []
  rw [h.cell]
  have h1 : Statics.Same
      { a with cellGen := some (fun k => (b.cellGen.getD (b.seed b.direction_feed))
          (k + (width * height + 1))) }
      { b with cellGen := some (fun k => (b.cellGen.getD (b.seed b.direction_feed))
          (k + (width * height + 1))) } :=
    ⟨rfl, h.neigh, h.grid, h.topple, h.drive, h.split, h.lin, h.diss⟩
  have h2 := random_shuffle_same (fun a b h => boost_random_neigh_same h) (width * height)
    (fun i => i) h1
  exact ⟨by simp only [h2.1], h2.2⟩

theorem fullyConnectedLoop_agree (g : Grid) (this_i : Int) :
    ∀ (fuel cnt : Nat) (nb : List CellRef) (a b : Statics), a.Same b →
      Run.Agree (Paired Statics.Same) (fullyConnectedLoop g this_i fuel cnt nb a)
        (fullyConnectedLoop g this_i fuel cnt nb b)
  | 0, _, _, _, _, _ => rfl
  | fuel + 1, cnt, nb, a, b, h => by
    simp only [fullyConnectedLoop]
    have h1 := boost_random_neigh_same h (g.width * g.height)
    rw [← h1.1]
    split
    · refine Agree.bind_same _ (fun cptr => ?_)
      split
      · exact fullyConnectedLoop_agree g this_i fuel _ _ _ _ h1.2
      · exact Agree.of_pure ⟨rfl, h1.2⟩
    · split
      · exact fullyConnectedLoop_agree g this_i fuel _ _ _ _ h1.2
      · exact Agree.of_pure ⟨rfl, h1.2⟩

/-- The neighbour lists of `Grid::GetNeighbours` agree for the same generator states. -/
theorem GetNeighbours_agree (g : Grid) (i j : Int) (fuel : Nat) {a b : Statics}
    (h : a.Same b) :
    Run.Agree (Paired Statics.Same) (g.GetNeighbours i j a fuel) (g.GetNeighbours i j b fuel) := by
  unfold Grid.GetNeighbours
  simp only []
  split
  · exact Agree.of_throw _
  · split
    · exact Agree.of_throw _
    · split
      · exact Agree.of_pure ⟨rfl, h⟩
      · exact Agree.of_pure ⟨rfl, h⟩
      · exact Agree.of_pure ⟨rfl, h⟩
      · exact Agree.bind_same _ (fun nb => Agree.of_pure ⟨rfl, h⟩)
      · exact fullyConnectedLoop_agree g _ fuel 0 [] a b h
      · exact Agree.bind_same _ (fun nb => Agree.of_pure ⟨rfl, h⟩)
      · exact Agree.of_throw _

theorem drawSplit_same {a b : Statics} (h : a.Same b) (size : Nat) :
    Paired Statics.Same (a.drawSplit size) (b.drawSplit size) := by
  unfold Statics.drawSplit
  simp only [Paired]
  rw [h.topple, h.split]
  exact ⟨rfl, h.cell, h.neigh, h.grid, rfl, h.drive, rfl, h.lin, h.diss⟩

theorem Statics.Same.setDrive {a b : Statics} (h : a.Same b) (g : Gen) :
    Statics.Same { a with driveGen := some g } { b with driveGen := some g } :=
  ⟨h.cell, h.neigh, h.grid, h.topple, rfl, h.split, h.lin, h.diss⟩

/-- The per-cell `Topple` has the same outcome for the same generator states. -/
theorem Topple_agree (e : Engine) (dg : Option Grid) (cell : CellRef) (nb : List CellRef)
    {a b : Statics} (h : a.Same b) :
    Run.Agree (Paired (Paired Statics.Same)) (e.Topple dg cell nb a) (e.Topple dg cell nb b) := by
  have hd := drawSplit_same h nb.length
  have hd1 : (a.drawSplit nb.length).1 = (b.drawSplit nb.length).1 := hd.1
  have h1 : (a.drawSplit nb.length).2.Same (b.drawSplit nb.length).2 := hd.2
  have hl := h1.lin
  have hs := h1.diss
  unfold Engine.Topple
  simp only []
  rw [← h.topple, ← hd1, ← hl, ← hs]
  generalize (a.drawSplit nb.length).2 = a1 at h1 ⊢
  generalize (b.drawSplit nb.length).2 = b1 at h1 ⊢
  repeat' (first
    | exact Agree.of_throw _
    | refine Agree.bind_same _ (fun _ => ?_)
    | refine Agree.of_pure ⟨rfl, rfl, ?_⟩
    | split)
  all_goals
    (constructor <;>
      first
      | rfl | exact h1.cell | exact h1.neigh | exact h1.grid | exact h1.topple
      | exact h1.drive | exact h1.split | exact h1.lin | exact h1.diss)

theorem visit_agree (e : Engine) (dg : Option Grid) (fuel : Nat) (idx : Int) {a b : Statics}
    (h : a.Same b) :
    Run.Agree (Paired (Paired Statics.Same)) (e.visit dg fuel idx a) (e.visit dg fuel idx b) := by
  unfold Engine.visit
  simp only []
  refine Agree.bind (GetNeighbours_agree e.grid _ _ fuel h) ?_
  rintro ⟨nb, a1⟩ ⟨nb1, b1⟩ ⟨hn, h1⟩
  cases hn
  exact Agree.bind_same _ (fun c => Topple_agree e dg c nb h1)

theorem sweep_agree (dg : Option Grid) (fuel : Nat) :
    ∀ (l : List Int) (e : Engine) (a b : Statics), a.Same b →
      Run.Agree (Paired (Paired Statics.Same)) (Engine.sweep dg fuel l e a)
        (Engine.sweep dg fuel l e b)
  | [], _, _, _, h => Agree.of_pure ⟨rfl, rfl, h⟩
  | idx :: rest, e, a, b, h => by
    simp only [Engine.sweep]
    refine Agree.bind (visit_agree e dg fuel idx h) ?_
    rintro ⟨t, e1, a1⟩ ⟨t1, e2, b1⟩ ⟨ht, he, h1⟩
    cases ht
    cases he
    refine Agree.bind (sweep_agree dg fuel rest e1 a1 b1 h1) ?_
    rintro ⟨k, e3, a2⟩ ⟨k1, e4, b2⟩ ⟨hk, he, h2⟩
    cases hk
    cases he
    exact Agree.of_pure ⟨rfl, rfl, h2⟩

/-- One pass of the relaxation loop has the same outcome for the same generator states. -/
theorem pass_agree (e : Engine) (dg : Option Grid) (fuel it_n : Nat) {a b : Statics}
    (h : a.Same b) :
    Run.Agree (Paired (Paired (Paired Statics.Same))) (e.pass dg fuel it_n a)
      (e.pass dg fuel it_n b) := by
  have random := fun (table : Nat → Nat) =>
    random_shuffle_same (fun a b h => boost_random_same h) (e.grid.width * e.grid.height)
      table h
  unfold Engine.pass
  simp only []
  split
  · split
    · exact Agree.of_throw _
    · rename_i table _
      rw [← (random table).1]
      refine Agree.bind (sweep_agree dg fuel _ _ _ _ (random table).2) ?_
      rintro ⟨k, e3, a2⟩ ⟨k1, e4, b2⟩ ⟨hk, he, h2⟩
      cases hk
      cases he
      exact Agree.of_pure ⟨rfl, rfl, rfl, h2⟩
  · split
    · exact Agree.of_throw _
    · rename_i table _
      rw [← (random table).1]
      refine Agree.bind (sweep_agree dg fuel _ _ _ _ (random table).2) ?_
      rintro ⟨k, e3, a2⟩ ⟨k1, e4, b2⟩ ⟨hk, he, h2⟩
      cases hk
      cases he
      exact Agree.of_pure ⟨rfl, rfl, rfl, h2⟩
  · have hs := random_shuffle_same (fun a b h => boost_random_same h)
      (e.toppling.active_cells.map (fun n => (e.grid.cells n).id)).length
      (fun k => (e.toppling.active_cells.map (fun n => (e.grid.cells n).id)).getD k 0) h
    rw [← hs.1]
    refine Agree.bind_same _ (fun t2 => ?_)
    refine Agree.bind (sweep_agree dg fuel _ _ _ _ hs.2) ?_
    rintro ⟨k, e3, a2⟩ ⟨k1, e4, b2⟩ ⟨hk, he, h2⟩
    cases hk
    cases he
    exact Agree.bind_same _ (fun t3 => Agree.of_pure ⟨rfl, rfl, rfl, h2⟩)

theorem toppleLoop_agree (dg : Option Grid) (fuel : Nat) :
    ∀ (passes it_n : Nat) (size : Int) (e : Engine) (a b : Statics), a.Same b →
      Run.Agree (Paired (Paired Statics.Same)) (Engine.toppleLoop dg fuel passes it_n size e a)
        (Engine.toppleLoop dg fuel passes it_n size e b)
  | 0, _, _, _, _, _, _ => rfl
  | passes + 1, it_n, size, e, a, b, h => by
    simp only [Engine.toppleLoop]
    refine Agree.bind (pass_agree e dg fuel it_n h) ?_
    rintro ⟨k, quit, e1, a1⟩ ⟨k1, quit1, e2, b1⟩ ⟨hk, hq, he, h1⟩
    cases hk
    cases hq
    cases he
    split
    · exact Agree.of_pure ⟨rfl, rfl, h1⟩
    · exact toppleLoop_agree dg fuel passes _ _ _ _ _ h1

theorem ToppleAll_agree (e : Engine) (dg : Option Grid) (size : Int) (fuel : Nat)
    {a b : Statics} (h : a.Same b) :
    Run.Agree (Paired (Paired Statics.Same)) (e.ToppleAll dg size a fuel)
      (e.ToppleAll dg size b fuel) :=
  toppleLoop_agree dg fuel fuel 0 0 e a b h

theorem DissipationGrid_agree (t : Option Toppling) (m : TopplingMethod) (width height : Nat)
    {a b : Statics} (h : a.Same b) :
    Run.Agree (Paired (Paired (Paired Statics.Same)))
      (SandPile.DissipationGrid t m width height a)
      (SandPile.DissipationGrid t m width height b) := by
  unfold SandPile.DissipationGrid
  have hg := Grid_new_same width height BoundaryType.BT_PERIODIC h
  simp only []
  rw [← hg.1]
  exact Agree.bind_same _ (fun dt => Agree.of_pure ⟨rfl, rfl, rfl, hg.2⟩)

/-- The constructor `SandPile::SandPile` builds the same sandpile from the same generator
states. -/
theorem new_agree (L : Nat) (m : TopplingMethod) (type : BoundaryType) {a b : Statics}
    (h : a.Same b) :
    Run.Agree (Paired Statics.Same) (SandPile.new L m type a) (SandPile.new L m type b) := by
  unfold SandPile.new
  simp only []
  split
  · refine Agree.bind (DissipationGrid_agree none _ L L h) ?_
    rintro ⟨g, t, dt, a1⟩ ⟨g1, t1, dt1, b1⟩ ⟨hg, ht, hd, h1⟩
    cases hg
    cases ht
    cases hd
    exact Agree.of_pure ⟨rfl, h1⟩
  · have hg := Grid_new_same L L (resolvedBoundary m type) h
    rw [← hg.1]
    refine Agree.bind_same _ (fun t2 => ?_)
    split
    · refine Agree.bind (DissipationGrid_agree _ _ L L hg.2) ?_
      rintro ⟨g, t, dt, a1⟩ ⟨g1, t1, dt1, b1⟩ ⟨hg, ht, hd, h1⟩
      cases hg
      cases ht
      cases hd
      exact Agree.of_pure ⟨rfl, h1⟩
    · exact Agree.of_pure ⟨rfl, hg.2⟩

/-- The method `SandPile::Drive` drops the grain on the same cell for the same generator states. -/
theorem Drive_agree (s : SandPile) (fuel : Nat) {a b : Statics} (h : a.Same b) :
    Run.Agree (Paired Statics.Same) (s.Drive a fuel) (s.Drive b fuel) := by
  unfold SandPile.Drive
  simp only []
  rw [← h.drive]
  split
  · exact Agree.of_throw _
  · split
    · exact Agree.of_throw _
    · exact Agree.bind_same _ (fun p => Agree.of_pure ⟨rfl, h.setDrive _⟩)

theorem relaxDiss_agree (s : SandPile) (size : Int) (fuel : Nat) {a b : Statics}
    (h : a.Same b) :
    Run.Agree (Paired (Paired Statics.Same)) (s.relaxDiss size a fuel)
      (s.relaxDiss size b fuel) := by
  unfold SandPile.relaxDiss
  split
  · exact Agree.of_pure ⟨rfl, rfl, h⟩
  · split
    · exact Agree.of_throw _
    · refine Agree.bind (ToppleAll_agree _ none size fuel h) ?_
      rintro ⟨k, e1, a1⟩ ⟨k1, e2, b1⟩ ⟨hk, he, h1⟩
      cases hk
      cases he
      exact Agree.of_pure ⟨rfl, rfl, h1⟩

theorem relaxPrimary_agree (s : SandPile) (size : Int) (fuel : Nat) {a b : Statics}
    (h : a.Same b) :
    Run.Agree (Paired (Paired Statics.Same)) (s.relaxPrimary size a fuel)
      (s.relaxPrimary size b fuel) := by
  unfold SandPile.relaxPrimary
  split
  · exact Agree.of_pure ⟨rfl, rfl, h⟩
  · split
    · exact Agree.of_throw _
    · refine Agree.bind (ToppleAll_agree _ s.diss_grid size fuel h) ?_
      rintro ⟨k, e1, a1⟩ ⟨k1, e2, b1⟩ ⟨hk, he, h1⟩
      cases hk
      cases he
      exact Agree.of_pure ⟨rfl, rfl, h1⟩

/-- The method `SandPile::Relax` returns the same avalanche size for the same generator states. -/
theorem Relax_agree (s : SandPile) (measure : Bool) (fuel : Nat) {a b : Statics}
    (h : a.Same b) :
    Run.Agree (Paired (Paired Statics.Same)) (s.Relax measure a fuel)
      (s.Relax measure b fuel) := by
  unfold SandPile.Relax
  simp only []
  refine Agree.bind (relaxDiss_agree s 0 fuel h) ?_
  rintro ⟨k, s1, a1⟩ ⟨k1, s2, b1⟩ ⟨hk, he, h1⟩
  cases hk
  cases he
  refine Agree.bind (relaxPrimary_agree s1 k fuel h1) ?_
  rintro ⟨k2, s3, a2⟩ ⟨k3, s4, b2⟩ ⟨hk, he, h2⟩
  cases hk
  cases he
  split
  · exact Agree.of_pure ⟨rfl, rfl, h2⟩
  · exact Agree.of_pure ⟨rfl, rfl, h2⟩

theorem avalancheSizes_agree (measure : Bool) (fuel : Nat) :
    ∀ (n : Nat) (s : SandPile) (a b : Statics), a.Same b →
      Run.Agree (Paired (Paired Statics.Same)) (s.avalancheSizes n measure a fuel)
        (s.avalancheSizes n measure b fuel)
  | 0, _, _, _, h => Agree.of_pure ⟨rfl, rfl, h⟩
  | n + 1, s, a, b, h => by
    simp only [SandPile.avalancheSizes]
    refine Agree.bind (Drive_agree s fuel h) ?_
    rintro ⟨s1, a1⟩ ⟨s2, b1⟩ ⟨hs, h1⟩
    cases hs
    refine Agree.bind (Relax_agree s1 measure fuel h1) ?_
    rintro ⟨k, s3, a2⟩ ⟨k1, s4, b2⟩ ⟨hk, hs, h2⟩
    cases hk
    cases hs
    refine Agree.bind (avalancheSizes_agree measure fuel n s3 a2 b2 h2) ?_
    rintro ⟨l, s5, a3⟩ ⟨l1, s6, b3⟩ ⟨hl, hs, h3⟩
    cases hl
    cases hs
    exact Agree.of_pure ⟨rfl, rfl, h3⟩

/-- Construction followed by `n` cycles has the same outcome for the same generator states,
and leaves the generators in the same state. -/
theorem run_agree (L : Nat) (m : TopplingMethod) (type : BoundaryType) (n : Nat)
    (measure : Bool) (fuel : Nat) {a b : Statics} (h : a.Same b) :
    Run.Agree (Paired Statics.Same) (SandPile.run L m type n measure a fuel)
      (SandPile.run L m type n measure b fuel) := by
  unfold SandPile.run
  refine Agree.bind (new_agree L m type h) ?_
  rintro ⟨s, a1⟩ ⟨s1, b1⟩ ⟨hs, h1⟩
  cases hs
  refine Agree.bind (avalancheSizes_agree measure fuel n s a1 b1 h1) ?_
  rintro ⟨l, s5, a3⟩ ⟨l1, s6, b3⟩ ⟨hl, hs, h3⟩
  cases hl
  cases hs
  exact Agree.of_pure ⟨rfl, h3⟩

/-- C6 (counterexample): two sandpiles of the same size (2), rule (BTW) and boundary
(Dissipating) built one after the other in one process, the same six feeds being set
before each construction, and each driven through four cycles `Drive(); Relax()`, return
different sequences of avalanche sizes: the second instance continues the generators the
first one has consumed. -/
theorem C6_second_instance_counterexample :
    Run.value twoInstances = some ([0, 0, 0, 1], [0, 0, 0, 0]) := by
  decide!

/-- C6 (amended): two sandpiles built with identical size, rule and boundary, each in a
process whose static generators are in the same state when the instance is constructed
(as in two freshly started processes with the same feeds), and each driven through the
same number of cycles `Drive(); Relax(measure)`, have the same outcome: both return the
same sequence of avalanche sizes, or both stop with the same fault. -/
theorem C6_same_generators_same_avalanches (L : Nat) (toppling_method : TopplingMethod)
    (type : BoundaryType) (n : Nat) (measure : Bool) (fuel : Nat) (w1 w2 : Statics)
    (h : w1.Same w2) :
    Except.map Prod.fst (SandPile.run L toppling_method type n measure w1 fuel)
      = Except.map Prod.fst (SandPile.run L toppling_method type n measure w2 fuel) :=
  Agree.map_fst (run_agree L toppling_method type n measure fuel h)

/-- C6 (witness): two freshly started processes whose feeds agree except for the
dissipation feed (which only `Populate` reads) give the same sequence for a 2 by 2
Dissipating BTW sandpile over four cycles. -/
theorem C6_same_generators_same_avalanches_witness :
    ((Statics.initial burstSeed).SetFeeds 1 2 3 4 5 6).Same
        ((Statics.initial burstSeed).SetFeeds 1 2 3 4 77 6)
      ∧ Except.map Prod.fst (SandPile.run 2 TopplingMethod.Bak_Tang_Wiesenfeld1987
          BoundaryType.BT_DISSIPATING 4 true ((Statics.initial burstSeed).SetFeeds 1 2 3 4 5 6) 10)
        = Except.map Prod.fst (SandPile.run 2 TopplingMethod.Bak_Tang_Wiesenfeld1987
          BoundaryType.BT_DISSIPATING 4 true
          ((Statics.initial burstSeed).SetFeeds 1 2 3 4 77 6) 10) :=
  ⟨⟨rfl, rfl, rfl, rfl, rfl, rfl, rfl, rfl⟩,
    C6_same_generators_same_avalanches 2 TopplingMethod.Bak_Tang_Wiesenfeld1987
      BoundaryType.BT_DISSIPATING 4 true 10 _ _ ⟨rfl, rfl, rfl, rfl, rfl, rfl, rfl, rfl⟩⟩

/-- The run of the witness returns: the sequence of the first four cycles is 0, 0, 0, 1. -/
theorem run_burst_returns :
    Run.value (Except.map Prod.fst (SandPile.run 2 TopplingMethod.Bak_Tang_Wiesenfeld1987
      BoundaryType.BT_DISSIPATING 4 true ((Statics.initial burstSeed).SetFeeds 1 2 3 4 77 6) 10))
      = some [0, 0, 0, 1] := by
  decide!

/-! ### Neighbours on WallDissipating and Circular grids, the inscribed circle -/

/-- C11: on a WallDissipating grid, for every valid (i, j), `GetNeighbours` returns
4 - [i = 0] - [j = 0] entries, in the order (i-1, j), (i+1, j), (i, j-1), (i, j+1): the
entry for (i+1, j) is the reservoir exactly when i = width-1 and the grid cell at
(i+1, j) otherwise, the entry for (i, j+1) is the reservoir exactly when j = height-1 and
the grid cell at (i, j+1) otherwise; the entries for (i-1, j) and (i, j-1) are present
only when i ≠ 0, respectively j ≠ 0, and are then the grid cells at these coordinates,
so the reservoir never stands for these two sides. -/
theorem C11_wall_dissipating_neighbours (g : Grid) (i j : Int) (st : Statics) (fuel : Nat)
    (hb : g.boundary_type = BoundaryType.BT_WALL_DISSIPATING)
    (hi : 0 ≤ i) (hi2 : i < (g.width : Int)) (hj : 0 ≤ j) (hj2 : j < (g.height : Int)) :
    ∃ (west : List CellRef) (east : CellRef) (north : List CellRef) (south : CellRef),
      g.GetNeighbours i j st fuel = Except.ok (west ++ [east] ++ north ++ [south], st)
      ∧ (west ++ [east] ++ north ++ [south]).length
          = 4 - (if i = 0 then 1 else 0) - (if j = 0 then 1 else 0)
      ∧ (east = CellRef.reservoir ↔ i = (g.width : Int) - 1)
      ∧ (east ≠ CellRef.reservoir → g.GetCell (i + 1) j = Except.ok east)
      ∧ (south = CellRef.reservoir ↔ j = (g.height : Int) - 1)
      ∧ (south ≠ CellRef.reservoir → g.GetCell i (j + 1) = Except.ok south)
      ∧ (i = 0 → west = [])
      ∧ (i ≠ 0 → ∃ n : Int, west = [CellRef.cell n] ∧ 0 ≤ n ∧ n < (g.size : Int)
          ∧ g.GetCell (i - 1) j = Except.ok (CellRef.cell n))
      ∧ (j = 0 → north = [])
      ∧ (j ≠ 0 → ∃ n : Int, north = [CellRef.cell n] ∧ 0 ≤ n ∧ n < (g.size : Int)
          ∧ g.GetCell i (j - 1) = Except.ok (CellRef.cell n))
      ∧ CellRef.reservoir ∉ west ∧ CellRef.reservoir ∉ north := by
  have hw : g.width ≠ 0 := by intro h; rw [h] at hi2; simp at hi2; omega
  have hh : g.height ≠ 0 := by intro h; rw [h] at hj2; simp at hj2; omega
  have hsz : (g.size : Int) = (g.height : Int) * (g.width : Int) := by
    simp [Grid.size, mul_comm]
  refine ⟨if i ≠ 0 then [CellRef.cell (j * (g.width : Int) + (i - 1))] else [],
    if i = (g.width : Int) - 1 then CellRef.reservoir
      else CellRef.cell (j * (g.width : Int) + (i + 1)),
    if j ≠ 0 then [CellRef.cell ((j - 1) * (g.width : Int) + i)] else [],
    if j = (g.height : Int) - 1 then CellRef.reservoir
      else CellRef.cell ((j + 1) * (g.width : Int) + i), ?_, ?_⟩
  · unfold Grid.GetNeighbours
    simp only [hw, hh, hb, if_false]
    rfl
  · have hrow : j * (g.width : Int) + (g.width : Int) ≤ (g.height : Int) * (g.width : Int) := by
      nlinarith
    have hrow0 : 0 ≤ j * (g.width : Int) := by positivity
    have hrow1 : j ≠ 0 → 0 ≤ (j - 1) * (g.width : Int) := by
      intro h
      have : 0 ≤ j - 1 := by omega
      positivity
    simp only [Grid.GetCell, pure, Except.pure, throw, throwThe, MonadExceptOf.throw]
    refine ⟨?_, ?_, ?_, ?_, ?_, ?_, ?_, ?_, ?_, ?_, ?_⟩
    · split_ifs <;> first | (simp; omega) | simp
    · by_cases h : i = (g.width : Int) - 1
      · simp [h]
      · simp [h]
    · split_ifs <;> first | (simp; omega) | simp
    · by_cases h : j = (g.height : Int) - 1
      · simp [h]
      · simp [h]
    · split_ifs <;> first | (simp; omega) | simp
    · intro h; simp [h]
    · intro h
      refine ⟨j * (g.width : Int) + (i - 1), by simp [h], by omega, by rw [hsz]; omega, ?_⟩
      split_ifs <;> first | rfl | omega
    · intro h; simp [h]
    · intro h
      have := hrow1 h
      refine ⟨(j - 1) * (g.width : Int) + i, by simp [h], by omega, ?_, ?_⟩
      · rw [hsz]; nlinarith
      · split_ifs <;> first | rfl | omega
    · split_ifs <;> simp
    · split_ifs <;> simp

/-- Witness of C11: the corner cell (0, 0) of a freshly built 4 by 4 WallDissipating grid
has two neighbours only. -/
theorem C11_wall_dissipating_neighbours_witness :
    ∃ (west : List CellRef) (east : CellRef) (north : List CellRef) (south : CellRef),
      (exampleGrid BoundaryType.BT_WALL_DISSIPATING).GetNeighbours 0 0
          (Statics.initial (constSeed 0)) 0
        = Except.ok (west ++ [east] ++ north ++ [south], Statics.initial (constSeed 0))
      ∧ (west ++ [east] ++ north ++ [south]).length
          = 4 - (if (0 : Int) = 0 then 1 else 0) - (if (0 : Int) = 0 then 1 else 0)
      ∧ (east = CellRef.reservoir
          ↔ (0 : Int) = ((exampleGrid BoundaryType.BT_WALL_DISSIPATING).width : Int) - 1)
      ∧ (east ≠ CellRef.reservoir
          → (exampleGrid BoundaryType.BT_WALL_DISSIPATING).GetCell (0 + 1) 0 = Except.ok east)
      ∧ (south = CellRef.reservoir
          ↔ (0 : Int) = ((exampleGrid BoundaryType.BT_WALL_DISSIPATING).height : Int) - 1)
      ∧ (south ≠ CellRef.reservoir
          → (exampleGrid BoundaryType.BT_WALL_DISSIPATING).GetCell 0 (0 + 1) = Except.ok south)
      ∧ ((0 : Int) = 0 → west = [])
      ∧ ((0 : Int) ≠ 0 → ∃ n : Int, west = [CellRef.cell n] ∧ 0 ≤ n
          ∧ n < ((exampleGrid BoundaryType.BT_WALL_DISSIPATING).size : Int)
          ∧ (exampleGrid BoundaryType.BT_WALL_DISSIPATING).GetCell (0 - 1) 0
              = Except.ok (CellRef.cell n))
      ∧ ((0 : Int) = 0 → north = [])
      ∧ ((0 : Int) ≠ 0 → ∃ n : Int, north = [CellRef.cell n] ∧ 0 ≤ n
          ∧ n < ((exampleGrid BoundaryType.BT_WALL_DISSIPATING).size : Int)
          ∧ (exampleGrid BoundaryType.BT_WALL_DISSIPATING).GetCell 0 (0 - 1)
              = Except.ok (CellRef.cell n))
      ∧ CellRef.reservoir ∉ west ∧ CellRef.reservoir ∉ north :=
  C11_wall_dissipating_neighbours (exampleGrid BoundaryType.BT_WALL_DISSIPATING) 0 0
    (Statics.initial (constSeed 0)) 0 rfl (by decide) (by decide) (by decide) (by decide)

/-! ### The inscribed circle -/

/-- The radius `(width-1)/2` of `WithinCircle` is computed in `int`: for an even positive
width it is `width/2 - 1`. -/
theorem radius_even (w : Nat) (hev : w % 2 = 0) (hw : 0 < w) :
    (((w : Int) - 1).tdiv 2 : Int) = (w : Int) / 2 - 1 := by
  rw [Int.tdiv_eq_ediv (by omega) (by omega)]
  omega

/-- The test `WithinCircle` on a square grid of even width returns, and compares the squared
distance of the cell centre from the grid centre with the square of the `int` radius. -/
theorem WithinCircle_eq (g : Grid) (hsq : g.width = g.height) (hev : g.width % 2 = 0)
    (i j : Int) :
    g.WithinCircle i j = Except.ok (decide
      (((g.width : ℚ) / 2 - ((i : ℚ) + 1 / 2)) ^ 2 + ((g.width : ℚ) / 2 - ((j : ℚ) + 1 / 2)) ^ 2
        ≤ (((((g.width : Int) - 1).tdiv 2 : Int)) : ℚ) ^ 2)) := by
  unfold Grid.WithinCircle
  have hne : ¬ (g.width ≠ g.height) := by simpa using hsq
  have hne2 : ¬ (g.width % 2 ≠ 0) := by simpa using hev
  simp only [hne, hne2, if_false, pure, Except.pure]
  congr 2
  rw [abs_mul_abs_self, abs_mul_abs_self]
  push_cast
  ring_nf

/-- A cell inside the circle is not on the rim of the grid. -/
theorem WithinCircle_interior {g : Grid} {i j : Int}
    (h : g.WithinCircle i j = Except.ok true) :
    g.width = g.height ∧ g.width % 2 = 0
      ∧ 1 ≤ i ∧ i + 1 < (g.width : Int) ∧ 1 ≤ j ∧ j + 1 < (g.height : Int) := by
  have hboth : g.width = g.height ∧ g.width % 2 = 0 := by
    unfold Grid.WithinCircle at h
    split at h
    · cases h
    · split at h
      · cases h
      · rename_i h1 h2
        exact ⟨not_not.mp h1, not_not.mp h2⟩
  obtain ⟨hsq, hev⟩ := hboth
  rw [WithinCircle_eq g hsq hev] at h
  have hd := of_decide_eq_true (Except.ok.inj h)
  have hint : ∀ n : Int, (1 : ℚ) / 4 ≤ ((n : ℚ) + 1 / 2) ^ 2 := by
    intro n
    have h0 : 0 ≤ n * (n + 1) := by
      rcases le_or_lt 0 n with hn | hn
      · positivity
      · have h1 : n + 1 ≤ 0 := by omega
        nlinarith
    have h1 : (0 : ℚ) ≤ (n : ℚ) * ((n : ℚ) + 1) := by exact_mod_cast h0
    nlinarith
  have hw : 0 < g.width := by
    by_contra h0
    have h0 : g.width = 0 := by omega
    have hz : (((0 : Nat) : Int) - 1).tdiv 2 = 0 := by decide
    rw [h0, hz] at hd
    have hi := hint i
    have hj := hint j
    norm_num at hd
    nlinarith
  rw [radius_even g.width hev hw] at hd
  obtain ⟨k, hk⟩ : ∃ k : Int, (g.width : Int) = 2 * k := ⟨(g.width : Int) / 2, by omega⟩
  have hk1 : 1 ≤ k := by omega
  have hwq : (g.width : ℚ) = 2 * (k : ℚ) := by exact_mod_cast hk
  have hr : (((g.width : Int) / 2 - 1 : Int) : ℚ) = (k : ℚ) - 1 := by
    have : (g.width : Int) / 2 - 1 = k - 1 := by omega
    rw [this]; push_cast; ring
  rw [hr, hwq] at hd
  have key : (2 * k - 2 * i - 1) ^ 2 + (2 * k - 2 * j - 1) ^ 2 ≤ (2 * k - 2) ^ 2 := by
    have : ((2 * k - 2 * i - 1) ^ 2 + (2 * k - 2 * j - 1) ^ 2 : ℚ) ≤ (2 * k - 2) ^ 2 := by
      nlinarith
    exact_mod_cast this
  have hi : (2 * k - 2 * i - 1) ^ 2 ≤ (2 * k - 2) ^ 2 := by nlinarith [sq_nonneg (2 * k - 2 * j - 1)]
  have hj : (2 * k - 2 * j - 1) ^ 2 ≤ (2 * k - 2) ^ 2 := by nlinarith [sq_nonneg (2 * k - 2 * i - 1)]
  have ai := abs_le_of_sq_le_sq' hi (by omega)
  have aj := abs_le_of_sq_le_sq' hj (by omega)
  refine ⟨hsq, hev, ?_, ?_, ?_, ?_⟩
  · omega
  · omega
  · omega
  · rw [← hsq]; omega

/-- The lookup `GetCell(i, j)` for coordinates below the dimensions. -/
theorem GetCell_of_lt (g : Grid) {i j : Int} (hi : i < (g.width : Int))
    (hj : j < (g.height : Int)) :
    g.GetCell i j = Except.ok (CellRef.cell (j * (g.width : Int) + i)) := by
  unfold Grid.GetCell
  rw [if_neg (not_not.mpr hj), if_neg (not_not.mpr hi)]
  rfl

/-- One step of the loop of the Circular case. -/
theorem circular_entry (g : Grid) {a b : Int} {inside : Bool} (hi : a < (g.width : Int))
    (hj : b < (g.height : Int)) (hc : g.WithinCircle a b = Except.ok inside) :
    (do
      let cptr ← g.GetCell a b
      let inside ← g.WithinCircle a b
      pure (if ¬ inside then CellRef.reservoir else cptr) : Run CellRef)
      = Except.ok (if inside then CellRef.cell (b * (g.width : Int) + a)
          else CellRef.reservoir) := by
  rw [GetCell_of_lt g hi hj, hc]
  cases inside <;> rfl

/-- C12: on a Circular grid (square, even width), for every cell (i, j) that satisfies
`WithinCircle`, the four adjacent coordinates (i, j-1), (i-1, j), (i, j+1), (i+1, j) lie
inside the grid, and `GetNeighbours` returns four entries, one for each of them in this
order: the reservoir if `WithinCircle` is false for the coordinate, and the grid cell at
that very coordinate otherwise. -/
theorem C12_circular_neighbours (g : Grid) (i j : Int) (st : Statics) (fuel : Nat)
    (hb : g.boundary_type = BoundaryType.BT_CIRCULAR)
    (hin : g.WithinCircle i j = Except.ok true) :
    (0 ≤ i - 1 ∧ i + 1 < (g.width : Int) ∧ 0 ≤ j - 1 ∧ j + 1 < (g.height : Int))
    ∧ ∃ a b c d, g.GetNeighbours i j st fuel = Except.ok ([a, b, c, d], st)
      ∧ (a = CellRef.reservoir ↔ g.WithinCircle i (j - 1) = Except.ok false)
      ∧ (a ≠ CellRef.reservoir → g.GetCell i (j - 1) = Except.ok a)
      ∧ (b = CellRef.reservoir ↔ g.WithinCircle (i - 1) j = Except.ok false)
      ∧ (b ≠ CellRef.reservoir → g.GetCell (i - 1) j = Except.ok b)
      ∧ (c = CellRef.reservoir ↔ g.WithinCircle i (j + 1) = Except.ok false)
      ∧ (c ≠ CellRef.reservoir → g.GetCell i (j + 1) = Except.ok c)
      ∧ (d = CellRef.reservoir ↔ g.WithinCircle (i + 1) j = Except.ok false)
      ∧ (d ≠ CellRef.reservoir → g.GetCell (i + 1) j = Except.ok d) := by
  obtain ⟨hsq, hev, i1, i2, j1, j2⟩ := WithinCircle_interior hin
  have hw0 : g.width ≠ 0 := by intro h; rw [h] at i2; simp at i2; omega
  have hh0 : g.height ≠ 0 := by rw [← hsq]; exact hw0
  have entry : ∀ a b : Int, a < (g.width : Int) → b < (g.height : Int) →
      ∃ r : CellRef,
        (do
          let cptr ← g.GetCell a b
          let inside ← g.WithinCircle a b
          pure (if ¬ inside then CellRef.reservoir else cptr) : Run CellRef) = Except.ok r
        ∧ (r = CellRef.reservoir ↔ g.WithinCircle a b = Except.ok false)
        ∧ (r ≠ CellRef.reservoir → g.GetCell a b = Except.ok r) := by
    intro a b ha hb2
    obtain ⟨inside, hc⟩ : ∃ inside, g.WithinCircle a b = Except.ok inside :=
      ⟨_, WithinCircle_eq g hsq hev a b⟩
    refine ⟨_, circular_entry g ha hb2 hc, ?_, ?_⟩
    · rw [hc]
      cases inside <;> simp
    · rw [GetCell_of_lt g ha hb2]
      cases inside <;> simp
  obtain ⟨a, ea, ha⟩ := entry i (j - 1) (by omega) (by omega)
  obtain ⟨b, eb, hb1⟩ := entry (i - 1) j (by omega) (by omega)
  obtain ⟨c, ec, hc⟩ := entry i (j + 1) (by omega) (by omega)
  obtain ⟨d, ed, hd⟩ := entry (i + 1) j (by omega) (by omega)
  refine ⟨⟨by omega, i2, by omega, j2⟩, a, b, c, d, ?_, ha.1, ha.2, hb1.1, hb1.2, hc.1, hc.2,
    hd.1, hd.2⟩
  have c1 : i + -1 * 0 = i := by ring
  have c2 : j + -1 * (1 - 0) = j - 1 := by ring
  have c3 : i + -1 * 1 = i - 1 := by ring
  have c4 : j + -1 * (1 - 1) = j := by ring
  have c5 : i + 1 * 0 = i := by ring
  have c6 : j + 1 * (1 - 0) = j + 1 := by ring
  have c7 : i + 1 * 1 = i + 1 := by ring
  have c8 : j + 1 * (1 - 1) = j := by ring
  unfold Grid.GetNeighbours
  simp only [hw0, hh0, hb, if_false, neighbourLoop, List.mapM_cons, List.mapM_nil]
  rw [c1, c2, c3, c4, c5, c6, c7, c8, ea, eb, ec, ed]
  rfl

/-- Witness of C12: the cell (1, 1) of a freshly built 4 by 4 Circular grid lies inside
the circle. -/
theorem C12_circular_neighbours_witness :
    (exampleGrid BoundaryType.BT_CIRCULAR).WithinCircle 1 1 = Except.ok true
    ∧ ((0 : Int) ≤ 1 - 1 ∧ (1 : Int) + 1 < ((exampleGrid BoundaryType.BT_CIRCULAR).width : Int)
        ∧ (0 : Int) ≤ 1 - 1
        ∧ (1 : Int) + 1 < ((exampleGrid BoundaryType.BT_CIRCULAR).height : Int))
    ∧ ∃ a b c d, (exampleGrid BoundaryType.BT_CIRCULAR).GetNeighbours 1 1
          (Statics.initial (constSeed 0)) 0
        = Except.ok ([a, b, c, d], Statics.initial (constSeed 0))
      ∧ (a = CellRef.reservoir
          ↔ (exampleGrid BoundaryType.BT_CIRCULAR).WithinCircle 1 (1 - 1) = Except.ok false)
      ∧ (a ≠ CellRef.reservoir
          → (exampleGrid BoundaryType.BT_CIRCULAR).GetCell 1 (1 - 1) = Except.ok a)
      ∧ (b = CellRef.reservoir
          ↔ (exampleGrid BoundaryType.BT_CIRCULAR).WithinCircle (1 - 1) 1 = Except.ok false)
      ∧ (b ≠ CellRef.reservoir
          → (exampleGrid BoundaryType.BT_CIRCULAR).GetCell (1 - 1) 1 = Except.ok b)
      ∧ (c = CellRef.reservoir
          ↔ (exampleGrid BoundaryType.BT_CIRCULAR).WithinCircle 1 (1 + 1) = Except.ok false)
      ∧ (c ≠ CellRef.reservoir
          → (exampleGrid BoundaryType.BT_CIRCULAR).GetCell 1 (1 + 1) = Except.ok c)
      ∧ (d = CellRef.reservoir
          ↔ (exampleGrid BoundaryType.BT_CIRCULAR).WithinCircle (1 + 1) 1 = Except.ok false)
      ∧ (d ≠ CellRef.reservoir
          → (exampleGrid BoundaryType.BT_CIRCULAR).GetCell (1 + 1) 1 = Except.ok d) :=
  have h : (exampleGrid BoundaryType.BT_CIRCULAR).WithinCircle 1 1 = Except.ok true := by
    rw [WithinCircle_eq (exampleGrid BoundaryType.BT_CIRCULAR) rfl rfl 1 1]
    exact congrArg Except.ok (decide_eq_true (by
      have hr : ((((exampleGrid BoundaryType.BT_CIRCULAR).width : Int) - 1).tdiv 2 : Int) = 1 := by
        decide
      have hw : (((exampleGrid BoundaryType.BT_CIRCULAR).width : Nat) : ℚ) = 4 := by
        have : (exampleGrid BoundaryType.BT_CIRCULAR).width = 4 := rfl
        rw [this]; norm_num
      rw [hr, hw]
      norm_num))
  ⟨h, C12_circular_neighbours (exampleGrid BoundaryType.BT_CIRCULAR) 1 1
    (Statics.initial (constSeed 0)) 0 rfl h⟩

/-- C15 (counterexample): on a 6 by 6 grid `WithinCircle(1, 1)` is false, although
(6/2 - (1 + 1/2))² + (6/2 - (1 + 1/2))² = 9/2 is at most ((6-1)/2)² = 25/4 in exact
rationals: the code computes the radius `(width-1)/2` in `int`, which gives 2. -/
theorem C15_rational_radius_counterexample :
    (Grid.new 6 6 BoundaryType.BT_CIRCULAR (Statics.initial (constSeed 0))).1.WithinCircle 1 1
      = Except.ok false
    ∧ ((6 : ℚ) / 2 - (1 + 1 / 2)) ^ 2 + ((6 : ℚ) / 2 - (1 + 1 / 2)) ^ 2
        ≤ (((6 : ℚ) - 1) / 2) ^ 2 := by
  refine ⟨?_, by norm_num⟩
  rw [WithinCircle_eq (Grid.new 6 6 BoundaryType.BT_CIRCULAR (Statics.initial (constSeed 0))).1
    rfl rfl 1 1]
  refine congrArg Except.ok (decide_eq_false ?_)
  have hr : ((((Grid.new 6 6 BoundaryType.BT_CIRCULAR (Statics.initial (constSeed 0))).1.width
      : Int) - 1).tdiv 2 : Int) = 2 := by decide
  have hw : ((Grid.new 6 6 BoundaryType.BT_CIRCULAR (Statics.initial (constSeed 0))).1.width
      : ℚ) = 6 := by
    have : (Grid.new 6 6 BoundaryType.BT_CIRCULAR (Statics.initial (constSeed 0))).1.width = 6 :=
      rfl
    rw [this]; norm_num
  rw [hr, hw]
  norm_num

/-- C15 (amended): for every square grid of even width w > 0 and every (i, j),
`WithinCircle(i, j)` returns, and it returns true iff
(w/2 - (i + 1/2))² + (w/2 - (j + 1/2))² ≤ (w/2 - 1)², where w/2 - 1 is the value of the
`int` expression `(width-1)/2`; the other quantities are taken as exact rationals. -/
theorem C15_within_circle_int_radius (g : Grid) (i j : Int) (hsq : g.width = g.height)
    (hev : g.width % 2 = 0) (hw : 0 < g.width) :
    ∃ b : Bool, g.WithinCircle i j = Except.ok b
      ∧ (b = true ↔
          ((g.width : ℚ) / 2 - ((i : ℚ) + 1 / 2)) ^ 2 + ((g.width : ℚ) / 2 - ((j : ℚ) + 1 / 2)) ^ 2
            ≤ ((g.width : ℚ) / 2 - 1) ^ 2) := by
  refine ⟨_, WithinCircle_eq g hsq hev i j, ?_⟩
  rw [decide_eq_true_iff, radius_even g.width hev hw]
  have hk : (((g.width : Int) / 2 - 1 : Int) : ℚ) = (g.width : ℚ) / 2 - 1 := by
    obtain ⟨k, hk⟩ : ∃ k : Int, (g.width : Int) = 2 * k := ⟨(g.width : Int) / 2, by omega⟩
    have hwq : (g.width : ℚ) = 2 * (k : ℚ) := by exact_mod_cast hk
    have : (g.width : Int) / 2 - 1 = k - 1 := by omega
    rw [this, hwq]; push_cast; ring
  rw [hk]

/-- Witness of C15: the cell (1, 1) of a 6 by 6 grid. -/
theorem C15_within_circle_int_radius_witness :
    ∃ b : Bool,
      (Grid.new 6 6 BoundaryType.BT_CIRCULAR (Statics.initial (constSeed 0))).1.WithinCircle 1 1
        = Except.ok b
      ∧ (b = true ↔
          (((Grid.new 6 6 BoundaryType.BT_CIRCULAR (Statics.initial (constSeed 0))).1.width : ℚ) / 2
              - (((1 : Int) : ℚ) + 1 / 2)) ^ 2
            + (((Grid.new 6 6 BoundaryType.BT_CIRCULAR (Statics.initial (constSeed 0))).1.width
                : ℚ) / 2 - (((1 : Int) : ℚ) + 1 / 2)) ^ 2
            ≤ (((Grid.new 6 6 BoundaryType.BT_CIRCULAR (Statics.initial (constSeed 0))).1.width
                : ℚ) / 2 - 1) ^ 2) :=
  C15_within_circle_int_radius
    (Grid.new 6 6 BoundaryType.BT_CIRCULAR (Statics.initial (constSeed 0))).1 1 1 rfl rfl
    (by decide)

/-- C16: on an 8 by 8 grid `WithinCircle(4, 4)` is true and `WithinCircle(0, 0)` is false. -/
theorem C16_within_circle_examples (g : Grid) (hw : g.width = 8) (hh : g.height = 8) :
    g.WithinCircle 4 4 = Except.ok true ∧ g.WithinCircle 0 0 = Except.ok false := by
  have hr : (((g.width : Int) - 1).tdiv 2 : Int) = 3 := by rw [hw]; decide
  have hq : (g.width : ℚ) = 8 := by rw [hw]; norm_num
  constructor
  · rw [WithinCircle_eq g (by rw [hw, hh]) (by rw [hw]) 4 4, hr, hq]
    exact congrArg Except.ok (decide_eq_true (by norm_num))
  · rw [WithinCircle_eq g (by rw [hw, hh]) (by rw [hw]) 0 0, hr, hq]
    exact congrArg Except.ok (decide_eq_false (by norm_num))

/-- Witness of C16: a freshly built 8 by 8 Circular grid. -/
theorem C16_within_circle_examples_witness :
    (Grid.new 8 8 BoundaryType.BT_CIRCULAR (Statics.initial (constSeed 0))).1.WithinCircle 4 4
      = Except.ok true
    ∧ (Grid.new 8 8 BoundaryType.BT_CIRCULAR (Statics.initial (constSeed 0))).1.WithinCircle 0 0
      = Except.ok false :=
  C16_within_circle_examples
    (Grid.new 8 8 BoundaryType.BT_CIRCULAR (Statics.initial (constSeed 0))).1 rfl rfl

/-! ### The index table of a grid -/

theorem swapAt_eq_swap {α : Type} (a : Nat → α) (i j k : Nat) :
    swapAt a i j k = a (Equiv.swap i j k) := by
  unfold swapAt
  rw [Equiv.swap_apply_def]
  split_ifs <;> rfl

/-- Exchanging two positions below `n` permutes the first `n` entries. -/
theorem swapAt_perm {α : Type} (a : Nat → α) (n i j : Nat) (hi : i < n) (hj : j < n) :
    ((List.range n).map (swapAt a i j)).Perm ((List.range n).map a) := by
  have h1 : (List.range n).map (swapAt a i j)
      = ((List.range n).map (Equiv.swap i j)).map a := by
    rw [List.map_map]
    exact List.map_congr_left (fun k _ => swapAt_eq_swap a i j k)
  rw [h1]
  refine List.Perm.map a ?_
  rw [List.perm_ext_iff_of_nodup ((List.nodup_range n).map (Equiv.swap i j).injective)
    (List.nodup_range n)]
  intro x
  simp only [List.mem_map, List.mem_range]
  constructor
  · rintro ⟨k, hk, rfl⟩
    rw [Equiv.swap_apply_def]
    split_ifs <;> assumption
  · intro hx
    refine ⟨Equiv.swap i j x, ?_, Equiv.swap_apply_self i j x⟩
    rw [Equiv.swap_apply_def]
    split_ifs <;> assumption

theorem shuffleLoop_perm {α : Type} (rand : Statics → Nat → Nat × Statics)
    (hrand : ∀ st size, 0 < size → (rand st size).1 < size) (n : Nat) :
    ∀ (count i : Nat) (a : Nat → α) (st : Statics), i + count ≤ n →
      ((List.range n).map (shuffleLoop rand i count a st).1).Perm ((List.range n).map a)
  | 0, i, a, st, _ => by simp [shuffleLoop]
  | count + 1, i, a, st, hle => by
    simp only [shuffleLoop]
    have hj := hrand st (i + 1) (Nat.succ_pos i)
    by_cases hne : i ≠ (rand st (i + 1)).1
    · rw [if_pos hne]
      exact (shuffleLoop_perm rand hrand n count (i + 1) _ _ (by omega)).trans
        (swapAt_perm a n i (rand st (i + 1)).1 (by omega) (by omega))
    · rw [if_neg hne]
      exact shuffleLoop_perm rand hrand n count (i + 1) a _ (by omega)

theorem boost_random_neigh_lt (st : Statics) (size : Nat) (h : 0 < size) :
    (boost_random_neigh st size).1 < size := by
  simp only [boost_random_neigh, Gen.below]
  exact Nat.mod_lt _ h

/-- The index table that the constructor `Grid::Grid` builds is a permutation of
0, .., width*height-1. -/
theorem Grid_new_table_perm (w h : Nat) (bt : BoundaryType) (st : Statics) :
    ((List.range (w * h)).map (Grid.new w h bt st).1.random_indices).Perm
      (List.range (w * h)) := by
  rcases Nat.eq_zero_or_pos (w * h) with h0 | hpos
  · rw [h0]; simp
  · have key := shuffleLoop_perm boost_random_neigh boost_random_neigh_lt (w * h) (w * h - 1) 1
      (fun i : Nat => i)
      { st with cellGen := some (fun k => (st.cellGen.getD (st.seed st.direction_feed))
          (k + (w * h + 1))) }
      (by omega)
    simpa [Grid.new, random_shuffle] using key

/-- A permutation of 0, .., n-1 maps every index below `n` to an index below `n`. -/
theorem perm_range_lt {n : Nat} {table : Nat → Nat}
    (h : ((List.range n).map table).Perm (List.range n)) (k : Nat) (hk : k < n) :
    table k < n := by
  have : table k ∈ (List.range n).map table := List.mem_map.mpr ⟨k, List.mem_range.mpr hk, rfl⟩
  exact List.mem_range.mp (h.subset this)

/-- The neighbour list of the RandomNeighbours case, written out: the entries of the
index table at the four periodic neighbour indices. -/
theorem GetNeighbours_random (g : Grid) (i j : Int) (st : Statics) (fuel : Nat)
    (hb : g.boundary_type = BoundaryType.BT_RANDOM_NEIGHBOURS)
    (ht : ∀ k, k < g.size → g.random_indices k < g.size)
    (hi : 0 ≤ i) (hi2 : i < (g.width : Int)) (hj : 0 ≤ j) (hj2 : j < (g.height : Int)) :
    g.GetNeighbours i j st fuel = Except.ok
      ([CellRef.cell (g.random_indices
          (((j - 1) % (g.height : Int)) * (g.width : Int) + i).toNat : Nat),
        CellRef.cell (g.random_indices
          (j * (g.width : Int) + (i - 1) % (g.width : Int)).toNat : Nat),
        CellRef.cell (g.random_indices
          (((j + 1) % (g.height : Int)) * (g.width : Int) + i).toNat : Nat),
        CellRef.cell (g.random_indices
          (j * (g.width : Int) + (i + 1) % (g.width : Int)).toNat : Nat)], st) := by
  have hw : g.width ≠ 0 := by intro h; rw [h] at hi2; simp at hi2; omega
  have hh : g.height ≠ 0 := by intro h; rw [h] at hj2; simp at hj2; omega
  have hwpos : (0 : Int) < g.width := by omega
  have hhpos : (0 : Int) < g.height := by omega
  have hsz : (g.size : Int) = (g.height : Int) * (g.width : Int) := by
    simp [Grid.size, mul_comm]
  have entry : ∀ a b : Int, 0 ≤ a → a < (g.width : Int) → 0 ≤ b → b < (g.height : Int) →
      (if ¬ (0 ≤ b * (g.width : Int) + a ∧ b * (g.width : Int) + a < (g.size : Int)) then
          (throw Fault.outOfBounds : Run CellRef)
        else g.GetCellAt (g.random_indices (b * (g.width : Int) + a).toNat))
      = Except.ok (CellRef.cell (g.random_indices (b * (g.width : Int) + a).toNat : Nat)) := by
    intro a b a0 a1 b0 b1
    have h0 : 0 ≤ b * (g.width : Int) + a := by positivity
    have h1 : b * (g.width : Int) + a < (g.size : Int) := by rw [hsz]; nlinarith
    rw [if_neg (not_not.mpr ⟨h0, h1⟩)]
    unfold Grid.GetCellAt
    have h2 : g.random_indices (b * (g.width : Int) + a).toNat < g.size := ht _ (by omega)
    have h3 : ((g.random_indices (b * (g.width : Int) + a).toNat : Nat) : Int)
        < (g.height : Int) * (g.width : Int) := by rw [← hsz]; exact_mod_cast h2
    rw [if_neg (not_not.mpr h3)]
    rfl
  have m1 := Int.emod_lt_of_pos (j - 1) hhpos
  have m2 := Int.emod_lt_of_pos (i - 1) hwpos
  have m3 := Int.emod_lt_of_pos (j + 1) hhpos
  have m4 := Int.emod_lt_of_pos (i + 1) hwpos
  have n1 := Int.emod_nonneg (j - 1) (ne_of_gt hhpos)
  have n2 := Int.emod_nonneg (i - 1) (ne_of_gt hwpos)
  have n3 := Int.emod_nonneg (j + 1) (ne_of_gt hhpos)
  have n4 := Int.emod_nonneg (i + 1) (ne_of_gt hwpos)
  have a1 := wrap_tmod j g.height (-1) hj hj2 (by omega)
  have a2 := wrap_tmod i g.width 0 hi hi2 (by omega)
  have a3 := wrap_tmod i g.width (-1) hi hi2 (by omega)
  have a4 := wrap_tmod j g.height 0 hj hj2 (by omega)
  have a5 := wrap_tmod j g.height 1 hj hj2 (by omega)
  have a7 := wrap_tmod i g.width 1 hi hi2 (by omega)
  have b1 : i % (g.width : Int) = i := Int.emod_eq_of_lt hi hi2
  have b2 : j % (g.height : Int) = j := Int.emod_eq_of_lt hj hj2
  simp only [add_zero] at a2 a4
  have c1 : i + (g.width : Int) + -1 * 0 = i + (g.width : Int) := by ring
  have c2 : j + (g.height : Int) + -1 * (1 - 0) = j + (g.height : Int) + -1 := by ring
  have c3 : i + (g.width : Int) + -1 * 1 = i + (g.width : Int) + -1 := by ring
  have c4 : j + (g.height : Int) + -1 * (1 - 1) = j + (g.height : Int) := by ring
  have c5 : i + (g.width : Int) + 1 * 0 = i + (g.width : Int) := by ring
  have c6 : j + (g.height : Int) + 1 * (1 - 0) = j + (g.height : Int) + 1 := by ring
  have c7 : i + (g.width : Int) + 1 * 1 = i + (g.width : Int) + 1 := by ring
  have c8 : j + (g.height : Int) + 1 * (1 - 1) = j + (g.height : Int) := by ring
  have d1 : j + -1 = j - 1 := by ring
  have d2 : i + -1 = i - 1 := by ring
  unfold Grid.GetNeighbours
  simp only [hw, hh, hb, if_false, neighbourLoop, List.mapM_cons, List.mapM_nil]
  rw [c1, c2, c3, c4, c5, c6, c7, c8, a1, a2, a3, a4, a5, a7, b1, b2, d1, d2,
    entry i ((j - 1) % (g.height : Int)) hi hi2 n1 m1,
    entry ((i - 1) % (g.width : Int)) j n2 m2 hj hj2,
    entry i ((j + 1) % (g.height : Int)) hi hi2 n3 m3,
    entry ((i + 1) % (g.width : Int)) j n4 m4 hj hj2]
  rfl

theorem Frame.grid_layout {e e1 : Engine} (f : Engine.Frame e e1) : e.grid.SameLayout e1.grid :=
  ⟨f.width, f.height, f.boundary_type, f.table⟩

theorem SameLayout.layout_refl (s : SandPile) : s.SameLayout s :=
  ⟨fun g hg => ⟨g, hg, rfl, rfl, rfl, rfl⟩, fun d hd => ⟨d, hd, rfl, rfl, rfl, rfl⟩⟩

theorem SameLayout.layout_trans {s s1 s2 : SandPile} (h1 : s.SameLayout s1)
    (h2 : s1.SameLayout s2) : s.SameLayout s2 := by
  constructor
  · intro g hg
    obtain ⟨g1, hg1, a1, a2, a3, a4⟩ := h1.1 g hg
    obtain ⟨g2, hg2, b1, b2, b3, b4⟩ := h2.1 g1 hg1
    exact ⟨g2, hg2, b1.trans a1, b2.trans a2, b3.trans a3, b4.trans a4⟩
  · intro g hg
    obtain ⟨g1, hg1, a1, a2, a3, a4⟩ := h1.2 g hg
    obtain ⟨g2, hg2, b1, b2, b3, b4⟩ := h2.2 g1 hg1
    exact ⟨g2, hg2, b1.trans a1, b2.trans a2, b3.trans a3, b4.trans a4⟩

theorem clearLoop_frame : ∀ (count i : Nat) (e e1 : Engine),
    clearLoop i count e = Except.ok e1 → Engine.Frame e e1
  | 0, i, e, e1, h => by
    simp only [clearLoop, pure, Except.pure] at h
    cases Except.ok.inj h
    exact Engine.Frame.refl _
  | count + 1, i, e, e1, h => by
    simp only [clearLoop] at h
    obtain ⟨r, -, h⟩ := bind_ok h
    obtain ⟨e2, h2, h⟩ := bind_ok h
    exact (alter_frame h2).frame_trans (clearLoop_frame count (i + 1) e2 e1 h)

theorem Drive_layout {s : SandPile} {st : Statics} {fuel : Nat} {s1 : SandPile}
    {st1 : Statics} (h : s.Drive st fuel = Except.ok (s1, st1)) : s.SameLayout s1 := by
  unfold SandPile.Drive at h
  simp only [] at h
  split at h
  · cases h
  · split at h
    · cases h
    · rename_i _ g hg _ t ht
      obtain ⟨p, hp, h⟩ := bind_ok h
      simp only [pure, Except.pure] at h
      have := Except.ok.inj h
      simp only [Prod.mk.injEq] at this
      obtain ⟨rfl, -⟩ := this
      obtain ⟨n, hn⟩ := driveLoop_increase _ _ _ _ _ _ hp
      have f := Frame.grid_layout (alter_frame hn)
      refine ⟨fun g0 hg0 => ⟨p.1.grid, rfl, ?_⟩, fun d hd => ⟨d, hd, rfl, rfl, rfl, rfl⟩⟩
      rw [hg] at hg0
      cases hg0
      exact f

theorem Clear_layout {s s1 : SandPile} (h : s.Clear = Except.ok s1) : s.SameLayout s1 := by
  unfold SandPile.Clear at h
  split at h
  · split at h
    · cases Except.ok.inj h
      exact SameLayout.layout_refl _
    · cases h
  · split at h
    · cases h
    · rename_i _ g hg _ t ht
      obtain ⟨e, he, h⟩ := bind_ok h
      simp only [pure, Except.pure] at h
      cases Except.ok.inj h
      have f := Frame.grid_layout (clearLoop_frame _ _ _ _ he)
      refine ⟨fun g0 hg0 => ⟨e.grid, rfl, ?_⟩, fun d hd => ⟨d, hd, rfl, rfl, rfl, rfl⟩⟩
      rw [hg] at hg0
      cases hg0
      exact f

theorem relaxDiss_layout {s : SandPile} {av : Int} {st : Statics} {fuel : Nat} {a : Int}
    {s1 : SandPile} {st1 : Statics}
    (h : s.relaxDiss av st fuel = Except.ok (a, s1, st1)) : s.SameLayout s1 := by
  unfold SandPile.relaxDiss at h
  split at h
  · simp only [pure, Except.pure] at h
    have := Except.ok.inj h
    simp only [Prod.mk.injEq] at this
    obtain ⟨-, rfl, -⟩ := this
    exact SameLayout.layout_refl _
  · split at h
    · cases h
    · rename_i _ dt hdt _ dg hdg
      obtain ⟨p, hp, h⟩ := bind_ok h
      simp only [pure, Except.pure] at h
      have := Except.ok.inj h
      simp only [Prod.mk.injEq] at this
      obtain ⟨-, rfl, -⟩ := this
      have f := Frame.grid_layout (toppleLoop_general _ _ _ _ _ _ _ _ _ _ hp).1
      refine ⟨fun g0 hg0 => ⟨g0, hg0, rfl, rfl, rfl, rfl⟩, fun d hd => ⟨p.2.1.grid, rfl, ?_⟩⟩
      rw [hdg] at hd
      cases hd
      exact f

theorem relaxPrimary_layout {s : SandPile} {av : Int} {st : Statics} {fuel : Nat} {a : Int}
    {s1 : SandPile} {st1 : Statics}
    (h : s.relaxPrimary av st fuel = Except.ok (a, s1, st1)) : s.SameLayout s1 := by
  unfold SandPile.relaxPrimary at h
  split at h
  · simp only [pure, Except.pure] at h
    have := Except.ok.inj h
    simp only [Prod.mk.injEq] at this
    obtain ⟨-, rfl, -⟩ := this
    exact SameLayout.layout_refl _
  · split at h
    · cases h
    · rename_i _ t ht _ g hg
      obtain ⟨p, hp, h⟩ := bind_ok h
      simp only [pure, Except.pure] at h
      have := Except.ok.inj h
      simp only [Prod.mk.injEq] at this
      obtain ⟨-, rfl, -⟩ := this
      have f := Frame.grid_layout (toppleLoop_general _ _ _ _ _ _ _ _ _ _ hp).1
      refine ⟨fun g0 hg0 => ⟨p.2.1.grid, rfl, ?_⟩, fun d hd => ⟨d, hd, rfl, rfl, rfl, rfl⟩⟩
      rw [hg] at hg0
      cases hg0
      exact f

theorem Relax_layout {s : SandPile} {measure : Bool} {st : Statics} {fuel : Nat} {a : Int}
    {s1 : SandPile} {st1 : Statics}
    (h : s.Relax measure st fuel = Except.ok (a, s1, st1)) : s.SameLayout s1 := by
  obtain ⟨a0, sd, st0, a1, sp, hd, hp, -, hg, -, -, hdg⟩ := Relax_ok h
  have l := SameLayout.layout_trans (relaxDiss_layout hd) (relaxPrimary_layout hp)
  constructor
  · intro g hg0
    rw [hg]
    exact l.1 g hg0
  · intro d hd0
    rw [hdg]
    exact l.2 d hd0

theorem populateLoop_frame (place no_particles : GrainType) :
    ∀ (count i : Nat) (e : Engine) (z : Gen) (sum : Int) (p : Engine × Gen × Int),
      populateLoop place no_particles i count e z sum = Except.ok p → Engine.Frame e p.1
  | 0, i, e, z, sum, p, h => by
    simp only [populateLoop, pure, Except.pure] at h
    cases Except.ok.inj h
    exact Engine.Frame.refl _
  | count + 1, i, e, z, sum, p, h => by
    simp only [populateLoop] at h
    split at h
    · obtain ⟨r, -, h⟩ := bind_ok h
      obtain ⟨e2, h2, h⟩ := bind_ok h
      exact (alter_frame h2).frame_trans (populateLoop_frame place no_particles count (i + 1) e2 _ _ p h)
    · obtain ⟨r, -, h⟩ := bind_ok h
      obtain ⟨e2, h2, h⟩ := bind_ok h
      exact (alter_frame h2).frame_trans (populateLoop_frame place no_particles count (i + 1) e2 _ _ p h)

theorem Populate_layout {s : SandPile} {no_cells : Int} {no_particles : GrainType}
    {st : Statics} {s1 : SandPile} {st1 : Statics}
    (h : s.Populate no_cells no_particles st = Except.ok (s1, st1)) : s.SameLayout s1 := by
  unfold SandPile.Populate at h
  split at h
  · simp only [pure, Except.pure] at h
    have := Except.ok.inj h
    simp only [Prod.mk.injEq] at this
    obtain ⟨rfl, -⟩ := this
    exact SameLayout.layout_refl _
  · rename_i _ dg hdg
    simp only [] at h
    split at h
    · cases h
    · obtain ⟨p, hp, h⟩ := bind_ok h
      split at h
      · cases h
      · simp only [pure, Except.pure] at h
        have := Except.ok.inj h
        simp only [Prod.mk.injEq] at this
        obtain ⟨rfl, -⟩ := this
        have f := Frame.grid_layout (populateLoop_frame _ _ _ _ _ _ _ _ hp)
        refine ⟨fun g0 hg0 => ⟨g0, hg0, rfl, rfl, rfl, rfl⟩, fun d hd => ⟨p.1.grid, rfl, ?_⟩⟩
        rw [hdg] at hd
        cases hd
        exact f

/-- No call of `Drive`, `Clear`, `Relax` or `Populate` changes the dimensions, the boundary
type or the index table of a grid of the sandpile. -/
theorem Later.layout {s s1 : SandPile} (h : SandPile.Later s s1) : s.SameLayout s1 := by
  induction h with
  | now => exact SameLayout.layout_refl _
  | populate _ h ih => exact SameLayout.layout_trans ih (Populate_layout h)
  | drive _ h ih => exact SameLayout.layout_trans ih (Drive_layout h)
  | clear _ h ih => exact SameLayout.layout_trans ih (Clear_layout h)
  | relax _ h ih => exact SameLayout.layout_trans ih (Relax_layout h)

/-- The primary grid of a sandpile right after construction: the grid that `Grid::Grid`
builds, with the callbacks registered. -/
theorem new_grid {L : Nat} {m : TopplingMethod} {type : BoundaryType} {st : Statics}
    {s : SandPile} {st1 : Statics}
    (h : SandPile.new L m type st = Except.ok (s, st1))
    (hm1 : m ≠ TopplingMethod.Rossum2011_diss) :
    s.grid = some ((Grid.new L L (resolvedBoundary m type) st).1.registerCallbacks (L * L)) := by
  unfold SandPile.new at h
  simp only [] at h
  rw [if_neg hm1] at h
  obtain ⟨t2, -, h⟩ := bind_ok h
  split at h
  · obtain ⟨p, -, h⟩ := bind_ok h
    simp only [pure, Except.pure] at h
    have := Except.ok.inj h
    simp only [Prod.mk.injEq] at this
    obtain ⟨rfl, -⟩ := this
    rfl
  · simp only [pure, Except.pure] at h
    have := Except.ok.inj h
    simp only [Prod.mk.injEq] at this
    obtain ⟨rfl, -⟩ := this
    rfl

/-- C13: the index table of the grid that the constructor builds is a permutation of
0, .., L*L-1, and no later call of `Drive`, `Clear`, `Relax` or `Populate` changes it; on a
RandomNeighbours grid `GetNeighbours(i, j)` returns, at any later time and whatever the
state of the generators, the four cells `table[p]` for the four periodic neighbour
indices `p` of (i, j), in the order of the periodic case. -/
theorem C13_index_table_quenched (L : Nat) (m : TopplingMethod) (type : BoundaryType)
    (st st1 : Statics) (s : SandPile) (hm : m ≠ TopplingMethod.Rossum2011_diss)
    (hnew : SandPile.new L m type st = Except.ok (s, st1)) :
    ∃ g, s.grid = some g
      ∧ ((List.range (L * L)).map g.random_indices).Perm (List.range (L * L))
      ∧ ∀ s1, SandPile.Later s s1 →
          ∃ g1, s1.grid = some g1 ∧ g1.random_indices = g.random_indices
            ∧ (type = BoundaryType.BT_RANDOM_NEIGHBOURS →
                ∀ i j : Int, 0 ≤ i → i < (L : Int) → 0 ≤ j → j < (L : Int) →
                  ∃ p0 p1 p2 p3 : Int,
                    (∀ (st2 : Statics) (fuel : Nat),
                      ({ g1 with boundary_type := BoundaryType.BT_PERIODIC }).GetNeighbours
                          i j st2 fuel
                        = Except.ok ([CellRef.cell p0, CellRef.cell p1, CellRef.cell p2,
                            CellRef.cell p3], st2))
                    ∧ ∀ (st2 : Statics) (fuel : Nat),
                      g1.GetNeighbours i j st2 fuel
                        = Except.ok ([CellRef.cell (g.random_indices p0.toNat : Nat),
                            CellRef.cell (g.random_indices p1.toNat : Nat),
                            CellRef.cell (g.random_indices p2.toNat : Nat),
                            CellRef.cell (g.random_indices p3.toNat : Nat)], st2)) := by
  have hg := new_grid hnew hm
  have hperm := Grid_new_table_perm L L (resolvedBoundary m type) st
  refine ⟨_, hg, hperm, ?_⟩
  intro s1 hl
  obtain ⟨g1, hg1, hw, hh, hbt, htab⟩ := (Later.layout hl).1 _ hg
  refine ⟨g1, hg1, htab, ?_⟩
  intro hty i j hi hi2 hj hj2
  have hw1 : g1.width = L := by rw [hw]; rfl
  have hh1 : g1.height = L := by rw [hh]; rfl
  have hb1 : g1.boundary_type = BoundaryType.BT_RANDOM_NEIGHBOURS := by
    rw [hbt, hty]
    show resolvedBoundary m BoundaryType.BT_RANDOM_NEIGHBOURS = _
    cases m <;> rfl
  have hsize : g1.size = L * L := by unfold Grid.size; rw [hw1, hh1]
  have hin : ∀ k, k < g1.size → g1.random_indices k < g1.size := by
    intro k hk
    rw [hsize] at hk ⊢
    rw [htab]
    exact perm_range_lt hperm k hk
  refine ⟨((j - 1) % (L : Int)) * (L : Int) + i, j * (L : Int) + (i - 1) % (L : Int),
    ((j + 1) % (L : Int)) * (L : Int) + i, j * (L : Int) + (i + 1) % (L : Int), ?_, ?_⟩
  · intro st2 fuel
    have := GetNeighbours_periodic { g1 with boundary_type := BoundaryType.BT_PERIODIC } i j
      st2 fuel rfl hi (by show i < (g1.width : Int); rw [hw1]; exact hi2) hj
      (by show j < (g1.height : Int); rw [hh1]; exact hj2)
    rw [this]
    show Except.ok ([CellRef.cell (((j - 1) % (g1.height : Int)) * (g1.width : Int) + i),
        CellRef.cell (j * (g1.width : Int) + (i - 1) % (g1.width : Int)),
        CellRef.cell (((j + 1) % (g1.height : Int)) * (g1.width : Int) + i),
        CellRef.cell (j * (g1.width : Int) + (i + 1) % (g1.width : Int))], st2) = _
    rw [hw1, hh1]
  · intro st2 fuel
    rw [GetNeighbours_random g1 i j st2 fuel hb1 hin hi (by rw [hw1]; exact hi2) hj
      (by rw [hh1]; exact hj2), hw1, hh1, htab]

/-- Witness of C13: a 2 by 2 RandomNeighbours sandpile with the BTW rule. -/
theorem C13_index_table_quenched_witness :
    ∃ (s : SandPile) (st1 : Statics),
      SandPile.new 2 TopplingMethod.Bak_Tang_Wiesenfeld1987 BoundaryType.BT_RANDOM_NEIGHBOURS
        (Statics.initial (constSeed 0)) = Except.ok (s, st1)
      ∧ ∃ g, s.grid = some g
        ∧ ((List.range (2 * 2)).map g.random_indices).Perm (List.range (2 * 2))
        ∧ ∀ s1, SandPile.Later s s1 →
          ∃ g1, s1.grid = some g1 ∧ g1.random_indices = g.random_indices
            ∧ (BoundaryType.BT_RANDOM_NEIGHBOURS = BoundaryType.BT_RANDOM_NEIGHBOURS →
                ∀ i j : Int, 0 ≤ i → i < ((2 : Nat) : Int) → 0 ≤ j → j < ((2 : Nat) : Int) →
                  ∃ p0 p1 p2 p3 : Int,
                    (∀ (st2 : Statics) (fuel : Nat),
                      ({ g1 with boundary_type := BoundaryType.BT_PERIODIC }).GetNeighbours
                          i j st2 fuel
                        = Except.ok ([CellRef.cell p0, CellRef.cell p1, CellRef.cell p2,
                            CellRef.cell p3], st2))
                    ∧ ∀ (st2 : Statics) (fuel : Nat),
                      g1.GetNeighbours i j st2 fuel
                        = Except.ok ([CellRef.cell (g.random_indices p0.toNat : Nat),
                            CellRef.cell (g.random_indices p1.toNat : Nat),
                            CellRef.cell (g.random_indices p2.toNat : Nat),
                            CellRef.cell (g.random_indices p3.toNat : Nat)], st2)) := by
  obtain ⟨p, hp⟩ := new_returns 2 TopplingMethod.Bak_Tang_Wiesenfeld1987
    BoundaryType.BT_RANDOM_NEIGHBOURS (Statics.initial (constSeed 0)) (by decide)
  exact ⟨p.1, p.2, hp, C13_index_table_quenched 2 TopplingMethod.Bak_Tang_Wiesenfeld1987
    BoundaryType.BT_RANDOM_NEIGHBOURS (Statics.initial (constSeed 0)) p.2 p.1 (by decide) hp⟩

/-! ### Neighbours on a FullyConnected grid -/

theorem keptDraws_succ (gen : Gen) (size : Nat) (this_i : Int) (fuel : Nat) :
    keptDraws gen size this_i (fuel + 1)
      = (if ((gen 0 % size : Nat) : Int) ≠ this_i then [gen 0 % size] else [])
        ++ keptDraws gen.tail size this_i fuel := by
  unfold keptDraws
  rw [List.range_succ_eq_map, List.map_cons, List.map_map, List.filter_cons]
  by_cases h : ((gen 0 % size : Nat) : Int) ≠ this_i
  · simp only [h, decide_True, if_true, ne_eq, not_false_eq_true, List.singleton_append]
    rfl
  · simp only [h, decide_False, if_false, List.nil_append]
    rfl

theorem neighbourGenerator_step (st : Statics) (size : Nat) :
    (boost_random_neigh st size).1 = st.neighbourGenerator 0 % size
      ∧ (boost_random_neigh st size).2.neighbourGenerator = st.neighbourGenerator.tail :=
  ⟨rfl, rfl⟩

/-- The loop of the fully connected case appends the first draws that differ from the
index of the cell itself, until the list holds four entries. -/
theorem fullyConnectedLoop_kept (g : Grid) (this_i : Int) (hsize : 0 < g.width * g.height) :
    ∀ (fuel cnt : Nat) (nb : List CellRef) (st : Statics), cnt < 4 →
      4 - cnt ≤ (keptDraws st.neighbourGenerator (g.width * g.height) this_i fuel).length →
      ∃ st1, fullyConnectedLoop g this_i fuel cnt nb st
        = Except.ok (nb ++ ((keptDraws st.neighbourGenerator (g.width * g.height) this_i
            fuel).take (4 - cnt)).map (fun n : Nat => CellRef.cell (n : Int)), st1)
  | 0, cnt, nb, st, hc, hk => by
    simp only [keptDraws, List.range_zero, List.map_nil, List.filter_nil, List.length_nil] at hk
    omega
  | fuel + 1, cnt, nb, st, hc, hk => by
    obtain ⟨h1, h2⟩ := neighbourGenerator_step st (g.width * g.height)
    rw [keptDraws_succ] at hk ⊢
    simp only [fullyConnectedLoop]
    rw [h1]
    by_cases hne : ((st.neighbourGenerator 0 % (g.width * g.height) : Nat) : Int) ≠ this_i
    · rw [if_pos hne] at hk ⊢
      rw [if_pos hne]
      have hlt : ((st.neighbourGenerator 0 % (g.width * g.height) : Nat) : Int)
          < (g.height : Int) * (g.width : Int) := by
        have := Nat.mod_lt (st.neighbourGenerator 0) hsize
        have h3 : ((st.neighbourGenerator 0 % (g.width * g.height) : Nat) : Int)
            < (g.width : Int) * (g.height : Int) := by exact_mod_cast this
        rw [mul_comm (g.height : Int)]
        exact h3
      have hget : g.GetCellAt ((st.neighbourGenerator 0 % (g.width * g.height) : Nat) : Int)
          = Except.ok (CellRef.cell ((st.neighbourGenerator 0 % (g.width * g.height) : Nat)
              : Int)) := by
        unfold Grid.GetCellAt
        rw [if_neg (not_not.mpr hlt)]
        rfl
      rw [hget]
      simp only [bind, Except.bind]
      by_cases h4 : cnt + 1 ≠ 4
      · rw [if_pos h4]
        simp only [List.singleton_append, List.length_cons] at hk
        obtain ⟨st1, hst1⟩ := fullyConnectedLoop_kept g this_i hsize fuel (cnt + 1)
          (nb ++ [CellRef.cell ((st.neighbourGenerator 0 % (g.width * g.height) : Nat) : Int)])
          (boost_random_neigh st (g.width * g.height)).2 (by omega) (by rw [h2]; omega)
        refine ⟨st1, ?_⟩
        rw [hst1, h2]
        have e4 : 4 - cnt = (4 - (cnt + 1)) + 1 := by omega
        rw [e4]
        simp
      · rw [if_neg h4]
        have e4 : 4 - cnt = 1 := by omega
        refine ⟨(boost_random_neigh st (g.width * g.height)).2, ?_⟩
        rw [e4]
        rfl
    · rw [if_neg hne] at hk ⊢
      rw [if_neg hne, if_pos (by omega : cnt ≠ 4)]
      simp only [List.nil_append] at hk ⊢
      obtain ⟨st1, hst1⟩ := fullyConnectedLoop_kept g this_i hsize fuel cnt nb
        (boost_random_neigh st (g.width * g.height)).2 hc (by rw [h2]; exact hk)
      exact ⟨st1, by rw [hst1, h2]⟩

/-- C14 (counterexample): on a 4 by 4 FullyConnected grid whose neighbour generator
delivers 0 four times, `GetNeighbours(1, 0)` returns the cell with index 0 four times:
the entries are not pairwise distinct. -/
theorem C14_repeated_neighbour_counterexample :
    Run.value (Except.map Prod.fst
      ((exampleGrid BoundaryType.BT_FULLY_CONNECTED).GetNeighbours 1 0
        (Statics.initial (constSeed 0)) 4))
      = some [CellRef.cell 0, CellRef.cell 0, CellRef.cell 0, CellRef.cell 0] := by
  decide

/-- C14 (amended): on a FullyConnected grid, for every valid (i, j), `GetNeighbours(i, j)`
returns, as soon as four draws differ from the index of (i, j), the cells of the first
four such draws in the order of the draws: 4 in-grid cells, none of which is the cell
(i, j) itself.  (The same cell may occur more than once.) -/
theorem C14_fully_connected_neighbours (g : Grid) (i j : Int) (st : Statics) (fuel : Nat)
    (hb : g.boundary_type = BoundaryType.BT_FULLY_CONNECTED)
    (hi : 0 ≤ i) (hi2 : i < (g.width : Int)) (hj : 0 ≤ j) (hj2 : j < (g.height : Int))
    (hdraws : 4 ≤ (keptDraws st.neighbourGenerator g.size (j * (g.width : Int) + i) fuel).length) :
    ∃ st1, g.GetNeighbours i j st fuel
        = Except.ok (((keptDraws st.neighbourGenerator g.size (j * (g.width : Int) + i)
            fuel).take 4).map (fun n : Nat => CellRef.cell (n : Int)), st1)
      ∧ (((keptDraws st.neighbourGenerator g.size (j * (g.width : Int) + i) fuel).take 4).map
          (fun n : Nat => CellRef.cell (n : Int))).length = 4
      ∧ ∀ r, r ∈ ((keptDraws st.neighbourGenerator g.size (j * (g.width : Int) + i) fuel).take
            4).map (fun n : Nat => CellRef.cell (n : Int)) →
          ∃ n : Nat, r = CellRef.cell (n : Int) ∧ n < g.size
            ∧ (n : Int) ≠ j * (g.width : Int) + i := by
  have hw : g.width ≠ 0 := by intro h; rw [h] at hi2; simp at hi2; omega
  have hh : g.height ≠ 0 := by intro h; rw [h] at hj2; simp at hj2; omega
  have hsize : 0 < g.width * g.height := Nat.mul_pos (by omega) (by omega)
  obtain ⟨st1, h1⟩ := fullyConnectedLoop_kept g (j * (g.width : Int) + i) hsize fuel 0 [] st
    (by omega) hdraws
  refine ⟨st1, ?_, ?_, ?_⟩
  · unfold Grid.GetNeighbours
    simp only [hw, hh, hb, if_false]
    exact h1
  · rw [List.length_map, List.length_take]
    omega
  · intro r hr
    obtain ⟨n, hn, rfl⟩ := List.mem_map.mp hr
    have hn1 := List.mem_of_mem_take hn
    unfold keptDraws at hn1
    obtain ⟨hn2, hn3⟩ := List.mem_filter.mp hn1
    obtain ⟨k, -, rfl⟩ := List.mem_map.mp hn2
    exact ⟨_, rfl, Nat.mod_lt _ hsize, of_decide_eq_true hn3⟩

/-- Witness of C14: the cell (2, 0) of a 4 by 4 FullyConnected grid whose neighbour generator
delivers 0 forever. -/
theorem C14_fully_connected_neighbours_witness :
    ∃ st1, (exampleGrid BoundaryType.BT_FULLY_CONNECTED).GetNeighbours 2 0
          (Statics.initial (constSeed 0)) 4
        = Except.ok (((keptDraws (Statics.initial (constSeed 0)).neighbourGenerator
            (exampleGrid BoundaryType.BT_FULLY_CONNECTED).size
            (0 * ((exampleGrid BoundaryType.BT_FULLY_CONNECTED).width : Int) + 2)
            4).take 4).map (fun n : Nat => CellRef.cell (n : Int)), st1)
      ∧ (((keptDraws (Statics.initial (constSeed 0)).neighbourGenerator
            (exampleGrid BoundaryType.BT_FULLY_CONNECTED).size
            (0 * ((exampleGrid BoundaryType.BT_FULLY_CONNECTED).width : Int) + 2)
            4).take 4).map (fun n : Nat => CellRef.cell (n : Int))).length = 4
      ∧ ∀ r, r ∈ ((keptDraws (Statics.initial (constSeed 0)).neighbourGenerator
            (exampleGrid BoundaryType.BT_FULLY_CONNECTED).size
            (0 * ((exampleGrid BoundaryType.BT_FULLY_CONNECTED).width : Int) + 2)
            4).take 4).map (fun n : Nat => CellRef.cell (n : Int)) →
          ∃ n : Nat, r = CellRef.cell (n : Int)
            ∧ n < (exampleGrid BoundaryType.BT_FULLY_CONNECTED).size
            ∧ (n : Int) ≠ 0 * ((exampleGrid BoundaryType.BT_FULLY_CONNECTED).width : Int) + 2 :=
  C14_fully_connected_neighbours (exampleGrid BoundaryType.BT_FULLY_CONNECTED) 2 0
    (Statics.initial (constSeed 0)) 4 rfl (by decide) (by decide) (by decide) (by decide)
    (by decide)

/-! ### The avalanche size counts the per-cell topple calls that returned true -/

theorem Except.map_ok {α β : Type} (f : α → β) (a : α) :
    Except.map f (Except.ok a : Run α) = Except.ok (f a) := rfl

theorem Except.map_error {α β : Type} (f : α → β) (err : Fault) :
    Except.map f (Except.error err : Run α) = Except.error err := rfl

theorem sweep_eq_log (dg : Option Grid) (fuel : Nat) : ∀ (l : List Int) (e : Engine)
    (st : Statics),
    Engine.sweep dg fuel l e st
      = Except.map (fun r => (r.1.count true, r.2)) (Engine.sweepLog dg fuel l e st)
  | [], e, st => rfl
  | idx :: rest, e, st => by
    simp only [Engine.sweep, Engine.sweepLog]
    cases hv : e.visit dg fuel idx st with
    | error err => rfl
    | ok p =>
      obtain ⟨b, e1, st1⟩ := p
      simp only [bind, Except.bind]
      rw [sweep_eq_log dg fuel rest e1 st1]
      cases hs : Engine.sweepLog dg fuel rest e1 st1 with
      | error err => rfl
      | ok q =>
        obtain ⟨log, e2, st2⟩ := q
        simp only [Except.map, pure, Except.pure]
        cases b <;> simp [List.count_cons, Nat.add_comm]

theorem any_eq_count (log : List Bool) :
    (!(log.any (fun b => b))) = decide (log.count true = 0) := by
  induction log with
  | nil => rfl
  | cons b l ih =>
    cases b
    · simpa [List.count_cons] using ih
    · simp [List.count_cons]

theorem pass_eq_log (e : Engine) (dg : Option Grid) (fuel it_n : Nat) (st : Statics) :
    e.pass dg fuel it_n st
      = Except.map (fun r => (r.1.count true, r.2)) (e.passLog dg fuel it_n st) := by
  unfold Engine.pass Engine.passLog
  simp only []
  cases e.toppling.toppling_iterator with
  | RANDOM_FRACTION =>
    simp only []
    cases e.toppling.random_indices with
    | none => rfl
    | some table =>
      simp only [sweep_eq_log]
      cases Engine.sweepLog dg fuel _ _ _ with
      | error err => rfl
      | ok q =>
        simp only [Except.map, bind, Except.bind, pure, Except.pure, any_eq_count]
  | RANDOM_ALL =>
    simp only []
    cases e.toppling.random_indices with
    | none => rfl
    | some table =>
      simp only [sweep_eq_log]
      cases Engine.sweepLog dg fuel _ _ _ with
      | error err => rfl
      | ok q =>
        simp only [Except.map, bind, Except.bind, pure, Except.pure, any_eq_count]
  | FOLLOW_ACTIVITY =>
    simp only [sweep_eq_log]
    cases Toppling.countGrains _ _ _ with
    | error err => rfl
    | ok t2 =>
      simp only [bind, Except.bind]
      cases Engine.sweepLog dg fuel _ _ _ with
      | error err => rfl
      | ok q =>
        simp only [Except.map]
        cases Toppling.countGrains _ _ _ with
        | error err => rfl
        | ok t3 => rfl

theorem toppleLoop_eq_log (dg : Option Grid) (fuel : Nat) :
    ∀ (passes it_n : Nat) (log : List Bool) (e : Engine) (st : Statics),
      Engine.toppleLoop dg fuel passes it_n ((log.count true : Nat) : Int) e st
        = Except.map (fun r => (((r.1.count true : Nat) : Int), r.2))
            (Engine.toppleLogLoop dg fuel passes it_n log e st)
  | 0, _, _, _, _ => rfl
  | passes + 1, it_n, log, e, st => by
    simp only [Engine.toppleLoop, Engine.toppleLogLoop]
    rw [pass_eq_log]
    cases e.passLog dg fuel it_n st with
    | error err => rfl
    | ok q =>
      obtain ⟨l, quit, e1, st1⟩ := q
      simp only [Except.map, bind, Except.bind]
      have hc : ((log.count true : Nat) : Int) + ((l.count true : Nat) : Int)
          = (((log ++ l).count true : Nat) : Int) := by
        rw [List.count_append]; push_cast; rfl
      rw [hc]
      cases quit
      · simp only [Bool.false_eq_true, if_false]
        exact toppleLoop_eq_log dg fuel passes (it_n + 1) (log ++ l) e1 st1
      · rfl

/-- The relaxation returns the number of true entries in the record of its per-cell
`Topple` calls, whatever the variable holds on entry. -/
theorem ToppleAll_eq_log (e : Engine) (dg : Option Grid) (entry : Int) (st : Statics)
    (fuel : Nat) :
    e.ToppleAll dg entry st fuel
      = Except.map (fun r => (((r.1.count true : Nat) : Int), r.2)) (e.ToppleLog dg st fuel) :=
  toppleLoop_eq_log dg fuel fuel 0 [] e st

/-- C17 (counterexample): on the four times driven 2 by 2 sandpile, `Topple(avalanche_size)`
called with the variable holding 7 makes one per-cell `Topple` call, which returns true,
and leaves 1 in the variable, not 7 + 1. -/
theorem C17_entry_value_counterexample :
    Run.value toppleFromSeven = some (1, [true]) := by
  decide!

/-- C17 (amended): `Toppling::Topple(avalanche_size)` behaves as the same loop with a record
of its per-cell `Topple(cell, neighbours)` calls, and when it returns the variable holds
the number of those calls, over all passes, that returned true; the value the variable
holds on entry has no influence. -/
theorem C17_avalanche_size_counts_topples (e : Engine) (dg : Option Grid) (entry : Int)
    (st : Statics) (fuel : Nat) :
    e.ToppleAll dg entry st fuel
      = Except.map (fun r => (((r.1.count true : Nat) : Int), r.2)) (e.ToppleLog dg st fuel) :=
  ToppleAll_eq_log e dg entry st fuel

/-! ### What `Relax` returns and records -/

theorem relaxDiss_eq_log (s : SandPile) (av : Int) (st : Statics) (fuel : Nat) :
    s.relaxDiss av st fuel
      = Except.map (fun r => ((if s.diss_toppling.isSome then ((r.1.count true : Nat) : Int)
          else av), r.2)) (s.relaxDissLog st fuel) := by
  unfold SandPile.relaxDiss SandPile.relaxDissLog
  cases s.diss_toppling with
  | none => rfl
  | some dt =>
    simp only []
    cases s.diss_grid with
    | none => rfl
    | some dg =>
      simp only [ToppleAll_eq_log]
      cases Engine.ToppleLog _ none st fuel with
      | error err => rfl
      | ok q => rfl

theorem relaxPrimary_eq_log (s : SandPile) (av : Int) (st : Statics) (fuel : Nat) :
    s.relaxPrimary av st fuel
      = Except.map (fun r => ((if s.toppling.isSome then ((r.1.count true : Nat) : Int)
          else av), r.2)) (s.relaxPrimaryLog st fuel) := by
  unfold SandPile.relaxPrimary SandPile.relaxPrimaryLog
  cases s.toppling with
  | none => rfl
  | some t =>
    simp only []
    cases s.grid with
    | none => rfl
    | some g =>
      simp only [ToppleAll_eq_log]
      cases Engine.ToppleLog _ s.diss_grid st fuel with
      | error err => rfl
      | ok q => rfl

theorem relaxDissLog_ok {s : SandPile} {st : Statics} {fuel : Nat} {log : List Bool}
    {s1 : SandPile} {st1 : Statics}
    (h : s.relaxDissLog st fuel = Except.ok (log, s1, st1)) :
    s1.avalanches = s.avalanches ∧ s1.toppling.isSome = s.toppling.isSome
      ∧ (s.diss_toppling = none → log = [])
      ∧ (∀ dt, s.diss_toppling = some dt →
          dt.toppling_method = TopplingMethod.Rossum2011_diss → log.count true = 0) := by
  have hd := relaxDiss_eq_log s 0 st fuel
  rw [h] at hd
  unfold SandPile.relaxDissLog at h
  split at h
  · rename_i hnone
    simp only [pure, Except.pure] at h
    have := Except.ok.inj h
    simp only [Prod.mk.injEq] at this
    obtain ⟨rfl, rfl, -⟩ := this
    exact ⟨rfl, rfl, fun _ => rfl, fun dt hdt => (by rw [hnone] at hdt; cases hdt)⟩
  · split at h
    · cases h
    · rename_i _ dt hdt _ dg hdg
      obtain ⟨p, hp, h⟩ := bind_ok h
      simp only [pure, Except.pure] at h
      have := Except.ok.inj h
      simp only [Prod.mk.injEq] at this
      obtain ⟨rfl, rfl, -⟩ := this
      refine ⟨rfl, rfl, fun hn => (by rw [hdt] at hn; cases hn), ?_⟩
      intro dt1 hdt1 hm
      rw [hdt] at hdt1
      cases hdt1
      have hz := (relaxDiss_ok hd).2.2.2 dt hdt hm
      simp only [hdt, Option.isSome_some, if_true] at hz
      exact_mod_cast hz

theorem relaxPrimaryLog_ok {s : SandPile} {st : Statics} {fuel : Nat} {log : List Bool}
    {s1 : SandPile} {st1 : Statics}
    (h : s.relaxPrimaryLog st fuel = Except.ok (log, s1, st1)) :
    s1.avalanches = s.avalanches ∧ (s.toppling = none → log = []) := by
  unfold SandPile.relaxPrimaryLog at h
  split at h
  · simp only [pure, Except.pure] at h
    have := Except.ok.inj h
    simp only [Prod.mk.injEq] at this
    obtain ⟨rfl, rfl, -⟩ := this
    exact ⟨rfl, fun _ => rfl⟩
  · split at h
    · cases h
    · rename_i _ t ht _ g hg
      obtain ⟨p, hp, h⟩ := bind_ok h
      simp only [pure, Except.pure] at h
      have := Except.ok.inj h
      simp only [Prod.mk.injEq] at this
      obtain ⟨rfl, rfl, -⟩ := this
      exact ⟨rfl, fun hn => (by rw [ht] at hn; cases hn)⟩

/-- The method `Relax` in terms of the records of its two `Topple` calls. -/
theorem Relax_eq_log (s : SandPile) (measure : Bool) (st : Statics) (fuel : Nat) :
    s.Relax measure st fuel
      = Except.map (fun r : List Bool × List Bool × SandPile × Statics =>
          if 0 < s.relaxSize r.1 r.2.1 ∧ measure = true then
            (s.relaxSize r.1 r.2.1,
              { r.2.2.1 with
                avalanches := (r.2.2.1.avalanches.AddEvent (s.relaxSize r.1 r.2.1)) },
              r.2.2.2)
          else (0, r.2.2.1, r.2.2.2)) (s.relaxLog st fuel) := by
  unfold SandPile.relaxSize
  unfold SandPile.Relax SandPile.relaxLog
  simp only []
  rw [relaxDiss_eq_log]
  cases hd : s.relaxDissLog st fuel with
  | error err => rfl
  | ok q =>
    obtain ⟨dlog, s1, st1⟩ := q
    have h1 := (relaxDissLog_ok hd).2.1
    simp only [Except.map, bind, Except.bind]
    rw [relaxPrimary_eq_log]
    cases hp : s1.relaxPrimaryLog st1 fuel with
    | error err => rfl
    | ok q2 =>
      obtain ⟨plog, s2, st2⟩ := q2
      have h2 := (relaxPrimaryLog_ok hp).2
      simp only [Except.map, pure, Except.pure, h1]
      cases ht : s.toppling.isSome
      · have hnil : plog = [] := h2 (by
          cases hs1 : s1.toppling with
          | none => rfl
          | some t => rw [← h1, hs1] at ht; cases ht)
        subst hnil
        cases hdt : s.diss_toppling.isSome
        · have hdn : dlog = [] := (relaxDissLog_ok hd).2.2.1 (by
            cases hs : s.diss_toppling with
            | none => rfl
            | some t => rw [hs] at hdt; cases hdt)
          subst hdn
          simp
        · simp
          split_ifs <;> rfl
      · simp
        split_ifs <;> rfl

theorem relaxLog_ok {s : SandPile} {st : Statics} {fuel : Nat} {dlog plog : List Bool}
    {s2 : SandPile} {st2 : Statics}
    (h : s.relaxLog st fuel = Except.ok (dlog, plog, s2, st2)) :
    s2.avalanches = s.avalanches
      ∧ ((∀ dt, s.diss_toppling = some dt →
            dt.toppling_method = TopplingMethod.Rossum2011_diss) →
          s.relaxSize dlog plog
            = ((dlog.count true : Nat) : Int) + ((plog.count true : Nat) : Int)) := by
  unfold SandPile.relaxLog at h
  obtain ⟨p, hp, h⟩ := bind_ok h
  obtain ⟨q, hq, h⟩ := bind_ok h
  simp only [pure, Except.pure] at h
  have := Except.ok.inj h
  simp only [Prod.mk.injEq] at this
  obtain ⟨rfl, rfl, rfl, rfl⟩ := this
  obtain ⟨a1, a2, a3, a4⟩ := relaxDissLog_ok hp
  obtain ⟨b1, b2⟩ := relaxPrimaryLog_ok hq
  refine ⟨b1.trans a1, fun hrule => ?_⟩
  unfold SandPile.relaxSize
  cases ht : s.toppling.isSome
  · have hnil : q.1 = [] := b2 (by
      cases hs1 : p.2.1.toppling with
      | none => rfl
      | some t => rw [← a2, hs1] at ht; cases ht)
    rw [hnil]
    simp
  · have hz : p.1.count true = 0 := by
      cases hs : s.diss_toppling with
      | none => rw [a3 hs]; rfl
      | some dt => exact a4 dt hs (hrule dt hs)
    rw [hz]
    simp

theorem AddEvent_other (c : EventCounter) (e k : Int) (h : k ≠ e) :
    (c.AddEvent e).events k = c.events k := by
  unfold EventCounter.AddEvent
  exact Function.update_noteq h _ _

/-- C18 (counterexample): a 3 by 3 sandpile with the Rossum2011 rule whose dissipation
toppling has been given the BTW rule and whose dissipation grid holds 4 particles on
three cells: in `Relax(true)` the dissipation `Topple` has three toppling events, the
primary `Topple` none; `Relax` returns 0, not 3, and the histogram gets no entry for
size 3. -/
theorem C18_dissipation_count_counterexample :
    Run.value dissipationCountScenario = some (0, 3, 0, 0) := by
  decide!

/-- C18 (amended): `Relax(measure)` behaves as its two `Topple` calls with their records
followed by the test of the size, where the size is the number of toppling events of
the primary `Topple` when the sandpile has a primary toppling and of the dissipation
`Topple` otherwise (`relaxSize`: the second call overwrites the count of the first);
this is the combined number of both whenever the dissipation toppling has the
Rossum2011-diss rule.  When `Relax` returns, the result is not negative; if it is not
zero, `measure` is true and one occurrence of that size has been added to the
histogram; if it is zero the histogram is unchanged; the number of entries for
size 0 never changes. -/
theorem C18_relax_returns_last_count (s : SandPile) (measure : Bool) (st : Statics)
    (fuel : Nat) :
    s.Relax measure st fuel
      = Except.map (fun r : List Bool × List Bool × SandPile × Statics =>
          if 0 < s.relaxSize r.1 r.2.1 ∧ measure = true then
            (s.relaxSize r.1 r.2.1,
              { r.2.2.1 with
                avalanches := (r.2.2.1.avalanches.AddEvent (s.relaxSize r.1 r.2.1)) },
              r.2.2.2)
          else (0, r.2.2.1, r.2.2.2)) (s.relaxLog st fuel)
    ∧ (∀ dlog plog s2 st2, s.relaxLog st fuel = Except.ok (dlog, plog, s2, st2) →
        (∀ dt, s.diss_toppling = some dt →
          dt.toppling_method = TopplingMethod.Rossum2011_diss) →
        s.relaxSize dlog plog
          = ((dlog.count true : Nat) : Int) + ((plog.count true : Nat) : Int))
    ∧ (∀ a s1 st1, s.Relax measure st fuel = Except.ok (a, s1, st1) →
        0 ≤ a
        ∧ (a ≠ 0 → measure = true ∧ s1.avalanches = s.avalanches.AddEvent a)
        ∧ (a = 0 → s1.avalanches = s.avalanches)
        ∧ s1.avalanches.events 0 = s.avalanches.events 0) := by
  refine ⟨Relax_eq_log s measure st fuel, fun dlog plog s2 st2 h => (relaxLog_ok h).2, ?_⟩
  intro a s1 st1 h
  rw [Relax_eq_log] at h
  cases hl : s.relaxLog st fuel with
  | error err => rw [hl] at h; cases h
  | ok r =>
    obtain ⟨dlog, plog, s2, st2⟩ := r
    have hav := (relaxLog_ok hl).1
    rw [hl] at h
    simp only [Except.map] at h
    have h := Except.ok.inj h
    by_cases hc : 0 < s.relaxSize dlog plog ∧ measure = true
    · rw [if_pos hc] at h
      simp only [Prod.mk.injEq] at h
      obtain ⟨rfl, rfl, -⟩ := h
      refine ⟨le_of_lt hc.1, fun _ => ⟨hc.2, ?_⟩, fun h0 => ?_, ?_⟩
      · show s2.avalanches.AddEvent _ = _
        rw [hav]
      · exact absurd h0 (ne_of_gt hc.1)
      · show (s2.avalanches.AddEvent _).events 0 = _
        rw [hav]
        exact AddEvent_other _ _ _ (ne_of_lt hc.1)
    · rw [if_neg hc] at h
      simp only [Prod.mk.injEq] at h
      obtain ⟨rfl, rfl, -⟩ := h
      exact ⟨le_refl _, fun h0 => absurd rfl h0, fun _ => hav, by rw [hav]⟩

/-- Witness of C18: the four times driven 2 by 2 sandpile, whose `Relax(true)` is an
avalanche of size 1. -/
theorem C18_relax_returns_last_count_witness :
    ∃ s st, drivenPile = Except.ok (s, st)
      ∧ s.Relax true st 10
        = Except.map (fun r : List Bool × List Bool × SandPile × Statics =>
            if 0 < s.relaxSize r.1 r.2.1 ∧ true = true then
              (s.relaxSize r.1 r.2.1,
                { r.2.2.1 with
                  avalanches := (r.2.2.1.avalanches.AddEvent (s.relaxSize r.1 r.2.1)) },
                r.2.2.2)
            else (0, r.2.2.1, r.2.2.2)) (s.relaxLog st 10)
      ∧ (∀ dlog plog s2 st2, s.relaxLog st 10 = Except.ok (dlog, plog, s2, st2) →
          (∀ dt, s.diss_toppling = some dt →
            dt.toppling_method = TopplingMethod.Rossum2011_diss) →
          s.relaxSize dlog plog
            = ((dlog.count true : Nat) : Int) + ((plog.count true : Nat) : Int))
      ∧ (∀ a s1 st1, s.Relax true st 10 = Except.ok (a, s1, st1) →
          0 ≤ a
          ∧ (a ≠ 0 → true = true ∧ s1.avalanches = s.avalanches.AddEvent a)
          ∧ (a = 0 → s1.avalanches = s.avalanches)
          ∧ s1.avalanches.events 0 = s.avalanches.events 0) := by
  obtain ⟨p, hp⟩ : ∃ p, drivenPile = Except.ok p := by
    have h := drivenPile_facts.1
    cases hd : drivenPile with
    | error e => rw [hd] at h; simp [Run.value] at h
    | ok p => exact ⟨p, rfl⟩
  exact ⟨p.1, p.2, hp, C18_relax_returns_last_count p.1 true p.2 10⟩

/-! ### The per-cell topple returns, and returns true exactly at or above the threshold -/

theorem holds_of_read {g : Grid} {r : CellRef} {c : Cell} (h : g.read r = Except.ok c) :
    g.holds r = true := by
  cases r with
  | reservoir => rfl
  | cell n =>
    obtain ⟨h0, h1, -⟩ := read_cell_ok h
    exact decide_eq_true ⟨h0, h1⟩

theorem holds_same_size {g g1 : Grid} (h : g1.size = g.size) (r : CellRef) :
    g1.holds r = g.holds r := by
  cases r with
  | reservoir => rfl
  | cell n => simp only [Grid.holds, h]

theorem alter_returns (e : Engine) {r : CellRef} (f : GrainType → GrainType)
    (h : e.grid.holds r = true) : ∃ e1, e.alter r f = Except.ok e1 := by
  cases r with
  | reservoir => exact ⟨_, rfl⟩
  | cell n =>
    have hb : 0 ≤ n ∧ n < (e.grid.size : Int) := of_decide_eq_true h
    unfold Engine.alter
    simp only [Grid.read, Grid.write, hb, and_self, if_true, bind, Except.bind, pure,
      Except.pure]
    split_ifs <;> exact ⟨_, rfl⟩

theorem increaseEach_returns : ∀ (rs : List CellRef) (xs : List GrainType) (e : Engine),
    (∀ r, r ∈ rs → e.grid.holds r = true) → ∃ e1, Engine.increaseEach e rs xs = Except.ok e1
  | [], _, e, _ => ⟨e, by simp [Engine.increaseEach, pure, Except.pure]⟩
  | _ :: _, [], e, _ => ⟨e, by simp [Engine.increaseEach, pure, Except.pure]⟩
  | r :: rs, x :: xs, e, h => by
    obtain ⟨e1, h1⟩ := alter_returns e (fun h => h + x) (h r (List.mem_cons_self _ _))
    have hs := (alter_frame h1).size
    obtain ⟨e2, h2⟩ := increaseEach_returns rs xs e1 (fun r1 hr1 => by
      rw [holds_same_size hs]; exact h r1 (List.mem_cons_of_mem _ hr1))
    refine ⟨e2, ?_⟩
    simp only [Engine.increaseEach, Engine.Increase, h1, bind, Except.bind]
    exact h2

theorem mannaLoop_returns (nb : List CellRef) (hne : nb ≠ []) :
    ∀ (xs : List GrainType) (e : Engine) (gen : Gen),
      (∀ r, r ∈ nb → e.grid.holds r = true) →
      ∃ p, Engine.mannaLoop nb e xs gen = Except.ok p
  | [], e, gen, _ => ⟨(e, gen), by simp [Engine.mannaLoop, pure, Except.pure]⟩
  | x :: xs, e, gen, h => by
    have hlen : 0 < nb.length := List.length_pos.mpr hne
    have hlt : gen.below nb.length < nb.length := Nat.mod_lt _ hlen
    have hget : nb[gen.below nb.length]? = some (nb.get ⟨gen.below nb.length, hlt⟩) :=
      List.getElem?_eq_getElem hlt
    obtain ⟨e1, h1⟩ := alter_returns e (fun h => h + x)
      (h _ (List.get_mem nb (gen.below nb.length) hlt))
    have hs := (alter_frame h1).size
    obtain ⟨p, hp⟩ := mannaLoop_returns nb hne xs e1 gen.tail (fun r1 hr1 => by
      rw [holds_same_size hs]; exact h r1 hr1)
    refine ⟨p, ?_⟩
    simp only [Engine.mannaLoop, hget, Engine.Increase, h1, bind, Except.bind]
    exact hp

theorem linLoop_returns (diss_rate : ℚ) : ∀ (rs : List CellRef) (xs : List GrainType)
    (e : Engine) (z : Gen), (∀ r, r ∈ rs → e.grid.holds r = true) →
    ∃ p, Engine.linLoop diss_rate e rs xs z = Except.ok p
  | [], _, e, z, _ => ⟨(e, z), by simp [Engine.linLoop, pure, Except.pure]⟩
  | _ :: _, [], e, z, _ => ⟨(e, z), by simp [Engine.linLoop, pure, Except.pure]⟩
  | r :: rs, x :: xs, e, z, h => by
    simp only [Engine.linLoop]
    split
    · obtain ⟨e1, h1⟩ := alter_returns e (fun h => h + x) (h r (List.mem_cons_self _ _))
      have hs := (alter_frame h1).size
      obtain ⟨p, hp⟩ := linLoop_returns diss_rate rs xs e1 z.tail (fun r1 hr1 => by
        rw [holds_same_size hs]; exact h r1 (List.mem_cons_of_mem _ hr1))
      refine ⟨p, ?_⟩
      simp only [Engine.Increase, h1, bind, Except.bind]
      exact hp
    · exact linLoop_returns diss_rate rs xs e z.tail
        (fun r1 hr1 => h r1 (List.mem_cons_of_mem _ hr1))

theorem normalise_nonempty {decrease : GrainType} {draws inc : List GrainType}
    (h : normalise decrease draws = some inc) : draws ≠ [] := by
  rintro rfl
  simp [normalise] at h

/-- At or above the threshold the per-cell `Topple` of the four rules returns true, when the
neighbour pointers are good, the draws of the split do not sum to zero and, for
Rossum2011, the dissipation threshold is positive and the dissipation grid has a cell
with the identity of the cell. -/
theorem Topple_returns_true {e : Engine} {dg : Option Grid} {cell : CellRef}
    {nb : List CellRef} {st : Statics} {c : Cell} {inc : List GrainType}
    (hc : e.grid.read cell = Except.ok c)
    (hge : e.toppling.topple_threshold ≤ c.height)
    (hm : e.toppling.toppling_method = TopplingMethod.Manna_Lin2010
      ∨ e.toppling.toppling_method = TopplingMethod.Bak_Tang_Wiesenfeld1987
      ∨ e.toppling.toppling_method = TopplingMethod.Lin_etal2006
      ∨ e.toppling.toppling_method = TopplingMethod.Rossum2011)
    (hnb : ∀ r, r ∈ nb → e.grid.holds r = true)
    (hnorm : normalise (e.toppling.decrease nb.length) (st.drawSplit nb.length).1 = some inc)
    (hros : e.toppling.toppling_method = TopplingMethod.Rossum2011 →
      0 < e.toppling.diss_threshold
        ∧ ∃ d, dg = some d ∧ 0 ≤ c.id ∧ c.id < (d.size : Int)) :
    ∃ e1 st1, e.Topple dg cell nb st = Except.ok (true, e1, st1) := by
  obtain ⟨e1, h1⟩ := alter_returns e (fun h => h - e.toppling.decrease nb.length)
    (holds_of_read hc)
  have hs := (alter_frame h1).size
  have hnb1 : ∀ r, r ∈ nb → e1.grid.holds r = true := fun r hr => by
    rw [holds_same_size hs]; exact hnb r hr
  have hne : nb ≠ [] := by
    intro h0
    have := normalise_nonempty hnorm
    apply this
    apply List.eq_nil_of_length_eq_zero
    rw [drawSplit_length, h0]
    rfl
  unfold Engine.Topple
  simp only [hc, bind, Except.bind, ge_iff_le, hge, if_true, Engine.Decrease, h1, hnorm]
  rcases hm with hm | hm | hm | hm
  · simp only [hm]
    obtain ⟨p, hp⟩ := mannaLoop_returns nb hne inc e1 st.toppleGenerator hnb1
    rw [hp]
    exact ⟨_, _, rfl⟩
  · simp only [hm]
    obtain ⟨e2, h2⟩ := increaseEach_returns nb inc e1 hnb1
    rw [h2]
    exact ⟨_, _, rfl⟩
  · simp only [hm]
    split
    · obtain ⟨p, hp⟩ := linLoop_returns e.toppling.diss_rate nb inc e1
        ((st.drawSplit nb.length).2.linZeroone.getD st.toppleGenerator) hnb1
      rw [hp]
      exact ⟨_, _, rfl⟩
    · obtain ⟨e2, h2⟩ := increaseEach_returns nb inc e1 hnb1
      rw [h2]
      exact ⟨_, _, rfl⟩
  · obtain ⟨hpos, d, rfl, hid0, hid1⟩ := hros hm
    have hget : d.GetCellAt c.id = Except.ok (CellRef.cell c.id) := by
      unfold Grid.GetCellAt
      have : c.id < (d.height : Int) * (d.width : Int) := by
        have hsz : (d.size : Int) = (d.height : Int) * (d.width : Int) := by
          simp [Grid.size, mul_comm]
        rw [← hsz]; exact hid1
      rw [if_neg (not_not.mpr this)]
      rfl
    simp only [hm, gt_iff_lt, hpos, not_true_eq_false, if_false, hget,
      read_cell_of_lt d hid0 hid1]
    split
    · exact ⟨_, _, rfl⟩
    · obtain ⟨e2, h2⟩ := increaseEach_returns nb inc e1 hnb1
      rw [h2]
      exact ⟨_, _, rfl⟩

/-- C19: let the cell have height `c.height`.  For every rule, when the height is below the
toppling threshold, per-cell `Topple(cell, neighbours)` returns false and leaves the
whole engine as it is (every height and direction, the reservoir included).  For the
Manna-Lin, BTW, Lin2006 and Rossum2011 rules a call that returns, returns true iff
the height is at or above the threshold; and the call does return when the neighbour
pointers are good, the draws of the split do not sum to zero and, for Rossum2011,
the dissipation threshold is positive and the dissipation grid has a cell with the
identity of the cell. -/
theorem C19_topple_iff_at_threshold (e : Engine) (dg : Option Grid) (cell : CellRef)
    (nb : List CellRef) (st : Statics) (c : Cell) (hc : e.grid.read cell = Except.ok c) :
    (c.height < e.toppling.topple_threshold →
        e.Topple dg cell nb st = Except.ok (false, e, (st.drawSplit nb.length).2))
    ∧ (e.toppling.toppling_method = TopplingMethod.Manna_Lin2010
        ∨ e.toppling.toppling_method = TopplingMethod.Bak_Tang_Wiesenfeld1987
        ∨ e.toppling.toppling_method = TopplingMethod.Lin_etal2006
        ∨ e.toppling.toppling_method = TopplingMethod.Rossum2011 →
      (∀ b e1 st1, e.Topple dg cell nb st = Except.ok (b, e1, st1) →
        (b = true ↔ e.toppling.topple_threshold ≤ c.height))
      ∧ ((∀ r, r ∈ nb → e.grid.holds r = true) →
          (∃ inc, normalise (e.toppling.decrease nb.length) (st.drawSplit nb.length).1
            = some inc) →
          (e.toppling.toppling_method = TopplingMethod.Rossum2011 →
            0 < e.toppling.diss_threshold
              ∧ ∃ d, dg = some d ∧ 0 ≤ c.id ∧ c.id < (d.size : Int)) →
          ∃ e1 st1, e.Topple dg cell nb st
            = Except.ok (decide (e.toppling.topple_threshold ≤ c.height), e1, st1))) := by
  refine ⟨fun hlt => Topple_below dg nb st hc hlt, fun hm => ⟨?_, ?_⟩⟩
  · intro b e1 st1 h
    have hne : e.toppling.toppling_method ≠ TopplingMethod.Rossum2011_diss := by
      rcases hm with hm | hm | hm | hm <;> rw [hm] <;> decide
    obtain ⟨c1, hc1, hcase⟩ := Topple_cases h hne
    rw [hc] at hc1
    cases Except.ok.inj hc1
    rcases hcase with ⟨hlt, rfl, -⟩ | ⟨hge, rfl, -⟩
    · simp only [Bool.false_eq_true, false_iff, not_le]
      exact hlt
    · simp only [true_iff]
      exact hge
  · intro hnb hnorm hros
    obtain ⟨inc, hinc⟩ := hnorm
    by_cases hge : e.toppling.topple_threshold ≤ c.height
    · obtain ⟨e1, st1, h⟩ := Topple_returns_true hc hge hm hnb hinc hros
      exact ⟨e1, st1, by rw [h, decide_eq_true hge]⟩
    · exact ⟨e, _, by rw [Topple_below dg nb st hc (not_le.mp hge), decide_eq_false hge]⟩

/-- Witness of C19: the cell 0 of an empty 4 by 4 Periodic grid under the BTW rule with
threshold 4. -/
theorem C19_topple_iff_at_threshold_witness :
    ∃ (t : Toppling) (c : Cell),
      Toppling.new.SetTopplingMethod TopplingMethod.Bak_Tang_Wiesenfeld1987 = Except.ok t
      ∧ (exampleGrid BoundaryType.BT_PERIODIC).read (CellRef.cell 0) = Except.ok c
      ∧ (c.height < t.topple_threshold →
          Engine.Topple { grid := exampleGrid BoundaryType.BT_PERIODIC, toppling := t } none
              (CellRef.cell 0) [CellRef.cell 1] (Statics.initial (constSeed 1))
            = Except.ok (false, { grid := exampleGrid BoundaryType.BT_PERIODIC, toppling := t },
                ((Statics.initial (constSeed 1)).drawSplit [CellRef.cell 1].length).2))
      ∧ (t.toppling_method = TopplingMethod.Manna_Lin2010
          ∨ t.toppling_method = TopplingMethod.Bak_Tang_Wiesenfeld1987
          ∨ t.toppling_method = TopplingMethod.Lin_etal2006
          ∨ t.toppling_method = TopplingMethod.Rossum2011 →
        (∀ b e1 st1,
          Engine.Topple { grid := exampleGrid BoundaryType.BT_PERIODIC, toppling := t } none
              (CellRef.cell 0) [CellRef.cell 1] (Statics.initial (constSeed 1))
            = Except.ok (b, e1, st1) →
          (b = true ↔ t.topple_threshold ≤ c.height))
        ∧ ((∀ r, r ∈ [CellRef.cell 1] →
              (exampleGrid BoundaryType.BT_PERIODIC).holds r = true) →
            (∃ inc, normalise (t.decrease [CellRef.cell 1].length)
              ((Statics.initial (constSeed 1)).drawSplit [CellRef.cell 1].length).1
              = some inc) →
            (t.toppling_method = TopplingMethod.Rossum2011 →
              0 < t.diss_threshold
                ∧ ∃ d, (none : Option Grid) = some d ∧ 0 ≤ c.id ∧ c.id < (d.size : Int)) →
            ∃ e1 st1,
              Engine.Topple { grid := exampleGrid BoundaryType.BT_PERIODIC, toppling := t } none
                  (CellRef.cell 0) [CellRef.cell 1] (Statics.initial (constSeed 1))
                = Except.ok (decide (t.topple_threshold ≤ c.height), e1, st1))) :=
  ⟨_, _, rfl, read_cell_of_lt (exampleGrid BoundaryType.BT_PERIODIC) (by decide) (by decide),
    C19_topple_iff_at_threshold
      { grid := exampleGrid BoundaryType.BT_PERIODIC
        toppling := { Toppling.new with
          toppling_method := TopplingMethod.Bak_Tang_Wiesenfeld1987, topple_threshold := 4 } }
      none (CellRef.cell 0) [CellRef.cell 1] (Statics.initial (constSeed 1)) _
      (read_cell_of_lt (exampleGrid BoundaryType.BT_PERIODIC) (by decide) (by decide))⟩

/-! ### The Rossum2011 rule -/

theorem CheckCell_withMethod (t : Toppling) (m : TopplingMethod) (n : Nat) (c : Cell) :
    ({ t with toppling_method := m } : Toppling).CheckCell n c
      = { t.CheckCell n c with toppling_method := m } := by
  rcases t with ⟨dg, nda, cda, ac, thr, dm, dr, dt, da, tm, it, ri⟩
  cases it
  · rfl
  · rfl
  · simp only [Toppling.CheckCell]
    split_ifs <;> rfl

theorem alter_withMethod (e : Engine) (m : TopplingMethod) (r : CellRef)
    (f : GrainType → GrainType) :
    (e.withMethod m).alter r f = Except.map (fun e1 => e1.withMethod m) (e.alter r f) := by
  unfold Engine.alter Engine.withMethod
  simp only []
  cases e.grid.read r with
  | error err => rfl
  | ok c =>
    simp only [bind, Except.bind]
    cases e.grid.write r { c with height := f c.height } with
    | error err => rfl
    | ok g1 =>
      cases r with
      | reservoir => rfl
      | cell n =>
        simp only []
        split_ifs
        · simp only [pure, Except.pure, Except.map, CheckCell_withMethod]
        · rfl

theorem increaseEach_withMethod (m : TopplingMethod) : ∀ (rs : List CellRef)
    (xs : List GrainType) (e : Engine),
    Engine.increaseEach (e.withMethod m) rs xs
      = Except.map (fun e1 => e1.withMethod m) (Engine.increaseEach e rs xs)
  | [], _, e => by simp [Engine.increaseEach, pure, Except.pure, Except.map]
  | _ :: _, [], e => by simp [Engine.increaseEach, pure, Except.pure, Except.map]
  | r :: rs, x :: xs, e => by
    simp only [Engine.increaseEach, Engine.Increase, alter_withMethod]
    cases e.alter r (fun h => h + x) with
    | error err => rfl
    | ok e1 =>
      simp only [Except.map, bind, Except.bind]
      exact increaseEach_withMethod m rs xs e1

theorem withMethod_withMethod (e : Engine) (m : TopplingMethod)
    (h : e.toppling.toppling_method = m) (m1 : TopplingMethod) :
    (e.withMethod m1).withMethod m = e := by
  unfold Engine.withMethod
  subst h
  rfl

theorem alter_method {e e1 : Engine} {r : CellRef} {f : GrainType → GrainType}
    (h : e.alter r f = Except.ok e1) :
    e1.toppling.toppling_method = e.toppling.toppling_method :=
  (alter_frame h).method

/-- The method `Cell::Decrease` on an array cell changes the height of that cell and nothing
else of the grid. -/
theorem Decrease_cell {e e1 : Engine} {n : Int} {c : Cell} {x : GrainType}
    (hc : e.grid.read (CellRef.cell n) = Except.ok c)
    (h : e.Decrease (CellRef.cell n) x = Except.ok e1) :
    e1.grid.reservoir = e.grid.reservoir
      ∧ (∀ k, k ≠ n.toNat → e1.grid.cells k = e.grid.cells k)
      ∧ e1.grid.cells n.toNat = { c with height := c.height - x } := by
  obtain ⟨-, -, rfl⟩ := read_cell_ok hc
  obtain ⟨-, -, hg, -⟩ := alter_cell_ok h
  rw [hg]
  exact ⟨rfl, fun k hk => Function.update_noteq hk _ _, Function.update_same _ _ _⟩

/-- C20: under the Rossum2011 rule with a dissipation threshold > 0, for a cell at or
above the toppling threshold whose identity names a cell of the dissipation grid:
if the height of that dissipation cell is at or above the dissipation threshold,
per-cell `Topple` returns true and is `cell.Decrease(decrease)` and nothing else: the
height of the cell goes down by the decrease amount, every other cell and the
reservoir stay as they are; otherwise it does to the grid, the active set and the
generators exactly what the same call does under the BTW rule, and returns the same
value. -/
theorem C20_rossum_topple (e : Engine) (d : Grid) (n : Int) (nb : List CellRef)
    (st : Statics) (c dcell : Cell)
    (hm : e.toppling.toppling_method = TopplingMethod.Rossum2011)
    (hpos : 0 < e.toppling.diss_threshold)
    (hc : e.grid.read (CellRef.cell n) = Except.ok c)
    (hge : e.toppling.topple_threshold ≤ c.height)
    (hd : d.read (CellRef.cell c.id) = Except.ok dcell) :
    (e.toppling.diss_threshold ≤ dcell.height →
      ∃ e1, e.Decrease (CellRef.cell n) (e.toppling.decrease nb.length) = Except.ok e1
        ∧ e.Topple (some d) (CellRef.cell n) nb st
            = Except.ok (true, e1, (st.drawSplit nb.length).2)
        ∧ e1.grid.reservoir = e.grid.reservoir
        ∧ (∀ k, k ≠ n.toNat → e1.grid.cells k = e.grid.cells k)
        ∧ e1.grid.cells n.toNat
            = { c with height := c.height - e.toppling.decrease nb.length })
    ∧ (dcell.height < e.toppling.diss_threshold →
      e.Topple (some d) (CellRef.cell n) nb st
        = Except.map (fun r => (r.1, r.2.1.withMethod TopplingMethod.Rossum2011, r.2.2))
            ((e.withMethod TopplingMethod.Bak_Tang_Wiesenfeld1987).Topple (some d)
              (CellRef.cell n) nb st)) := by
  obtain ⟨hid0, hid1, -⟩ := read_cell_ok hd
  have hget : d.GetCellAt c.id = Except.ok (CellRef.cell c.id) := by
    unfold Grid.GetCellAt
    have : c.id < (d.height : Int) * (d.width : Int) := by
      have hsz : (d.size : Int) = (d.height : Int) * (d.width : Int) := by
        simp [Grid.size, mul_comm]
      rw [← hsz]; exact hid1
    rw [if_neg (not_not.mpr this)]
    rfl
  constructor
  · intro hdiss
    obtain ⟨e1, h1⟩ := alter_returns e (fun h => h - e.toppling.decrease nb.length)
      (holds_of_read hc)
    have h1d : e.Decrease (CellRef.cell n) (e.toppling.decrease nb.length) = Except.ok e1 := h1
    obtain ⟨a1, a2, a3⟩ := Decrease_cell hc h1d
    refine ⟨e1, h1d, ?_, a1, a2, a3⟩
    unfold Engine.Topple
    simp only [hc, bind, Except.bind, ge_iff_le, hge, if_true, hm, gt_iff_lt, hpos,
      not_true_eq_false, if_false, hget, hd, h1d, hdiss, pure, Except.pure]
  · intro hdiss
    have hB : (e.withMethod TopplingMethod.Bak_Tang_Wiesenfeld1987).grid.read (CellRef.cell n)
        = Except.ok c := hc
    unfold Engine.Topple
    simp only [hc, hB, bind, Except.bind, ge_iff_le, hge, if_true, hm, gt_iff_lt, hpos,
      not_true_eq_false, if_false, hget, hd, not_le.mpr hdiss]
    simp only [Engine.withMethod, Engine.Decrease]
    have ha := alter_withMethod e TopplingMethod.Bak_Tang_Wiesenfeld1987 (CellRef.cell n)
      (fun h => h - e.toppling.decrease nb.length)
    simp only [Engine.withMethod] at ha
    simp only [hge, if_true, Toppling.decrease] at ha ⊢
    rw [ha]
    cases hdec : e.alter (CellRef.cell n) (fun h => h - if e.toppling.diss_amount ≤ 0 then (nb.length : ℚ)
        else e.toppling.diss_amount) with
    | error err => rfl
    | ok e1 =>
      simp only [Except.map]
      cases normalise _ _ with
      | none => rfl
      | some inc =>
        simp only []
        have hi := increaseEach_withMethod TopplingMethod.Bak_Tang_Wiesenfeld1987 nb inc e1
        simp only [Engine.withMethod] at hi
        rw [hi]
        cases hinc : Engine.increaseEach e1 nb inc with
        | error err => rfl
        | ok e2 =>
          simp only [Except.map, pure, Except.pure]
          have hm2 : e2.toppling.toppling_method = TopplingMethod.Rossum2011 := by
            rw [(increaseEach_alters nb inc e1 e2 hinc).frame.method, alter_method hdec, hm]
          have := withMethod_withMethod e2 _ hm2 TopplingMethod.Bak_Tang_Wiesenfeld1987
          simp only [Engine.withMethod] at this
          rw [this]

/-- Witness of C20: the cell 0 of `rossumEngine` (height 0, threshold 0), with an empty 4 by 4
grid as dissipation grid (height 0 below the dissipation threshold 1). -/
theorem C20_rossum_topple_witness :
    (rossumEngine.toppling.diss_threshold
        ≤ ((exampleGrid BoundaryType.BT_PERIODIC).cells 0).height →
      ∃ e1, rossumEngine.Decrease (CellRef.cell 0) (rossumEngine.toppling.decrease 4)
          = Except.ok e1
        ∧ rossumEngine.Topple (some (exampleGrid BoundaryType.BT_PERIODIC)) (CellRef.cell 0)
              [CellRef.cell 12, CellRef.cell 3, CellRef.cell 4, CellRef.cell 1]
              (Statics.initial (constSeed 1))
            = Except.ok (true, e1, ((Statics.initial (constSeed 1)).drawSplit 4).2)
        ∧ e1.grid.reservoir = rossumEngine.grid.reservoir
        ∧ (∀ k, k ≠ (0 : Int).toNat → e1.grid.cells k = rossumEngine.grid.cells k)
        ∧ e1.grid.cells (0 : Int).toNat
            = { (exampleGrid BoundaryType.BT_PERIODIC).cells 0 with
                height := ((exampleGrid BoundaryType.BT_PERIODIC).cells 0).height
                  - rossumEngine.toppling.decrease 4 })
    ∧ (((exampleGrid BoundaryType.BT_PERIODIC).cells 0).height
        < rossumEngine.toppling.diss_threshold →
      rossumEngine.Topple (some (exampleGrid BoundaryType.BT_PERIODIC)) (CellRef.cell 0)
          [CellRef.cell 12, CellRef.cell 3, CellRef.cell 4, CellRef.cell 1]
          (Statics.initial (constSeed 1))
        = Except.map (fun r => (r.1, r.2.1.withMethod TopplingMethod.Rossum2011, r.2.2))
            ((rossumEngine.withMethod TopplingMethod.Bak_Tang_Wiesenfeld1987).Topple
              (some (exampleGrid BoundaryType.BT_PERIODIC)) (CellRef.cell 0)
              [CellRef.cell 12, CellRef.cell 3, CellRef.cell 4, CellRef.cell 1]
              (Statics.initial (constSeed 1)))) :=
  C20_rossum_topple rossumEngine (exampleGrid BoundaryType.BT_PERIODIC) 0
    [CellRef.cell 12, CellRef.cell 3, CellRef.cell 4, CellRef.cell 1]
    (Statics.initial (constSeed 1)) ((exampleGrid BoundaryType.BT_PERIODIC).cells 0)
    ((exampleGrid BoundaryType.BT_PERIODIC).cells 0) rfl (by decide!)
    (read_cell_of_lt (exampleGrid BoundaryType.BT_PERIODIC) (by decide) (by decide))
    (by decide!)
    (read_cell_of_lt (exampleGrid BoundaryType.BT_PERIODIC) (by decide) (by decide))

/-! ### The Lin2006 rule without dissipative mode -/

/-- C22: with dissipative mode disabled, per-cell `Topple` under the Lin2006 rule is per-cell
`Topple` under the BTW rule from the same grid, threshold, dissipation amount and
generator state: the same outcome (fault or return), the same returned value, the
same generator state and the same engine up to the name of the rule; so the
resulting grids and active sets are equal. -/
theorem C22_lin_without_dissipation_is_btw (e : Engine) (dg : Option Grid) (cell : CellRef)
    (nb : List CellRef) (st : Statics)
    (hm : e.toppling.toppling_method = TopplingMethod.Lin_etal2006)
    (hd : e.toppling.dissipative_mode = false) :
    e.Topple dg cell nb st
        = Except.map (fun r => (r.1, r.2.1.withMethod TopplingMethod.Lin_etal2006, r.2.2))
            ((e.withMethod TopplingMethod.Bak_Tang_Wiesenfeld1987).Topple dg cell nb st)
    ∧ ∀ b e1 st1, e.Topple dg cell nb st = Except.ok (b, e1, st1) →
        ∃ e2, (e.withMethod TopplingMethod.Bak_Tang_Wiesenfeld1987).Topple dg cell nb st
            = Except.ok (b, e2, st1)
          ∧ e2.grid = e1.grid
          ∧ e2.toppling.active_cells = e1.toppling.active_cells := by
  have main : e.Topple dg cell nb st
        = Except.map (fun r => (r.1, r.2.1.withMethod TopplingMethod.Lin_etal2006, r.2.2))
            ((e.withMethod TopplingMethod.Bak_Tang_Wiesenfeld1987).Topple dg cell nb st) := by
    obtain ⟨g, t⟩ := e
    obtain ⟨dgp, nda, cda, ac, thr, dm, dr, dt, da, tm, it, ri⟩ := t
    simp only at hm hd
    subst hm hd
    unfold Engine.Topple
    simp only [Engine.withMethod, Toppling.decrease]
    cases hc : g.read cell with
    | error err => rfl
    | ok c =>
      simp only [bind, Except.bind, Engine.Decrease]
      have ha := alter_withMethod
        { grid := g, toppling := Toppling.mk dgp nda cda ac thr false dr dt da
            TopplingMethod.Lin_etal2006 it ri }
        TopplingMethod.Bak_Tang_Wiesenfeld1987 cell
        (fun h => h - if da ≤ 0 then (nb.length : ℚ) else da)
      simp only [Engine.withMethod] at ha
      by_cases hge : c.height ≥ thr
      · simp only [hge, if_true]
        rw [ha]
        cases hdec : Engine.alter
            { grid := g, toppling := Toppling.mk dgp nda cda ac thr false dr dt da
                TopplingMethod.Lin_etal2006 it ri } cell
            (fun h => h - if da ≤ 0 then (nb.length : ℚ) else da) with
        | error err => rfl
        | ok e1 =>
          simp only [Except.map]
          cases normalise _ _ with
          | none => rfl
          | some inc =>
            simp only []
            have hi := increaseEach_withMethod TopplingMethod.Bak_Tang_Wiesenfeld1987 nb inc e1
            simp only [Engine.withMethod] at hi
            rw [hi]
            cases hinc : Engine.increaseEach e1 nb inc with
            | error err => rfl
            | ok e2 =>
              simp only [Except.map, pure, Except.pure, Bool.false_eq_true, if_false]
              have hm2 : e2.toppling.toppling_method = TopplingMethod.Lin_etal2006 := by
                rw [(increaseEach_alters nb inc e1 e2 hinc).frame.method, alter_method hdec]
              have := withMethod_withMethod e2 _ hm2 TopplingMethod.Bak_Tang_Wiesenfeld1987
              simp only [Engine.withMethod] at this
              rw [this]
      · simp only [hge, if_false, pure, Except.pure, Except.map]
  refine ⟨main, fun b e1 st1 h => ?_⟩
  rw [main] at h
  cases hB : (e.withMethod TopplingMethod.Bak_Tang_Wiesenfeld1987).Topple dg cell nb st with
  | error err => rw [hB] at h; cases h
  | ok r =>
    rw [hB] at h
    obtain ⟨b2, e2, st2⟩ := r
    simp only [Except.map] at h
    cases Except.ok.inj h
    exact ⟨e2, rfl, rfl, rfl⟩

/-- Witness of C22: the cell 0 of `linEngine`, an empty 4 by 4 Periodic grid under the Lin2006
rule with the dissipative mode as the constructor of `Toppling` leaves it. -/
theorem C22_lin_without_dissipation_is_btw_witness :
    linEngine.Topple none (CellRef.cell 0) [CellRef.cell 1] (Statics.initial (constSeed 1))
      = Except.map (fun r => (r.1, r.2.1.withMethod TopplingMethod.Lin_etal2006, r.2.2))
          ((linEngine.withMethod TopplingMethod.Bak_Tang_Wiesenfeld1987).Topple none
            (CellRef.cell 0) [CellRef.cell 1] (Statics.initial (constSeed 1)))
    ∧ ∀ b e1 st1,
        linEngine.Topple none (CellRef.cell 0) [CellRef.cell 1] (Statics.initial (constSeed 1))
          = Except.ok (b, e1, st1) →
        ∃ e2, (linEngine.withMethod TopplingMethod.Bak_Tang_Wiesenfeld1987).Topple none
            (CellRef.cell 0) [CellRef.cell 1] (Statics.initial (constSeed 1))
            = Except.ok (b, e2, st1)
          ∧ e2.grid = e1.grid
          ∧ e2.toppling.active_cells = e1.toppling.active_cells :=
  C22_lin_without_dissipation_is_btw linEngine none (CellRef.cell 0) [CellRef.cell 1]
    (Statics.initial (constSeed 1)) rfl rfl

/-! ### Reading after writing -/

theorem read_returns {g : Grid} {r : CellRef} (h : g.holds r = true) :
    ∃ c, g.read r = Except.ok c := by
  cases r with
  | reservoir => exact ⟨_, rfl⟩
  | cell n =>
    have hb : 0 ≤ n ∧ n < (g.size : Int) := of_decide_eq_true h
    exact ⟨_, read_cell_of_lt g hb.1 hb.2⟩

theorem write_returns {g : Grid} {r : CellRef} (c : Cell) (h : g.holds r = true) :
    ∃ g1, g.write r c = Except.ok g1 := by
  cases r with
  | reservoir => exact ⟨_, rfl⟩
  | cell n =>
    have hb : 0 ≤ n ∧ n < (g.size : Int) := of_decide_eq_true h
    unfold Grid.write
    simp only [hb, and_self, if_true, pure, Except.pure]
    exact ⟨_, rfl⟩

theorem write_size {g g1 : Grid} {r : CellRef} {c : Cell} (h : g.write r c = Except.ok g1) :
    g1.width = g.width ∧ g1.height = g.height := by
  cases r with
  | reservoir =>
    simp only [Grid.write, pure, Except.pure] at h
    cases Except.ok.inj h
    exact ⟨rfl, rfl⟩
  | cell n =>
    obtain ⟨-, -, rfl⟩ := write_cell_ok h
    exact ⟨rfl, rfl⟩

theorem write_holds {g g1 : Grid} {r : CellRef} {c : Cell} (h : g.write r c = Except.ok g1)
    (r1 : CellRef) : g1.holds r1 = g.holds r1 := by
  obtain ⟨hw, hh⟩ := write_size h
  exact holds_same_size (by simp only [Grid.size, hw, hh]) r1

theorem read_write_same {g g1 : Grid} {r : CellRef} {c : Cell}
    (h : g.write r c = Except.ok g1) : g1.read r = Except.ok c := by
  cases r with
  | reservoir =>
    simp only [Grid.write, pure, Except.pure] at h
    cases Except.ok.inj h
    rfl
  | cell n =>
    obtain ⟨h0, h1, rfl⟩ := write_cell_ok h
    unfold Grid.read
    have hb : 0 ≤ n ∧ n < ((Grid.size { g with cells := Function.update g.cells n.toNat c } : Nat)
        : Int) := ⟨h0, h1⟩
    simp only [hb, and_self, if_true, pure, Except.pure, Function.update_same]

theorem read_write_other {g g1 : Grid} {r r1 : CellRef} {c : Cell}
    (h : g.write r c = Except.ok g1) (hne : r1 ≠ r) : g1.read r1 = g.read r1 := by
  cases r with
  | reservoir =>
    simp only [Grid.write, pure, Except.pure] at h
    cases Except.ok.inj h
    cases r1 with
    | reservoir => exact absurd rfl hne
    | cell m => rfl
  | cell n =>
    obtain ⟨h0, h1, rfl⟩ := write_cell_ok h
    cases r1 with
    | reservoir => rfl
    | cell m =>
      unfold Grid.read
      have hsz : (Grid.size { g with cells := Function.update g.cells n.toNat c }) = g.size := rfl
      simp only [hsz]
      by_cases hb : 0 ≤ m ∧ m < (g.size : Int)
      · have hmn : m.toNat ≠ n.toNat := by
          intro heq
          apply hne
          have : m = n := by omega
          rw [this]
        simp only [hb, and_self, if_true, Function.update_noteq hmn]
      · simp only [hb, if_false]

/-! ### `Cell::Transfer` and `Cell::SetDirection` through pointers -/

/-- What `src.Transfer(target, number)` does to a grid for two distinct cells. -/
theorem Transfer_eq {e : Engine} {src target : CellRef} {s t : Cell} (number : GrainType)
    (hs : e.grid.read src = Except.ok s) (ht : e.grid.read target = Except.ok t)
    (hne : target ≠ src) :
    ∃ e1, e.Transfer src target number = Except.ok (Cell.transferAmount s t number, e1)
      ∧ e1.toppling = e.toppling
      ∧ e1.grid.read src
          = Except.ok { s with height := s.height - Cell.transferAmount s t number }
      ∧ e1.grid.read target
          = Except.ok { t with height := t.height + Cell.transferAmount s t number }
      ∧ ∀ r, r ≠ src → r ≠ target → e1.grid.read r = e.grid.read r := by
  obtain ⟨g1, hg1⟩ := write_returns
    { s with height := s.height - Cell.transferAmount s t number } (holds_of_read hs)
  have ht1 : g1.read target = Except.ok t := by rw [read_write_other hg1 hne, ht]
  obtain ⟨g2, hg2⟩ := write_returns
    { t with height := t.height + Cell.transferAmount s t number } (holds_of_read ht1)
  refine ⟨{ e with grid := g2 }, ?_, rfl, ?_, read_write_same hg2, ?_⟩
  · unfold Engine.Transfer
    simp only [hs, ht, bind, Except.bind, hg1, ht1, hg2, pure, Except.pure]
  · show g2.read src = _
    rw [read_write_other hg2 (Ne.symm hne), read_write_same hg1]
  · intro r h1 h2
    show g2.read r = _
    rw [read_write_other hg2 h2, read_write_other hg1 h1]

/-- The call `src.Transfer(target, number)` returns for every two good pointers (the same cell
twice included). -/
theorem Transfer_returns (e : Engine) {src target : CellRef} (number : GrainType)
    (hs : e.grid.holds src = true) (ht : e.grid.holds target = true) :
    ∃ x e1, e.Transfer src target number = Except.ok (x, e1) := by
  obtain ⟨s, hs1⟩ := read_returns hs
  obtain ⟨t, ht1⟩ := read_returns ht
  obtain ⟨g1, hg1⟩ := write_returns
    { s with height := s.height - Cell.transferAmount s t number } hs
  obtain ⟨t1, ht2⟩ := @read_returns g1 target (by rw [write_holds hg1]; exact ht)
  obtain ⟨g2, hg2⟩ := write_returns
    { t1 with height := t1.height + Cell.transferAmount s t number } (holds_of_read ht2)
  refine ⟨Cell.transferAmount s t number, { e with grid := g2 }, ?_⟩
  unfold Engine.Transfer
  simp only [hs1, ht1, bind, Except.bind, hg1, ht2, hg2, pure, Except.pure]

/-- What `SetDirection` through a pointer does to a grid. -/
theorem SetDirection_eq {e : Engine} {r : CellRef} {c : Cell} (d : Int)
    (hr : e.grid.read r = Except.ok c) :
    ∃ e1, e.SetDirection r d = Except.ok e1
      ∧ e1.toppling = e.toppling
      ∧ e1.grid.read r = Except.ok { c with direction := d }
      ∧ ∀ r1, r1 ≠ r → e1.grid.read r1 = e.grid.read r1 := by
  obtain ⟨g1, hg1⟩ := write_returns { c with direction := d } (holds_of_read hr)
  refine ⟨{ e with grid := g1 }, ?_, rfl, read_write_same hg1,
    fun r1 h1 => read_write_other hg1 h1⟩
  unfold Engine.SetDirection
  simp only [hr, bind, Except.bind, hg1, pure, Except.pure]

/-! ### `Cell::Transfer` does not notify -/

/-- C27: `src.Transfer(target, number)` on two cells of a grid (array cells or the reservoir, hooked
or not) returns and leaves the toppling bound to the grid as it is: no callback runs,
the active set after the call is the active set before it. -/
theorem C27_transfer_keeps_active_set (e : Engine) (src target : CellRef) (number : GrainType)
    (hs : e.grid.holds src = true) (ht : e.grid.holds target = true) :
    ∃ x e1, e.Transfer src target number = Except.ok (x, e1)
      ∧ e1.toppling = e.toppling
      ∧ e1.toppling.active_cells = e.toppling.active_cells := by
  obtain ⟨x, e1, h⟩ := Transfer_returns e number hs ht
  have ht1 := (Transfer_frame h).2
  exact ⟨x, e1, h, ht1, by rw [ht1]⟩

/-- Witness of C27: in `hookedEngine` (heights 0, 0, 4, 0, threshold 4, active set {2}, every cell
hooked) cell 2 transfers one grain to cell 0: its height falls below the threshold
(heights 1, 0, 3, 0) and the active set is still {2}. -/
theorem C27_transfer_keeps_active_set_witness :
    hookedEngine.grid.heights = [0, 0, 4, 0]
    ∧ hookedEngine.toppling.active_cells = [2]
    ∧ hookedEngine.toppling.topple_threshold = 4
    ∧ hookedEngine.toppling.toppling_iterator = TopplingIterator.FOLLOW_ACTIVITY
    ∧ (∀ k, k < 4 → (hookedEngine.grid.cells k).altered_function = true)
    ∧ ∃ x e1, hookedEngine.Transfer (CellRef.cell 2) (CellRef.cell 0) 1 = Except.ok (x, e1)
        ∧ e1.toppling = hookedEngine.toppling
        ∧ e1.toppling.active_cells = hookedEngine.toppling.active_cells
        ∧ e1.grid.heights = [1, 0, 3, 0] := by
  obtain ⟨x, e1, h, h1, h2⟩ := C27_transfer_keeps_active_set hookedEngine (CellRef.cell 2)
    (CellRef.cell 0) 1 (by decide) (by decide)
  have hv : (Run.value (hookedEngine.Transfer (CellRef.cell 2) (CellRef.cell 0) 1)).map
      (fun p => p.2.grid.heights) = some [1, 0, 3, 0] := by decide!
  rw [h] at hv
  simp only [Run.value, Option.map_some', Option.some.injEq] at hv
  exact ⟨by decide!, rfl, rfl, rfl, by decide, x, e1, h, h1, h2, hv⟩

/-! ### `Toppling::CountCriticalCells` -/

theorem countCriticalLoop_eq (e : Engine) : ∀ (count c : Nat) (sum : Int),
    c + count ≤ e.grid.width * e.grid.height →
    countCriticalLoop e c count sum = Except.ok (sum + (count : Int))
  | 0, c, sum, _ => by simp [countCriticalLoop, pure, Except.pure]
  | count + 1, c, sum, h => by
    have hlt : ((c : Nat) : Int) < (e.grid.height : Int) * (e.grid.width : Int) := by
      have : c < e.grid.height * e.grid.width := by rw [mul_comm]; omega
      exact_mod_cast this
    have hget : e.grid.GetCellAt (c : Int) = Except.ok (CellRef.cell (c : Int)) := by
      unfold Grid.GetCellAt
      rw [if_neg (not_not.mpr hlt)]
      rfl
    have hread : e.grid.read (CellRef.cell (c : Int)) = Except.ok (e.grid.cells c) := by
      have := read_cell_of_lt e.grid (Int.natCast_nonneg c)
        (show ((c : Nat) : Int) < (e.grid.size : Int) by
          unfold Grid.size; exact_mod_cast (by omega : c < e.grid.width * e.grid.height))
      simpa using this
    have ih := countCriticalLoop_eq e count (c + 1) (sum + 1) (by omega)
    simp only [countCriticalLoop, hget, hread, bind, Except.bind, ih, ite_self]
    congr 1
    push_cast
    ring

/-- C23: `CountCriticalCells()` returns the number of cells of the grid, `width * height`, for
every grid state, threshold and dissipation amount: the comparison with
`threshold - dissipationAmount/4` has no effect on the sum.  On the empty 4 by 4 grid
with threshold 4 and dissipation amount 4 it returns 16, where no cell has height 3. -/
theorem C23_count_critical_cells_counts_every_cell (e : Engine) :
    e.CountCriticalCells = Except.ok ((e.grid.width * e.grid.height : Nat) : Int)
    ∧ linEngine.CountCriticalCells = Except.ok 16
    ∧ criticalCells linEngine = 0 := by
  have h : ∀ e1 : Engine,
      e1.CountCriticalCells = Except.ok ((e1.grid.width * e1.grid.height : Nat) : Int) := by
    intro e1
    unfold Engine.CountCriticalCells
    rw [countCriticalLoop_eq e1 _ 0 0 (by omega)]
    simp
  exact ⟨h e, h linEngine, by decide!⟩

/-! ### `Cell::Transfer` with a target above the capacity bound -/

/-- C26: when the remaining capacity `max_capacity - cell.GetHeight()` that `Cell::Transfer`
computes is negative and the requested amount is not, the call does not move nothing:
it returns a negative amount, the least of that remaining capacity and the source
height, and moves its absolute value from the target back to the source (the source
height grows, the target height shrinks). -/
theorem C26_negative_capacity_moves_grains_back (src cell : Cell) (number : GrainType)
    (hneg : src.max_capacity - cell.height < 0) (hn : 0 ≤ number) :
    (Cell.Transfer src cell number).1 = min (src.max_capacity - cell.height) src.height
    ∧ (Cell.Transfer src cell number).1 < 0
    ∧ src.height < (Cell.Transfer src cell number).2.1.height
    ∧ (Cell.Transfer src cell number).2.2.height < cell.height := by
  have hx : Cell.transferAmount src cell number
      = min (src.max_capacity - cell.height) src.height := by
    rw [transferAmount_eq_min, min_eq_left (le_trans (le_of_lt hneg) hn)]
  have hlt : Cell.transferAmount src cell number < 0 := by
    rw [hx]
    exact lt_of_le_of_lt (min_le_left _ _) hneg
  refine ⟨hx, hlt, ?_, ?_⟩
  · show src.height < src.height - Cell.transferAmount src cell number
    linarith
  · show cell.height + Cell.transferAmount src cell number < cell.height
    linarith

/-- Witness of C26: a source of height 5 and a target of height 12, both of capacity 10 (remaining
capacity -2), one grain requested: the call returns -2, the source ends at 7, the
target at 10. -/
theorem C26_negative_capacity_moves_grains_back_witness :
    ((Cell.Transfer
        { altered_function := false, height := 5, direction := 0, max_capacity := 10, id := 0 }
        { altered_function := false, height := 12, direction := 0, max_capacity := 10, id := 1 }
        1).1 = min ((10 : GrainType) - 12) 5
    ∧ (Cell.Transfer
        { altered_function := false, height := 5, direction := 0, max_capacity := 10, id := 0 }
        { altered_function := false, height := 12, direction := 0, max_capacity := 10, id := 1 }
        1).1 < 0
    ∧ (5 : GrainType) < (Cell.Transfer
        { altered_function := false, height := 5, direction := 0, max_capacity := 10, id := 0 }
        { altered_function := false, height := 12, direction := 0, max_capacity := 10, id := 1 }
        1).2.1.height
    ∧ (Cell.Transfer
        { altered_function := false, height := 5, direction := 0, max_capacity := 10, id := 0 }
        { altered_function := false, height := 12, direction := 0, max_capacity := 10, id := 1 }
        1).2.2.height < 12)
    ∧ (Cell.Transfer
        { altered_function := false, height := 5, direction := 0, max_capacity := 10, id := 0 }
        { altered_function := false, height := 12, direction := 0, max_capacity := 10, id := 1 }
        1).1 = -2
    ∧ (Cell.Transfer
        { altered_function := false, height := 5, direction := 0, max_capacity := 10, id := 0 }
        { altered_function := false, height := 12, direction := 0, max_capacity := 10, id := 1 }
        1).2.1.height = 7
    ∧ (Cell.Transfer
        { altered_function := false, height := 5, direction := 0, max_capacity := 10, id := 0 }
        { altered_function := false, height := 12, direction := 0, max_capacity := 10, id := 1 }
        1).2.2.height = 10 :=
  ⟨C26_negative_capacity_moves_grains_back
      { altered_function := false, height := 5, direction := 0, max_capacity := 10, id := 0 }
      { altered_function := false, height := 12, direction := 0, max_capacity := 10, id := 1 }
      1 (by decide!) (by decide!),
    by decide!, by decide!, by decide!⟩

/-! ### `Grid::GetCell` below zero -/

/-- C24: the two lookups assert upper bounds only.  For a negative column `i` and a row
`j < height` (negative or not) `GetCell(i, j)` passes both assertions and returns the
reference `cells[j*width + i]`; for a negative `n`, `GetCell(n)` passes its assertion and
returns the reference `cells[n]`, a slot before the array that cannot be read. -/
theorem C24_get_cell_accepts_negative (g : Grid) (i j n : Int) (hi : i < 0)
    (hj : j < (g.height : Int)) (hn : n < 0) :
    g.GetCell i j = Except.ok (CellRef.cell (j * (g.width : Int) + i))
    ∧ g.GetCellAt n = Except.ok (CellRef.cell n)
    ∧ g.read (CellRef.cell n) = Except.error Fault.outOfBounds := by
  refine ⟨GetCell_of_lt g (lt_of_lt_of_le hi (Int.natCast_nonneg _)) hj, ?_, ?_⟩
  · unfold Grid.GetCellAt
    have : n < (g.height : Int) * (g.width : Int) :=
      lt_of_lt_of_le hn (mul_nonneg (Int.natCast_nonneg _) (Int.natCast_nonneg _))
    rw [if_neg (not_not.mpr this)]
    rfl
  · unfold Grid.read
    have : ¬ (0 ≤ n ∧ n < (g.size : Int)) := fun h => absurd h.1 (not_le.mpr hn)
    simp only [this, if_false]
    rfl

/-- Witness of C24: on the empty 4 by 4 grid `GetCell(-1, 1)` returns the cell of offset 3, whose
identity is 3 (column 3 of row 0), and `GetCell(-1)` returns the slot before the
array. -/
theorem C24_get_cell_accepts_negative_witness :
    ((exampleGrid BoundaryType.BT_PERIODIC).GetCell (-1) 1
        = Except.ok (CellRef.cell (1 * (((exampleGrid BoundaryType.BT_PERIODIC).width : Nat) : Int)
            + (-1)))
      ∧ (exampleGrid BoundaryType.BT_PERIODIC).GetCellAt (-1) = Except.ok (CellRef.cell (-1))
      ∧ (exampleGrid BoundaryType.BT_PERIODIC).read (CellRef.cell (-1))
          = Except.error Fault.outOfBounds)
    ∧ (exampleGrid BoundaryType.BT_PERIODIC).GetCell (-1) 1 = Except.ok (CellRef.cell 3)
    ∧ ((exampleGrid BoundaryType.BT_PERIODIC).cells 3).id = 3 :=
  ⟨C24_get_cell_accepts_negative (exampleGrid BoundaryType.BT_PERIODIC) (-1) 1 (-1)
      (by decide) (by decide) (by decide),
    rfl, rfl⟩

/-! ### The Rossum2011-diss rule -/

/-- The heights after `SetDirection` through a pointer. -/
theorem SetDirection_heights {e e1 : Engine} {r : CellRef} {d : Int}
    (h : e.SetDirection r d = Except.ok e1) (r1 : CellRef) (c1 : Cell)
    (h1 : e.grid.read r1 = Except.ok c1) :
    ∃ c2, e1.grid.read r1 = Except.ok c2 ∧ c2.height = c1.height
      ∧ (r1 ≠ r → c2 = c1) ∧ (r1 = r → c2.direction = d) := by
  unfold Engine.SetDirection at h
  obtain ⟨c, hc, h⟩ := bind_ok h
  obtain ⟨e2, h2, -, hsame, hother⟩ := SetDirection_eq d hc
  have heq : e1 = e2 := by
    unfold Engine.SetDirection at h2
    simp only [hc, bind, Except.bind] at h h2
    rw [h] at h2
    exact Except.ok.inj h2
  subst heq
  by_cases hr : r1 = r
  · subst hr
    rw [hc] at h1
    cases Except.ok.inj h1
    exact ⟨_, hsame, rfl, fun hne => absurd rfl hne, fun _ => rfl⟩
  · exact ⟨c1, by rw [hother r1 hr, h1], rfl, fun _ => rfl, fun heq => absurd heq hr⟩

theorem SetDirection_returns (e : Engine) {r : CellRef} (d : Int) (h : e.grid.holds r = true) :
    ∃ e1, e.SetDirection r d = Except.ok e1 := by
  obtain ⟨c, hc⟩ := read_returns h
  obtain ⟨e1, h1, -⟩ := SetDirection_eq d hc
  exact ⟨e1, h1⟩

/-- C21 (counterexample): under the Rossum2011-diss rule with the toppling threshold set to 5, a cell
of height 3 > 0 whose stored direction 0 points to cell 2: per-cell `Topple` returns
false and moves no grain (the heights stay 3, 0, 0, 0). -/
theorem C21_threshold_counterexample :
    (dissEngine 5).grid.heights = [3, 0, 0, 0]
    ∧ ((dissEngine 5).grid.cells 0).direction = 0
    ∧ (Run.value ((dissEngine 5).Topple none (CellRef.cell 0)
          [CellRef.cell 2, CellRef.cell 1, CellRef.cell 2, CellRef.cell 1]
          (Statics.initial (constSeed 2147483648)))).map
        (fun r => (r.1, r.2.1.grid.heights)) = some (false, [3, 0, 0, 0]) := by
  decide!

/-- The Rossum2011-diss case of the per-cell `Topple` as the code runs it: for a cell whose height is
positive and at or above the toppling threshold and whose stored direction selects a
neighbour entry `target` other than the cell itself, the call returns false, leaves the
active set alone and is `cell.Transfer(target, 1)`: the cell loses and the target
gains the amount `Cell::Transfer` computes; every other cell and the reservoir keep
their heights.  The target then has the direction of the cell, unless the draw below
1/100 redirects that very entry. -/
theorem Topple_diss_transfers (e : Engine) (dg : Option Grid) (cell target : CellRef)
    (nb : List CellRef) (st : Statics) (c tc : Cell)
    (hm : e.toppling.toppling_method = TopplingMethod.Rossum2011_diss)
    (hc : e.grid.read cell = Except.ok c) (ht : e.grid.read target = Except.ok tc)
    (hne : target ≠ cell)
    (hthr : e.toppling.topple_threshold ≤ c.height) (hpos : 0 < c.height)
    (hdir : 0 ≤ c.direction) (hnb : nb[c.direction.toNat]? = some target)
    (hall : ∀ r, r ∈ nb → e.grid.holds r = true) :
    ∃ e1 st1 c1 t1, e.Topple dg cell nb st = Except.ok (false, e1, st1)
      ∧ e1.toppling = e.toppling
      ∧ e1.grid.read cell = Except.ok c1 ∧ e1.grid.read target = Except.ok t1
      ∧ c1.height = c.height - Cell.transferAmount c tc 1
      ∧ t1.height = tc.height + Cell.transferAmount c tc 1
      ∧ (1 ≤ c.height → tc.height + 1 ≤ c.max_capacity → Cell.transferAmount c tc 1 = 1)
      ∧ (¬ (((st.drawSplit nb.length).2.dissZeroone.getD st.toppleGenerator).zeroone < 1 / 100)
          ∨ nb[st.toppleGenerator.below nb.length]? ≠ some target →
          t1.direction = c.direction)
      ∧ (∀ r c2, r ≠ cell → r ≠ target → e.grid.read r = Except.ok c2 →
          ∃ c3, e1.grid.read r = Except.ok c3 ∧ c3.height = c2.height) := by
  obtain ⟨e1, hT, htop1, hrs, hrt, hro⟩ := Transfer_eq 1 hc ht hne
  obtain ⟨e2, hS, htop2, hrd, hrdo⟩ := SetDirection_eq c.direction hrt
  have hamount : 1 ≤ c.height → tc.height + 1 ≤ c.max_capacity →
      Cell.transferAmount c tc 1 = 1 := by
    intro h1 h2
    rw [transferAmount_eq_min,
      min_eq_right (show (1 : GrainType) ≤ c.max_capacity - tc.height by linarith),
      min_eq_left h1]
  have hcell2 : e2.grid.read cell
      = Except.ok { c with height := c.height - Cell.transferAmount c tc 1 } := by
    rw [hrdo cell (Ne.symm hne), hrs]
  have hother2 : ∀ r, r ≠ cell → r ≠ target → e2.grid.read r = e.grid.read r := by
    intro r h1 h2
    rw [hrdo r h2, hro r h1 h2]
  have hsize : 0 < nb.length := by
    rcases Nat.eq_zero_or_pos nb.length with h0 | h0
    · rw [List.length_eq_zero.mp h0] at hnb
      simp at hnb
    · exact h0
  unfold Engine.Topple
  simp only [hc, bind, Except.bind, ge_iff_le, hthr, if_true, hm, gt_iff_lt, hpos, hdir,
    not_true_eq_false, if_false, hnb, hT, hS]
  by_cases hz : ((st.drawSplit nb.length).2.dissZeroone.getD st.toppleGenerator).zeroone < 1 / 100
  · simp only [hz, if_true]
    have hlt : st.toppleGenerator.below nb.length < nb.length := Nat.mod_lt _ hsize
    obtain ⟨r, hr, hrm⟩ : ∃ r, nb[st.toppleGenerator.below nb.length]? = some r ∧ r ∈ nb :=
      ⟨_, List.getElem?_eq_getElem hlt, List.getElem_mem hlt⟩
    have hh2 : e2.grid.holds r = true := by
      have f1 := (Transfer_frame hT).1
      have f2 := (SetDirection_frame hS).1
      rw [holds_same_size (show e2.grid.size = e.grid.size by
        simp only [Grid.size, f2.width, f2.height, f1.width, f1.height]) r]
      exact hall r hrm
    obtain ⟨e3, h3⟩ := SetDirection_returns e2
      ((st.toppleGenerator.tail.below nb.length : Nat) : Int) hh2
    have htop3 := (SetDirection_frame h3).2
    obtain ⟨c1, hc1, hc1h, -, -⟩ := SetDirection_heights h3 cell _ hcell2
    obtain ⟨t1, ht1, ht1h, ht1o, -⟩ := SetDirection_heights h3 target _ hrd
    simp only [hr, h3, pure, Except.pure]
    refine ⟨_, _, c1, t1, rfl, by rw [htop3, htop2, htop1], hc1, ht1, hc1h, ht1h, hamount, ?_, ?_⟩
    · intro hcase
      have hne2 : target ≠ r := by
        intro heq
        rcases hcase with hcase | hcase
        · exact hcase trivial
        · exact hcase (by rw [heq])
      rw [ht1o hne2]
    · intro r1 c2 h1 h2 hr1
      obtain ⟨c3, hc3, hc3h, -, -⟩ := SetDirection_heights h3 r1 c2
        (by rw [hother2 r1 h1 h2, hr1])
      exact ⟨c3, hc3, hc3h⟩
  · simp only [hz, if_false, pure, Except.pure]
    refine ⟨_, _, _, _, rfl, by rw [htop2, htop1], hcell2, hrd, rfl, rfl, hamount,
      fun _ => rfl, ?_⟩
    intro r1 c2 h1 h2 hr1
    exact ⟨c2, by rw [hother2 r1 h1 h2, hr1], rfl⟩

/-- C21 (amended): under the Rossum2011-diss rule, for a cell whose height is positive and at or
above the toppling threshold (0 as the rule sets it), whose stored direction selects
a neighbour entry `target` other than the cell itself, the target having the capacity
of the cell (every cell is constructed with capacity 10) and a height of at most its
capacity: per-cell `Topple` returns false, leaves the active set alone and moves from
the cell to the target the least of 1, the height of the cell and the room left in
the target (its capacity minus its height), a non-negative amount, which is exactly
1 when the cell holds at least 1 grain and the target has room for one more; every
other cell and the reservoir keep their heights.  The target then has the direction
of the cell, unless the draw below 1/100 redirects that very entry. -/
theorem C21_diss_topple_transfers (e : Engine) (dg : Option Grid) (cell target : CellRef)
    (nb : List CellRef) (st : Statics) (c tc : Cell)
    (hm : e.toppling.toppling_method = TopplingMethod.Rossum2011_diss)
    (hc : e.grid.read cell = Except.ok c) (ht : e.grid.read target = Except.ok tc)
    (hne : target ≠ cell)
    (hthr : e.toppling.topple_threshold ≤ c.height) (hpos : 0 < c.height)
    (hdir : 0 ≤ c.direction) (hnb : nb[c.direction.toNat]? = some target)
    (hall : ∀ r, r ∈ nb → e.grid.holds r = true)
    (hcap : c.max_capacity = tc.max_capacity) (hroom : tc.height ≤ tc.max_capacity) :
    ∃ e1 st1 c1 t1 x, e.Topple dg cell nb st = Except.ok (false, e1, st1)
      ∧ e1.toppling = e.toppling
      ∧ e1.grid.read cell = Except.ok c1 ∧ e1.grid.read target = Except.ok t1
      ∧ x = min (min 1 c.height) (tc.max_capacity - tc.height)
      ∧ 0 ≤ x
      ∧ c1.height = c.height - x
      ∧ t1.height = tc.height + x
      ∧ (1 ≤ c.height → tc.height + 1 ≤ tc.max_capacity → x = 1)
      ∧ (¬ (((st.drawSplit nb.length).2.dissZeroone.getD st.toppleGenerator).zeroone < 1 / 100)
          ∨ nb[st.toppleGenerator.below nb.length]? ≠ some target →
          t1.direction = c.direction)
      ∧ (∀ r c2, r ≠ cell → r ≠ target → e.grid.read r = Except.ok c2 →
          ∃ c3, e1.grid.read r = Except.ok c3 ∧ c3.height = c2.height) := by
  obtain ⟨e1, st1, c1, t1, h, htop, hc1, ht1, hc1h, ht1h, -, hdirection, hother⟩ :=
    Topple_diss_transfers e dg cell target nb st c tc hm hc ht hne hthr hpos hdir hnb hall
  have hx : Cell.transferAmount c tc 1 = min (min 1 c.height) (tc.max_capacity - tc.height) := by
    rw [transferAmount_eq_min, hcap, min_comm (tc.max_capacity - tc.height) 1, min_right_comm]
  refine ⟨e1, st1, c1, t1, _, h, htop, hc1, ht1, rfl, ?_, ?_, ?_, ?_, hdirection, hother⟩
  · exact le_min (le_min zero_le_one hpos.le) (sub_nonneg.mpr hroom)
  · rw [hc1h, hx]
  · rw [ht1h, hx]
  · intro h1 h2
    rw [min_eq_left h1, min_eq_left (by linarith)]

/-- Witness of C21 (amended): `dissEngine 0` (threshold 0 as the rule sets it), cell 0 of height 3 and
direction 0, neighbour entry 0 being cell 2 (empty, capacity 10 like cell 0), a draw of
1/2 that does not redirect: one grain moves from cell 0 to cell 2 (heights 2, 0, 1, 0). -/
theorem C21_diss_topple_transfers_witness :
    ∃ e1 st1 c1 t1,
      (dissEngine 0).Topple none (CellRef.cell 0)
          [CellRef.cell 2, CellRef.cell 1, CellRef.cell 2, CellRef.cell 1]
          (Statics.initial (constSeed 2147483648)) = Except.ok (false, e1, st1)
      ∧ e1.toppling = (dissEngine 0).toppling
      ∧ e1.grid.read (CellRef.cell 0) = Except.ok c1
      ∧ e1.grid.read (CellRef.cell 2) = Except.ok t1
      ∧ c1.height = 3 - 1
      ∧ t1.height = 0 + 1
      ∧ t1.direction = ((dissEngine 0).grid.cells 0).direction
      ∧ e1.grid.heights = [2, 0, 1, 0] := by
  obtain ⟨e1, st1, c1, t1, x, h, htop, hc1, ht1, -, -, hc1h, ht1h, hamount, hdirection, -⟩ :=
    C21_diss_topple_transfers (dissEngine 0) none (CellRef.cell 0) (CellRef.cell 2)
      [CellRef.cell 2, CellRef.cell 1, CellRef.cell 2, CellRef.cell 1]
      (Statics.initial (constSeed 2147483648)) ((dissEngine 0).grid.cells 0)
      ((dissEngine 0).grid.cells 2) rfl
      (read_cell_of_lt (dissEngine 0).grid (by decide) (by decide))
      (read_cell_of_lt (dissEngine 0).grid (by decide) (by decide))
      (by decide) (by decide!) (by decide!) (by decide) rfl (by decide) (by decide!)
      (by decide!)
  have hx : x = 1 := hamount (by decide!) (by decide!)
  have hv : (Run.value ((dissEngine 0).Topple none (CellRef.cell 0)
      [CellRef.cell 2, CellRef.cell 1, CellRef.cell 2, CellRef.cell 1]
      (Statics.initial (constSeed 2147483648)))).map (fun r => r.2.1.grid.heights)
      = some [2, 0, 1, 0] := by decide!
  rw [h] at hv
  simp only [Run.value, Option.map_some', Option.some.injEq] at hv
  refine ⟨e1, st1, c1, t1, h, htop, hc1, ht1, ?_, ?_, hdirection (Or.inl (by decide!)), hv⟩
  · rw [hc1h, hx]; rfl
  · rw [ht1h, hx]; rfl

/-! ### Operations on a sandpile without a dissipation grid -/

theorem getValuesLoop_step_fault (s : SandPile) (gvt : GridValueType) (fuel count i : Nat)
    (values : Nat → Option GrainType) (st : Statics) (err : Fault)
    (h : s.getValuesStep gvt i values st fuel = Except.error err) :
    getValuesLoop s gvt fuel i (count + 1) values st = Except.error err := by
  simp only [getValuesLoop, h, bind, Except.bind]

/-- C29 (counterexample): the 2 by 2 sandpile the constructor builds for the BTW rule has no dissipation
grid, and `Populate(3, 4)` on it returns normally, with the sandpile and the generators
as they were. -/
theorem C29_populate_returns_counterexample :
    ∃ s st, SandPile.new 2 TopplingMethod.Bak_Tang_Wiesenfeld1987 BoundaryType.BT_DISSIPATING
        (Statics.initial (constSeed 0)) = Except.ok (s, st)
      ∧ s.diss_grid = none
      ∧ s.Populate 3 4 st = Except.ok (s, st) := by
  obtain ⟨⟨s, st⟩, hp⟩ := new_returns 2 TopplingMethod.Bak_Tang_Wiesenfeld1987
    BoundaryType.BT_DISSIPATING (Statics.initial (constSeed 0)) (by decide)
  obtain ⟨g, t, hf⟩ := new_fresh hp (by decide)
  have hd : s.diss_grid = none := (hf.diss (by decide)).2
  refine ⟨s, st, hp, hd, ?_⟩
  unfold SandPile.Populate
  rw [hd]
  rfl

/-- C29 (amended): on a sandpile without a dissipation grid, `GetValue` with the dissipation or the
direction kind fails its assertion, and so does `GetValues` with one of these kinds
when the sandpile has at least one cell (the test sits inside the loop over the
cells); `Populate` does not fail: it returns and leaves the sandpile and the generators
as they are. -/
theorem C29_without_dissipation_grid (s : SandPile) (hd : s.diss_grid = none) :
    (∀ (value : Int), s.GetValue value GridValueType.GVT_DISSIPATION
        = Except.error Fault.assertion
      ∧ s.GetValue value GridValueType.GVT_DIRECTION = Except.error Fault.assertion)
    ∧ (0 < s.L → ∀ (values : Nat → Option GrainType) (st : Statics) (fuel : Nat),
        s.GetValues values GridValueType.GVT_DISSIPATION st fuel = Except.error Fault.assertion
        ∧ s.GetValues values GridValueType.GVT_DIRECTION st fuel
            = Except.error Fault.assertion)
    ∧ (s.L = 0 → ∀ (values : Nat → Option GrainType) (st : Statics) (fuel : Nat),
        s.GetValues values GridValueType.GVT_DISSIPATION st fuel = Except.ok (values, st)
        ∧ s.GetValues values GridValueType.GVT_DIRECTION st fuel = Except.ok (values, st))
    ∧ (∀ (no_cells : Int) (no_particles : GrainType) (st : Statics),
        s.Populate no_cells no_particles st = Except.ok (s, st)) := by
  refine ⟨fun value => ⟨?_, ?_⟩, fun hL values st fuel => ?_, fun hL values st fuel => ?_,
    fun no_cells no_particles st => ?_⟩
  · simp only [SandPile.GetValue, hd]
    rfl
  · simp only [SandPile.GetValue, hd]
    rfl
  · obtain ⟨k, hk⟩ : ∃ k, s.L * s.L = k + 1 :=
      Nat.exists_eq_succ_of_ne_zero (Nat.mul_ne_zero (by omega) (by omega))
    constructor
    · unfold SandPile.GetValues
      rw [hk]
      apply getValuesLoop_step_fault
      simp only [SandPile.getValuesStep, hd]
      rfl
    · unfold SandPile.GetValues
      rw [hk]
      apply getValuesLoop_step_fault
      simp only [SandPile.getValuesStep, hd]
      rfl
  · constructor
    · unfold SandPile.GetValues
      rw [hL]
      rfl
    · unfold SandPile.GetValues
      rw [hL]
      rfl
  · unfold SandPile.Populate
    rw [hd]
    rfl

/-- Witness of C29 (amended): the 2 by 2 sandpile the constructor builds for the BTW rule. -/
theorem C29_without_dissipation_grid_witness :
    ∃ s st, SandPile.new 2 TopplingMethod.Bak_Tang_Wiesenfeld1987 BoundaryType.BT_DISSIPATING
        (Statics.initial (constSeed 0)) = Except.ok (s, st)
      ∧ s.diss_grid = none ∧ s.L = 2
      ∧ s.GetValue 0 GridValueType.GVT_DISSIPATION = Except.error Fault.assertion
      ∧ s.GetValue 0 GridValueType.GVT_DIRECTION = Except.error Fault.assertion
      ∧ s.GetValues (fun _ => some 0) GridValueType.GVT_DISSIPATION st 10
          = Except.error Fault.assertion
      ∧ s.GetValues (fun _ => some 0) GridValueType.GVT_DIRECTION st 10
          = Except.error Fault.assertion
      ∧ s.Populate 3 4 st = Except.ok (s, st) := by
  obtain ⟨⟨s, st⟩, hp⟩ := new_returns 2 TopplingMethod.Bak_Tang_Wiesenfeld1987
    BoundaryType.BT_DISSIPATING (Statics.initial (constSeed 0)) (by decide)
  obtain ⟨g, t, hf⟩ := new_fresh hp (by decide)
  have hd : s.diss_grid = none := (hf.diss (by decide)).2
  obtain ⟨h1, h2, -, h4⟩ := C29_without_dissipation_grid s hd
  have hL : 0 < s.L := by rw [hf.size]; decide
  exact ⟨s, st, hp, hd, hf.size, (h1 0).1, (h1 0).2, (h2 hL _ _ _).1, (h2 hL _ _ _).2,
    h4 3 4 st⟩

/-! ### What `Populate` leaves in the dissipation grid -/

theorem Gen.drop_tail (z : Gen) (k : Nat) : z.tail.drop k = z.drop (k + 1) := by
  funext j
  show z (j + k + 1) = z (j + (k + 1))
  rfl

theorem GetCellAt_ok {g : Grid} {n : Int} {r : CellRef} (h : g.GetCellAt n = Except.ok r) :
    r = CellRef.cell n := by
  unfold Grid.GetCellAt at h
  split_ifs at h
  simp only [pure, Except.pure] at h
  exact (Except.ok.inj h).symm

/-- The loop of `Populate`: the cell of each offset it visits is increased by `no_particles` when
its draw is below `place` and cleared otherwise; nothing else changes. -/
theorem populateLoop_cells (place no_particles : GrainType) :
    ∀ (count i : Nat) (e : Engine) (z : Gen) (sum : Int) (p : Engine × Gen × Int),
      populateLoop place no_particles i count e z sum = Except.ok p →
      (∀ k, i ≤ k → k < i + count → p.1.grid.cells k
          = { e.grid.cells k with
              height := if (z.drop (k - i)).zeroone < place
                then (e.grid.cells k).height + no_particles else 0 })
      ∧ (∀ k, k < i ∨ i + count ≤ k → p.1.grid.cells k = e.grid.cells k)
      ∧ p.1.grid.reservoir = e.grid.reservoir
      ∧ p.2.1 = z.drop count
  | 0, i, e, z, sum, p, h => by
    simp only [populateLoop, pure, Except.pure] at h
    cases Except.ok.inj h
    exact ⟨fun k h1 h2 => absurd h2 (by omega), fun _ _ => rfl, rfl, rfl⟩
  | count + 1, i, e, z, sum, p, h => by
    have step : ∀ (f : GrainType → GrainType) (e2 : Engine) (sum2 : Int) (r : CellRef),
        e.grid.GetCellAt (i : Int) = Except.ok r → e.alter r f = Except.ok e2 →
        populateLoop place no_particles (i + 1) count e2 z.tail sum2 = Except.ok p →
        (∀ k, i ≤ k → k < i + (count + 1) → p.1.grid.cells k
            = if k = i then { e.grid.cells k with height := f (e.grid.cells k).height }
              else { e.grid.cells k with
                height := if (z.drop (k - i)).zeroone < place
                  then (e.grid.cells k).height + no_particles else 0 })
        ∧ (∀ k, k < i ∨ i + (count + 1) ≤ k → p.1.grid.cells k = e.grid.cells k)
        ∧ p.1.grid.reservoir = e.grid.reservoir
        ∧ p.2.1 = z.drop (count + 1) := by
      intro f e2 sum2 r hr h2 h3
      cases GetCellAt_ok hr
      obtain ⟨-, -, hg, -⟩ := alter_cell_ok h2
      have hn : ((i : Nat) : Int).toNat = i := Int.toNat_natCast i
      rw [hn] at hg
      obtain ⟨a1, a2, a3, a4⟩ := populateLoop_cells place no_particles count (i + 1) e2 _ _ p h3
      have hcells : ∀ k, k ≠ i → e2.grid.cells k = e.grid.cells k := by
        intro k hk
        rw [hg]
        exact Function.update_noteq hk _ _
      refine ⟨?_, ?_, ?_, ?_⟩
      · intro k h1 h2
        by_cases hk : k = i
        · subst hk
          rw [if_pos rfl, a2 k (Or.inl (by omega)), hg]
          exact Function.update_same _ _ _
        · rw [if_neg hk, a1 k (by omega) (by omega), hcells k hk, Gen.drop_tail]
          have : k - (i + 1) + 1 = k - i := by omega
          rw [this]
      · intro k hk
        rw [a2 k (by omega), hcells k (by omega)]
      · rw [a3, hg]
      · rw [a4, Gen.drop_tail]
    simp only [populateLoop] at h
    split at h
    · rename_i hz
      obtain ⟨r, hr, h⟩ := bind_ok h
      obtain ⟨e2, h2, h⟩ := bind_ok h
      obtain ⟨b1, b2, b3, b4⟩ := step _ e2 _ r hr h2 h
      refine ⟨fun k h1 h2 => ?_, b2, b3, b4⟩
      rw [b1 k h1 h2]
      by_cases hk : k = i
      · subst hk
        have hz0 : (z.drop (k - k)).zeroone < place := by
          rw [Nat.sub_self]; exact hz
        rw [if_pos rfl, if_pos hz0]
      · rw [if_neg hk]
    · rename_i hz
      obtain ⟨r, hr, h⟩ := bind_ok h
      obtain ⟨e2, h2, h⟩ := bind_ok h
      obtain ⟨b1, b2, b3, b4⟩ := step _ e2 _ r hr h2 h
      refine ⟨fun k h1 h2 => ?_, b2, b3, b4⟩
      rw [b1 k h1 h2]
      by_cases hk : k = i
      · subst hk
        have hz0 : ¬ (z.drop (k - k)).zeroone < place := by
          rw [Nat.sub_self]; exact hz
        rw [if_pos rfl, if_neg hz0]
      · rw [if_neg hk]

/-- C28 (counterexample): on the 2 by 2 sandpile with the Rossum2011 rule, every draw being 0,
`Populate(3, 4)` returns and leaves every cell of the dissipation grid at height 4; a
second `Populate(3, 4)` returns and leaves every cell at height 8, which is neither 4
nor 0. -/
theorem C28_second_populate_counterexample :
    Run.value populateTwice = some ([4, 4, 4, 4], [8, 8, 8, 8]) := by
  decide!

/-- C28 (amended): when `Populate(no_cells, no_particles)` returns on a sandpile with a dissipation
grid, every cell of that grid with an offset below `L*L` is the cell it was with the
height increased by `no_particles` if its draw was below `no_cells / (L*L)` and with
height 0 otherwise; the other cells and the reservoir are as they were.  So when all
these cells were empty before the call, each height afterwards is `no_particles`
or 0. -/
theorem C28_populate_adds_or_clears (s : SandPile) (no_cells : Int) (no_particles : GrainType)
    (st : Statics) (s1 : SandPile) (st1 : Statics) (d : Grid)
    (hd : s.diss_grid = some d)
    (h : s.Populate no_cells no_particles st = Except.ok (s1, st1)) :
    ∃ d1, s1.diss_grid = some d1
      ∧ (∀ k, k < s.L * s.L → d1.cells k
          = { d.cells k with
              height := if (st.populateStream.drop k).zeroone
                  < (no_cells : GrainType) / ((s.L * s.L : Nat) : GrainType)
                then (d.cells k).height + no_particles else 0 })
      ∧ (∀ k, s.L * s.L ≤ k → d1.cells k = d.cells k)
      ∧ d1.reservoir = d.reservoir
      ∧ ((∀ k, k < s.L * s.L → (d.cells k).height = 0) →
          ∀ k, k < s.L * s.L →
            (d1.cells k).height = no_particles ∨ (d1.cells k).height = 0)
      ∧ s1.grid = s.grid := by
  unfold SandPile.Populate at h
  rw [hd] at h
  simp only [] at h
  split at h
  · cases h
  · obtain ⟨p, hp, h⟩ := bind_ok h
    split at h
    · cases h
    · simp only [pure, Except.pure] at h
      have := Except.ok.inj h
      simp only [Prod.mk.injEq] at this
      obtain ⟨rfl, -⟩ := this
      obtain ⟨a1, a2, a3, -⟩ := populateLoop_cells _ _ _ _ _ _ _ _ hp
      have b1 : ∀ k, k < s.L * s.L → p.1.grid.cells k
          = { d.cells k with
              height := if (st.populateStream.drop k).zeroone
                  < (no_cells : GrainType) / ((s.L * s.L : Nat) : GrainType)
                then (d.cells k).height + no_particles else 0 } := by
        intro k hk
        have := a1 k (Nat.zero_le k) (by omega)
        rw [Nat.sub_zero] at this
        exact this
      refine ⟨p.1.grid, rfl, b1, fun k hk => a2 k (Or.inr (by omega)), a3, ?_, rfl⟩
      intro hempty k hk
      rw [b1 k hk]
      simp only [hempty k hk, zero_add]
      split_ifs
      · exact Or.inl rfl
      · exact Or.inr rfl

/-- Witness of C28 (amended): the first `Populate(3, 4)` of `populateTwice`, on the empty dissipation
grid the constructor builds: every height is 4 afterwards. -/
theorem C28_populate_adds_or_clears_witness :
    ∃ s st s1 st1 d d1,
      SandPile.new 2 TopplingMethod.Rossum2011 BoundaryType.BT_UNDEFINED
        (Statics.initial (constSeed 0)) = Except.ok (s, st)
      ∧ s.diss_grid = some d
      ∧ s.Populate 3 4 st = Except.ok (s1, st1)
      ∧ s1.diss_grid = some d1
      ∧ (∀ k, k < s.L * s.L → d1.cells k
          = { d.cells k with
              height := if (st.populateStream.drop k).zeroone
                  < ((3 : Int) : GrainType) / ((s.L * s.L : Nat) : GrainType)
                then (d.cells k).height + 4 else 0 })
      ∧ d1.reservoir = d.reservoir
      ∧ s1.dissHeights = [4, 4, 4, 4] := by
  have hv : populateTwice = Except.ok ([4, 4, 4, 4], [8, 8, 8, 8]) :=
    Run.value_eq_some (by decide!)
  unfold populateTwice at hv
  obtain ⟨⟨s, st⟩, hnew, hv⟩ := bind_ok hv
  obtain ⟨⟨s1, st1⟩, hpop, hv⟩ := bind_ok hv
  obtain ⟨⟨s2, st2⟩, -, hv⟩ := bind_ok hv
  simp only [pure, Except.pure] at hv
  have hh := Except.ok.inj hv
  simp only [Prod.mk.injEq] at hh
  cases hdg : s.diss_grid with
  | none =>
    exfalso
    have : s1 = s := by
      unfold SandPile.Populate at hpop
      rw [hdg] at hpop
      simp only [pure, Except.pure] at hpop
      have := Except.ok.inj hpop
      simp only [Prod.mk.injEq] at this
      exact this.1.symm
    rw [this] at hh
    simp [SandPile.dissHeights, hdg] at hh
  | some d =>
    obtain ⟨d1, h1, h2, -, h4, -⟩ := C28_populate_adds_or_clears s 3 4 st s1 st1 d hdg hpop
    exact ⟨s, st, s1, st1, d, d1, hnew, hdg, hpop, h1, h2, h4, hh.1⟩

/-! ### `Drive` adds one grain to one cell -/

theorem Frame.grid_ids {e e1 : Engine} (f : Engine.Frame e e1) : e.grid.SameIds e1.grid :=
  ⟨f.width, f.height, f.id, f.reservoir_id⟩

theorem SameIds.ids_in_order {g g1 : Grid} (h : g.SameIds g1) (hg : g.IdsInOrder) :
    g1.IdsInOrder := by
  obtain ⟨h1, h2, h3, h4⟩ := h
  unfold Grid.IdsInOrder
  rw [h1, h2, h4]
  exact ⟨fun k hk => (h3 k).trans (hg.1 k hk), hg.2⟩

theorem SameIds.ids_refl (s : SandPile) : s.SameIds s :=
  ⟨fun g hg => ⟨g, hg, rfl, rfl, fun _ => rfl, rfl⟩, fun d hd => ⟨d, hd, rfl, rfl, fun _ => rfl, rfl⟩⟩

theorem SameIds.ids_trans {s s1 s2 : SandPile} (h1 : s.SameIds s1) (h2 : s1.SameIds s2) :
    s.SameIds s2 := by
  constructor
  · intro g2 hg2
    obtain ⟨g1, hg1, b1, b2, b3, b4⟩ := h2.1 g2 hg2
    obtain ⟨g, hg, a1, a2, a3, a4⟩ := h1.1 g1 hg1
    exact ⟨g, hg, b1.trans a1, b2.trans a2, fun n => (b3 n).trans (a3 n), b4.trans a4⟩
  · intro g2 hg2
    obtain ⟨g1, hg1, b1, b2, b3, b4⟩ := h2.2 g2 hg2
    obtain ⟨g, hg, a1, a2, a3, a4⟩ := h1.2 g1 hg1
    exact ⟨g, hg, b1.trans a1, b2.trans a2, fun n => (b3 n).trans (a3 n), b4.trans a4⟩

theorem SameIds.pile_in_order {s s1 : SandPile} (h : s.SameIds s1) (hs : s.IdsInOrder) :
    s1.IdsInOrder := by
  constructor
  · intro g1 hg1
    obtain ⟨g, hg, hsame⟩ := h.1 g1 hg1
    exact SameIds.ids_in_order hsame (hs.1 g hg)
  · intro d1 hd1
    obtain ⟨d, hd, hsame⟩ := h.2 d1 hd1
    exact SameIds.ids_in_order hsame (hs.2 d hd)

theorem Drive_ids {s : SandPile} {st : Statics} {fuel : Nat} {s1 : SandPile}
    {st1 : Statics} (h : s.Drive st fuel = Except.ok (s1, st1)) : s.SameIds s1 := by
  unfold SandPile.Drive at h
  simp only [] at h
  split at h
  · cases h
  · split at h
    · cases h
    · rename_i _ g hg _ t ht
      obtain ⟨p, hp, h⟩ := bind_ok h
      simp only [pure, Except.pure] at h
      have := Except.ok.inj h
      simp only [Prod.mk.injEq] at this
      obtain ⟨rfl, -⟩ := this
      obtain ⟨n, hn⟩ := driveLoop_increase _ _ _ _ _ _ hp
      have f := Frame.grid_ids (alter_frame hn)
      refine ⟨fun g1 hg1 => ⟨g, hg, ?_⟩, fun d hd => ⟨d, hd, rfl, rfl, fun _ => rfl, rfl⟩⟩
      cases hg1
      exact f

theorem Clear_ids {s s1 : SandPile} (h : s.Clear = Except.ok s1) : s.SameIds s1 := by
  unfold SandPile.Clear at h
  split at h
  · split at h
    · cases Except.ok.inj h
      exact SameIds.ids_refl _
    · cases h
  · split at h
    · cases h
    · rename_i _ g hg _ t ht
      obtain ⟨e, he, h⟩ := bind_ok h
      simp only [pure, Except.pure] at h
      cases Except.ok.inj h
      have f := Frame.grid_ids (clearLoop_frame _ _ _ _ he)
      refine ⟨fun g1 hg1 => ⟨g, hg, ?_⟩, fun d hd => ⟨d, hd, rfl, rfl, fun _ => rfl, rfl⟩⟩
      cases hg1
      exact f

theorem relaxDiss_ids {s : SandPile} {av : Int} {st : Statics} {fuel : Nat} {a : Int}
    {s1 : SandPile} {st1 : Statics}
    (h : s.relaxDiss av st fuel = Except.ok (a, s1, st1)) : s.SameIds s1 := by
  unfold SandPile.relaxDiss at h
  split at h
  · simp only [pure, Except.pure] at h
    have := Except.ok.inj h
    simp only [Prod.mk.injEq] at this
    obtain ⟨-, rfl, -⟩ := this
    exact SameIds.ids_refl _
  · split at h
    · cases h
    · rename_i _ dt hdt _ dg hdg
      obtain ⟨p, hp, h⟩ := bind_ok h
      simp only [pure, Except.pure] at h
      have := Except.ok.inj h
      simp only [Prod.mk.injEq] at this
      obtain ⟨-, rfl, -⟩ := this
      have f := Frame.grid_ids (toppleLoop_general _ _ _ _ _ _ _ _ _ _ hp).1
      refine ⟨fun g hg => ⟨g, hg, rfl, rfl, fun _ => rfl, rfl⟩, fun d1 hd1 => ⟨dg, hdg, ?_⟩⟩
      cases hd1
      exact f

theorem relaxPrimary_ids {s : SandPile} {av : Int} {st : Statics} {fuel : Nat} {a : Int}
    {s1 : SandPile} {st1 : Statics}
    (h : s.relaxPrimary av st fuel = Except.ok (a, s1, st1)) : s.SameIds s1 := by
  unfold SandPile.relaxPrimary at h
  split at h
  · simp only [pure, Except.pure] at h
    have := Except.ok.inj h
    simp only [Prod.mk.injEq] at this
    obtain ⟨-, rfl, -⟩ := this
    exact SameIds.ids_refl _
  · split at h
    · cases h
    · rename_i _ t ht _ g hg
      obtain ⟨p, hp, h⟩ := bind_ok h
      simp only [pure, Except.pure] at h
      have := Except.ok.inj h
      simp only [Prod.mk.injEq] at this
      obtain ⟨-, rfl, -⟩ := this
      have f := Frame.grid_ids (toppleLoop_general _ _ _ _ _ _ _ _ _ _ hp).1
      refine ⟨fun g1 hg1 => ⟨g, hg, ?_⟩, fun d hd => ⟨d, hd, rfl, rfl, fun _ => rfl, rfl⟩⟩
      cases hg1
      exact f

theorem Relax_ids {s : SandPile} {measure : Bool} {st : Statics} {fuel : Nat} {a : Int}
    {s1 : SandPile} {st1 : Statics}
    (h : s.Relax measure st fuel = Except.ok (a, s1, st1)) : s.SameIds s1 := by
  obtain ⟨a0, sd, st0, a1, sp, hd, hp, -, hg, -, -, hdg⟩ := Relax_ok h
  have l := SameIds.ids_trans (relaxDiss_ids hd) (relaxPrimary_ids hp)
  constructor
  · intro g1 hg1
    rw [hg] at hg1
    exact l.1 g1 hg1
  · intro d1 hd1
    rw [hdg] at hd1
    exact l.2 d1 hd1

theorem Populate_ids {s : SandPile} {no_cells : Int} {no_particles : GrainType}
    {st : Statics} {s1 : SandPile} {st1 : Statics}
    (h : s.Populate no_cells no_particles st = Except.ok (s1, st1)) : s.SameIds s1 := by
  unfold SandPile.Populate at h
  split at h
  · simp only [pure, Except.pure] at h
    have := Except.ok.inj h
    simp only [Prod.mk.injEq] at this
    obtain ⟨rfl, -⟩ := this
    exact SameIds.ids_refl _
  · rename_i _ dg hdg
    simp only [] at h
    split at h
    · cases h
    · obtain ⟨p, hp, h⟩ := bind_ok h
      split at h
      · cases h
      · simp only [pure, Except.pure] at h
        have := Except.ok.inj h
        simp only [Prod.mk.injEq] at this
        obtain ⟨rfl, -⟩ := this
        have f := Frame.grid_ids (populateLoop_frame _ _ _ _ _ _ _ _ hp)
        refine ⟨fun g hg => ⟨g, hg, rfl, rfl, fun _ => rfl, rfl⟩, fun d1 hd1 => ⟨dg, hdg, ?_⟩⟩
        cases hd1
        exact f

/-- No call of `Drive`, `Clear`, `Relax` or `Populate` changes the dimensions of a grid of the
sandpile, the identity of a cell or the identity of a reservoir. -/
theorem Later.ids {s s1 : SandPile} (h : SandPile.Later s s1) : s.SameIds s1 := by
  induction h with
  | now => exact SameIds.ids_refl _
  | populate _ h ih => exact SameIds.ids_trans ih (Populate_ids h)
  | drive _ h ih => exact SameIds.ids_trans ih (Drive_ids h)
  | clear _ h ih => exact SameIds.ids_trans ih (Clear_ids h)
  | relax _ h ih => exact SameIds.ids_trans ih (Relax_ids h)

theorem Grid_new_ids (w h : Nat) (bt : BoundaryType) (st : Statics) :
    (Grid.new w h bt st).1.IdsInOrder := by
  obtain ⟨hw, hh, -, -, hid, -⟩ := Grid_new_fields w h bt st
  have hr : (Grid.new w h bt st).1.reservoir.id = -1 - (w : Int) := by simp [Grid.new]
  refine ⟨fun k _ => hid k, ?_⟩
  rw [hr]
  intro hc
  have := hc.1
  omega

theorem registerCallbacks_ids {g : Grid} (count : Nat) (h : g.IdsInOrder) :
    (g.registerCallbacks count).IdsInOrder := by
  refine ⟨fun k hk => ?_, h.2⟩
  have := h.1 k hk
  show (if k < count then { g.cells k with altered_function := true } else g.cells k).id = _
  split_ifs
  · exact this
  · exact this

theorem DissipationGrid_grid {t : Option Toppling} {m : TopplingMethod} {w h : Nat}
    {st : Statics} {r : Grid × Option Toppling × Toppling × Statics}
    (hr : SandPile.DissipationGrid t m w h st = Except.ok r) :
    r.1 = (Grid.new w h BoundaryType.BT_PERIODIC st).1 := by
  unfold SandPile.DissipationGrid at hr
  simp only [] at hr
  obtain ⟨dt, -, hr⟩ := bind_ok hr
  simp only [pure, Except.pure] at hr
  cases Except.ok.inj hr
  rfl

/-- The grids the constructor of `SandPile` builds have their identities in order. -/
theorem new_ids {L : Nat} {m : TopplingMethod} {type : BoundaryType} {st : Statics}
    {s : SandPile} {st1 : Statics}
    (h : SandPile.new L m type st = Except.ok (s, st1)) : s.IdsInOrder := by
  unfold SandPile.new at h
  simp only [] at h
  split at h
  · obtain ⟨r, hr, h⟩ := bind_ok h
    simp only [pure, Except.pure] at h
    have := Except.ok.inj h
    simp only [Prod.mk.injEq] at this
    obtain ⟨rfl, -⟩ := this
    refine ⟨fun g hg => (by cases hg), fun d hd => ?_⟩
    cases hd
    rw [DissipationGrid_grid hr]
    exact Grid_new_ids _ _ _ _
  · obtain ⟨t2, -, h⟩ := bind_ok h
    split at h
    · obtain ⟨r, hr, h⟩ := bind_ok h
      simp only [pure, Except.pure] at h
      have := Except.ok.inj h
      simp only [Prod.mk.injEq] at this
      obtain ⟨rfl, -⟩ := this
      refine ⟨fun g hg => ?_, fun d hd => ?_⟩
      · cases hg
        exact registerCallbacks_ids _ (Grid_new_ids _ _ _ _)
      · cases hd
        rw [DissipationGrid_grid hr]
        exact Grid_new_ids _ _ _ _
    · simp only [pure, Except.pure] at h
      have := Except.ok.inj h
      simp only [Prod.mk.injEq] at this
      obtain ⟨rfl, -⟩ := this
      refine ⟨fun g hg => ?_, fun d hd => (by cases hd)⟩
      cases hg
      exact registerCallbacks_ids _ (Grid_new_ids _ _ _ _)

/-- C25: the grid that `Grid::Grid` constructs has its identities in order (cell `k` has identity
`k` for every `k < width * height`, the identity of the reservoir, `-1 - width`, is none
of these indices); so have the grids of a sandpile after its construction and after
every later `Drive`, `Relax`, `Populate` and `Clear` that returns; and a per-cell `Topple`
that returns keeps the identities of a grid in order. -/
theorem C25_identities_in_order (L : Nat) (m : TopplingMethod) (type : BoundaryType)
    (st : Statics) (s : SandPile) (st1 : Statics) (s1 : SandPile)
    (h : SandPile.new L m type st = Except.ok (s, st1)) (hl : SandPile.Later s s1) :
    s1.IdsInOrder
    ∧ (∀ (w h : Nat) (bt : BoundaryType) (st0 : Statics), (Grid.new w h bt st0).1.IdsInOrder)
    ∧ (∀ (e : Engine) (dg : Option Grid) (cell : CellRef) (nb : List CellRef) (st0 : Statics)
        (b : Bool) (e1 : Engine) (st2 : Statics),
        e.grid.IdsInOrder → e.Topple dg cell nb st0 = Except.ok (b, e1, st2) →
        e1.grid.IdsInOrder) :=
  ⟨SameIds.pile_in_order (Later.ids hl) (new_ids h), Grid_new_ids,
    fun _ _ _ _ _ _ _ _ hi ht =>
      SameIds.ids_in_order (Frame.grid_ids (Topple_frame_all ht).1) hi⟩

/-- Witness of C25: the 2 by 2 sandpile of `drivenPile` after its construction and four calls of
`Drive`; the identities of its primary grid are 0, 1, 2, 3, the one of the reservoir
is -3. -/
theorem C25_identities_in_order_witness :
    ∃ s st s1 st1 g1,
      SandPile.new 2 TopplingMethod.Bak_Tang_Wiesenfeld1987 BoundaryType.BT_DISSIPATING
        (Statics.initial driveSeed) = Except.ok (s, st)
      ∧ SandPile.Later s s1
      ∧ drivenPile = Except.ok (s1, st1)
      ∧ s1.IdsInOrder
      ∧ s1.grid = some g1
      ∧ (∀ k, k < g1.width * g1.height → (g1.cells k).id = (k : Int))
      ∧ ¬ (0 ≤ g1.reservoir.id ∧ g1.reservoir.id < ((g1.width * g1.height : Nat) : Int)) := by
  obtain ⟨⟨s4, st4⟩, hp⟩ := Run.of_isSome (r := drivenPile) (by decide!)
  have hrun := hp
  unfold drivenPile at hp
  obtain ⟨⟨s0, st0⟩, h0, hp⟩ := bind_ok hp
  obtain ⟨⟨sa, sta⟩, ha, hp⟩ := bind_ok hp
  obtain ⟨⟨sb, stb⟩, hb, hp⟩ := bind_ok hp
  obtain ⟨⟨sc, stc⟩, hc, hp⟩ := bind_ok hp
  have hl : SandPile.Later s0 s4 :=
    SandPile.Later.drive (SandPile.Later.drive (SandPile.Later.drive (SandPile.Later.drive
      (SandPile.Later.now s0) ha) hb) hc) hp
  have hi := (C25_identities_in_order 2 TopplingMethod.Bak_Tang_Wiesenfeld1987
    BoundaryType.BT_DISSIPATING (Statics.initial driveSeed) s0 st0 s4 h0 hl).1
  cases hg : s4.grid with
  | none =>
    exfalso
    have := drivenPile_state
    rw [hrun] at this
    simp [Run.value, SandPile.heights, hg] at this
  | some g1 =>
    exact ⟨s0, st0, s4, st4, g1, h0, hl, hrun, hi, hg, (hi.1 g1 hg).1, (hi.1 g1 hg).2⟩

/-! ### `Cell::Transfer` moves what it returns -/

theorem DissipationGrid_ok {t : Option Toppling} {m : TopplingMethod} {w h : Nat}
    {st : Statics} {r : Grid × Option Toppling × Toppling × Statics}
    (hr : SandPile.DissipationGrid t m w h st = Except.ok r) :
    r.1.boundary_type = BoundaryType.BT_PERIODIC ∧ r.1.width = w ∧ r.1.height = h
      ∧ r.2.2.1.toppling_iterator = TopplingIterator.RANDOM_ALL
      ∧ r.2.2.1.toppling_method = m
      ∧ r.2.2.1.random_indices = some (fun i => i)
      ∧ r.2.2.1.countDuringAvalanches = false := by
  have hg := DissipationGrid_grid hr
  obtain ⟨hw, hh, hb, -⟩ := Grid_new_fields w h BoundaryType.BT_PERIODIC st
  unfold SandPile.DissipationGrid at hr
  simp only [] at hr
  obtain ⟨dt, hdt, hr⟩ := bind_ok hr
  simp only [pure, Except.pure] at hr
  cases Except.ok.inj hr
  have hm : dt.toppling_method = m := by
    cases m <;>
      simp [Toppling.SetTopplingMethod, pure, Except.pure, throw, throwThe,
        MonadExceptOf.throw] at hdt <;>
      rw [← hdt]
  exact ⟨hb, hw, hh, rfl, hm, rfl, rfl⟩

/-- C31: the sandpile the constructor builds (it does build one for each of the five rules).
With an unspecified boundary (`BT_UNDEFINED`) the member `boundary_type` is Periodic for
Rossum2011, Rossum2011-diss and Lin2006, Circular for Manna-Lin and WallDissipating for
BTW; with an explicit boundary argument it is exactly that boundary; the primary grid
(every rule but Rossum2011-diss has one, of `L` by `L` cells) has the boundary of that
member.  For Rossum2011 and Rossum2011-diss the dissipation grid is an `L` by `L` Periodic
grid, whatever the argument, and its toppling has the Rossum2011-diss rule and the
RandomAll strategy; the other rules have no dissipation grid. -/
theorem C31_constructor_boundary (L : Nat) (m : TopplingMethod) (type : BoundaryType)
    (st : Statics) (hm : m ≠ TopplingMethod.TM_UNDEFINED) :
    ∃ s st1, SandPile.new L m type st = Except.ok (s, st1)
      ∧ (type = BoundaryType.BT_UNDEFINED →
          (m = TopplingMethod.Rossum2011 ∨ m = TopplingMethod.Rossum2011_diss
              ∨ m = TopplingMethod.Lin_etal2006 →
            s.boundary_type = BoundaryType.BT_PERIODIC)
          ∧ (m = TopplingMethod.Manna_Lin2010 → s.boundary_type = BoundaryType.BT_CIRCULAR)
          ∧ (m = TopplingMethod.Bak_Tang_Wiesenfeld1987 →
              s.boundary_type = BoundaryType.BT_WALL_DISSIPATING))
      ∧ (type ≠ BoundaryType.BT_UNDEFINED → s.boundary_type = type)
      ∧ (m ≠ TopplingMethod.Rossum2011_diss →
          ∃ g, s.grid = some g ∧ g.boundary_type = s.boundary_type
            ∧ g.width = L ∧ g.height = L)
      ∧ (m = TopplingMethod.Rossum2011_diss → s.grid = none)
      ∧ (m = TopplingMethod.Rossum2011 ∨ m = TopplingMethod.Rossum2011_diss →
          ∃ d dt, s.diss_grid = some d ∧ s.diss_toppling = some dt
            ∧ d.boundary_type = BoundaryType.BT_PERIODIC ∧ d.width = L ∧ d.height = L
            ∧ dt.toppling_iterator = TopplingIterator.RANDOM_ALL
            ∧ dt.toppling_method = TopplingMethod.Rossum2011_diss)
      ∧ (m ≠ TopplingMethod.Rossum2011 → m ≠ TopplingMethod.Rossum2011_diss →
          s.diss_grid = none ∧ s.diss_toppling = none) := by
  obtain ⟨⟨s, st1⟩, h⟩ := new_returns L m type st hm
  have hb : s.boundary_type = resolvedBoundary m type ∧
      (m ≠ TopplingMethod.Rossum2011_diss →
        ∃ g, s.grid = some g ∧ g.boundary_type = s.boundary_type
          ∧ g.width = L ∧ g.height = L)
      ∧ (m = TopplingMethod.Rossum2011_diss → s.grid = none)
      ∧ (m = TopplingMethod.Rossum2011 ∨ m = TopplingMethod.Rossum2011_diss →
          ∃ d dt, s.diss_grid = some d ∧ s.diss_toppling = some dt
            ∧ d.boundary_type = BoundaryType.BT_PERIODIC ∧ d.width = L ∧ d.height = L
            ∧ dt.toppling_iterator = TopplingIterator.RANDOM_ALL
            ∧ dt.toppling_method = TopplingMethod.Rossum2011_diss)
      ∧ (m ≠ TopplingMethod.Rossum2011 → m ≠ TopplingMethod.Rossum2011_diss →
          s.diss_grid = none ∧ s.diss_toppling = none) := by
    have gf := Grid_new_fields L L (resolvedBoundary m type) st
    unfold SandPile.new at h
    simp only [] at h
    split at h
    · rename_i hd
      obtain ⟨r, hr, h⟩ := bind_ok h
      obtain ⟨a1, a2, a3, a4, a5, -⟩ := DissipationGrid_ok hr
      simp only [pure, Except.pure] at h
      have := Except.ok.inj h
      simp only [Prod.mk.injEq] at this
      obtain ⟨rfl, -⟩ := this
      exact ⟨rfl, fun hne => absurd hd hne, fun _ => rfl,
        fun _ => ⟨_, _, rfl, rfl, a1, a2, a3, a4, a5⟩, fun _ hne => absurd hd hne⟩
    · rename_i hd
      obtain ⟨t2, -, h⟩ := bind_ok h
      split at h
      · rename_i hr2
        obtain ⟨r, hr, h⟩ := bind_ok h
        obtain ⟨a1, a2, a3, a4, a5, -⟩ := DissipationGrid_ok hr
        simp only [pure, Except.pure] at h
        have := Except.ok.inj h
        simp only [Prod.mk.injEq] at this
        obtain ⟨rfl, -⟩ := this
        exact ⟨rfl, fun _ => ⟨_, rfl, gf.2.2.1, gf.1, gf.2.1⟩, fun hne => absurd hne hd,
          fun _ => ⟨_, _, rfl, rfl, a1, a2, a3, a4, a5⟩, fun hne => absurd hr2 hne⟩
      · rename_i hr2
        simp only [pure, Except.pure] at h
        have := Except.ok.inj h
        simp only [Prod.mk.injEq] at this
        obtain ⟨rfl, -⟩ := this
        exact ⟨rfl, fun _ => ⟨_, rfl, gf.2.2.1, gf.1, gf.2.1⟩, fun hne => absurd hne hd,
          fun hor => hor.elim (fun h1 => absurd h1 hr2) (fun h1 => absurd h1 hd),
          fun _ _ => ⟨rfl, rfl⟩⟩
  obtain ⟨hb0, hb1, hb2, hb3, hb4⟩ := hb
  refine ⟨s, st1, h, ?_, ?_, hb1, hb2, hb3, hb4⟩
  · intro ht
    rw [hb0, ht]
    refine ⟨?_, ?_, ?_⟩
    · rintro (h1 | h1 | h1) <;> rw [h1] <;> rfl
    · intro h1; rw [h1]; rfl
    · intro h1; rw [h1]; rfl
  · intro ht
    rw [hb0]
    unfold resolvedBoundary
    split_ifs with hc
    · rfl
    · have : type = defaultBoundary m := by
        by_contra hne
        exact hc ⟨ht, hne⟩
      exact this.symm

/-- Witness of C31: the BTW rule with the explicit boundary Periodic and `L = 4`. -/
theorem C31_constructor_boundary_witness :
    ∃ s st1, SandPile.new 4 TopplingMethod.Bak_Tang_Wiesenfeld1987 BoundaryType.BT_PERIODIC
        (Statics.initial (constSeed 0)) = Except.ok (s, st1)
      ∧ s.boundary_type = BoundaryType.BT_PERIODIC
      ∧ (∃ g, s.grid = some g ∧ g.boundary_type = BoundaryType.BT_PERIODIC
          ∧ g.width = 4 ∧ g.height = 4)
      ∧ s.diss_grid = none := by
  obtain ⟨s, st1, h, -, h2, h3, -, -, h6⟩ :=
    C31_constructor_boundary 4 TopplingMethod.Bak_Tang_Wiesenfeld1987 BoundaryType.BT_PERIODIC
      (Statics.initial (constSeed 0)) (by decide)
  obtain ⟨g, hg, hb, hw, hh⟩ := h3 (by decide)
  have hbt := h2 (by decide)
  exact ⟨s, st1, h, hbt, ⟨g, hg, hb.trans hbt, hw, hh⟩, (h6 (by decide) (by decide)).1⟩

/-! ### A topple hands out what the cell loses -/

theorem alter_total {e e1 : Engine} {r : CellRef} {f : GrainType → GrainType}
    (h : e.alter r f = Except.ok e1) :
    ∃ c, e.grid.read r = Except.ok c ∧ e1.grid.total = e.grid.total + (f c.height - c.height) := by
  obtain ⟨c, hc, h1, h2⟩ := alter_count h
  refine ⟨c, hc, ?_⟩
  unfold Grid.total
  rw [h1, h2]
  split_ifs <;> ring

theorem Increase_total {e e1 : Engine} {r : CellRef} {x : GrainType}
    (h : e.Increase r x = Except.ok e1) : e1.grid.total = e.grid.total + x := by
  obtain ⟨c, -, hc⟩ := alter_total h
  rw [hc]
  ring

theorem increaseEach_total : ∀ (rs : List CellRef) (xs : List GrainType) (e e1 : Engine),
    Engine.increaseEach e rs xs = Except.ok e1 →
    e1.grid.total = e.grid.total + handedOut rs xs
  | [], _, e, e1, h => by
    simp only [Engine.increaseEach, pure, Except.pure] at h
    cases Except.ok.inj h; simp [handedOut]
  | _ :: _, [], e, e1, h => by
    simp only [Engine.increaseEach, pure, Except.pure] at h
    cases Except.ok.inj h; simp [handedOut]
  | r :: rs, x :: xs, e, e1, h => by
    simp only [Engine.increaseEach] at h
    obtain ⟨e2, h2, h⟩ := bind_ok h
    rw [increaseEach_total rs xs e2 e1 h, Increase_total h2]
    simp only [handedOut]
    ring

theorem mannaLoop_total (nb : List CellRef) : ∀ (xs : List GrainType) (e : Engine) (gen : Gen)
    (e1 : Engine) (gen1 : Gen),
    Engine.mannaLoop nb e xs gen = Except.ok (e1, gen1) →
    e1.grid.total = e.grid.total + xs.sum
  | [], e, gen, e1, gen1, h => by
    simp only [Engine.mannaLoop, pure, Except.pure] at h
    cases Except.ok.inj h; simp
  | x :: xs, e, gen, e1, gen1, h => by
    simp only [Engine.mannaLoop] at h
    split at h
    · simp [throw, throwThe, MonadExceptOf.throw] at h
    · obtain ⟨e2, h2, h⟩ := bind_ok h
      rw [mannaLoop_total nb xs e2 gen.tail e1 gen1 h, Increase_total h2, List.sum_cons]
      ring

/-- The three conservative cases of the per-cell `Topple`, step by step: at or above the threshold
the cell is decreased by the decrease amount, the normalised portions sum to that
amount, and each portion is added to a neighbour entry. -/
theorem Topple_conservative {e : Engine} {dg : Option Grid} {cell : CellRef}
    {nb : List CellRef} {st : Statics} {b : Bool} {e1 : Engine} {st1 : Statics}
    (hm : e.toppling.toppling_method = TopplingMethod.Bak_Tang_Wiesenfeld1987
      ∨ e.toppling.toppling_method = TopplingMethod.Manna_Lin2010
      ∨ (e.toppling.toppling_method = TopplingMethod.Lin_etal2006
          ∧ e.toppling.dissipative_mode = false))
    (h : e.Topple dg cell nb st = Except.ok (b, e1, st1)) :
    ∃ c, e.grid.read cell = Except.ok c
      ∧ ((c.height < e.toppling.topple_threshold ∧ b = false ∧ e1 = e)
        ∨ (e.toppling.topple_threshold ≤ c.height ∧ b = true
          ∧ ∃ e2 inc, e.Decrease cell (e.toppling.decrease nb.length) = Except.ok e2
            ∧ normalise (e.toppling.decrease nb.length) (st.drawSplit nb.length).1 = some inc
            ∧ (if e.toppling.toppling_method = TopplingMethod.Manna_Lin2010 then
                ∃ gen1, Engine.mannaLoop nb e2 inc st.toppleGenerator = Except.ok (e1, gen1)
              else Engine.increaseEach e2 nb inc = Except.ok e1))) := by
  unfold Engine.Topple at h
  simp only [] at h
  obtain ⟨c, hc, h⟩ := bind_ok h
  refine ⟨c, hc, ?_⟩
  by_cases hge : c.height ≥ e.toppling.topple_threshold
  · right
    rw [if_pos hge] at h
    refine ⟨hge, ?_⟩
    rcases hm with hm | hm | ⟨hm, hd⟩
    · simp only [hm] at h
      obtain ⟨e2, h2, h⟩ := bind_ok h
      split at h
      · simp [throw, throwThe, MonadExceptOf.throw] at h
      · rename_i inc hinc
        obtain ⟨e3, h3, h⟩ := bind_ok h
        simp only [pure, Except.pure] at h
        have := Except.ok.inj h
        simp only [Prod.mk.injEq] at this
        obtain ⟨rfl, rfl, -⟩ := this
        refine ⟨rfl, e2, inc, h2, hinc, ?_⟩
        rw [if_neg (by rw [hm]; decide)]
        exact h3
    · simp only [hm] at h
      obtain ⟨e2, h2, h⟩ := bind_ok h
      split at h
      · simp [throw, throwThe, MonadExceptOf.throw] at h
      · rename_i inc hinc
        obtain ⟨p, h3, h⟩ := bind_ok h
        simp only [pure, Except.pure] at h
        have := Except.ok.inj h
        simp only [Prod.mk.injEq] at this
        obtain ⟨rfl, rfl, -⟩ := this
        refine ⟨rfl, e2, inc, h2, hinc, ?_⟩
        rw [if_pos hm]
        exact ⟨p.2, h3⟩
    · simp only [hm, hd] at h
      obtain ⟨e2, h2, h⟩ := bind_ok h
      split at h
      · simp [throw, throwThe, MonadExceptOf.throw] at h
      · rename_i inc hinc
        simp only [Bool.false_eq_true, if_false] at h
        obtain ⟨e3, h3, h⟩ := bind_ok h
        simp only [pure, Except.pure] at h
        have := Except.ok.inj h
        simp only [Prod.mk.injEq] at this
        obtain ⟨rfl, rfl, -⟩ := this
        refine ⟨rfl, e2, inc, h2, hinc, ?_⟩
        rw [if_neg (by rw [hm]; decide)]
        exact h3
  · left
    rw [if_neg hge] at h
    simp only [pure, Except.pure] at h
    have := Except.ok.inj h
    simp only [Prod.mk.injEq] at this
    obtain ⟨rfl, rfl, -⟩ := this
    exact ⟨not_le.mp hge, rfl, rfl⟩

theorem alter_read {e e1 : Engine} {r : CellRef} {f : GrainType → GrainType} {c : Cell}
    (h : e.alter r f = Except.ok e1) (hc : e.grid.read r = Except.ok c) :
    e1.grid.read r = Except.ok { c with height := f c.height } := by
  unfold Engine.alter at h
  rw [hc] at h
  simp only [bind, Except.bind] at h
  obtain ⟨g1, hg1, h⟩ := bind_ok h
  have hr := read_write_same hg1
  cases r with
  | reservoir =>
    simp only [pure, Except.pure] at h
    cases Except.ok.inj h
    exact hr
  | cell n =>
    simp only [] at h
    split_ifs at h <;>
    · simp only [pure, Except.pure] at h
      cases Except.ok.inj h
      exact hr

/-- C34: for the BTW rule, the Manna-Lin rule and Lin2006 with dissipative mode disabled, and every
neighbour list: a per-cell `Topple` that returns leaves `CountGrains()` plus the height of
the reservoir unchanged.  Below the threshold nothing changes; at or above it the cell
is decreased by exactly `D` (the dissipation amount if positive, else the number of
neighbour entries), the normalised portions are as many as the neighbour entries and
sum to exactly `D`, and each portion is added to a neighbour entry (the entry of its
position, or a drawn entry under Manna-Lin), repeated entries and the reservoir
accumulating. -/
theorem C34_topple_hands_out_decrease (e : Engine) (dg : Option Grid) (cell : CellRef)
    (nb : List CellRef) (st : Statics) (b : Bool) (e1 : Engine) (st1 : Statics)
    (hm : e.toppling.toppling_method = TopplingMethod.Bak_Tang_Wiesenfeld1987
      ∨ e.toppling.toppling_method = TopplingMethod.Manna_Lin2010
      ∨ (e.toppling.toppling_method = TopplingMethod.Lin_etal2006
          ∧ e.toppling.dissipative_mode = false))
    (h : e.Topple dg cell nb st = Except.ok (b, e1, st1)) :
    e1.grid.total = e.grid.total
    ∧ e.toppling.decrease nb.length
        = (if 0 < e.toppling.diss_amount then e.toppling.diss_amount
            else (nb.length : GrainType))
    ∧ ∃ c, e.grid.read cell = Except.ok c
      ∧ (c.height < e.toppling.topple_threshold → b = false ∧ e1 = e)
      ∧ (e.toppling.topple_threshold ≤ c.height →
          b = true
          ∧ ∃ e2 c2 inc, e.Decrease cell (e.toppling.decrease nb.length) = Except.ok e2
            ∧ e2.grid.read cell = Except.ok c2
            ∧ c2.height = c.height - e.toppling.decrease nb.length
            ∧ normalise (e.toppling.decrease nb.length) (st.drawSplit nb.length).1 = some inc
            ∧ inc.length = nb.length
            ∧ inc.sum = e.toppling.decrease nb.length
            ∧ e1.grid.total = e2.grid.total + inc.sum
            ∧ (if e.toppling.toppling_method = TopplingMethod.Manna_Lin2010 then
                ∃ gen1, Engine.mannaLoop nb e2 inc st.toppleGenerator = Except.ok (e1, gen1)
              else Engine.increaseEach e2 nb inc = Except.ok e1)) := by
  have hD : e.toppling.decrease nb.length
      = (if 0 < e.toppling.diss_amount then e.toppling.diss_amount
          else (nb.length : GrainType)) := by
    unfold Toppling.decrease
    by_cases hd : e.toppling.diss_amount ≤ 0
    · rw [if_pos hd, if_neg (not_lt.mpr hd)]
    · rw [if_neg hd, if_pos (not_le.mp hd)]
  obtain ⟨c, hc, hcase⟩ := Topple_conservative hm h
  rcases hcase with ⟨hlt, rfl, rfl⟩ | ⟨hge, rfl, e2, inc, h2, hinc, hloop⟩
  · exact ⟨rfl, hD, c, hc, fun _ => ⟨rfl, rfl⟩, fun hge => absurd hlt (not_lt.mpr hge)⟩
  · obtain ⟨hsum, hlen⟩ := normalise_sum hinc
    have hlen2 : inc.length = nb.length := by rw [hlen, drawSplit_length]
    obtain ⟨c0, hc0, ht2⟩ := alter_total h2
    rw [hc] at hc0
    cases Except.ok.inj hc0
    have hloop2 : e1.grid.total = e2.grid.total + inc.sum := by
      by_cases hman : e.toppling.toppling_method = TopplingMethod.Manna_Lin2010
      · rw [if_pos hman] at hloop
        obtain ⟨gen1, hl⟩ := hloop
        exact mannaLoop_total nb inc e2 _ e1 gen1 hl
      · rw [if_neg hman] at hloop
        rw [increaseEach_total nb inc e2 e1 hloop, handedOut_eq_sum nb inc hlen2.symm]
    refine ⟨?_, hD, c, hc, fun hlt => absurd hge (not_le.mpr hlt), fun _ => ⟨rfl, e2, _, inc,
      h2, alter_read h2 hc, rfl, hinc, hlen2, hsum, hloop2, hloop⟩⟩
    rw [hloop2, ht2, hsum]
    ring

/-- Witness of C34: in `hookedEngine` (BTW, threshold 4, dissipation amount 4) cell 2 of height 4
topples onto the neighbour entries cell 0, cell 3, the reservoir and cell 0 again. -/
theorem C34_topple_hands_out_decrease_witness :
    ∃ e1 st1, hookedEngine.Topple none (CellRef.cell 2)
        [CellRef.cell 0, CellRef.cell 3, CellRef.reservoir, CellRef.cell 0]
        (Statics.initial (constSeed 1)) = Except.ok (true, e1, st1)
      ∧ e1.grid.total = hookedEngine.grid.total
      ∧ hookedEngine.toppling.decrease 4 = 4
      ∧ e1.grid.heights = [2, 0, 0, 1]
      ∧ e1.grid.reservoir.height = 1 := by
  have hv : (Run.value (hookedEngine.Topple none (CellRef.cell 2)
      [CellRef.cell 0, CellRef.cell 3, CellRef.reservoir, CellRef.cell 0]
      (Statics.initial (constSeed 1)))).map
        (fun r => (r.1, r.2.1.grid.heights, r.2.1.grid.reservoir.height))
      = some (true, [2, 0, 0, 1], 1) := by decide!
  cases h : hookedEngine.Topple none (CellRef.cell 2)
      [CellRef.cell 0, CellRef.cell 3, CellRef.reservoir, CellRef.cell 0]
      (Statics.initial (constSeed 1)) with
  | error err =>
    rw [h] at hv
    simp [Run.value] at hv
  | ok p =>
    obtain ⟨b, e1, st1⟩ := p
    rw [h] at hv
    simp only [Run.value, Option.map_some', Option.some.injEq, Prod.mk.injEq] at hv
    obtain ⟨rfl, hh, hr⟩ := hv
    obtain ⟨ht, -, -⟩ := C34_topple_hands_out_decrease hookedEngine none (CellRef.cell 2)
      [CellRef.cell 0, CellRef.cell 3, CellRef.reservoir, CellRef.cell 0]
      (Statics.initial (constSeed 1)) true e1 st1 (Or.inl rfl) h
    exact ⟨e1, st1, rfl, ht, by decide!, hh, hr⟩

/-! ### Heights stay non-negative -/

theorem alter_nonneg {e e1 : Engine} {r : CellRef} {f : GrainType → GrainType} {c : Cell}
    (h : e.alter r f = Except.ok e1) (hc : e.grid.read r = Except.ok c)
    (hf : 0 ≤ f c.height) (hn : e.grid.NonNegative) : e1.grid.NonNegative := by
  cases r with
  | reservoir =>
    obtain ⟨hg, -⟩ := alter_reservoir_ok h
    simp only [Grid.read, pure, Except.pure] at hc
    cases Except.ok.inj hc
    rw [hg]
    exact ⟨hn.1, hf⟩
  | cell n =>
    obtain ⟨-, -, hg, -⟩ := alter_cell_ok h
    obtain ⟨-, -, rfl⟩ := read_cell_ok hc
    rw [hg]
    refine ⟨fun k hk => ?_, hn.2⟩
    show 0 ≤ (Function.update e.grid.cells n.toNat _ k).height
    by_cases hkn : k = n.toNat
    · subst hkn
      rw [Function.update_same]
      exact hf
    · rw [Function.update_noteq hkn]
      exact hn.1 k hk

theorem read_nonneg {g : Grid} {r : CellRef} {c : Cell} (hn : g.NonNegative)
    (hc : g.read r = Except.ok c) : 0 ≤ c.height := by
  cases r with
  | reservoir =>
    simp only [Grid.read, pure, Except.pure] at hc
    cases Except.ok.inj hc
    exact hn.2
  | cell n =>
    obtain ⟨h0, h1, rfl⟩ := read_cell_ok hc
    exact hn.1 _ (by unfold Grid.size at h1; omega)

theorem Raises.nonneg {e e1 : Engine} (h : Raises e e1) (hn : e.grid.NonNegative) :
    e1.grid.NonNegative := by
  induction h with
  | refl e => exact hn
  | step r x hx h _ ih =>
    obtain ⟨c, hc, -⟩ := alter_count h
    exact ih (alter_nonneg h hc (add_nonneg (read_nonneg hn hc) hx) hn)

theorem increaseEach_raises : ∀ (rs : List CellRef) (xs : List GrainType) (e e1 : Engine),
    (∀ x, x ∈ xs → 0 ≤ x) → Engine.increaseEach e rs xs = Except.ok e1 → Raises e e1
  | [], _, e, e1, _, h => by
    simp only [Engine.increaseEach, pure, Except.pure] at h
    cases Except.ok.inj h; exact Raises.refl e
  | _ :: _, [], e, e1, _, h => by
    simp only [Engine.increaseEach, pure, Except.pure] at h
    cases Except.ok.inj h; exact Raises.refl e
  | r :: rs, x :: xs, e, e1, hx, h => by
    simp only [Engine.increaseEach] at h
    obtain ⟨e2, h2, h⟩ := bind_ok h
    exact Raises.step r x (hx x (List.mem_cons_self _ _)) h2
      (increaseEach_raises rs xs e2 e1 (fun y hy => hx y (List.mem_cons_of_mem _ hy)) h)

theorem mannaLoop_raises (nb : List CellRef) : ∀ (xs : List GrainType) (e : Engine) (gen : Gen)
    (e1 : Engine) (gen1 : Gen), (∀ x, x ∈ xs → 0 ≤ x) →
    Engine.mannaLoop nb e xs gen = Except.ok (e1, gen1) → Raises e e1
  | [], e, gen, e1, gen1, _, h => by
    simp only [Engine.mannaLoop, pure, Except.pure] at h
    cases Except.ok.inj h; exact Raises.refl e
  | x :: xs, e, gen, e1, gen1, hx, h => by
    simp only [Engine.mannaLoop] at h
    split at h
    · simp [throw, throwThe, MonadExceptOf.throw] at h
    · obtain ⟨e2, h2, h⟩ := bind_ok h
      exact Raises.step _ x (hx x (List.mem_cons_self _ _)) h2
        (mannaLoop_raises nb xs e2 gen.tail e1 gen1
          (fun y hy => hx y (List.mem_cons_of_mem _ hy)) h)

theorem linLoop_raises (rate : ℚ) : ∀ (rs : List CellRef) (xs : List GrainType) (e : Engine)
    (z : Gen) (e1 : Engine) (z1 : Gen), (∀ x, x ∈ xs → 0 ≤ x) →
    Engine.linLoop rate e rs xs z = Except.ok (e1, z1) → Raises e e1
  | [], _, e, z, e1, z1, _, h => by
    simp only [Engine.linLoop, pure, Except.pure] at h
    cases Except.ok.inj h; exact Raises.refl e
  | _ :: _, [], e, z, e1, z1, _, h => by
    simp only [Engine.linLoop, pure, Except.pure] at h
    cases Except.ok.inj h; exact Raises.refl e
  | r :: rs, x :: xs, e, z, e1, z1, hx, h => by
    simp only [Engine.linLoop] at h
    split at h
    · obtain ⟨e2, h2, h⟩ := bind_ok h
      exact Raises.step r x (hx x (List.mem_cons_self _ _)) h2
        (linLoop_raises rate rs xs e2 z.tail e1 z1
          (fun y hy => hx y (List.mem_cons_of_mem _ hy)) h)
    · exact linLoop_raises rate rs xs e z.tail e1 z1
        (fun y hy => hx y (List.mem_cons_of_mem _ hy)) h

theorem zeroone_nonneg (z : Gen) : 0 ≤ z.zeroone := by
  unfold Gen.zeroone
  positivity

theorem splitDraws_nonneg : ∀ (n : Nat) (z : Gen) (x : GrainType),
    x ∈ (splitDraws n z).1 → 0 ≤ x
  | 0, _, x, hx => by simp [splitDraws] at hx
  | n + 1, z, x, hx => by
    simp only [splitDraws, List.mem_cons] at hx
    rcases hx with rfl | hx
    · exact zeroone_nonneg z
    · exact splitDraws_nonneg n z.tail x hx

theorem normalise_nonneg {decrease : GrainType} {draws inc : List GrainType}
    (h : normalise decrease draws = some inc) (hd : 0 ≤ decrease)
    (hx : ∀ x, x ∈ draws → 0 ≤ x) : ∀ x, x ∈ inc → 0 ≤ x := by
  unfold normalise at h
  simp only [] at h
  split_ifs at h with h0
  simp only [Option.some.injEq] at h
  subst h
  intro x hxm
  obtain ⟨y, hy, rfl⟩ := List.mem_map.mp hxm
  have hs : 0 ≤ draws.sum := List.sum_nonneg hx
  exact mul_nonneg (hx y hy) (div_nonneg hd hs)

theorem drawSplit_nonneg (st : Statics) (n : Nat) (x : GrainType)
    (hx : x ∈ (st.drawSplit n).1) : 0 ≤ x := by
  simp only [Statics.drawSplit] at hx
  exact splitDraws_nonneg n _ x hx

/-! ### The Rossum2011-diss case, step by step -/

/-- The Rossum2011-diss case of the per-cell `Topple`: it returns false; at or above the threshold
and with a positive height it is `cell.Transfer(*neighbours[dir], 1)` and
`neighbours[dir]->SetDirection(dir)`, followed, when the draw is below 1/100, by
`neighbours[dir2]->SetDirection(dir1)` for two drawn indices; otherwise nothing changes. -/
theorem Topple_diss_cases {e : Engine} {dg : Option Grid} {cell : CellRef} {nb : List CellRef}
    {st : Statics} {b : Bool} {e1 : Engine} {st1 : Statics}
    (hm : e.toppling.toppling_method = TopplingMethod.Rossum2011_diss)
    (h : e.Topple dg cell nb st = Except.ok (b, e1, st1)) :
    b = false ∧ ∃ c, e.grid.read cell = Except.ok c
      ∧ ((¬ (e.toppling.topple_threshold ≤ c.height ∧ 0 < c.height) ∧ e1 = e)
        ∨ (e.toppling.topple_threshold ≤ c.height ∧ 0 < c.height ∧ 0 ≤ c.direction
          ∧ ∃ target x e2 e3, nb[c.direction.toNat]? = some target
            ∧ e.Transfer cell target 1 = Except.ok (x, e2)
            ∧ e2.SetDirection target c.direction = Except.ok e3
            ∧ (e1 = e3
              ∨ ∃ r, nb[st.toppleGenerator.below nb.length]? = some r
                ∧ e3.SetDirection r ((st.toppleGenerator.tail.below nb.length : Nat) : Int)
                    = Except.ok e1))) := by
  unfold Engine.Topple at h
  simp only [] at h
  obtain ⟨c, hc, h⟩ := bind_ok h
  have fin : ∀ {b0 : Bool} {e0 : Engine} {s0 : Statics},
      (pure (b0, e0, s0) : Run (Bool × Engine × Statics)) = Except.ok (b, e1, st1) →
      b = b0 ∧ e1 = e0 := by
    intro b0 e0 s0 hp
    simp only [pure, Except.pure] at hp
    have := Except.ok.inj hp
    simp only [Prod.mk.injEq] at this
    exact ⟨this.1.symm, this.2.1.symm⟩
  split at h
  · rename_i hge
    simp only [hm] at h
    split at h
    · rename_i hpos
      split at h
      · simp [throw, throwThe, MonadExceptOf.throw] at h
      · rename_i hdir
        split at h
        · simp [throw, throwThe, MonadExceptOf.throw] at h
        · rename_i target htarget
          obtain ⟨p, hp, h⟩ := bind_ok h
          obtain ⟨e3, h3, h⟩ := bind_ok h
          have hdir2 : 0 ≤ c.direction := not_not.mp hdir
          split at h
          · split at h
            · simp [throw, throwThe, MonadExceptOf.throw] at h
            · rename_i r hr
              obtain ⟨e4, h4, h⟩ := bind_ok h
              obtain ⟨hb, he⟩ := fin h
              subst he
              exact ⟨hb, c, hc, Or.inr ⟨hge, hpos, hdir2, target, p.1, p.2, e3, htarget, hp, h3,
                Or.inr ⟨r, hr, h4⟩⟩⟩
          · obtain ⟨hb, he⟩ := fin h
            exact ⟨hb, c, hc, Or.inr ⟨hge, hpos, hdir2, target, p.1, p.2, e3, htarget, hp, h3,
              Or.inl he⟩⟩
    · rename_i hpos
      obtain ⟨rfl, rfl⟩ := fin h
      exact ⟨rfl, c, hc, Or.inl ⟨fun hh => hpos hh.2, rfl⟩⟩
  · rename_i hge
    obtain ⟨rfl, rfl⟩ := fin h
    exact ⟨rfl, c, hc, Or.inl ⟨fun hh => hge hh.1, rfl⟩⟩

/-- The cells after `src.Transfer(target, number)` through pointers, the same cell twice included. -/
theorem Transfer_reads {e e1 : Engine} {src target : CellRef} {number x : GrainType}
    (h : e.Transfer src target number = Except.ok (x, e1)) :
    ∃ s t, e.grid.read src = Except.ok s ∧ e.grid.read target = Except.ok t
      ∧ x = Cell.transferAmount s t number
      ∧ e1.toppling = e.toppling
      ∧ ∀ r c1, e1.grid.read r = Except.ok c1 →
          (r = src ∧ r ≠ target ∧ c1 = { s with height := s.height - x })
          ∨ (r = target ∧ r ≠ src ∧ c1 = { t with height := t.height + x })
          ∨ (r = src ∧ r = target ∧ c1 = s)
          ∨ (r ≠ src ∧ r ≠ target ∧ e.grid.read r = Except.ok c1) := by
  unfold Engine.Transfer at h
  obtain ⟨s, hs, h⟩ := bind_ok h
  obtain ⟨t, ht, h⟩ := bind_ok h
  obtain ⟨g1, hg1, h⟩ := bind_ok h
  obtain ⟨t1, ht1, h⟩ := bind_ok h
  obtain ⟨g2, hg2, h⟩ := bind_ok h
  simp only [pure, Except.pure] at h
  have := Except.ok.inj h
  simp only [Prod.mk.injEq] at this
  obtain ⟨rfl, rfl⟩ := this
  refine ⟨s, t, hs, ht, rfl, rfl, fun r c1 hr => ?_⟩
  show _ ∨ _ ∨ _ ∨ _
  simp only [] at hr
  by_cases h1 : r = target
  · subst h1
    rw [read_write_same hg2] at hr
    cases Except.ok.inj hr
    by_cases h2 : r = src
    · subst h2
      rw [read_write_same hg1] at ht1
      cases Except.ok.inj ht1
      rw [hs] at ht
      cases Except.ok.inj ht
      refine Or.inr (Or.inr (Or.inl ⟨rfl, rfl, ?_⟩))
      have : s.height - Cell.transferAmount s s number + Cell.transferAmount s s number
          = s.height := by ring
      simp only [this]
    · rw [read_write_other hg1 h2, ht] at ht1
      cases Except.ok.inj ht1
      exact Or.inr (Or.inl ⟨rfl, h2, rfl⟩)
  · rw [read_write_other hg2 h1] at hr
    by_cases h2 : r = src
    · subst h2
      rw [read_write_same hg1] at hr
      cases Except.ok.inj hr
      exact Or.inl ⟨rfl, h1, rfl⟩
    · rw [read_write_other hg1 h2] at hr
      exact Or.inr (Or.inr (Or.inr ⟨h2, h1, hr⟩))

/-- The cells after `SetDirection` through a pointer. -/
theorem SetDirection_reads {e e1 : Engine} {r : CellRef} {d : Int}
    (h : e.SetDirection r d = Except.ok e1) :
    e1.toppling = e.toppling
    ∧ ∀ r1 c1, e1.grid.read r1 = Except.ok c1 →
        ∃ c, e.grid.read r1 = Except.ok c ∧ c1.height = c.height
          ∧ c1.max_capacity = c.max_capacity
          ∧ ((r1 = r ∧ c1.direction = d) ∨ (r1 ≠ r ∧ c1 = c)) := by
  unfold Engine.SetDirection at h
  obtain ⟨c, hc, h⟩ := bind_ok h
  obtain ⟨g1, hg1, h⟩ := bind_ok h
  simp only [pure, Except.pure] at h
  cases Except.ok.inj h
  refine ⟨rfl, fun r1 c1 hr => ?_⟩
  simp only [] at hr
  by_cases h1 : r1 = r
  · subst h1
    rw [read_write_same hg1] at hr
    cases Except.ok.inj hr
    exact ⟨c, hc, rfl, rfl, Or.inl ⟨rfl, rfl⟩⟩
  · rw [read_write_other hg1 h1] at hr
    exact ⟨c1, hr, rfl, rfl, Or.inr ⟨h1, rfl⟩⟩

theorem write_count {g g1 : Grid} {r : CellRef} {c c1 : Cell}
    (hr : g.read r = Except.ok c) (hw : g.write r c1 = Except.ok g1) :
    g1.CountGrains
        = g.CountGrains + (if r = CellRef.reservoir then 0 else c1.height - c.height)
    ∧ g1.reservoir.height
        = g.reservoir.height + (if r = CellRef.reservoir then c1.height - c.height else 0) := by
  cases r with
  | reservoir =>
    simp only [Grid.write, pure, Except.pure] at hw
    cases Except.ok.inj hw
    simp only [Grid.read, pure, Except.pure] at hr
    cases Except.ok.inj hr
    simp [Grid.CountGrains]
  | cell n =>
    obtain ⟨h0, h1, rfl⟩ := read_cell_ok hr
    obtain ⟨-, -, rfl⟩ := write_cell_ok hw
    constructor
    · simp only [Grid.CountGrains, sumHeights_update, reduceCtorEq, if_false]
      have : n.toNat < g.width * g.height := by
        have := h1; unfold Grid.size at this; omega
      simp [this]
    · simp

theorem Transfer_count {e e1 : Engine} {src target : CellRef} {number x : GrainType}
    (h : e.Transfer src target number = Except.ok (x, e1)) :
    e1.grid.total = e.grid.total
    ∧ (src ≠ CellRef.reservoir → target ≠ CellRef.reservoir →
        e1.grid.CountGrains = e.grid.CountGrains) := by
  unfold Engine.Transfer at h
  obtain ⟨s, hs, h⟩ := bind_ok h
  obtain ⟨t, ht, h⟩ := bind_ok h
  obtain ⟨g1, hg1, h⟩ := bind_ok h
  obtain ⟨t1, ht1, h⟩ := bind_ok h
  obtain ⟨g2, hg2, h⟩ := bind_ok h
  simp only [pure, Except.pure] at h
  have := Except.ok.inj h
  simp only [Prod.mk.injEq] at this
  obtain ⟨rfl, rfl⟩ := this
  obtain ⟨a1, a2⟩ := write_count hs hg1
  obtain ⟨b1, b2⟩ := write_count ht1 hg2
  constructor
  · show g2.CountGrains + g2.reservoir.height = e.grid.CountGrains + e.grid.reservoir.height
    rw [b1, b2, a1, a2]
    split_ifs <;> simp only [] <;> ring
  · intro h1 h2
    show g2.CountGrains = e.grid.CountGrains
    rw [b1, a1, if_neg h1, if_neg h2]
    simp only []
    ring

theorem SetDirection_count {e e1 : Engine} {r : CellRef} {d : Int}
    (h : e.SetDirection r d = Except.ok e1) :
    e1.grid.CountGrains = e.grid.CountGrains
    ∧ e1.grid.reservoir.height = e.grid.reservoir.height := by
  unfold Engine.SetDirection at h
  obtain ⟨c, hc, h⟩ := bind_ok h
  obtain ⟨g1, hg1, h⟩ := bind_ok h
  simp only [pure, Except.pure] at h
  cases Except.ok.inj h
  obtain ⟨a1, a2⟩ := write_count hc hg1
  constructor
  · show g1.CountGrains = _
    rw [a1]
    simp
  · show g1.reservoir.height = _
    rw [a2]
    simp

/-- Every rule but Rossum2011-diss, with a non-negative decrease amount: at or above the threshold
the per-cell `Topple` is `cell.Decrease(decrease)` followed by `Increase` calls with
non-negative amounts. -/
theorem Topple_raises {e : Engine} {dg : Option Grid} {cell : CellRef} {nb : List CellRef}
    {st : Statics} {b : Bool} {e1 : Engine} {st1 : Statics}
    (h : e.Topple dg cell nb st = Except.ok (b, e1, st1))
    (hm : e.toppling.toppling_method ≠ TopplingMethod.Rossum2011_diss)
    (hd : 0 ≤ e.toppling.decrease nb.length) :
    ∃ c, e.grid.read cell = Except.ok c ∧
      ((c.height < e.toppling.topple_threshold ∧ b = false ∧ e1 = e)
       ∨ (e.toppling.topple_threshold ≤ c.height ∧ b = true ∧
          ∃ e2, e.Decrease cell (e.toppling.decrease nb.length) = Except.ok e2
            ∧ Raises e2 e1)) := by
  have hnn : ∀ inc, normalise (e.toppling.decrease nb.length) (st.drawSplit nb.length).1
      = some inc → ∀ x, x ∈ inc → 0 ≤ x :=
    fun inc hinc => normalise_nonneg hinc hd (drawSplit_nonneg st nb.length)
  unfold Engine.Topple at h
  simp only [] at h
  obtain ⟨c, hc, h⟩ := bind_ok h
  refine ⟨c, hc, ?_⟩
  by_cases hge : c.height ≥ e.toppling.topple_threshold
  · right
    rw [if_pos hge] at h
    refine ⟨hge, ?_⟩
    cases hmeth : e.toppling.toppling_method with
    | TM_UNDEFINED =>
      simp [hmeth, throw, throwThe, MonadExceptOf.throw] at h
    | Rossum2011_diss => exact absurd hmeth hm
    | Manna_Lin2010 =>
      simp only [hmeth] at h
      obtain ⟨e2, h2, h⟩ := bind_ok h
      split at h
      · simp [throw, throwThe, MonadExceptOf.throw] at h
      · rename_i inc hinc
        obtain ⟨p, hp, h⟩ := bind_ok h
        simp only [pure, Except.pure] at h
        have := Except.ok.inj h
        simp only [Prod.mk.injEq] at this
        obtain ⟨rfl, rfl, -⟩ := this
        exact ⟨rfl, e2, h2, mannaLoop_raises nb _ e2 _ p.1 p.2 (hnn inc hinc) hp⟩
    | Bak_Tang_Wiesenfeld1987 =>
      simp only [hmeth] at h
      obtain ⟨e2, h2, h⟩ := bind_ok h
      split at h
      · simp [throw, throwThe, MonadExceptOf.throw] at h
      · rename_i inc hinc
        obtain ⟨e3, h3, h⟩ := bind_ok h
        simp only [pure, Except.pure] at h
        have := Except.ok.inj h
        simp only [Prod.mk.injEq] at this
        obtain ⟨rfl, rfl, -⟩ := this
        exact ⟨rfl, e2, h2, increaseEach_raises nb _ e2 _ (hnn inc hinc) h3⟩
    | Lin_etal2006 =>
      simp only [hmeth] at h
      obtain ⟨e2, h2, h⟩ := bind_ok h
      split at h
      · simp [throw, throwThe, MonadExceptOf.throw] at h
      · rename_i inc hinc
        split at h
        · obtain ⟨p, hp, h⟩ := bind_ok h
          simp only [pure, Except.pure] at h
          have := Except.ok.inj h
          simp only [Prod.mk.injEq] at this
          obtain ⟨rfl, rfl, -⟩ := this
          exact ⟨rfl, e2, h2, linLoop_raises _ nb _ e2 _ p.1 p.2 (hnn inc hinc) hp⟩
        · obtain ⟨e3, h3, h⟩ := bind_ok h
          simp only [pure, Except.pure] at h
          have := Except.ok.inj h
          simp only [Prod.mk.injEq] at this
          obtain ⟨rfl, rfl, -⟩ := this
          exact ⟨rfl, e2, h2, increaseEach_raises nb _ e2 _ (hnn inc hinc) h3⟩
    | Rossum2011 =>
      simp only [hmeth] at h
      split at h
      · simp [throw, throwThe, MonadExceptOf.throw] at h
      · split at h
        · simp [throw, throwThe, MonadExceptOf.throw] at h
        · obtain ⟨dref, hd, h⟩ := bind_ok h
          obtain ⟨dcell, hdc, h⟩ := bind_ok h
          obtain ⟨e2, h2, h⟩ := bind_ok h
          split at h
          · simp only [pure, Except.pure] at h
            have := Except.ok.inj h
            simp only [Prod.mk.injEq] at this
            obtain ⟨rfl, rfl, -⟩ := this
            exact ⟨rfl, e2, h2, Raises.refl _⟩
          · split at h
            · simp [throw, throwThe, MonadExceptOf.throw] at h
            · rename_i inc hinc
              obtain ⟨e3, h3, h⟩ := bind_ok h
              simp only [pure, Except.pure] at h
              have := Except.ok.inj h
              simp only [Prod.mk.injEq] at this
              obtain ⟨rfl, rfl, -⟩ := this
              exact ⟨rfl, e2, h2, increaseEach_raises nb _ e2 _ (hnn inc hinc) h3⟩
  · left
    rw [if_neg hge] at h
    simp only [pure, Except.pure] at h
    have := Except.ok.inj h
    simp only [Prod.mk.injEq] at this
    obtain ⟨rfl, rfl, -⟩ := this
    exact ⟨not_le.mp hge, rfl, rfl⟩

theorem nonneg_of_reads {g : Grid}
    (h : ∀ r c, g.read r = Except.ok c → 0 ≤ c.height) : g.NonNegative := by
  refine ⟨fun k hk => ?_, h CellRef.reservoir _ rfl⟩
  have := read_cell_of_lt g (Int.natCast_nonneg k)
    (show ((k : Nat) : Int) < (g.size : Int) by unfold Grid.size; exact_mod_cast hk)
  rw [Int.toNat_natCast] at this
  exact h _ _ this

theorem Transfer_nonneg {e e1 : Engine} {src target : CellRef} {number x : GrainType}
    (h : e.Transfer src target number = Except.ok (x, e1)) (hn : e.grid.NonNegative)
    (hnum : 0 ≤ number)
    (hcap : ∀ c, e.grid.read src = Except.ok c → 0 ≤ c.max_capacity) :
    e1.grid.NonNegative := by
  obtain ⟨s, t, hs, ht, hx, -, hreads⟩ := Transfer_reads h
  have hs0 := read_nonneg hn hs
  have ht0 := read_nonneg hn ht
  have hc0 := hcap s hs
  have hxs : x ≤ s.height := by
    rw [hx, transferAmount_eq_min]
    exact min_le_right _ _
  have hxt : 0 ≤ t.height + x := by
    rw [hx, transferAmount_eq_min]
    rcases le_total (min (s.max_capacity - t.height) number) s.height with h1 | h1
    · rw [min_eq_left h1]
      rcases le_total (s.max_capacity - t.height) number with h2 | h2
      · rw [min_eq_left h2]; linarith
      · rw [min_eq_right h2]; linarith
    · rw [min_eq_right h1]; linarith
  apply nonneg_of_reads
  intro r c1 hr
  rcases hreads r c1 hr with ⟨-, -, rfl⟩ | ⟨-, -, rfl⟩ | ⟨-, -, rfl⟩ | ⟨-, -, hr0⟩
  · show 0 ≤ s.height - x
    linarith
  · exact hxt
  · exact hs0
  · exact read_nonneg hn hr0

theorem SetDirection_nonneg {e e1 : Engine} {r : CellRef} {d : Int}
    (h : e.SetDirection r d = Except.ok e1) (hn : e.grid.NonNegative) :
    e1.grid.NonNegative := by
  obtain ⟨-, hreads⟩ := SetDirection_reads h
  apply nonneg_of_reads
  intro r1 c1 hr
  obtain ⟨c, hc, hh, -⟩ := hreads r1 c1 hr
  rw [hh]
  exact read_nonneg hn hc

/-- C37 (counterexample): the Manna-Lin rule with its default threshold 2 and the default dissipation
amount 4.  Cell 0 of `mannaEngine` has height 2, every other cell and the reservoir 0;
per-cell `Topple` on cell 0 returns true and leaves cell 0 at height -2 (it loses 4
grains, all handed to cell 2). -/
theorem C37_manna_counterexample :
    Toppling.new.SetTopplingMethod TopplingMethod.Manna_Lin2010
        = Except.ok mannaEngine.toppling
    ∧ mannaEngine.toppling.topple_threshold = 2
    ∧ mannaEngine.toppling.diss_amount = 4
    ∧ mannaEngine.grid.heights = [2, 0, 0, 0]
    ∧ mannaEngine.grid.reservoir.height = 0
    ∧ (Run.value (mannaEngine.Topple none (CellRef.cell 0)
          [CellRef.cell 1, CellRef.cell 2, CellRef.cell 3, CellRef.cell 1]
          (Statics.initial (constSeed 1)))).map (fun r => (r.1, r.2.1.grid.heights))
        = some (true, [-2, 0, 4, 0]) :=
  ⟨rfl, rfl, rfl, by decide!, rfl, by decide!⟩

/-- C37 (amended): a per-cell `Topple` that returns on a grid whose heights (cells and reservoir)
are all non-negative leaves them all non-negative, under every rule but
Rossum2011-diss when the decrease amount is non-negative and at most the toppling
threshold, and under Rossum2011-diss when the capacity of the cell is non-negative.
`SetTopplingMethod` on a new toppling gives decrease amount 4 and threshold 4 for BTW,
Lin2006 and Rossum2011 (so the condition holds), but 4 and 2 for Manna-Lin; the
capacity of every cell the grid constructor builds is 10. -/
theorem C37_topple_keeps_heights_nonnegative (e : Engine) (dg : Option Grid) (cell : CellRef)
    (nb : List CellRef) (st : Statics) (b : Bool) (e1 : Engine) (st1 : Statics)
    (hn : e.grid.NonNegative)
    (hcase : (e.toppling.toppling_method ≠ TopplingMethod.Rossum2011_diss
        ∧ 0 ≤ e.toppling.decrease nb.length
        ∧ e.toppling.decrease nb.length ≤ e.toppling.topple_threshold)
      ∨ (e.toppling.toppling_method = TopplingMethod.Rossum2011_diss
        ∧ ∀ c, e.grid.read cell = Except.ok c → 0 ≤ c.max_capacity))
    (h : e.Topple dg cell nb st = Except.ok (b, e1, st1)) :
    e1.grid.NonNegative
    ∧ (∀ m t, Toppling.new.SetTopplingMethod m = Except.ok t →
        m = TopplingMethod.Bak_Tang_Wiesenfeld1987 ∨ m = TopplingMethod.Lin_etal2006
          ∨ m = TopplingMethod.Rossum2011 →
        ∀ n, t.decrease n = 4 ∧ t.topple_threshold = 4)
    ∧ (∀ t, Toppling.new.SetTopplingMethod TopplingMethod.Manna_Lin2010 = Except.ok t →
        ∀ n, t.decrease n = 4 ∧ t.topple_threshold = 2)
    ∧ (∀ (w h0 : Nat) (bt : BoundaryType) (st0 : Statics) (k : Nat),
        ((Grid.new w h0 bt st0).1.cells k).max_capacity = 10) := by
  refine ⟨?_, ?_, ?_, fun w h0 bt st0 k => (Grid_new_fields w h0 bt st0).2.2.2.2.2.2.1 k⟩
  · rcases hcase with ⟨hm, hd0, hd1⟩ | ⟨hm, hcap⟩
    · obtain ⟨c, hc, hcase⟩ := Topple_raises h hm hd0
      rcases hcase with ⟨-, -, rfl⟩ | ⟨hge, -, e2, h2, hr⟩
      · exact hn
      · exact hr.nonneg (alter_nonneg h2 hc (by linarith) hn)
    · obtain ⟨-, c, hc, hcase⟩ := Topple_diss_cases hm h
      rcases hcase with ⟨-, rfl⟩ | ⟨-, -, -, target, x, e2, e3, -, hT, hS, hfin⟩
      · exact hn
      · have n3 := SetDirection_nonneg hS (Transfer_nonneg hT hn (by norm_num) hcap)
        rcases hfin with rfl | ⟨r, -, hS2⟩
        · exact n3
        · exact SetDirection_nonneg hS2 n3
  · intro m t ht hm n
    rcases hm with rfl | rfl | rfl <;>
    · simp only [Toppling.SetTopplingMethod, pure, Except.pure] at ht
      cases Except.ok.inj ht
      exact ⟨by simp [Toppling.decrease, Toppling.new], rfl⟩
  · intro t ht n
    simp only [Toppling.SetTopplingMethod, pure, Except.pure] at ht
    cases Except.ok.inj ht
    exact ⟨by simp [Toppling.decrease, Toppling.new], rfl⟩

/-- Witness of C37 (amended): in `hookedEngine` (BTW, threshold 4, dissipation amount 4, heights
0, 0, 4, 0) cell 2 topples onto cell 0, cell 3, the reservoir and cell 0 again. -/
theorem C37_topple_keeps_heights_nonnegative_witness :
    ∃ e1 st1, hookedEngine.Topple none (CellRef.cell 2)
        [CellRef.cell 0, CellRef.cell 3, CellRef.reservoir, CellRef.cell 0]
        (Statics.initial (constSeed 1)) = Except.ok (true, e1, st1)
      ∧ hookedEngine.grid.NonNegative
      ∧ e1.grid.NonNegative
      ∧ e1.grid.heights = [2, 0, 0, 1] := by
  have hv : (Run.value (hookedEngine.Topple none (CellRef.cell 2)
      [CellRef.cell 0, CellRef.cell 3, CellRef.reservoir, CellRef.cell 0]
      (Statics.initial (constSeed 1)))).map (fun r => (r.1, r.2.1.grid.heights))
      = some (true, [2, 0, 0, 1]) := by decide!
  have hn : hookedEngine.grid.NonNegative := by
    apply nonneg_of_reads
    intro r c hr
    cases r with
    | reservoir =>
      simp only [Grid.read, pure, Except.pure] at hr
      cases Except.ok.inj hr
      decide!
    | cell n =>
      obtain ⟨h0, h1, rfl⟩ := read_cell_ok hr
      have h4 : n < 4 := h1
      interval_cases n <;> decide!
  cases h : hookedEngine.Topple none (CellRef.cell 2)
      [CellRef.cell 0, CellRef.cell 3, CellRef.reservoir, CellRef.cell 0]
      (Statics.initial (constSeed 1)) with
  | error err =>
    rw [h] at hv
    simp [Run.value] at hv
  | ok p =>
    obtain ⟨b, e1, st1⟩ := p
    rw [h] at hv
    simp only [Run.value, Option.map_some', Option.some.injEq, Prod.mk.injEq] at hv
    obtain ⟨rfl, hh⟩ := hv
    obtain ⟨hn1, -⟩ := C37_topple_keeps_heights_nonnegative hookedEngine none (CellRef.cell 2)
      [CellRef.cell 0, CellRef.cell 3, CellRef.reservoir, CellRef.cell 0]
      (Statics.initial (constSeed 1)) true e1 st1 hn
      (Or.inl ⟨by decide, by decide!, by decide!⟩) h
    exact ⟨e1, st1, rfl, hn, hn1, hh⟩

/-! ### Properties of the grid that every per-cell step keeps -/

theorem visit_frame {e : Engine} {dg : Option Grid} {fuel : Nat} {idx : Int} {st : Statics}
    {b : Bool} {e1 : Engine} {st1 : Statics}
    (h : e.visit dg fuel idx st = Except.ok (b, e1, st1)) : Engine.Frame e e1 := by
  obtain ⟨nb, st0, -, ht⟩ := visit_ok h
  exact (Topple_frame_all ht).1

/-- A property of the grid that every step of the loop keeps holds after the `for` loop of a
pass. -/
theorem sweep_invariant (I : Grid → Prop) (dg : Option Grid) (fuel : Nat) (e0 : Engine)
    (hstep : ∀ (e : Engine) (idx : Int) (st : Statics) (b : Bool) (e1 : Engine)
      (st1 : Statics), Engine.Frame e0 e → I e.grid →
      e.visit dg fuel idx st = Except.ok (b, e1, st1) → I e1.grid) :
    ∀ (l : List Int) (e : Engine) (st : Statics) (k : Nat) (e1 : Engine) (st1 : Statics),
      Engine.Frame e0 e → I e.grid →
      Engine.sweep dg fuel l e st = Except.ok (k, e1, st1) → I e1.grid
  | [], e, st, k, e1, st1, _, hi, h => by
    simp only [Engine.sweep, pure, Except.pure] at h
    have := Except.ok.inj h
    simp only [Prod.mk.injEq] at this
    obtain ⟨-, rfl, -⟩ := this
    exact hi
  | idx :: rest, e, st, k, e1, st1, hf, hi, h => by
    simp only [Engine.sweep] at h
    obtain ⟨p, hp, h⟩ := bind_ok h
    obtain ⟨q, hq, h⟩ := bind_ok h
    simp only [pure, Except.pure] at h
    have := Except.ok.inj h
    simp only [Prod.mk.injEq] at this
    obtain ⟨-, rfl, -⟩ := this
    have hp1 : e.visit dg fuel idx st = Except.ok (p.1, p.2.1, p.2.2) := hp
    exact sweep_invariant I dg fuel e0 hstep rest p.2.1 p.2.2 q.1 q.2.1 q.2.2
      (hf.frame_trans (visit_frame hp1)) (hstep e idx st p.1 p.2.1 p.2.2 hf hi hp1) hq

/-- A property of the grid that every step keeps holds after a pass. -/
theorem pass_invariant (I : Grid → Prop) (dg : Option Grid) (fuel : Nat) (e0 : Engine)
    (hstep : ∀ (e : Engine) (idx : Int) (st : Statics) (b : Bool) (e1 : Engine)
      (st1 : Statics), Engine.Frame e0 e → I e.grid →
      e.visit dg fuel idx st = Except.ok (b, e1, st1) → I e1.grid)
    {e : Engine} {it_n : Nat} {st : Statics} {k : Nat} {quit : Bool} {e1 : Engine}
    {st1 : Statics} (hf : Engine.Frame e0 e) (hi : I e.grid)
    (h : e.pass dg fuel it_n st = Except.ok (k, quit, e1, st1)) : I e1.grid := by
  unfold Engine.pass at h
  simp only [] at h
  split at h
  · split at h
    · simp [throw, throwThe, MonadExceptOf.throw] at h
    · obtain ⟨p, hp, h⟩ := bind_ok h
      simp only [pure, Except.pure] at h
      have := Except.ok.inj h
      simp only [Prod.mk.injEq] at this
      obtain ⟨-, -, rfl, -⟩ := this
      have key := fun hf1 hi1 =>
        sweep_invariant I dg fuel e0 hstep _ _ _ p.1 p.2.1 p.2.2 hf1 hi1 hp
      exact key (hf.frame_trans (Frame.of_toppling rfl rfl rfl rfl rfl rfl rfl rfl rfl)) hi
  · split at h
    · simp [throw, throwThe, MonadExceptOf.throw] at h
    · obtain ⟨p, hp, h⟩ := bind_ok h
      simp only [pure, Except.pure] at h
      have := Except.ok.inj h
      simp only [Prod.mk.injEq] at this
      obtain ⟨-, -, rfl, -⟩ := this
      have key := fun hf1 hi1 =>
        sweep_invariant I dg fuel e0 hstep _ _ _ p.1 p.2.1 p.2.2 hf1 hi1 hp
      exact key (hf.frame_trans (Frame.of_toppling rfl rfl rfl rfl rfl rfl rfl rfl rfl)) hi
  · obtain ⟨t2, ht2, h⟩ := bind_ok h
    obtain ⟨p, hp, h⟩ := bind_ok h
    obtain ⟨t3, ht3, h⟩ := bind_ok h
    simp only [pure, Except.pure] at h
    have := Except.ok.inj h
    simp only [Prod.mk.injEq] at this
    obtain ⟨-, -, rfl, -⟩ := this
    have c2 := countGrains_ok ht2
    simp only [] at c2
    have f0 : Engine.Frame e { e with toppling := t2 } :=
      Frame.of_toppling c2.2.1 c2.2.2.1 c2.2.2.2.1 c2.2.2.2.2.1 c2.2.2.2.2.2.1 c2.2.2.2.2.2.2.1
        c2.2.2.2.2.2.2.2.1 c2.2.2.2.2.2.2.2.2.1 c2.2.2.2.2.2.2.2.2.2.1
    have key := fun hf1 hi1 =>
      sweep_invariant I dg fuel e0 hstep _ _ _ p.1 p.2.1 p.2.2 hf1 hi1 hp
    exact key (hf.frame_trans f0) hi

/-- A property of the grid that every step keeps holds after the relaxation loop. -/
theorem toppleLoop_invariant (I : Grid → Prop) (dg : Option Grid) (fuel : Nat) (e0 : Engine)
    (hstep : ∀ (e : Engine) (idx : Int) (st : Statics) (b : Bool) (e1 : Engine)
      (st1 : Statics), Engine.Frame e0 e → I e.grid →
      e.visit dg fuel idx st = Except.ok (b, e1, st1) → I e1.grid) :
    ∀ (passes it_n : Nat) (av : Int) (e : Engine) (st : Statics) (a : Int) (e1 : Engine)
      (st1 : Statics), Engine.Frame e0 e → I e.grid →
      Engine.toppleLoop dg fuel passes it_n av e st = Except.ok (a, e1, st1) → I e1.grid
  | 0, _, _, _, _, _, _, _, _, _, h => by
    simp [Engine.toppleLoop, throw, throwThe, MonadExceptOf.throw] at h
  | passes + 1, it_n, av, e, st, a, e1, st1, hf, hi, h => by
    simp only [Engine.toppleLoop] at h
    obtain ⟨p, hp, h⟩ := bind_ok h
    have hp1 : e.pass dg fuel it_n st = Except.ok (p.1, p.2.1, p.2.2.1, p.2.2.2) := hp
    have hi1 := pass_invariant I dg fuel e0 hstep hf hi hp1
    have hf1 := (pass_general hp1).1
    by_cases hq : p.2.1 = true
    · rw [if_pos hq] at h
      simp only [pure, Except.pure] at h
      have := Except.ok.inj h
      simp only [Prod.mk.injEq] at this
      obtain ⟨-, rfl, -⟩ := this
      exact hi1
    · rw [if_neg hq] at h
      exact toppleLoop_invariant I dg fuel e0 hstep passes (it_n + 1) (av + p.1) p.2.2.1 p.2.2.2
        a e1 st1 (hf.frame_trans hf1) hi1 h

/-! ### The dissipation grid stays within its capacity -/

theorem within_of_reads {g : Grid} {C : GrainType}
    (h : ∀ n c, g.read (CellRef.cell n) = Except.ok c →
      c.max_capacity = C ∧ 0 ≤ c.height ∧ c.height ≤ C) : g.Within C := by
  intro k hk
  have := read_cell_of_lt g (Int.natCast_nonneg k)
    (show ((k : Nat) : Int) < (g.size : Int) by unfold Grid.size; exact_mod_cast hk)
  rw [Int.toNat_natCast] at this
  exact h _ _ this

theorem read_within {g : Grid} {C : GrainType} {n : Int} {c : Cell} (hw : g.Within C)
    (hc : g.read (CellRef.cell n) = Except.ok c) :
    c.max_capacity = C ∧ 0 ≤ c.height ∧ c.height ≤ C := by
  obtain ⟨h0, h1, rfl⟩ := read_cell_ok hc
  exact hw _ (by unfold Grid.size at h1; omega)

theorem Transfer_within {e e1 : Engine} {a b : Int} {x C : GrainType}
    (h : e.Transfer (CellRef.cell a) (CellRef.cell b) 1 = Except.ok (x, e1))
    (hw : e.grid.Within C) : e1.grid.Within C := by
  obtain ⟨s, t, hs, ht, hx, -, hreads⟩ := Transfer_reads h
  obtain ⟨s1, s2, s3⟩ := read_within hw hs
  obtain ⟨t1, t2, t3⟩ := read_within hw ht
  have hx0 : 0 ≤ x := by
    rw [hx, transferAmount_eq_min]
    exact le_min (le_min (by linarith) (by norm_num)) s2
  have hxs : x ≤ s.height := by
    rw [hx, transferAmount_eq_min]
    exact min_le_right _ _
  have hxt : x ≤ C - t.height := by
    rw [hx, transferAmount_eq_min, s1]
    exact le_trans (min_le_left _ _) (min_le_left _ _)
  apply within_of_reads
  intro n c1 hr
  rcases hreads _ c1 hr with ⟨-, -, rfl⟩ | ⟨-, -, rfl⟩ | ⟨-, -, rfl⟩ | ⟨-, -, hr0⟩
  · refine ⟨s1, ?_, ?_⟩
    · show 0 ≤ s.height - x
      linarith
    · show s.height - x ≤ C
      linarith
  · refine ⟨t1, ?_, ?_⟩
    · show 0 ≤ t.height + x
      linarith
    · show t.height + x ≤ C
      linarith
  · exact ⟨s1, s2, s3⟩
  · exact read_within hw hr0

theorem SetDirection_within {e e1 : Engine} {r : CellRef} {d : Int} {C : GrainType}
    (h : e.SetDirection r d = Except.ok e1) (hw : e.grid.Within C) : e1.grid.Within C := by
  obtain ⟨-, hreads⟩ := SetDirection_reads h
  apply within_of_reads
  intro n c1 hr
  obtain ⟨c, hc, hh, hcap, -⟩ := hreads _ c1 hr
  rw [hh, hcap]
  exact read_within hw hc

/-- A per-cell `Topple` under Rossum2011-diss on an array cell whose neighbour entries are array
cells keeps the heights within the capacity and the grain count. -/
theorem Topple_diss_within {e : Engine} {dg : Option Grid} {n : Int} {nb : List CellRef}
    {st : Statics} {b : Bool} {e1 : Engine} {st1 : Statics} {C : GrainType}
    (hm : e.toppling.toppling_method = TopplingMethod.Rossum2011_diss)
    (hnb : ∀ r, r ∈ nb → r ≠ CellRef.reservoir) (hw : e.grid.Within C)
    (h : e.Topple dg (CellRef.cell n) nb st = Except.ok (b, e1, st1)) :
    e1.grid.Within C ∧ e1.grid.CountGrains = e.grid.CountGrains := by
  obtain ⟨-, c, hc, hcase⟩ := Topple_diss_cases hm h
  rcases hcase with ⟨-, rfl⟩ | ⟨-, -, -, target, x, e2, e3, htarget, hT, hS, hfin⟩
  · exact ⟨hw, rfl⟩
  · have hne : target ≠ CellRef.reservoir := hnb target (List.getElem?_mem htarget)
    cases target with
    | reservoir => exact absurd rfl hne
    | cell m =>
      have w2 := Transfer_within hT hw
      have c2 := (Transfer_count hT).2 (by simp) (by simp)
      have w3 := SetDirection_within hS w2
      have c3 := (SetDirection_count hS).1
      rcases hfin with rfl | ⟨r, -, hS2⟩
      · exact ⟨w3, c3.trans c2⟩
      · exact ⟨SetDirection_within hS2 w3, ((SetDirection_count hS2).1.trans c3).trans c2⟩

theorem visit_diss_within {e : Engine} {dg : Option Grid} {fuel : Nat} {idx : Int}
    {st : Statics} {b : Bool} {e1 : Engine} {st1 : Statics} {C : GrainType}
    (hm : e.toppling.toppling_method = TopplingMethod.Rossum2011_diss)
    (hb : e.grid.boundary_type = BoundaryType.BT_PERIODIC) (hw : e.grid.Within C)
    (h : e.visit dg fuel idx st = Except.ok (b, e1, st1)) :
    e1.grid.Within C ∧ e1.grid.CountGrains = e.grid.CountGrains := by
  obtain ⟨nb, st0, hnb, ht⟩ := visit_ok h
  exact Topple_diss_within hm (GetNeighbours_periodic_cells hb hnb) hw ht

/-- C38: on a Periodic grid under the Rossum2011-diss rule whose cells all have the capacity `C` and
heights in `[0, C]`: every per-cell `Topple` that returns, on an array cell with array
cells as neighbour entries (as `GetNeighbours` gives them on this grid), leaves every
height in `[0, C]`, every capacity at `C` and `CountGrains()` unchanged; hence so does every
relaxation `Topple(avalanche_size)` of that grid that returns. -/
theorem C38_dissipation_grid_bounded (e : Engine) (C : GrainType)
    (hm : e.toppling.toppling_method = TopplingMethod.Rossum2011_diss)
    (hb : e.grid.boundary_type = BoundaryType.BT_PERIODIC) (hw : e.grid.Within C) :
    (∀ (dg : Option Grid) (n : Int) (nb : List CellRef) (st : Statics) (b : Bool)
        (e1 : Engine) (st1 : Statics), (∀ r, r ∈ nb → r ≠ CellRef.reservoir) →
        e.Topple dg (CellRef.cell n) nb st = Except.ok (b, e1, st1) →
        e1.grid.Within C ∧ e1.grid.CountGrains = e.grid.CountGrains)
    ∧ (∀ (dg : Option Grid) (fuel : Nat) (idx : Int) (st : Statics) (b : Bool)
        (e1 : Engine) (st1 : Statics),
        e.visit dg fuel idx st = Except.ok (b, e1, st1) →
        e1.grid.Within C ∧ e1.grid.CountGrains = e.grid.CountGrains)
    ∧ (∀ (dg : Option Grid) (av : Int) (st : Statics) (fuel : Nat) (a : Int)
        (e1 : Engine) (st1 : Statics),
        e.ToppleAll dg av st fuel = Except.ok (a, e1, st1) →
        e1.grid.Within C ∧ e1.grid.CountGrains = e.grid.CountGrains) := by
  refine ⟨fun dg n nb st b e1 st1 hnb h => Topple_diss_within hm hnb hw h,
    fun dg fuel idx st b e1 st1 h => visit_diss_within hm hb hw h,
    fun dg av st fuel a e1 st1 h => ?_⟩
  unfold Engine.ToppleAll at h
  refine toppleLoop_invariant
    (fun g => g.Within C ∧ g.CountGrains = e.grid.CountGrains) dg fuel e ?_ fuel 0 0 e st a e1 st1
    (Engine.Frame.refl e) ⟨hw, rfl⟩ h
  intro e2 idx st2 b e3 st3 hf hi hv
  obtain ⟨w3, c3⟩ := visit_diss_within (hf.method.trans hm) (hf.boundary_type.trans hb) hi.1 hv
  exact ⟨w3, c3.trans hi.2⟩

/-- Witness of C38: `dissRelaxEngine` (2 by 2, Periodic, capacity 10, heights 3, 0, 0, 0): a relaxation
returns with avalanche size 0 and leaves 3 grains in the grid. -/
theorem C38_dissipation_grid_bounded_witness :
    ∃ e1 st1, dissRelaxEngine.ToppleAll none 0 (Statics.initial (constSeed 2147483648)) 2
        = Except.ok (0, e1, st1)
      ∧ dissRelaxEngine.grid.Within 10
      ∧ e1.grid.Within 10
      ∧ e1.grid.CountGrains = dissRelaxEngine.grid.CountGrains
      ∧ dissRelaxEngine.grid.CountGrains = 3 := by
  have hw : dissRelaxEngine.grid.Within 10 := by
    intro k hk
    have h4 : k < 4 := hk
    interval_cases k <;> decide!
  have hv : (Run.value (dissRelaxEngine.ToppleAll none 0
      (Statics.initial (constSeed 2147483648)) 2)).map (fun r => r.1) = some 0 := by decide!
  cases h : dissRelaxEngine.ToppleAll none 0 (Statics.initial (constSeed 2147483648)) 2 with
  | error err =>
    rw [h] at hv
    simp [Run.value] at hv
  | ok p =>
    obtain ⟨a, e1, st1⟩ := p
    rw [h] at hv
    simp only [Run.value, Option.map_some', Option.some.injEq] at hv
    subst hv
    obtain ⟨w1, c1⟩ := (C38_dissipation_grid_bounded dissRelaxEngine 10 rfl rfl hw).2.2
      none 0 (Statics.initial (constSeed 2147483648)) 2 0 e1 st1 h
    exact ⟨e1, st1, rfl, hw, w1, c1, by decide!⟩

/-! ### Directions stay among the four neighbour positions -/

theorem directions_of_reads {g : Grid}
    (h : ∀ r c, g.read r = Except.ok c → 0 ≤ c.direction ∧ c.direction < 4) :
    g.DirectionsInRange := by
  refine ⟨fun k hk => ?_, h CellRef.reservoir _ rfl⟩
  have := read_cell_of_lt g (Int.natCast_nonneg k)
    (show ((k : Nat) : Int) < (g.size : Int) by unfold Grid.size; exact_mod_cast hk)
  rw [Int.toNat_natCast] at this
  exact h _ _ this

theorem read_direction {g : Grid} {r : CellRef} {c : Cell} (hd : g.DirectionsInRange)
    (hc : g.read r = Except.ok c) : 0 ≤ c.direction ∧ c.direction < 4 := by
  cases r with
  | reservoir =>
    simp only [Grid.read, pure, Except.pure] at hc
    cases Except.ok.inj hc
    exact hd.2
  | cell n =>
    obtain ⟨h0, h1, rfl⟩ := read_cell_ok hc
    exact hd.1 _ (by unfold Grid.size at h1; omega)

theorem alter_reads {e e1 : Engine} {r : CellRef} {f : GrainType → GrainType}
    (h : e.alter r f = Except.ok e1) :
    ∀ r1 c1, e1.grid.read r1 = Except.ok c1 →
      ∃ c, e.grid.read r1 = Except.ok c ∧ c1.direction = c.direction
        ∧ c1.max_capacity = c.max_capacity ∧ c1.id = c.id := by
  unfold Engine.alter at h
  obtain ⟨c, hc, h⟩ := bind_ok h
  obtain ⟨g1, hg1, h⟩ := bind_ok h
  have hgrid : e1.grid = g1 := by
    cases r with
    | reservoir =>
      simp only [pure, Except.pure] at h
      cases Except.ok.inj h
      rfl
    | cell n =>
      simp only [] at h
      split_ifs at h <;>
      · simp only [pure, Except.pure] at h
        cases Except.ok.inj h
        rfl
  intro r1 c1 hr
  rw [hgrid] at hr
  by_cases h1 : r1 = r
  · subst h1
    rw [read_write_same hg1] at hr
    cases Except.ok.inj hr
    exact ⟨c, hc, rfl, rfl, rfl⟩
  · rw [read_write_other hg1 h1] at hr
    exact ⟨c1, hr, rfl, rfl, rfl⟩

theorem Alters.directions {e e1 : Engine} (h : Alters e e1) (hd : e.grid.DirectionsInRange) :
    e1.grid.DirectionsInRange := by
  induction h with
  | refl e => exact hd
  | step r f h _ ih =>
    apply ih
    apply directions_of_reads
    intro r1 c1 hr
    obtain ⟨c, hc, hdir, -⟩ := alter_reads h r1 c1 hr
    rw [hdir]
    exact read_direction hd hc

theorem Transfer_directions {e e1 : Engine} {src target : CellRef} {number x : GrainType}
    (h : e.Transfer src target number = Except.ok (x, e1)) (hd : e.grid.DirectionsInRange) :
    e1.grid.DirectionsInRange := by
  obtain ⟨s, t, hs, ht, -, -, hreads⟩ := Transfer_reads h
  apply directions_of_reads
  intro r c1 hr
  rcases hreads r c1 hr with ⟨-, -, rfl⟩ | ⟨-, -, rfl⟩ | ⟨-, -, rfl⟩ | ⟨-, -, hr0⟩
  · exact (read_direction hd hs : 0 ≤ s.direction ∧ s.direction < 4)
  · exact (read_direction hd ht : 0 ≤ t.direction ∧ t.direction < 4)
  · exact read_direction hd hs
  · exact read_direction hd hr0

theorem SetDirection_directions {e e1 : Engine} {r : CellRef} {d : Int}
    (h : e.SetDirection r d = Except.ok e1) (hd : e.grid.DirectionsInRange)
    (h0 : 0 ≤ d) (h4 : d < 4) : e1.grid.DirectionsInRange := by
  obtain ⟨-, hreads⟩ := SetDirection_reads h
  apply directions_of_reads
  intro r1 c1 hr
  obtain ⟨c, hc, -, -, hcase⟩ := hreads r1 c1 hr
  rcases hcase with ⟨-, hdir⟩ | ⟨-, rfl⟩
  · rw [hdir]; exact ⟨h0, h4⟩
  · exact read_direction hd hc

/-- The per-cell `Topple` with four neighbour entries keeps the directions among 0, 1, 2, 3, under
every rule. -/
theorem Topple_directions {e : Engine} {dg : Option Grid} {cell : CellRef} {nb : List CellRef}
    {st : Statics} {b : Bool} {e1 : Engine} {st1 : Statics}
    (hd : e.grid.DirectionsInRange) (hlen : nb.length = 4)
    (h : e.Topple dg cell nb st = Except.ok (b, e1, st1)) : e1.grid.DirectionsInRange := by
  by_cases hm : e.toppling.toppling_method = TopplingMethod.Rossum2011_diss
  · obtain ⟨-, c, hc, hcase⟩ := Topple_diss_cases hm h
    rcases hcase with ⟨-, rfl⟩ | ⟨-, -, -, target, x, e2, e3, -, hT, hS, hfin⟩
    · exact hd
    · obtain ⟨c0, c4⟩ := read_direction hd hc
      have d3 := SetDirection_directions hS (Transfer_directions hT hd) c0 c4
      rcases hfin with rfl | ⟨r, -, hS2⟩
      · exact d3
      · refine SetDirection_directions hS2 d3 (Int.natCast_nonneg _) ?_
        have : st.toppleGenerator.tail.below nb.length < 4 := by
          rw [hlen]
          exact Nat.mod_lt _ (by norm_num)
        exact_mod_cast this
  · obtain ⟨c, -, hcase⟩ := Topple_cases h hm
    rcases hcase with ⟨-, -, rfl⟩ | ⟨-, -, e2, h2, ha⟩
    · exact hd
    · exact ha.directions ((Alters.single h2).directions hd)

theorem Grid_new_directions (w h : Nat) (bt : BoundaryType) (st : Statics) :
    (Grid.new w h bt st).1.DirectionsInRange := by
  have h4 : ∀ n : Nat, (0 : Int) ≤ ((n % 4 : Nat) : Int) ∧ ((n % 4 : Nat) : Int) < 4 := by
    intro n
    have := Nat.mod_lt n (show 0 < 4 by norm_num)
    omega
  refine ⟨fun k _ => ?_, ?_⟩
  · simp only [Grid.new]
    exact h4 _
  · simp only [Grid.new, Gen.below]
    exact h4 _

/-- Under Rossum2011-diss the per-cell `Topple` returns (false) when the direction of the cell is an
index of the neighbour list and the pointers are good. -/
theorem Topple_diss_returns {e : Engine} (dg : Option Grid) {cell : CellRef}
    {nb : List CellRef} (st : Statics) {c : Cell}
    (hm : e.toppling.toppling_method = TopplingMethod.Rossum2011_diss)
    (hc : e.grid.read cell = Except.ok c) (h0 : 0 ≤ c.direction)
    (h1 : c.direction.toNat < nb.length) (hnb : ∀ r, r ∈ nb → e.grid.holds r = true) :
    ∃ e1 st1, e.Topple dg cell nb st = Except.ok (false, e1, st1) := by
  obtain ⟨target, htarget, htm⟩ : ∃ target, nb[c.direction.toNat]? = some target ∧ target ∈ nb :=
    ⟨_, List.getElem?_eq_getElem h1, List.getElem_mem h1⟩
  obtain ⟨x, e2, hT⟩ := Transfer_returns e 1 (holds_of_read hc) (hnb target htm)
  have f2 := (Transfer_frame hT).1
  have hh2 : ∀ r, e2.grid.holds r = e.grid.holds r := fun r =>
    holds_same_size (show e2.grid.size = e.grid.size by
      simp only [Grid.size, f2.width, f2.height]) r
  obtain ⟨e3, hS⟩ := SetDirection_returns e2 c.direction
    (show e2.grid.holds target = true by rw [hh2]; exact hnb target htm)
  have f3 := (SetDirection_frame hS).1
  have hh3 : ∀ r, e3.grid.holds r = e.grid.holds r := fun r => by
    rw [holds_same_size (show e3.grid.size = e2.grid.size by
      simp only [Grid.size, f3.width, f3.height]) r, hh2]
  have hsize : 0 < nb.length := by omega
  have hlt : st.toppleGenerator.below nb.length < nb.length := Nat.mod_lt _ hsize
  obtain ⟨r, hr, hrm⟩ : ∃ r, nb[st.toppleGenerator.below nb.length]? = some r ∧ r ∈ nb :=
    ⟨_, List.getElem?_eq_getElem hlt, List.getElem_mem hlt⟩
  obtain ⟨e4, hS2⟩ := SetDirection_returns e3
    ((st.toppleGenerator.tail.below nb.length : Nat) : Int)
    (show e3.grid.holds r = true by rw [hh3]; exact hnb r hrm)
  unfold Engine.Topple
  simp only [hc, bind, Except.bind, hm]
  split_ifs <;>
    simp only [htarget, hT, hS, hr, hS2, pure, Except.pure] <;>
    exact ⟨_, _, rfl⟩

/-- C39: every cell the grid constructor builds, the reservoir included, has a direction among
0, 1, 2, 3 (as has every cell `Cell::Cell` constructs).  On a grid whose directions are
among these four, with a neighbour list of 4 entries: every per-cell `Topple` that
returns, under every rule, leaves the directions among the four; the direction of
the cell selects an entry of the neighbour list; and under Rossum2011-diss the call
does return (false) when the pointers are good. -/
theorem C39_directions_in_range (e : Engine) (cell : CellRef) (nb : List CellRef)
    (hd : e.grid.DirectionsInRange) (hlen : nb.length = 4) :
    (∀ (dg : Option Grid) (st : Statics) (b : Bool) (e1 : Engine) (st1 : Statics),
        e.Topple dg cell nb st = Except.ok (b, e1, st1) → e1.grid.DirectionsInRange)
    ∧ (∀ c, e.grid.read cell = Except.ok c →
        0 ≤ c.direction ∧ c.direction < 4 ∧ ∃ target, nb[c.direction.toNat]? = some target)
    ∧ (e.toppling.toppling_method = TopplingMethod.Rossum2011_diss →
        e.grid.holds cell = true → (∀ r, r ∈ nb → e.grid.holds r = true) →
        ∀ (dg : Option Grid) (st : Statics),
          ∃ e1 st1, e.Topple dg cell nb st = Except.ok (false, e1, st1))
    ∧ (∀ (w h : Nat) (bt : BoundaryType) (st : Statics),
        (Grid.new w h bt st).1.DirectionsInRange)
    ∧ (∀ st : Statics, 0 ≤ (Cell.new st).1.direction ∧ (Cell.new st).1.direction < 4) := by
  have hlook : ∀ c, e.grid.read cell = Except.ok c →
      0 ≤ c.direction ∧ c.direction < 4 ∧ c.direction.toNat < nb.length := by
    intro c hc
    obtain ⟨c0, c4⟩ := read_direction hd hc
    exact ⟨c0, c4, by rw [hlen]; omega⟩
  refine ⟨fun dg st b e1 st1 h => Topple_directions hd hlen h, fun c hc => ?_,
    fun hm hcell hnb dg st => ?_, Grid_new_directions, fun st => ?_⟩
  · obtain ⟨c0, c4, hlt⟩ := hlook c hc
    exact ⟨c0, c4, _, List.getElem?_eq_getElem hlt⟩
  · obtain ⟨c, hc⟩ := read_returns hcell
    obtain ⟨c0, -, hlt⟩ := hlook c hc
    exact Topple_diss_returns dg st hm hc c0 hlt hnb
  · simp only [Cell.new, Gen.below]
    have := Nat.mod_lt ((st.cellGen.getD (st.seed st.direction_feed)) 0) (show 0 < 4 by norm_num)
    omega

/-- Witness of C39: cell 0 of `dissEngine 0` with the neighbour entries cell 2, cell 1, cell 2,
cell 1. -/
theorem C39_directions_in_range_witness :
    (dissEngine 0).grid.DirectionsInRange
    ∧ (∃ e1 st1, (dissEngine 0).Topple none (CellRef.cell 0)
          [CellRef.cell 2, CellRef.cell 1, CellRef.cell 2, CellRef.cell 1]
          (Statics.initial (constSeed 1)) = Except.ok (false, e1, st1)
        ∧ e1.grid.DirectionsInRange) := by
  have hd : (dissEngine 0).grid.DirectionsInRange := by
    refine ⟨fun k hk => ?_, by decide, by decide⟩
    have h4 : k < 4 := hk
    interval_cases k <;> decide
  obtain ⟨h1, -, h3, -⟩ := C39_directions_in_range (dissEngine 0) (CellRef.cell 0)
    [CellRef.cell 2, CellRef.cell 1, CellRef.cell 2, CellRef.cell 1] hd rfl
  obtain ⟨e1, st1, h⟩ := h3 rfl (by decide) (by decide) none (Statics.initial (constSeed 1))
  exact ⟨hd, e1, st1, h, h1 none _ false e1 st1 h⟩

/-! ### The relaxation of the dissipation toppling -/

/-- The cell in row `a` and column `b` of the grid is a cell of the array. -/
theorem cell_index_holds (g : Grid) {a b : Int} (ha : 0 ≤ a) (ha2 : a < (g.height : Int))
    (hb : 0 ≤ b) (hb2 : b < (g.width : Int)) :
    g.holds (CellRef.cell (a * (g.width : Int) + b)) = true := by
  simp only [Grid.holds, Grid.size, decide_eq_true_eq]
  push_cast
  constructor
  · have := mul_nonneg ha (le_trans hb hb2.le)
    omega
  · have h1 : a * (g.width : Int) ≤ ((g.height : Int) - 1) * (g.width : Int) :=
      mul_le_mul_of_nonneg_right (by omega) (le_trans hb hb2.le)
    nlinarith

/-- Shuffling a table whose first `n` entries are below `n` leaves such a table. -/
theorem random_shuffle_lt (n : Nat) (a : Nat → Nat) (st : Statics)
    (ha : ∀ k, k < n → a k < n) (k : Nat) (hk : k < n) :
    (random_shuffle boost_random n a st).1 k < n := by
  have hp := shuffleLoop_perm boost_random boost_random_lt n (n - 1) 1 a st (by omega)
  have hmem : (random_shuffle boost_random n a st).1 k
      ∈ (List.range n).map (shuffleLoop boost_random 1 (n - 1) a st).1 :=
    List.mem_map.mpr ⟨k, List.mem_range.mpr hk, rfl⟩
  obtain ⟨k1, hk1, he⟩ := List.mem_map.mp (hp.subset hmem)
  rw [← he]
  exact ha k1 (List.mem_range.mp hk1)

/-- Under Rossum2011-diss on a periodic grid whose directions are in range, one iteration of the
`for` loop at a cell of the grid returns with the result false and keeps the directions
in range. -/
theorem visit_diss_returns {e : Engine} (dg : Option Grid) (fuel : Nat) (st : Statics)
    (hm : e.toppling.toppling_method = TopplingMethod.Rossum2011_diss)
    (hb : e.grid.boundary_type = BoundaryType.BT_PERIODIC)
    (hd : e.grid.DirectionsInRange) {n : Nat} (hn : n < e.grid.width * e.grid.height) :
    ∃ e1 st1, e.visit dg fuel (n : Int) st = Except.ok (false, e1, st1)
      ∧ e1.grid.DirectionsInRange := by
  have hw : 0 < e.grid.width := by
    rcases Nat.eq_zero_or_pos e.grid.width with h0 | h
    · rw [h0] at hn; simp at hn
    · exact h
  have hi : (n : Int).tmod (e.grid.width : Int) = ((n % e.grid.width : Nat) : Int) :=
    (Int.ofNat_tmod n e.grid.width).symm
  have hj : (n : Int).tdiv (e.grid.width : Int) = ((n / e.grid.width : Nat) : Int) :=
    (Int.ofNat_tdiv n e.grid.width).symm
  have i0 : (0 : Int) ≤ ((n % e.grid.width : Nat) : Int) := Int.natCast_nonneg _
  have i1 : ((n % e.grid.width : Nat) : Int) < (e.grid.width : Int) := by
    exact_mod_cast Nat.mod_lt n hw
  have j0 : (0 : Int) ≤ ((n / e.grid.width : Nat) : Int) := Int.natCast_nonneg _
  have j1 : ((n / e.grid.width : Nat) : Int) < (e.grid.height : Int) := by
    exact_mod_cast Nat.div_lt_of_lt_mul hn
  have hh : (0 : Int) < (e.grid.height : Int) := lt_of_le_of_lt j0 j1
  have hwi : (0 : Int) < (e.grid.width : Int) := by exact_mod_cast hw
  have hcell := cell_index_holds e.grid j0 j1 i0 i1
  obtain ⟨c, hc⟩ := read_returns hcell
  obtain ⟨c0, c4⟩ := read_direction hd hc
  have hnb : ∀ r, r ∈ [CellRef.cell (((((n / e.grid.width : Nat) : Int) - 1)
        % (e.grid.height : Int)) * (e.grid.width : Int) + ((n % e.grid.width : Nat) : Int)),
      CellRef.cell (((n / e.grid.width : Nat) : Int) * (e.grid.width : Int)
        + (((n % e.grid.width : Nat) : Int) - 1) % (e.grid.width : Int)),
      CellRef.cell (((((n / e.grid.width : Nat) : Int) + 1)
        % (e.grid.height : Int)) * (e.grid.width : Int) + ((n % e.grid.width : Nat) : Int)),
      CellRef.cell (((n / e.grid.width : Nat) : Int) * (e.grid.width : Int)
        + (((n % e.grid.width : Nat) : Int) + 1) % (e.grid.width : Int))] →
      e.grid.holds r = true := by
    intro r hr
    simp only [List.mem_cons, List.mem_singleton, List.not_mem_nil, or_false] at hr
    rcases hr with rfl | rfl | rfl | rfl
    · exact cell_index_holds e.grid (Int.emod_nonneg _ hh.ne') (Int.emod_lt_of_pos _ hh) i0 i1
    · exact cell_index_holds e.grid j0 j1 (Int.emod_nonneg _ hwi.ne') (Int.emod_lt_of_pos _ hwi)
    · exact cell_index_holds e.grid (Int.emod_nonneg _ hh.ne') (Int.emod_lt_of_pos _ hh) i0 i1
    · exact cell_index_holds e.grid j0 j1 (Int.emod_nonneg _ hwi.ne') (Int.emod_lt_of_pos _ hwi)
  obtain ⟨e1, st1, ht⟩ := Topple_diss_returns dg st hm hc c0
    (show c.direction.toNat < List.length _ by simp only [List.length]; omega) hnb
  have hdir : List.length _ = 4 → e1.grid.DirectionsInRange :=
    fun hl => Topple_directions hd hl ht
  refine ⟨e1, st1, ?_, hdir rfl⟩
  unfold Engine.visit
  simp only [hi, hj]
  rw [GetNeighbours_periodic e.grid _ _ st fuel hb i0 i1 j0 j1, GetCell_of_lt e.grid i1 j1]
  exact ht

/-- Under Rossum2011-diss on a periodic grid whose directions are in range, the `for` loop over
cells of the grid returns; every per-cell call returns false. -/
theorem sweepLog_diss_returns (dg : Option Grid) (fuel : Nat) :
    ∀ (l : List Nat) (e : Engine) (st : Statics),
      e.toppling.toppling_method = TopplingMethod.Rossum2011_diss →
      e.grid.boundary_type = BoundaryType.BT_PERIODIC →
      e.grid.DirectionsInRange →
      (∀ n, n ∈ l → n < e.grid.width * e.grid.height) →
      ∃ e1 st1, Engine.sweepLog dg fuel (l.map (fun n : Nat => (n : Int))) e st
        = Except.ok (List.replicate l.length false, e1, st1)
  | [], e, st, _, _, _, _ => ⟨e, st, rfl⟩
  | n :: rest, e, st, hm, hb, hd, hl => by
    obtain ⟨e1, st1, hv, hd1⟩ :=
      visit_diss_returns dg fuel st hm hb hd (hl n (List.mem_cons_self _ _))
    have f1 := visit_frame hv
    obtain ⟨e2, st2, hs⟩ := sweepLog_diss_returns dg fuel rest e1 st1
      (by rw [f1.method]; exact hm) (by rw [f1.boundary_type]; exact hb) hd1
      (fun k hk => by
        rw [f1.width, f1.height]
        exact hl k (List.mem_cons_of_mem _ hk))
    refine ⟨e2, st2, ?_⟩
    simp only [List.map_cons, Engine.sweepLog, List.length_cons, List.replicate_succ]
    rw [hv]
    simp only [bind, Except.bind]
    rw [hs]
    rfl

theorem count_replicate_false (n : Nat) : (List.replicate n false).count true = 0 := by
  simp [List.count_replicate]

theorem any_replicate_false (n : Nat) : (List.replicate n false).any (fun b => b) = false := by
  induction n with
  | zero => rfl
  | succ n ih => simp [List.replicate_succ]

/-- Under Rossum2011-diss with the RandomAll strategy on a periodic grid, a pass makes one per-cell
call for every cell, each returns false, and `quit` is true after it. -/
theorem passLog_diss_returns {e : Engine} (dg : Option Grid) (fuel it_n : Nat) (st : Statics)
    {table : Nat → Nat}
    (hm : e.toppling.toppling_method = TopplingMethod.Rossum2011_diss)
    (hit : e.toppling.toppling_iterator = TopplingIterator.RANDOM_ALL)
    (hb : e.grid.boundary_type = BoundaryType.BT_PERIODIC)
    (hd : e.grid.DirectionsInRange)
    (htab : e.toppling.random_indices = some table)
    (ht : ∀ k, k < e.grid.width * e.grid.height → table k < e.grid.width * e.grid.height) :
    ∃ e1 st1, e.passLog dg fuel it_n st
      = Except.ok (List.replicate (e.grid.width * e.grid.height) false, true, e1, st1) := by
  have ht1 := random_shuffle_lt _ table st ht
  cases hsh : random_shuffle boost_random (e.grid.width * e.grid.height) table st with
  | mk table1 st0 =>
    rw [hsh] at ht1
    simp only [] at ht1
    obtain ⟨e1, st1, hs⟩ := sweepLog_diss_returns dg fuel
      ((List.range (e.grid.width * e.grid.height)).map table1)
      { e with toppling := { e.toppling with random_indices := some table1 } } st0 hm hb hd
      (fun n hn => by
        obtain ⟨k, hk, rfl⟩ := List.mem_map.mp hn
        exact ht1 k (List.mem_range.mp hk))
    refine ⟨e1, st1, ?_⟩
    unfold Engine.passLog
    simp only [hit, htab, hsh]
    simp only [List.map_map, List.length_map, List.length_range] at hs
    have hs1 : Engine.sweepLog dg fuel
        ((List.range (e.grid.width * e.grid.height)).map (fun c => ((table1 c : Nat) : Int)))
        { e with toppling := { e.toppling with random_indices := some table1 } } st0
        = Except.ok (List.replicate (e.grid.width * e.grid.height) false, e1, st1) := hs
    simp only [hit] at hs1
    rw [hs1]
    simp only [bind, Except.bind, pure, Except.pure, any_replicate_false, Bool.not_false]

/-- C40: under the Rossum2011-diss rule with the RandomAll strategy, on a periodic grid whose
directions are in 0..3 and with an index table whose entries are cell indices (what the
constructor of the sandpile sets up and every operation keeps), the relaxation
`Topple(avalanche_size)` returns for every content of the grid, every entry value and
every state of the generators: its first pass makes one per-cell call for each of
the `width * height` cells, every call returns false, `quit` is true after the pass,
so the loop ends after that one pass and leaves 0 in `avalanche_size`.  For a sandpile
with this dissipation toppling the first statement of `Relax` therefore leaves 0, and
`Relax` returns what its primary `Topple` call counts from 0. -/
theorem C40_dissipation_relaxation_one_pass (e : Engine) (table : Nat → Nat)
    (hm : e.toppling.toppling_method = TopplingMethod.Rossum2011_diss)
    (hit : e.toppling.toppling_iterator = TopplingIterator.RANDOM_ALL)
    (hb : e.grid.boundary_type = BoundaryType.BT_PERIODIC)
    (hd : e.grid.DirectionsInRange)
    (htab : e.toppling.random_indices = some table)
    (ht : ∀ k, k < e.grid.width * e.grid.height → table k < e.grid.width * e.grid.height)
    (dg : Option Grid) (av : Int) (st : Statics) (fuel : Nat) :
    ∃ e1 st1,
      e.passLog dg (fuel + 1) 0 st
          = Except.ok (List.replicate (e.grid.width * e.grid.height) false, true, e1, st1)
      ∧ e.pass dg (fuel + 1) 0 st = Except.ok (0, true, e1, st1)
      ∧ e.ToppleLog dg st (fuel + 1)
          = Except.ok (List.replicate (e.grid.width * e.grid.height) false, e1, st1)
      ∧ e.ToppleAll dg av st (fuel + 1) = Except.ok (0, e1, st1)
      ∧ ∀ (s : SandPile) (measure : Bool), s.diss_toppling = some e.toppling →
          s.diss_grid = some e.grid → dg = none →
          ∃ s1, s.relaxDiss av st (fuel + 1) = Except.ok (0, s1, st1)
            ∧ s1.grid = s.grid ∧ s1.toppling = s.toppling
            ∧ s.Relax measure st (fuel + 1)
              = (s1.relaxPrimary 0 st1 (fuel + 1) >>= fun r =>
                  if r.1 > 0 ∧ measure = true then
                    pure (r.1, SandPile.mk r.2.1.L r.2.1.grid r.2.1.diss_grid r.2.1.toppling
                      r.2.1.diss_toppling r.2.1.boundary_type
                      (r.2.1.avalanches.AddEvent r.1), r.2.2)
                  else pure (0, r.2.1, r.2.2)) := by
  obtain ⟨e1, st1, hp⟩ := passLog_diss_returns dg (fuel + 1) 0 st hm hit hb hd htab ht
  have hl : e.ToppleLog dg st (fuel + 1)
      = Except.ok (List.replicate (e.grid.width * e.grid.height) false, e1, st1) := by
    unfold Engine.ToppleLog
    simp only [Engine.toppleLogLoop]
    rw [hp]
    rfl
  have ha : ∀ a : Int, e.ToppleAll dg a st (fuel + 1) = Except.ok (0, e1, st1) := by
    intro a
    rw [ToppleAll_eq_log, hl]
    simp only [Except.map, count_replicate_false]
    rfl
  refine ⟨e1, st1, hp, ?_, hl, ha av, ?_⟩
  · rw [pass_eq_log, hp]
    simp only [Except.map, count_replicate_false]
  · intro s measure hdt hdg hnone
    subst hnone
    have hr : s.relaxDiss 0 st (fuel + 1)
        = Except.ok (0, { s with diss_grid := some e1.grid, diss_toppling := some e1.toppling },
            st1) := by
      unfold SandPile.relaxDiss
      rw [hdt, hdg]
      simp only []
      rw [show ({ grid := e.grid, toppling := e.toppling } : Engine) = e from rfl, ha 0]
      rfl
    have hr1 : s.relaxDiss av st (fuel + 1)
        = Except.ok (0, { s with diss_grid := some e1.grid, diss_toppling := some e1.toppling },
            st1) := by
      unfold SandPile.relaxDiss
      rw [hdt, hdg]
      simp only []
      rw [show ({ grid := e.grid, toppling := e.toppling } : Engine) = e from rfl, ha av]
      rfl
    refine ⟨_, hr1, rfl, rfl, ?_⟩
    unfold SandPile.Relax
    simp only []
    rw [hr]
    simp only [bind, Except.bind]

/-- The dissipation side of the sandpile the constructor builds for Rossum2011 and Rossum2011-diss: a
Periodic `L` by `L` grid with directions among 0..3, and a toppling with the
Rossum2011-diss rule, the RandomAll strategy and the identity in its index table. -/
theorem new_diss_engine {L : Nat} {m : TopplingMethod} {type : BoundaryType} {st : Statics}
    {s : SandPile} {st1 : Statics}
    (h : SandPile.new L m type st = Except.ok (s, st1))
    (hm : m = TopplingMethod.Rossum2011 ∨ m = TopplingMethod.Rossum2011_diss) :
    ∃ d dt, s.diss_grid = some d ∧ s.diss_toppling = some dt
      ∧ d.boundary_type = BoundaryType.BT_PERIODIC ∧ d.width = L ∧ d.height = L
      ∧ dt.toppling_iterator = TopplingIterator.RANDOM_ALL
      ∧ dt.toppling_method = TopplingMethod.Rossum2011_diss
      ∧ dt.random_indices = some (fun i => i)
      ∧ d.DirectionsInRange := by
  unfold SandPile.new at h
  simp only [] at h
  split at h
  · obtain ⟨r, hr, h⟩ := bind_ok h
    obtain ⟨a1, a2, a3, a4, a5, a6, -⟩ := DissipationGrid_ok hr
    have hd := DissipationGrid_grid hr
    simp only [pure, Except.pure] at h
    have := Except.ok.inj h
    simp only [Prod.mk.injEq] at this
    obtain ⟨rfl, -⟩ := this
    exact ⟨_, _, rfl, rfl, a1, a2, a3, a4, a5, a6, by rw [hd]; exact Grid_new_directions _ _ _ _⟩
  · rename_i hd
    obtain ⟨t2, -, h⟩ := bind_ok h
    split at h
    · obtain ⟨r, hr, h⟩ := bind_ok h
      obtain ⟨a1, a2, a3, a4, a5, a6, -⟩ := DissipationGrid_ok hr
      have hdg := DissipationGrid_grid hr
      simp only [pure, Except.pure] at h
      have := Except.ok.inj h
      simp only [Prod.mk.injEq] at this
      obtain ⟨rfl, -⟩ := this
      exact ⟨_, _, rfl, rfl, a1, a2, a3, a4, a5, a6,
        by rw [hdg]; exact Grid_new_directions _ _ _ _⟩
    · rename_i hr2
      exact hm.elim (fun h1 => absurd h1 hr2) (fun h1 => absurd h1 hd)

/-- Witness of C40: the dissipation toppling of the 2 by 2 sandpile the constructor builds for
Rossum2011; the first statement of `Relax`, entered with 7 in `avalanche_size`, returns
with 0 after one pass. -/
theorem C40_dissipation_relaxation_one_pass_witness :
    ∃ s st1 d dt e1 st2 s1,
      SandPile.new 2 TopplingMethod.Rossum2011 BoundaryType.BT_UNDEFINED
          (Statics.initial (constSeed 0)) = Except.ok (s, st1)
      ∧ s.diss_grid = some d ∧ s.diss_toppling = some dt
      ∧ Engine.ToppleLog (Engine.mk d dt) none st1 1
          = Except.ok (List.replicate (d.width * d.height) false, e1, st2)
      ∧ d.width * d.height = 4
      ∧ s.relaxDiss 7 st1 1 = Except.ok (0, s1, st2) := by
  obtain ⟨⟨s, st1⟩, h⟩ := new_returns 2 TopplingMethod.Rossum2011 BoundaryType.BT_UNDEFINED
    (Statics.initial (constSeed 0)) (by decide)
  obtain ⟨d, dt, hd, hdt, hb, hw, hh, hit, hm, htab, hdir⟩ := new_diss_engine h (Or.inl rfl)
  obtain ⟨e1, st2, -, -, h3, -, h5⟩ :=
    C40_dissipation_relaxation_one_pass (Engine.mk d dt) (fun i => i) hm hit hb hdir htab
      (fun k hk => hk) none 7 st1 0
  obtain ⟨s1, hr, -⟩ := h5 s true hdt hd rfl
  exact ⟨s, st1, d, dt, e1, st2, s1, h, hd, hdt, h3, by rw [hw, hh], hr⟩

/-! ### The index table of the random strategies -/

theorem random_shuffle_perm (n : Nat) (a : Nat → Nat) (st : Statics)
    (h : ((List.range n).map a).Perm (List.range n)) :
    ((List.range n).map (random_shuffle boost_random n a st).1).Perm (List.range n) := by
  rcases Nat.eq_zero_or_pos n with h0 | hpos
  · subst h0; simp
  · exact (shuffleLoop_perm boost_random boost_random_lt n (n - 1) 1 a st (by omega)).trans h

theorem sweepLog_ok (dg : Option Grid) (fuel : Nat) : ∀ (l : List Int) (e : Engine)
    (st : Statics) (log : List Bool) (e1 : Engine) (st1 : Statics),
    Engine.sweepLog dg fuel l e st = Except.ok (log, e1, st1) →
    log.length = l.length ∧ Engine.Frame e e1 ∧ Engine.Kept e e1
  | [], e, st, log, e1, st1, h => by
    simp only [Engine.sweepLog, pure, Except.pure] at h
    have := Except.ok.inj h
    simp only [Prod.mk.injEq] at this
    obtain ⟨rfl, rfl, -⟩ := this
    exact ⟨rfl, Engine.Frame.refl _, rfl, rfl⟩
  | idx :: rest, e, st, log, e1, st1, h => by
    have hs := sweep_eq_log dg fuel (idx :: rest) e st
    rw [h] at hs
    obtain ⟨hf, hk, -⟩ := sweep_frame dg fuel (idx :: rest) e st _ _ _ hs
    refine ⟨?_, hf, hk⟩
    simp only [Engine.sweepLog] at h
    obtain ⟨p, hp, h⟩ := bind_ok h
    obtain ⟨q, hq, h⟩ := bind_ok h
    simp only [pure, Except.pure] at h
    have := Except.ok.inj h
    simp only [Prod.mk.injEq] at this
    obtain ⟨rfl, -, -⟩ := this
    have := (sweepLog_ok dg fuel rest p.2.1 p.2.2 q.1 q.2.1 q.2.2 hq).1
    simp only [List.length_cons, this]

/-- A pass of a random strategy is the shuffle of the table followed by the `for` loop over
its first `iterate_number` entries. -/
theorem passLog_random (e : Engine) (dg : Option Grid) (fuel it_n : Nat) (st : Statics)
    {table : Nat → Nat} (htab : e.toppling.random_indices = some table)
    (hit : e.toppling.toppling_iterator ≠ TopplingIterator.FOLLOW_ACTIVITY) :
    e.passLog dg fuel it_n st
      = (Engine.sweepLog dg fuel
          (((List.range e.iterateNumber).map
            (random_shuffle boost_random (e.grid.width * e.grid.height) table st).1).map
              (fun n : Nat => (n : Int)))
          (e.withTable (random_shuffle boost_random (e.grid.width * e.grid.height) table st).1)
          (random_shuffle boost_random (e.grid.width * e.grid.height) table st).2
        >>= fun r => pure (r.1, !(r.1.any fun b => b), r.2.1, r.2.2)) := by
  unfold Engine.passLog Engine.iterateNumber Engine.withTable
  simp only [List.map_map]
  cases hi : e.toppling.toppling_iterator with
  | FOLLOW_ACTIVITY => exact absurd hi hit
  | RANDOM_ALL =>
    simp only [htab]
    rfl
  | RANDOM_FRACTION =>
    simp only [htab]
    rfl

theorem withTable_frame (e : Engine) (table : Nat → Nat) : Engine.Frame e (e.withTable table) :=
  ⟨rfl, rfl, rfl, rfl, fun _ => rfl, fun _ => rfl, fun _ => rfl, rfl, rfl, rfl, rfl, rfl, rfl,
    rfl, rfl, rfl, rfl⟩

/-- A pass of a random strategy that returns has made `iterate_number` per-cell calls and
leaves a permutation in the table. -/
theorem passLog_table {e : Engine} {dg : Option Grid} {fuel it_n : Nat} {st : Statics}
    {log : List Bool} {quit : Bool} {e1 : Engine} {st1 : Statics}
    (hit : e.toppling.toppling_iterator ≠ TopplingIterator.FOLLOW_ACTIVITY)
    (hp : e.TablePermutation)
    (h : e.passLog dg fuel it_n st = Except.ok (log, quit, e1, st1)) :
    log.length = e.iterateNumber ∧ e1.TablePermutation ∧ Engine.Frame e e1 := by
  obtain ⟨table, htab, hperm⟩ := hp
  rw [passLog_random e dg fuel it_n st htab hit] at h
  obtain ⟨r, hr, h⟩ := bind_ok h
  simp only [pure, Except.pure] at h
  have := Except.ok.inj h
  simp only [Prod.mk.injEq] at this
  obtain ⟨rfl, -, rfl, -⟩ := this
  obtain ⟨hlen, hf, hk⟩ := sweepLog_ok dg fuel _ _ _ r.1 r.2.1 r.2.2 hr
  have hf1 := (withTable_frame e _).frame_trans hf
  refine ⟨?_, ⟨_, hk.2, ?_⟩, hf1⟩
  · rw [hlen]
    simp only [List.length_map, List.length_range]
  · rw [hf1.width, hf1.height]
    exact random_shuffle_perm _ table st hperm

/-- The relaxation under a random strategy leaves a permutation in the table. -/
theorem toppleLogLoop_table (dg : Option Grid) (fuel : Nat) :
    ∀ (passes it_n : Nat) (log : List Bool) (e : Engine) (st : Statics) (log1 : List Bool)
      (e1 : Engine) (st1 : Statics),
      e.toppling.toppling_iterator ≠ TopplingIterator.FOLLOW_ACTIVITY →
      e.TablePermutation →
      Engine.toppleLogLoop dg fuel passes it_n log e st = Except.ok (log1, e1, st1) →
      e1.TablePermutation
  | 0, _, _, _, _, _, _, _, _, _, h => by
    simp [Engine.toppleLogLoop, throw, throwThe, MonadExceptOf.throw] at h
  | passes + 1, it_n, log, e, st, log1, e1, st1, hit, hp, h => by
    simp only [Engine.toppleLogLoop] at h
    obtain ⟨p, hpass, h⟩ := bind_ok h
    obtain ⟨l, quit, e2, st2⟩ := p
    obtain ⟨-, hp2, hf⟩ := passLog_table hit hp hpass
    simp only [] at h
    split_ifs at h with hq
    · simp only [pure, Except.pure] at h
      have := Except.ok.inj h
      simp only [Prod.mk.injEq] at this
      obtain ⟨-, rfl, -⟩ := this
      exact hp2
    · exact toppleLogLoop_table dg fuel passes (it_n + 1) (log ++ l) e2 st2 log1 e1 st1
        (by rw [hf.iterator]; exact hit) hp2 h

/-- C35: the setter `SetTopplingIterator` leaves the identity in the index table under both random
strategies, and a shuffle turns a permutation of 0, .., width*height-1 into such a
permutation, so that the table is one before and after every shuffle of a pass and
of a whole relaxation.  A pass is the shuffle followed by the `for` loop over the first
`iterate_number` entries of the table, one per-cell `Topple` call each, on the cell
with that index: under RandomAll these entries are a permutation of all cell indices
(every cell once), under RandomFraction on a grid with a positive height they are `width`
pairwise distinct cell indices. -/
theorem C35_random_tables_are_permutations (e : Engine)
    (hit : e.toppling.toppling_iterator ≠ TopplingIterator.FOLLOW_ACTIVITY)
    (hp : e.TablePermutation) (dg : Option Grid) (fuel it_n : Nat) (st : Statics) :
    (∀ (t : Toppling) (size : Nat) (it : TopplingIterator),
        it ≠ TopplingIterator.FOLLOW_ACTIVITY →
        (Engine.mk e.grid (t.SetTopplingIterator size it)).TablePermutation)
    ∧ (∃ table table1 st1, e.toppling.random_indices = some table
        ∧ random_shuffle boost_random (e.grid.width * e.grid.height) table st = (table1, st1)
        ∧ ((List.range (e.grid.width * e.grid.height)).map table1).Perm
            (List.range (e.grid.width * e.grid.height))
        ∧ e.passLog dg fuel it_n st
          = (Engine.sweepLog dg fuel
              (((List.range e.iterateNumber).map table1).map (fun n : Nat => (n : Int)))
              (e.withTable table1) st1
            >>= fun r => pure (r.1, !(r.1.any fun b => b), r.2.1, r.2.2))
        ∧ (e.toppling.toppling_iterator = TopplingIterator.RANDOM_ALL →
            ((List.range e.iterateNumber).map table1).Perm
              (List.range (e.grid.width * e.grid.height)))
        ∧ (e.toppling.toppling_iterator = TopplingIterator.RANDOM_FRACTION →
            0 < e.grid.height →
            ((List.range e.iterateNumber).map table1).length = e.grid.width
            ∧ ((List.range e.iterateNumber).map table1).Nodup
            ∧ ∀ n, n ∈ (List.range e.iterateNumber).map table1 →
                n < e.grid.width * e.grid.height))
    ∧ (∀ log quit e1 st1, e.passLog dg fuel it_n st = Except.ok (log, quit, e1, st1) →
        log.length = e.iterateNumber ∧ e1.TablePermutation)
    ∧ (∀ log e1 st1, e.ToppleLog dg st fuel = Except.ok (log, e1, st1) →
        e1.TablePermutation)
    ∧ (∀ idx st0 b e1 st1, e.visit dg fuel idx st0 = Except.ok (b, e1, st1) →
        ∃ nb st2, e.Topple dg (CellRef.cell idx) nb st2 = Except.ok (b, e1, st1)) := by
  refine ⟨?_, ?_, ?_, ?_, ?_⟩
  · intro t size it hne
    refine ⟨fun i => i, ?_, by simp⟩
    cases it with
    | FOLLOW_ACTIVITY => exact absurd rfl hne
    | RANDOM_ALL => rfl
    | RANDOM_FRACTION => rfl
  · obtain ⟨table, htab, hperm⟩ := hp
    have hp1 := random_shuffle_perm _ table st hperm
    refine ⟨table, _, _, htab, rfl, hp1, passLog_random e dg fuel it_n st htab hit, ?_, ?_⟩
    · intro ha
      have : e.iterateNumber = e.grid.width * e.grid.height := by
        unfold Engine.iterateNumber; rw [ha]
      rw [this]
      exact hp1
    · intro hfr hh
      have hn : e.iterateNumber = e.grid.width := by
        unfold Engine.iterateNumber; rw [hfr]
      have hle : e.grid.width ≤ e.grid.width * e.grid.height := Nat.le_mul_of_pos_right _ hh
      have hsub : ((List.range e.grid.width).map
          (random_shuffle boost_random (e.grid.width * e.grid.height) table st).1).Sublist
          ((List.range (e.grid.width * e.grid.height)).map
            (random_shuffle boost_random (e.grid.width * e.grid.height) table st).1) :=
        (List.range_sublist.mpr hle).map _
      rw [hn]
      refine ⟨by simp, ?_, ?_⟩
      · exact (hp1.nodup_iff.mpr (List.nodup_range _)).sublist hsub
      · intro n hmem
        exact List.mem_range.mp (hp1.subset (hsub.subset hmem))
  · intro log quit e1 st1 h
    obtain ⟨h1, h2, -⟩ := passLog_table hit hp h
    exact ⟨h1, h2⟩
  · intro log e1 st1 h
    exact toppleLogLoop_table dg fuel fuel 0 [] e st log e1 st1 hit hp h
  · intro idx st0 b e1 st1 h
    obtain ⟨nb, st2, -, ht⟩ := visit_ok h
    exact ⟨nb, st2, ht⟩

theorem C35_random_tables_are_permutations_witness :
    dissRelaxEngine.TablePermutation
    ∧ dissRelaxEngine.iterateNumber = 4
    ∧ (∃ table1 st1,
        random_shuffle boost_random 4 (fun i => i) (Statics.initial (constSeed 1))
          = (table1, st1)
        ∧ ((List.range 4).map table1).Perm (List.range 4))
    ∧ (∀ log quit e1 st1,
        dissRelaxEngine.passLog none 1 0 (Statics.initial (constSeed 1))
          = Except.ok (log, quit, e1, st1) →
        log.length = 4 ∧ e1.TablePermutation) := by
  have hp : dissRelaxEngine.TablePermutation :=
    ⟨fun i => i, rfl, by
      show ((List.range 4).map (fun i => i)).Perm (List.range 4)
      simp⟩
  obtain ⟨-, ⟨table, table1, st1, htab, hsh, hperm, -⟩, h3, -⟩ :=
    C35_random_tables_are_permutations dissRelaxEngine (by decide) hp none 1 0
      (Statics.initial (constSeed 1))
  have ht : table = fun i => i := (Option.some.inj htab).symm
  subst ht
  exact ⟨hp, rfl, ⟨table1, st1, hsh, hperm⟩, h3⟩

/-! ### Coarsening -/

theorem foldlM_pure {α β : Type} (f : β → α → Run β) (F : β → α → β) :
    ∀ (l : List α) (init : β), (∀ b a, a ∈ l → f b a = Except.ok (F b a)) →
      l.foldlM f init = Except.ok (l.foldl F init)
  | [], init, _ => rfl
  | a :: l, init, h => by
    rw [List.foldlM_cons, h init a (List.mem_cons_self _ _)]
    simp only [bind, Except.bind, List.foldl_cons]
    exact foldlM_pure f F l (F init a) (fun b x hx => h b x (List.mem_cons_of_mem _ hx))

theorem truncate_intCast (n : Int) : truncate (n : GrainType) = n := by
  simp [truncate]

theorem sumHeights_eq_sum (cells : Nat → Cell) :
    ∀ n, sumHeights cells n = ∑ k in Finset.range n, (cells k).height
  | 0 => rfl
  | n + 1 => by rw [sumHeights, sumHeights_eq_sum cells n, Finset.sum_range_succ]

/-- A sum over 0, .., n*L-1 taken block by block. -/
theorem sum_range_mul_block (f : Nat → GrainType) (L : Nat) :
    ∀ n, ∑ k in Finset.range (n * L), f k
      = ∑ j in Finset.range n, ∑ i in Finset.range L, f (j * L + i)
  | 0 => by simp
  | n + 1 => by
    rw [Nat.succ_mul, Finset.sum_range_add, sum_range_mul_block f L n, Finset.sum_range_succ]

/-- The integer accumulation of whole heights is their sum. -/
theorem foldl_truncate_sum (h : Nat → GrainType)
    (n : Nat) (hn : ∀ r, r < n → (h r).den = 1) (init : Int) :
    (((List.range n).foldl (fun (sum : Int) (r : Nat) => truncate ((sum : GrainType) + h r))
      init : Int) : GrainType) = (init : GrainType) + ∑ r in Finset.range n, h r := by
  induction n with
  | zero => simp
  | succ n ih =>
    rw [List.range_succ, List.foldl_append, List.foldl_cons, List.foldl_nil,
      Finset.sum_range_succ, ← add_assoc, ← ih (fun r hr => hn r (Nat.lt_succ_of_lt hr))]
    have hz := Rat.coe_int_num_of_den_eq_one (hn n (Nat.lt_succ_self n))
    rw [← hz, ← Int.cast_add, truncate_intCast]

theorem foldl_truncate_sum2 (h : Nat → Nat → GrainType) (p n : Nat)
    (hn : ∀ q r, q < n → r < p → (h q r).den = 1) (init : Int) :
    (((List.range n).foldl (fun (sum : Int) (q : Nat) =>
        (List.range p).foldl (fun (sum : Int) (r : Nat) =>
          truncate ((sum : GrainType) + h q r)) sum) init : Int) : GrainType)
      = (init : GrainType) + ∑ q in Finset.range n, ∑ r in Finset.range p, h q r := by
  induction n with
  | zero => simp
  | succ n ih =>
    rw [List.range_succ, List.foldl_append, List.foldl_cons, List.foldl_nil,
      Finset.sum_range_succ, ← add_assoc,
      ← ih (fun q r hq hr => hn q r (Nat.lt_succ_of_lt hq) hr)]
    exact foldl_truncate_sum (h n) p (fun r hr => hn n r (Nat.lt_succ_self n) hr) _

/-- The accumulation `patchSum` carries out on a patch that lies within the grid, as a fold
without faults. -/
theorem patchSum_eq (g : Grid) (L p i j : Nat) (hw : g.width = L) (hh : g.height = L)
    (hi : i + p ≤ L) (hj : j + p ≤ L) :
    patchSum (some g) (i : Int) (j : Int) (p : Int)
      = Except.ok (patchFold g L p i j) := by
  unfold patchSum patchFold
  rw [Int.toNat_natCast]
  refine foldlM_pure _ _ _ _ (fun sum q hq => ?_)
  refine foldlM_pure _ _ _ _ (fun sum1 r hr => ?_)
  have hq1 := List.mem_range.mp hq
  have hr1 := List.mem_range.mp hr
  have h1 : ((i : Int) + (r : Int)) < (g.width : Int) := by rw [hw]; omega
  have h2 : ((j : Int) + (q : Int)) < (g.height : Int) := by rw [hh]; omega
  have hidx : (((j : Int) + (q : Int)) * (g.width : Int) + ((i : Int) + (r : Int)))
      = (((j + q) * L + (i + r) : Nat) : Int) := by
    rw [hw]; push_cast; ring
  have hlt : (j + q) * L + (i + r) < g.size := by
    unfold Grid.size
    rw [hw, hh]
    have : (j + q) * L + L ≤ L * L := by
      have : (j + q + 1) * L ≤ L * L := Nat.mul_le_mul_right L (by omega)
      calc (j + q) * L + L = (j + q + 1) * L := by ring
        _ ≤ L * L := this
    omega
  simp only []
  rw [GetCell_of_lt g h1 h2]
  simp only [bind, Except.bind]
  rw [hidx, read_cell_of_lt g (Int.natCast_nonneg _) (by exact_mod_cast hlt), Int.toNat_natCast]
  rfl

/-- On whole heights the accumulation yields the sum of the heights of the patch. -/
theorem patchFold_integer (g : Grid) (L p m a b : Nat) (hw : g.width = L) (hh : g.height = L)
    (hL : L = m * p) (ha : a < m) (hb : b < m) (hint : g.IntegerHeights) :
    ((patchFold g L p (a * p) (b * p) : Int) : GrainType) = patchTotal g L p a b := by
  unfold patchFold
  rw [foldl_truncate_sum2 (fun q r => (g.cells ((b * p + q) * L + (a * p + r))).height) p p]
  · simp [patchTotal]
  · intro q r hq hr
    apply hint
    rw [hw, hh]
    have hi : a * p + p ≤ L := by
      rw [hL]
      calc a * p + p = (a + 1) * p := by ring
        _ ≤ m * p := Nat.mul_le_mul_right p ha
    have hj : b * p + p ≤ L := by
      rw [hL]
      calc b * p + p = (b + 1) * p := by ring
        _ ≤ m * p := Nat.mul_le_mul_right p hb
    have : (b * p + q + 1) * L ≤ L * L := Nat.mul_le_mul_right L (by omega)
    have h2 : (b * p + q + 1) * L = (b * p + q) * L + L := by ring
    omega

theorem natCast_mul_tdiv (a p : Nat) (hp : 0 < p) : ((a * p : Nat) : Int).tdiv (p : Int) = a := by
  rw [← Int.ofNat_tdiv, Nat.mul_div_cancel a hp]

/-- The loop over the columns of the patches of one row of patches: it stores the patch sums of the
row from patch `a0` on and leaves every other entry. -/
theorem coarsenRow_eq (g : Grid) (L p m b : Nat) (S : Nat → Int) (hp : 0 < p)
    (hL : L = m * p)
    (hS : ∀ a, a < m → patchSum (some g) ((a * p : Nat) : Int) ((b * p : Nat) : Int) (p : Int)
      = Except.ok (S a)) :
    ∀ (n a0 fuel : Nat) (values : Nat → Option GrainType), a0 + n = m → n < fuel →
      coarsenRow (some g) (L : Int) (p : Int) (m : Int) ((b * p : Nat) : Int) fuel
          ((a0 * p : Nat) : Int) values
        = Except.ok (fun k => if b * m + a0 ≤ k ∧ k < b * m + m
            then some ((S (k - b * m) : Int) : GrainType) else values k)
  | 0, a0, fuel, values, ha, hf => by
    obtain ⟨f, rfl⟩ : ∃ f, fuel = f + 1 := ⟨fuel - 1, by omega⟩
    have ham : a0 = m := by omega
    subst ham
    simp only [coarsenRow]
    rw [if_neg (by rw [hL]; exact lt_irrefl _)]
    simp only [pure, Except.pure]
    congr 1
    funext k
    rw [if_neg (by omega)]
  | n + 1, a0, fuel, values, ha, hf => by
    obtain ⟨f, rfl⟩ : ∃ f, fuel = f + 1 := ⟨fuel - 1, by omega⟩
    have ham : a0 < m := by omega
    have hlt : ((a0 * p : Nat) : Int) < (L : Int) := by
      rw [hL]
      exact_mod_cast Nat.mul_lt_mul_of_pos_right ham hp
    simp only [coarsenRow]
    rw [if_pos hlt, hS a0 ham]
    simp only [bind, Except.bind]
    rw [natCast_mul_tdiv a0 p hp, natCast_mul_tdiv b p hp]
    have hidx : ((a0 : Int) + (b : Int) * (m : Int)) = ((a0 + b * m : Nat) : Int) := by
      push_cast; ring
    rw [hidx, if_neg (by exact not_lt.mpr (Int.natCast_nonneg _)), Int.toNat_natCast]
    have hnext : ((a0 * p : Nat) : Int) + (p : Int) = (((a0 + 1) * p : Nat) : Int) := by
      push_cast; ring
    rw [hnext, coarsenRow_eq g L p m b S hp hL hS n (a0 + 1) f _ (by omega) (by omega)]
    congr 1
    funext k
    by_cases hk : k = a0 + b * m
    · subst hk
      rw [if_neg (by omega), if_pos (by omega), Function.update_same]
      congr 3
      omega
    · rw [Function.update_noteq hk]
      by_cases hc : b * m + a0 ≤ k ∧ k < b * m + m
      · rw [if_pos hc, if_pos (by omega)]
      · rw [if_neg hc, if_neg (by omega)]

/-- The loop over the rows of patches: it stores every patch sum from row `b0` on at its index. -/
theorem coarsenLoop_eq (g : Grid) (L p m rowFuel : Nat) (S : Nat → Nat → Int) (hp : 0 < p)
    (hL : L = m * p) (hrow : m < rowFuel)
    (hS : ∀ a b, a < m → b < m →
      patchSum (some g) ((a * p : Nat) : Int) ((b * p : Nat) : Int) (p : Int)
        = Except.ok (S a b)) :
    ∀ (n b0 fuel : Nat) (values : Nat → Option GrainType), b0 + n = m → n < fuel →
      coarsenLoop (some g) (L : Int) (p : Int) (m : Int) rowFuel fuel
          ((b0 * p : Nat) : Int) values
        = Except.ok (fun k => if b0 * m ≤ k ∧ k < m * m
            then some ((S (k % m) (k / m) : Int) : GrainType) else values k)
  | 0, b0, fuel, values, hb, hf => by
    obtain ⟨f, rfl⟩ : ∃ f, fuel = f + 1 := ⟨fuel - 1, by omega⟩
    have hbm : b0 = m := by omega
    subst hbm
    simp only [coarsenLoop]
    rw [if_neg (by rw [hL]; exact lt_irrefl _)]
    simp only [pure, Except.pure]
    congr 1
    funext k
    rw [if_neg (by omega)]
  | n + 1, b0, fuel, values, hb, hf => by
    obtain ⟨f, rfl⟩ : ∃ f, fuel = f + 1 := ⟨fuel - 1, by omega⟩
    have hbm : b0 < m := by omega
    have hlt : ((b0 * p : Nat) : Int) < (L : Int) := by
      rw [hL]
      exact_mod_cast Nat.mul_lt_mul_of_pos_right hbm hp
    simp only [coarsenLoop]
    rw [if_pos hlt]
    have hrow0 := coarsenRow_eq g L p m b0 (fun a => S a b0) hp hL
      (fun a ha => hS a b0 ha hbm) m 0 rowFuel values (by omega) hrow
    rw [show ((0 * p : Nat) : Int) = 0 by simp] at hrow0
    rw [hrow0]
    simp only [bind, Except.bind]
    have hnext : ((b0 * p : Nat) : Int) + (p : Int) = (((b0 + 1) * p : Nat) : Int) := by
      push_cast; ring
    rw [hnext, coarsenLoop_eq g L p m rowFuel S hp hL hrow hS n (b0 + 1) f _ (by omega)
      (by omega)]
    congr 1
    funext k
    have h1 : (b0 + 1) * m = b0 * m + m := by ring
    have h2 : (b0 + 1) * m ≤ m * m := Nat.mul_le_mul_right m hbm
    by_cases hc : (b0 + 1) * m ≤ k ∧ k < m * m
    · rw [if_pos hc, if_pos (by omega)]
    · rw [if_neg hc]
      by_cases hr : b0 * m + 0 ≤ k ∧ k < b0 * m + m
      · rw [if_pos hr, if_pos (by omega)]
        have hk : k = (k - b0 * m) + b0 * m := by omega
        have hmod : k % m = k - b0 * m := by
          rw [hk, Nat.add_mul_mod_self_right, Nat.add_sub_cancel]
          exact Nat.mod_eq_of_lt (by omega)
        have hdiv : k / m = b0 := by
          rw [hk, Nat.add_mul_div_right _ _ (by omega), Nat.div_eq_of_lt (by omega)]
          omega
        rw [hmod, hdiv]
      · rw [if_neg hr, if_neg (by omega)]

/-- The patch sums of all patches add up to the grain count of the grid. -/
theorem patchTotal_sum (g : Grid) (L p m : Nat) (hw : g.width = L) (hh : g.height = L)
    (hL : L = m * p) :
    ∑ b in Finset.range m, ∑ a in Finset.range m, patchTotal g L p a b = g.CountGrains := by
  have e1 : ∀ F : Nat → GrainType, ∑ j in Finset.range L, F j
      = ∑ b in Finset.range m, ∑ q in Finset.range p, F (b * p + q) := fun F => by
    rw [hL]
    exact sum_range_mul_block F p m
  unfold Grid.CountGrains
  rw [hw, hh, sumHeights_eq_sum, sum_range_mul_block (fun k => (g.cells k).height) L L, e1]
  refine Finset.sum_congr rfl (fun b _ => ?_)
  rw [Finset.sum_congr rfl (fun q _ => e1 (fun i => (g.cells ((b * p + q) * L + i)).height)),
    Finset.sum_comm]
  rfl

/-- The loop of `GetValues` with the height kind on a sandpile with a primary grid stores the heights
of the cells it runs over and leaves the generators. -/
theorem getValuesLoop_height (s : SandPile) (g : Grid) (hg : s.grid = some g) (fuel : Nat) :
    ∀ (count i : Nat) (values : Nat → Option GrainType) (st : Statics),
      i + count ≤ g.width * g.height →
      getValuesLoop s GridValueType.GVT_HEIGHT fuel i count values st
        = Except.ok (fun k => if i ≤ k ∧ k < i + count then some (g.cells k).height
            else values k, st)
  | 0, i, values, st, _ => by
    simp only [getValuesLoop, pure, Except.pure]
    congr 2
    funext k
    rw [if_neg (by omega)]
  | count + 1, i, values, st, hle => by
    have hlt : i < g.width * g.height := by omega
    have h1 : ((i : Nat) : Int) < (g.height : Int) * (g.width : Int) := by
      rw [mul_comm]; exact_mod_cast hlt
    have hstep : s.getValuesStep GridValueType.GVT_HEIGHT i values st fuel
        = Except.ok (Function.update values i (some (g.cells i).height), st) := by
      unfold SandPile.getValuesStep
      simp only [hg]
      unfold Grid.GetCellAt
      rw [if_neg (not_not.mpr h1)]
      simp only [pure, Except.pure, bind, Except.bind]
      rw [read_cell_of_lt g (Int.natCast_nonneg _)
        (by unfold Grid.size; exact_mod_cast hlt), Int.toNat_natCast]
    simp only [getValuesLoop]
    rw [hstep]
    simp only [bind, Except.bind]
    rw [getValuesLoop_height s g hg fuel count (i + 1) _ st (by omega)]
    congr 2
    funext k
    by_cases hk : k = i
    · subst hk
      rw [if_neg (by omega), if_pos (by omega), Function.update_same]
    · rw [Function.update_noteq hk]
      by_cases hc : i ≤ k ∧ k < i + (count + 1)
      · rw [if_pos hc, if_pos (by omega)]
      · rw [if_neg hc, if_neg (by omega)]

/-- With `patch_L == 1`, `Coarsen` stores the heights of the cells. -/
theorem Coarsen_one (s : SandPile) (g : Grid) (hg : s.grid = some g) (hw : g.width = s.L)
    (hh : g.height = s.L) (values : Nat → Option GrainType) (array_size : Int) (st : Statics)
    (fuel : Nat) :
    s.Coarsen values array_size 1 st fuel
      = Except.ok (fun k => if k < s.L * s.L then some (g.cells k).height else values k, st) := by
  unfold SandPile.Coarsen SandPile.GetValues
  rw [if_pos rfl, getValuesLoop_height s g hg fuel (s.L * s.L) 0 values st
    (by rw [hw, hh]; omega)]
  congr 2
  funext k
  by_cases hk : k < s.L * s.L
  · rw [if_pos hk, if_pos (by omega)]
  · rw [if_neg hk, if_neg (by omega)]

/-- With a patch size above 1 that divides `L`, `Coarsen` stores at every index below
`(L/patch_L)²` what the integer accumulation reaches on the patch of that index. -/
theorem Coarsen_patches (s : SandPile) (g : Grid) (m p : Nat) (hg : s.grid = some g)
    (hw : g.width = s.L) (hh : g.height = s.L) (hp : 1 < p) (hL : s.L = m * p)
    (values : Nat → Option GrainType) (st : Statics) (fuel : Nat) (hfuel : m < fuel) :
    s.Coarsen values ((m * m : Nat) : Int) (p : Int) st fuel
      = Except.ok (fun k => if k < m * m
          then some ((patchFold g s.L p (k % m * p) (k / m * p) : Int) : GrainType)
          else values k, st) := by
  have hp0 : 0 < p := by omega
  have hpz : (p : Int) ≠ 0 := by omega
  have hS : ∀ a b, a < m → b < m →
      patchSum (some g) ((a * p : Nat) : Int) ((b * p : Nat) : Int) (p : Int)
        = Except.ok (patchFold g s.L p (a * p) (b * p)) := by
    intro a b ha hb
    refine patchSum_eq g s.L p (a * p) (b * p) hw hh ?_ ?_
    · rw [hL]
      calc a * p + p = (a + 1) * p := by ring
        _ ≤ m * p := Nat.mul_le_mul_right p ha
    · rw [hL]
      calc b * p + p = (b + 1) * p := by ring
        _ ≤ m * p := Nat.mul_le_mul_right p hb
  have hloop := coarsenLoop_eq g s.L p m fuel
    (fun a b => patchFold g s.L p (a * p) (b * p)) hp0 hL hfuel hS m 0 fuel values
    (by omega) hfuel
  rw [show ((0 * p : Nat) : Int) = 0 by simp] at hloop
  have hsize : ((s.L : Int) * (s.L : Int)).tdiv ((p : Int) * (p : Int)) = ((m * m : Nat) : Int) := by
    rw [hL]
    push_cast
    rw [show (m : Int) * p * (m * p) = (m * m) * ((p : Int) * p) by ring]
    exact Int.mul_tdiv_cancel _ (mul_ne_zero hpz hpz)
  have hmod : (s.L : Int).tmod (p : Int) = 0 := by
    rw [hL]
    push_cast
    exact Int.mul_tmod_left _ _
  have hwidth : (s.L : Int).tdiv (p : Int) = (m : Int) := by
    rw [hL]
    exact natCast_mul_tdiv m p hp0
  unfold SandPile.Coarsen
  rw [if_neg (by omega), if_neg (mul_ne_zero hpz hpz), if_neg (not_not.mpr hsize.symm),
    if_neg (not_not.mpr hmod)]
  simp only [hwidth, hg]
  rw [hloop]
  simp only [bind, Except.bind, pure, Except.pure]
  congr 2
  funext k
  by_cases hk : k < m * m
  · rw [if_pos hk, if_pos (by omega)]
  · rw [if_neg hk, if_neg (by omega)]

/-- C33 (failing input): on the 2 by 2 sandpile whose four cells hold half a grain each,
`Coarsen(values, 1, 2)` returns and stores 0 in `values[0]`, while the heights of the
one patch sum to 2, which is what `CountGrains()` gives. -/
theorem C33_fractional_heights_counterexample :
    Run.value halfGrainCoarsen = some (some 0, 2) := by
  decide!

/-- C33: what `Coarsen` stores, next to the patch sums.  On a sandpile with an L by L primary grid,
for a patch size `p` with `L = m * p` and `array_size = m * m`, `Coarsen` returns and leaves
the entries from `m * m` on and the generators as they were.  With `p = 1` it stores the
height of every cell, whatever the heights.  With `p > 1` it stores at `values[a + b*m]`
the value `patchFold` of the `int` variable `sum`, into which the heights of patch (a, b)
are added with a truncation toward zero after every addition.  That value is the sum
of the heights of the patch (`patchTotal`), and the entries written sum to
`CountGrains()`, when every height is a whole number; for fractional heights it falls
short of the sum (see the failing input). -/
theorem C33_coarsen_sums_whole_heights (s : SandPile) (g : Grid) (m p : Nat)
    (values : Nat → Option GrainType) (st : Statics) (fuel : Nat)
    (hg : s.grid = some g) (hw : g.width = s.L) (hh : g.height = s.L) (hp : 0 < p)
    (hL : s.L = m * p) (hfuel : m < fuel) :
    ∃ values1, s.Coarsen values ((m * m : Nat) : Int) (p : Int) st fuel
        = Except.ok (values1, st)
      ∧ (∀ k, m * m ≤ k → values1 k = values k)
      ∧ (p = 1 → ∀ k, k < s.L * s.L → values1 k = some (g.cells k).height)
      ∧ (g.IntegerHeights ∨ p = 1 →
          (∀ a b, a < m → b < m → values1 (a + b * m) = some (patchTotal g s.L p a b))
          ∧ ∑ k in Finset.range (m * m), (values1 k).getD 0 = g.CountGrains)
      ∧ (1 < p → ∀ a b, a < m → b < m →
          values1 (a + b * m) = some ((patchFold g s.L p (a * p) (b * p) : Int) : GrainType)) := by
  have hidx : ∀ a b, a < m → b < m → a + b * m < m * m ∧ (a + b * m) % m = a
      ∧ (a + b * m) / m = b := by
    intro a b ha hb
    have h1 : (b + 1) * m ≤ m * m := Nat.mul_le_mul_right m hb
    have h2 : (b + 1) * m = b * m + m := by ring
    refine ⟨by omega, ?_, ?_⟩
    · rw [Nat.add_mul_mod_self_right]; exact Nat.mod_eq_of_lt ha
    · rw [Nat.add_mul_div_right _ _ (by omega), Nat.div_eq_of_lt ha]; omega
  have hsum : ∀ values1 : Nat → Option GrainType,
      (∀ a b, a < m → b < m → values1 (a + b * m) = some (patchTotal g s.L p a b)) →
      ∑ k in Finset.range (m * m), (values1 k).getD 0 = g.CountGrains := by
    intro values1 hv
    rw [sum_range_mul_block (fun k => (values1 k).getD 0) m m,
      ← patchTotal_sum g s.L p m hw hh hL]
    refine Finset.sum_congr rfl (fun b hb => Finset.sum_congr rfl (fun a ha => ?_))
    rw [Nat.add_comm, hv a b (Finset.mem_range.mp ha) (Finset.mem_range.mp hb)]
    rfl
  by_cases hp1 : p = 1
  · subst hp1
    have hm : s.L = m := by omega
    have hone := Coarsen_one s g hg hw hh values ((m * m : Nat) : Int) st fuel
    have hent : ∀ a b, a < m → b < m →
        (fun k => if k < s.L * s.L then some (g.cells k).height else values k) (a + b * m)
          = some (patchTotal g s.L 1 a b) := by
      intro a b ha hb
      simp only [hm]
      rw [if_pos (hidx a b ha hb).1]
      simp only [patchTotal, Finset.range_one, Finset.sum_singleton, Nat.mul_one, Nat.add_zero]
      rw [Nat.add_comm]
    refine ⟨_, hone, ?_, ?_, ?_, ?_⟩
    · intro k hk
      simp only [hm]
      rw [if_neg (by omega)]
    · intro _ k hk
      exact if_pos hk
    · intro _
      exact ⟨hent, hsum _ hent⟩
    · intro h; omega
  · have hp2 : 1 < p := by omega
    have hpat := Coarsen_patches s g m p hg hw hh hp2 hL values st fuel hfuel
    have hfold : ∀ a b, a < m → b < m →
        (fun k => if k < m * m
          then some ((patchFold g s.L p (k % m * p) (k / m * p) : Int) : GrainType)
          else values k) (a + b * m)
          = some ((patchFold g s.L p (a * p) (b * p) : Int) : GrainType) := by
      intro a b ha hb
      obtain ⟨h1, h2, h3⟩ := hidx a b ha hb
      show (if a + b * m < m * m
        then some ((patchFold g s.L p ((a + b * m) % m * p) ((a + b * m) / m * p) : Int)
          : GrainType)
        else values (a + b * m)) = _
      rw [if_pos h1, h2, h3]
    refine ⟨_, hpat, ?_, ?_, ?_, ?_⟩
    · intro k hk
      exact if_neg (by omega)
    · intro h; exact absurd h hp1
    · intro hint
      have hint1 : g.IntegerHeights := hint.resolve_right hp1
      have hent : ∀ a b, a < m → b < m →
          (fun k => if k < m * m
            then some ((patchFold g s.L p (k % m * p) (k / m * p) : Int) : GrainType)
            else values k) (a + b * m) = some (patchTotal g s.L p a b) := by
        intro a b ha hb
        rw [hfold a b ha hb, patchFold_integer g s.L p m a b hw hh hL ha hb hint1]
      exact ⟨hent, hsum _ hent⟩
    · intro _
      exact hfold

theorem C33_coarsen_sums_whole_heights_witness :
    ∃ values1, wholeGrainPile.Coarsen (fun _ => none) 1 2 (Statics.initial (constSeed 0)) 5
        = Except.ok (values1, Statics.initial (constSeed 0))
      ∧ values1 0 = some 10
      ∧ ∑ k in Finset.range 1, (values1 k).getD 0 = wholeGrainGrid.CountGrains
      ∧ wholeGrainGrid.CountGrains = 10 := by
  have hint : wholeGrainGrid.IntegerHeights := by
    intro k hk
    have h4 : k < 4 := hk
    interval_cases k <;> decide!
  obtain ⟨values1, h1, -, -, h4, -⟩ :=
    C33_coarsen_sums_whole_heights wholeGrainPile wholeGrainGrid 1 2 (fun _ => none)
      (Statics.initial (constSeed 0)) 5 rfl rfl rfl (by decide) rfl (by decide)
  obtain ⟨hent, hs⟩ := h4 (Or.inl hint)
  have h0 := hent 0 0 (by decide) (by decide)
  have hpt : patchTotal wholeGrainGrid wholeGrainPile.L 2 0 0 = 10 := by decide!
  rw [hpt] at h0
  exact ⟨values1, h1, h0, hs, by decide!⟩

/-! ### The queries and the generators -/

/-- On every boundary but FullyConnected, `GetNeighbours` leaves the generators as they are. -/
theorem GetNeighbours_statics {g : Grid} {i j : Int} {st : Statics} {fuel : Nat}
    {nb : List CellRef} {st1 : Statics}
    (hb : g.boundary_type ≠ BoundaryType.BT_FULLY_CONNECTED)
    (h : g.GetNeighbours i j st fuel = Except.ok (nb, st1)) : st1 = st := by
  unfold Grid.GetNeighbours at h
  simp only [] at h
  by_cases hw : g.width = 0
  · rw [if_pos hw] at h
    simp [throw, throwThe, MonadExceptOf.throw] at h
  rw [if_neg hw] at h
  by_cases hh : g.height = 0
  · rw [if_pos hh] at h
    simp [throw, throwThe, MonadExceptOf.throw] at h
  rw [if_neg hh] at h
  cases hbt : g.boundary_type with
  | BT_FULLY_CONNECTED => exact absurd hbt hb
  | BT_UNDEFINED =>
    rw [hbt] at h
    simp [throw, throwThe, MonadExceptOf.throw] at h
  | BT_PERIODIC =>
    rw [hbt] at h
    simp only [pure, Except.pure] at h
    exact (Prod.mk.inj (Except.ok.inj h)).2.symm
  | BT_DISSIPATING =>
    rw [hbt] at h
    simp only [pure, Except.pure] at h
    exact (Prod.mk.inj (Except.ok.inj h)).2.symm
  | BT_WALL_DISSIPATING =>
    rw [hbt] at h
    simp only [pure, Except.pure] at h
    exact (Prod.mk.inj (Except.ok.inj h)).2.symm
  | BT_CIRCULAR =>
    rw [hbt] at h
    simp only [] at h
    obtain ⟨l, -, h⟩ := bind_ok h
    simp only [pure, Except.pure] at h
    exact (Prod.mk.inj (Except.ok.inj h)).2.symm
  | BT_RANDOM_NEIGHBOURS =>
    rw [hbt] at h
    simp only [] at h
    obtain ⟨l, -, h⟩ := bind_ok h
    simp only [pure, Except.pure] at h
    exact (Prod.mk.inj (Except.ok.inj h)).2.symm

/-- One iteration of the loop of `GetValues` leaves the generators as they are, unless the kind is
`GVT_NCN` and the primary grid is FullyConnected. -/
theorem getValuesStep_statics {s : SandPile} {gvt : GridValueType} {i : Nat}
    {values values1 : Nat → Option GrainType} {st st1 : Statics} {fuel : Nat}
    (hq : gvt ≠ GridValueType.GVT_NCN
      ∨ ∀ g, s.grid = some g → g.boundary_type ≠ BoundaryType.BT_FULLY_CONNECTED)
    (h : s.getValuesStep gvt i values st fuel = Except.ok (values1, st1)) : st1 = st := by
  have fin : ∀ {x : Run CellRef} {f : CellRef → Run Cell} {v : Cell → Nat → Option GrainType},
      (do let r ← x; let c ← f r; pure (v c, st) : Run ((Nat → Option GrainType) × Statics))
        = Except.ok (values1, st1) → st1 = st := by
    intro x f v h
    obtain ⟨r, -, h⟩ := bind_ok h
    obtain ⟨c, -, h⟩ := bind_ok h
    simp only [pure, Except.pure] at h
    exact (Prod.mk.inj (Except.ok.inj h)).2.symm
  unfold SandPile.getValuesStep at h
  cases gvt with
  | GVT_NCN =>
    simp only [] at h
    cases hg : s.grid with
    | none =>
      rw [hg] at h
      simp [throw, throwThe, MonadExceptOf.throw] at h
    | some g =>
      rw [hg] at h
      simp only [] at h
      obtain ⟨p, hp, h⟩ := bind_ok h
      obtain ⟨nb, st0⟩ := p
      have h0 : st0 = st :=
        GetNeighbours_statics ((hq.resolve_left (fun hne => hne rfl)) g hg) hp
      simp only [] at h
      obtain ⟨flags, -, h⟩ := bind_ok h
      simp only [pure, Except.pure] at h
      rw [← h0]
      exact (Prod.mk.inj (Except.ok.inj h)).2.symm
  | GVT_HEIGHT_SCALED =>
    simp only [] at h
    cases hg : s.grid with
    | none =>
      rw [hg] at h
      simp [throw, throwThe, MonadExceptOf.throw] at h
    | some g =>
      rw [hg] at h
      exact fin h
  | GVT_HEIGHT =>
    simp only [] at h
    cases hg : s.grid with
    | none =>
      rw [hg] at h
      simp [throw, throwThe, MonadExceptOf.throw] at h
    | some g =>
      rw [hg] at h
      exact fin h
  | GVT_CRITICAL_CELLS =>
    simp only [] at h
    cases hg : s.grid with
    | none =>
      rw [hg] at h
      simp [throw, throwThe, MonadExceptOf.throw] at h
    | some g =>
      rw [hg] at h
      cases ht : s.toppling with
      | none =>
        rw [ht] at h
        simp [throw, throwThe, MonadExceptOf.throw] at h
      | some t =>
        rw [ht] at h
        exact fin h
  | GVT_DISSIPATION =>
    simp only [] at h
    cases hg : s.diss_grid with
    | none =>
      rw [hg] at h
      simp [throw, throwThe, MonadExceptOf.throw] at h
    | some g =>
      rw [hg] at h
      exact fin h
  | GVT_DIRECTION =>
    simp only [] at h
    cases hg : s.diss_grid with
    | none =>
      rw [hg] at h
      simp [throw, throwThe, MonadExceptOf.throw] at h
    | some g =>
      rw [hg] at h
      exact fin h
  | GVT_ORDERPARAM1 =>
    simp only [pure, Except.pure] at h
    exact (Prod.mk.inj (Except.ok.inj h)).2.symm
  | GVT_NOF_TYPES =>
    simp only [pure, Except.pure] at h
    exact (Prod.mk.inj (Except.ok.inj h)).2.symm

theorem getValuesLoop_statics {s : SandPile} {gvt : GridValueType} {fuel : Nat}
    (hq : gvt ≠ GridValueType.GVT_NCN
      ∨ ∀ g, s.grid = some g → g.boundary_type ≠ BoundaryType.BT_FULLY_CONNECTED) :
    ∀ (count i : Nat) (values values1 : Nat → Option GrainType) (st st1 : Statics),
      getValuesLoop s gvt fuel i count values st = Except.ok (values1, st1) → st1 = st
  | 0, i, values, values1, st, st1, h => by
    simp only [getValuesLoop, pure, Except.pure] at h
    exact (Prod.mk.inj (Except.ok.inj h)).2.symm
  | count + 1, i, values, values1, st, st1, h => by
    simp only [getValuesLoop] at h
    obtain ⟨p, hp, h⟩ := bind_ok h
    obtain ⟨v0, st0⟩ := p
    have h0 : st0 = st := getValuesStep_statics hq hp
    have h1 := getValuesLoop_statics hq count (i + 1) v0 values1 st0 st1 h
    rw [h1, h0]

/-- The method `Coarsen` leaves the generators as they are. -/
theorem Coarsen_statics {s : SandPile} {values values1 : Nat → Option GrainType}
    {array_size patch_L : Int} {st st1 : Statics} {fuel : Nat}
    (h : s.Coarsen values array_size patch_L st fuel = Except.ok (values1, st1)) : st1 = st := by
  unfold SandPile.Coarsen at h
  split_ifs at h
  · exact getValuesLoop_statics (Or.inl (by decide)) _ _ _ _ _ _ h
  · obtain ⟨v, -, h⟩ := bind_ok h
    simp only [pure, Except.pure] at h
    exact (Prod.mk.inj (Except.ok.inj h)).2.symm

/-- C32: `GetValues` leaves the generators as they are for every value kind other than `GVT_NCN`, and
for `GVT_NCN` on every primary grid that is not FullyConnected; `Coarsen` leaves them as
they are in every case (neither method has a statement that writes to a cell, to the
active set or to the histogram, and `GetValue` has no access to a generator).  With
`GVT_NCN` on a FullyConnected grid the call draws from the neighbour generator: on the
2 by 2 sandpile of `fullyConnectedQuery` the next draw is 3 before the call and 23 after
it. -/
theorem C32_queries_keep_generators (s : SandPile) (gvt : GridValueType)
    (hq : gvt ≠ GridValueType.GVT_NCN
      ∨ ∀ g, s.grid = some g → g.boundary_type ≠ BoundaryType.BT_FULLY_CONNECTED) :
    (∀ (values values1 : Nat → Option GrainType) (st st1 : Statics) (fuel : Nat),
        s.GetValues values gvt st fuel = Except.ok (values1, st1) → st1 = st)
    ∧ (∀ (values values1 : Nat → Option GrainType) (array_size patch_L : Int)
        (st st1 : Statics) (fuel : Nat),
        s.Coarsen values array_size patch_L st fuel = Except.ok (values1, st1) → st1 = st)
    ∧ Run.value fullyConnectedQuery = some (3, 23) := by
  refine ⟨?_, ?_, by decide!⟩
  · intro values values1 st st1 fuel h
    exact getValuesLoop_statics hq _ _ _ _ _ _ h
  · intro values values1 array_size patch_L st st1 fuel h
    exact Coarsen_statics h

theorem C32_queries_keep_generators_witness :
    ∃ values1, wholeGrainPile.GetValues (fun _ => none) GridValueType.GVT_NCN
        (Statics.initial (constSeed 0)) 5
      = Except.ok (values1, Statics.initial (constSeed 0)) := by
  have hq : ∀ g, wholeGrainPile.grid = some g →
      g.boundary_type ≠ BoundaryType.BT_FULLY_CONNECTED := by
    intro g hg
    have h1 : some wholeGrainGrid = some g := hg
    cases h1
    decide
  have hv : (Run.value (wholeGrainPile.GetValues (fun _ => none) GridValueType.GVT_NCN
      (Statics.initial (constSeed 0)) 5)).isSome = true := by decide!
  cases h : wholeGrainPile.GetValues (fun _ => none) GridValueType.GVT_NCN
      (Statics.initial (constSeed 0)) 5 with
  | error err =>
    rw [h] at hv
    simp [Run.value] at hv
  | ok p =>
    obtain ⟨values1, st1⟩ := p
    have h1 := (C32_queries_keep_generators wholeGrainPile GridValueType.GVT_NCN
      (Or.inr hq)).1 _ _ _ _ _ h
    rw [h1]
    exact ⟨values1, rfl⟩

/-! ### Two relaxations in a row: the engine -/

/-- On every boundary but FullyConnected the neighbour list does not depend on the generators. -/
theorem GetNeighbours_any {g : Grid} {i j : Int} {st : Statics} {fuel : Nat}
    {nb : List CellRef} {st1 : Statics}
    (hb : g.boundary_type ≠ BoundaryType.BT_FULLY_CONNECTED)
    (h : g.GetNeighbours i j st fuel = Except.ok (nb, st1)) (st2 : Statics) (fuel2 : Nat) :
    g.GetNeighbours i j st2 fuel2 = Except.ok (nb, st2) := by
  unfold Grid.GetNeighbours at h ⊢
  simp only [] at h ⊢
  by_cases hw : g.width = 0
  · rw [if_pos hw] at h
    simp [throw, throwThe, MonadExceptOf.throw] at h
  rw [if_neg hw] at h ⊢
  by_cases hh : g.height = 0
  · rw [if_pos hh] at h
    simp [throw, throwThe, MonadExceptOf.throw] at h
  rw [if_neg hh] at h ⊢
  cases hbt : g.boundary_type with
  | BT_FULLY_CONNECTED => exact absurd hbt hb
  | BT_UNDEFINED =>
    rw [hbt] at h
    simp [throw, throwThe, MonadExceptOf.throw] at h
  | BT_PERIODIC =>
    rw [hbt] at h
    simp only [pure, Except.pure] at h ⊢
    rw [(Prod.mk.inj (Except.ok.inj h)).1]
  | BT_DISSIPATING =>
    rw [hbt] at h
    simp only [pure, Except.pure] at h ⊢
    rw [(Prod.mk.inj (Except.ok.inj h)).1]
  | BT_WALL_DISSIPATING =>
    rw [hbt] at h
    simp only [pure, Except.pure] at h ⊢
    rw [(Prod.mk.inj (Except.ok.inj h)).1]
  | BT_CIRCULAR =>
    rw [hbt] at h
    simp only [] at h ⊢
    obtain ⟨l, hl, h⟩ := bind_ok h
    simp only [pure, Except.pure] at h
    rw [hl, ← (Prod.mk.inj (Except.ok.inj h)).1]
    rfl
  | BT_RANDOM_NEIGHBOURS =>
    rw [hbt] at h
    simp only [] at h ⊢
    obtain ⟨l, hl, h⟩ := bind_ok h
    simp only [pure, Except.pure] at h
    rw [hl, ← (Prod.mk.inj (Except.ok.inj h)).1]
    rfl

/-- A loop iteration that reports no toppling event under a rule other than Rossum2011-diss has
found the cell below the threshold and has changed nothing. -/
theorem visit_quietAt {e : Engine} {dg : Option Grid} {fuel : Nat} {idx : Int} {st : Statics}
    {e1 : Engine} {st1 : Statics}
    (hm : e.toppling.toppling_method ≠ TopplingMethod.Rossum2011_diss)
    (h : e.visit dg fuel idx st = Except.ok (false, e1, st1)) : e.QuietAt idx ∧ e1 = e := by
  unfold Engine.visit at h
  simp only [] at h
  obtain ⟨p, hp, h⟩ := bind_ok h
  obtain ⟨r, hr, h⟩ := bind_ok h
  obtain ⟨c, hc, hcase⟩ := Topple_cases h hm
  rcases hcase with ⟨hlt, -, he⟩ | ⟨-, hb, -⟩
  · exact ⟨⟨st, fuel, p.1, p.2, r, c, hp, hr, hc, hlt⟩, he⟩
  · cases hb

/-- Where the cell is found below the threshold and the grid is not FullyConnected, the loop
iteration returns for every state of the generators, reports nothing and changes
nothing. -/
theorem quietAt_visit {e : Engine} {idx : Int}
    (hb : e.grid.boundary_type ≠ BoundaryType.BT_FULLY_CONNECTED) (hq : e.QuietAt idx)
    (dg : Option Grid) (fuel : Nat) (st : Statics) :
    ∃ st1, e.visit dg fuel idx st = Except.ok (false, e, st1) := by
  obtain ⟨st0, fuel0, nb, st01, r, c, hn, hr, hc, hlt⟩ := hq
  refine ⟨(st.drawSplit nb.length).2, ?_⟩
  unfold Engine.visit
  simp only []
  rw [GetNeighbours_any hb hn st fuel, hr]
  simp only [bind, Except.bind]
  exact Topple_below dg nb st hc hlt

/-- A sweep without toppling event (rule other than Rossum2011-diss) has found every visited cell
quiet. -/
theorem sweep_quietAt (dg : Option Grid) (fuel : Nat) : ∀ (l : List Int) (e : Engine)
    (st : Statics) (e1 : Engine) (st1 : Statics),
    Engine.sweep dg fuel l e st = Except.ok (0, e1, st1) →
    e.toppling.toppling_method ≠ TopplingMethod.Rossum2011_diss →
    e1 = e ∧ ∀ idx, idx ∈ l → e.QuietAt idx
  | [], e, st, e1, st1, h, _ => by
    simp only [Engine.sweep, pure, Except.pure] at h
    have := Except.ok.inj h
    simp only [Prod.mk.injEq] at this
    obtain ⟨-, rfl, -⟩ := this
    exact ⟨rfl, by simp⟩
  | idx :: rest, e, st, e1, st1, h, hm => by
    simp only [Engine.sweep] at h
    obtain ⟨p, hp, h⟩ := bind_ok h
    obtain ⟨q, hq, h⟩ := bind_ok h
    simp only [pure, Except.pure] at h
    have := Except.ok.inj h
    simp only [Prod.mk.injEq] at this
    obtain ⟨hk, rfl, rfl⟩ := this
    have hk1 : p.1 = false ∧ q.1 = 0 := by
      cases hb : p.1 with
      | true => rw [hb] at hk; simp at hk
      | false => rw [hb] at hk; simp at hk; exact ⟨rfl, hk⟩
    have hp1 : e.visit dg fuel idx st = Except.ok (false, p.2.1, p.2.2) := by
      rw [hp, ← hk1.1]
    obtain ⟨hqa, he⟩ := visit_quietAt hm hp1
    have hq1 : Engine.sweep dg fuel rest p.2.1 p.2.2 = Except.ok (0, q.2.1, q.2.2) := by
      rw [hq, ← hk1.2]
    obtain ⟨h1, h2⟩ := sweep_quietAt dg fuel rest p.2.1 p.2.2 q.2.1 q.2.2 hq1
      (by rw [he]; exact hm)
    rw [he] at h1 h2
    refine ⟨h1, fun i hi => ?_⟩
    rcases List.mem_cons.mp hi with rfl | hi
    · exact hqa
    · exact h2 i hi

/-- Where every listed cell is quiet and the grid is not FullyConnected, the sweep returns
without toppling event and changes nothing. -/
theorem sweep_quiet_returns (dg : Option Grid) (fuel : Nat) (e : Engine)
    (hb : e.grid.boundary_type ≠ BoundaryType.BT_FULLY_CONNECTED) :
    ∀ (l : List Int) (st : Statics), (∀ idx, idx ∈ l → e.QuietAt idx) →
      ∃ st1, Engine.sweep dg fuel l e st = Except.ok (0, e, st1)
  | [], st, _ => ⟨st, rfl⟩
  | idx :: rest, st, hq => by
    obtain ⟨st0, hv⟩ := quietAt_visit hb (hq idx (List.mem_cons_self _ _)) dg fuel st
    obtain ⟨st1, hs⟩ := sweep_quiet_returns dg fuel e hb rest st0
      (fun i hi => hq i (List.mem_cons_of_mem _ hi))
    refine ⟨st1, ?_⟩
    simp only [Engine.sweep, hv, hs, bind, Except.bind, pure, Except.pure]
    rfl

theorem tablePermutation_onto {e : Engine} (h : e.TablePermutation) : OntoTable e := by
  obtain ⟨table, htab, hperm⟩ := h
  refine ⟨table, htab, fun c hc => ?_⟩
  have hmem : c ∈ (List.range (e.grid.width * e.grid.height)).map table :=
    hperm.symm.subset (List.mem_range.mpr hc)
  obtain ⟨k, hk, he⟩ := List.mem_map.mp hmem
  exact ⟨k, List.mem_range.mp hk, he⟩

/-- A pass of RandomAll (rule other than Rossum2011-diss) after which `quit` is true has found every
cell of the grid quiet. -/
theorem pass_randomAll_quiet {e : Engine} {dg : Option Grid} {fuel it_n : Nat} {st : Statics}
    {k : Nat} {quit : Bool} {e1 : Engine} {st1 : Statics}
    (hit : e.toppling.toppling_iterator = TopplingIterator.RANDOM_ALL)
    (hm : e.toppling.toppling_method ≠ TopplingMethod.Rossum2011_diss)
    (ht : OntoTable e)
    (h : e.pass dg fuel it_n st = Except.ok (k, quit, e1, st1)) (hquit : quit = true) :
    ∀ n, n < e1.grid.width * e1.grid.height → e1.QuietAt (n : Int) := by
  obtain ⟨fr, -, -, -⟩ := pass_general h
  obtain ⟨table, htab, honto⟩ := ht
  unfold Engine.pass at h
  simp only [] at h
  split at h
  · rename_i heq; rw [hit] at heq; cases heq
  · rw [htab] at h
    simp only [] at h
    obtain ⟨p, hp, h⟩ := bind_ok h
    simp only [pure, Except.pure] at h
    have := Except.ok.inj h
    simp only [Prod.mk.injEq] at this
    obtain ⟨rfl, rfl, rfl, -⟩ := this
    have honto1 : ∀ c, c < e.grid.width * e.grid.height →
        ∃ k, k < e.grid.width * e.grid.height
          ∧ (random_shuffle boost_random (e.grid.width * e.grid.height) table st).1 k = c := by
      intro c hc
      obtain ⟨k0, hk0, e0⟩ := honto c hc
      obtain ⟨k1, hk1, e1⟩ := random_shuffle_onto (e.grid.width * e.grid.height) table st k0 hk0
      exact ⟨k1, hk1, e1.trans e0⟩
    have hk0 : p.1 = 0 := of_decide_eq_true hquit
    have hp1 := hp
    rw [show p = (p.1, p.2.1, p.2.2) from rfl, hk0] at hp1
    obtain ⟨he, hall⟩ := sweep_quietAt dg fuel _ _ _ p.2.1 p.2.2 hp1 hm
    intro n hn
    rw [fr.width, fr.height] at hn
    obtain ⟨k1, hk1, hk1e⟩ := honto1 n hn
    rw [he]
    exact hall (n : Int) (by
      rw [List.mem_map]
      exact ⟨k1, List.mem_range.mpr hk1, by rw [hk1e]⟩)
  · rename_i heq; rw [hit] at heq; cases heq

/-- A relaxation of RandomAll (rule other than Rossum2011-diss) that returns has found every cell of
the grid quiet in its last pass. -/
theorem toppleLoop_randomAll_quiet (dg : Option Grid) (fuel : Nat) :
    ∀ (passes it_n : Nat) (av : Int)
    (e : Engine) (st : Statics) (a : Int) (e1 : Engine) (st1 : Statics),
    e.toppling.toppling_iterator = TopplingIterator.RANDOM_ALL →
    e.toppling.toppling_method ≠ TopplingMethod.Rossum2011_diss →
    OntoTable e →
    Engine.toppleLoop dg fuel passes it_n av e st = Except.ok (a, e1, st1) →
    ∀ n, n < e1.grid.width * e1.grid.height → e1.QuietAt (n : Int)
  | 0, _, _, _, _, _, _, _, _, _, _, h => by
    simp [Engine.toppleLoop, throw, throwThe, MonadExceptOf.throw] at h
  | passes + 1, it_n, av, e, st, a, e1, st1, hit, hm, ht, h => by
    simp only [Engine.toppleLoop] at h
    obtain ⟨p, hp, h⟩ := bind_ok h
    obtain ⟨fr, ht1, -⟩ := @pass_randomAll _ _ _ _ _ p.1 p.2.1 p.2.2.1 p.2.2.2 hit hm ht hp
    by_cases hq : p.2.1 = true
    · rw [if_pos hq] at h
      simp only [pure, Except.pure] at h
      have := Except.ok.inj h
      simp only [Prod.mk.injEq] at this
      obtain ⟨-, rfl, -⟩ := this
      exact @pass_randomAll_quiet _ _ _ _ _ p.1 p.2.1 p.2.2.1 p.2.2.2 hit hm ht hp hq
    · rw [if_neg hq] at h
      exact toppleLoop_randomAll_quiet dg fuel passes (it_n + 1) (av + p.1) p.2.2.1 p.2.2.2 a e1
        st1 (by rw [fr.iterator]; exact hit) (by rw [fr.method]; exact hm) ht1 h

/-- On a grid whose cells are all below the threshold a sweep over cells of the grid (rule other
than Rossum2011-diss) that returns reports no toppling event and changes nothing. -/
theorem sweep_below (dg : Option Grid) (fuel : Nat) : ∀ (l : List Int) (e : Engine)
    (st : Statics) (k : Nat) (e1 : Engine) (st1 : Statics),
    e.toppling.toppling_method ≠ TopplingMethod.Rossum2011_diss →
    (∀ idx, idx ∈ l → ∃ n : Nat, n < e.grid.width * e.grid.height ∧ idx = (n : Int)) →
    (∀ n, n < e.grid.width * e.grid.height →
      (e.grid.cells n).height < e.toppling.topple_threshold) →
    Engine.sweep dg fuel l e st = Except.ok (k, e1, st1) → k = 0 ∧ e1 = e
  | [], e, st, k, e1, st1, _, _, _, h => by
    simp only [Engine.sweep, pure, Except.pure] at h
    have := Except.ok.inj h
    simp only [Prod.mk.injEq] at this
    obtain ⟨rfl, rfl, -⟩ := this
    exact ⟨rfl, rfl⟩
  | idx :: rest, e, st, k, e1, st1, hm, hl, hbelow, h => by
    simp only [Engine.sweep] at h
    obtain ⟨p, hp, h⟩ := bind_ok h
    obtain ⟨q, hq, h⟩ := bind_ok h
    simp only [pure, Except.pure] at h
    have := Except.ok.inj h
    simp only [Prod.mk.injEq] at this
    obtain ⟨rfl, rfl, rfl⟩ := this
    obtain ⟨nb, st0, -, ht⟩ := @visit_ok _ _ _ _ _ p.1 p.2.1 p.2.2 hp
    obtain ⟨c, hc, hcase⟩ := Topple_cases ht hm
    obtain ⟨n, hn, rfl⟩ := hl idx (List.mem_cons_self _ _)
    obtain ⟨-, -, hcn⟩ := read_cell_ok hc
    rw [Int.toNat_natCast] at hcn
    have hlt := hbelow n hn
    rw [← hcn] at hlt
    rcases hcase with ⟨-, hb, he⟩ | ⟨hge, -, -⟩
    · obtain ⟨h1, h2⟩ := sweep_below dg fuel rest p.2.1 p.2.2 q.1 q.2.1 q.2.2
        (by rw [he]; exact hm)
        (by rw [he]; exact fun i hi => hl i (List.mem_cons_of_mem _ hi))
        (by rw [he]; exact hbelow) hq
      exact ⟨by rw [hb, h1]; rfl, h2.trans he⟩
    · exact absurd hlt (not_lt.mpr hge)

/-- A relaxation of RandomAll (rule other than Rossum2011-diss, permutation table) on a grid whose
cells are all below the threshold, if it returns, returns 0. -/
theorem ToppleAll_below {e : Engine} {dg : Option Grid} {av : Int} {st : Statics} {fuel : Nat}
    {a : Int} {e1 : Engine} {st1 : Statics}
    (hit : e.toppling.toppling_iterator = TopplingIterator.RANDOM_ALL)
    (hm : e.toppling.toppling_method ≠ TopplingMethod.Rossum2011_diss)
    (ht : e.TablePermutation)
    (hbelow : ∀ n, n < e.grid.width * e.grid.height →
      (e.grid.cells n).height < e.toppling.topple_threshold)
    (h : e.ToppleAll dg av st fuel = Except.ok (a, e1, st1)) : a = 0 := by
  unfold Engine.ToppleAll at h
  cases fuel with
  | zero => simp [Engine.toppleLoop, throw, throwThe, MonadExceptOf.throw] at h
  | succ fuel =>
    simp only [Engine.toppleLoop] at h
    obtain ⟨p, hp, h⟩ := bind_ok h
    obtain ⟨k, quit, e2, st2⟩ := p
    have hquit := (pass_general hp).2.2.2 (by rw [hit]; decide)
    have hk : k = 0 := by
      obtain ⟨table, htab, hperm⟩ := ht
      have hp1 := hp
      unfold Engine.pass at hp1
      simp only [] at hp1
      split at hp1
      · rename_i heq; rw [hit] at heq; cases heq
      · rw [htab] at hp1
        simp only [] at hp1
        obtain ⟨q, hq, hp1⟩ := bind_ok hp1
        simp only [pure, Except.pure] at hp1
        have := Except.ok.inj hp1
        simp only [Prod.mk.injEq] at this
        obtain ⟨rfl, -⟩ := this
        have key := fun h1 h2 h3 =>
          sweep_below dg (fuel + 1) _ _ _ q.1 q.2.1 q.2.2 h1 h2 h3 hq
        refine (key hm ?_ hbelow).1
        intro idx hidx
        obtain ⟨c, hc, rfl⟩ := List.mem_map.mp hidx
        exact ⟨_, perm_range_lt (random_shuffle_perm _ table st hperm) c
          (List.mem_range.mp hc), rfl⟩
      · rename_i heq; rw [hit] at heq; cases heq
    subst hk
    simp only [] at h hquit
    rw [hquit] at h
    simp only [decide_True, if_true, pure, Except.pure] at h
    have := Except.ok.inj h
    simp only [Prod.mk.injEq] at this
    rw [← this.1]
    simp

/-- Where every cell of the grid is quiet and the grid is not FullyConnected, a relaxation of
RandomAll (permutation table) returns 0 after one pass and leaves the grid as it is. -/
theorem ToppleAll_quiet_returns (e : Engine) (dg : Option Grid) (av : Int) (st : Statics)
    (fuel : Nat)
    (hit : e.toppling.toppling_iterator = TopplingIterator.RANDOM_ALL)
    (ht : e.TablePermutation)
    (hb : e.grid.boundary_type ≠ BoundaryType.BT_FULLY_CONNECTED)
    (hq : ∀ n, n < e.grid.width * e.grid.height → e.QuietAt (n : Int)) :
    ∃ e1 st1, e.ToppleAll dg av st (fuel + 1) = Except.ok (0, e1, st1)
      ∧ e1.grid = e.grid := by
  obtain ⟨table, htab, hperm⟩ := ht
  have hlt := perm_range_lt (random_shuffle_perm _ table st hperm)
  cases hsh : random_shuffle boost_random (e.grid.width * e.grid.height) table st with
  | mk table1 st0 =>
    rw [hsh] at hlt
    simp only [] at hlt
    have hq1 : ∀ idx, idx ∈ (List.range (e.grid.width * e.grid.height)).map
        (fun c => ((table1 c : Nat) : Int)) → (e.withTable table1).QuietAt idx := by
      intro idx hidx
      obtain ⟨c, hc, rfl⟩ := List.mem_map.mp hidx
      exact hq (table1 c) (hlt c (List.mem_range.mp hc))
    obtain ⟨st1, hs⟩ := sweep_quiet_returns dg (fuel + 1) (e.withTable table1) hb _ st0 hq1
    refine ⟨e.withTable table1, st1, ?_, rfl⟩
    unfold Engine.withTable at hs
    unfold Engine.ToppleAll
    simp only [Engine.toppleLoop]
    have hp : e.pass dg (fuel + 1) 0 st
        = Except.ok (0, true, e.withTable table1, st1) := by
      unfold Engine.pass Engine.withTable
      simp only [htab, hsh]
      simp only [hit] at hs ⊢
      rw [hs]
      rfl
    rw [hp]
    rfl

/-- The dissipation side as the constructor builds it: a relaxation returns 0 after one pass. -/
theorem ToppleAll_diss_returns (e : Engine) (dg : Option Grid) (av : Int) (st : Statics)
    (fuel : Nat)
    (hm : e.toppling.toppling_method = TopplingMethod.Rossum2011_diss)
    (hit : e.toppling.toppling_iterator = TopplingIterator.RANDOM_ALL)
    (ht : e.TablePermutation)
    (hb : e.grid.boundary_type = BoundaryType.BT_PERIODIC)
    (hd : e.grid.DirectionsInRange) :
    ∃ e1 st1, e.ToppleAll dg av st (fuel + 1) = Except.ok (0, e1, st1) := by
  obtain ⟨table, htab, hperm⟩ := ht
  obtain ⟨e1, st1, hp⟩ := passLog_diss_returns dg (fuel + 1) 0 st hm hit hb hd htab
    (perm_range_lt hperm)
  have hl : e.ToppleLog dg st (fuel + 1)
      = Except.ok (List.replicate (e.grid.width * e.grid.height) false, e1, st1) := by
    unfold Engine.ToppleLog
    simp only [Engine.toppleLogLoop]
    rw [hp]
    rfl
  refine ⟨e1, st1, ?_⟩
  rw [ToppleAll_eq_log, hl]
  simp only [Except.map, count_replicate_false]
  rfl

/-- A relaxation under a random strategy that returns leaves a permutation in the table. -/
theorem ToppleAll_table {e : Engine} {dg : Option Grid} {av : Int} {st : Statics} {fuel : Nat}
    {a : Int} {e1 : Engine} {st1 : Statics}
    (hit : e.toppling.toppling_iterator ≠ TopplingIterator.FOLLOW_ACTIVITY)
    (ht : e.TablePermutation)
    (h : e.ToppleAll dg av st fuel = Except.ok (a, e1, st1)) : e1.TablePermutation := by
  rw [ToppleAll_eq_log] at h
  cases hl : e.ToppleLog dg st fuel with
  | error err =>
    rw [hl] at h
    simp [Except.map] at h
  | ok r =>
    obtain ⟨log, e2, st2⟩ := r
    rw [hl] at h
    simp only [Except.map] at h
    have := Except.ok.inj h
    simp only [Prod.mk.injEq] at this
    obtain ⟨-, he, -⟩ := this
    rw [← he]
    exact toppleLogLoop_table dg fuel fuel 0 [] e st log e2 st2 hit ht hl

theorem GetNeighbours_periodic_length {g : Grid} {i j : Int} {st : Statics} {fuel : Nat}
    {nb : List CellRef} {st1 : Statics}
    (hb : g.boundary_type = BoundaryType.BT_PERIODIC)
    (h : g.GetNeighbours i j st fuel = Except.ok (nb, st1)) : nb.length = 4 := by
  unfold Grid.GetNeighbours at h
  simp only [hb] at h
  split_ifs at h
  simp only [pure, Except.pure, neighbourLoop, List.map] at h
  have := Except.ok.inj h
  simp only [Prod.mk.injEq] at this
  obtain ⟨rfl, -⟩ := this
  rfl

/-- A relaxation on a Periodic grid that returns keeps the directions among 0..3. -/
theorem ToppleAll_directions {e : Engine} {dg : Option Grid} {av : Int} {st : Statics}
    {fuel : Nat} {a : Int} {e1 : Engine} {st1 : Statics}
    (hb : e.grid.boundary_type = BoundaryType.BT_PERIODIC) (hd : e.grid.DirectionsInRange)
    (h : e.ToppleAll dg av st fuel = Except.ok (a, e1, st1)) : e1.grid.DirectionsInRange := by
  unfold Engine.ToppleAll at h
  refine toppleLoop_invariant (fun g => g.DirectionsInRange) dg fuel e ?_ fuel 0 0 e st a e1 st1
    (Engine.Frame.refl e) hd h
  intro e2 idx st2 b e3 st3 hf hi hv
  obtain ⟨nb, st0, hnb, ht⟩ := visit_ok hv
  exact Topple_directions hi
    (GetNeighbours_periodic_length (hf.boundary_type.trans hb) hnb) ht

/-- After a relaxation of a settling engine has returned, every following relaxation that returns
returns 0. -/
theorem second_ToppleAll_zero {e : Engine} {dg : Option Grid} {av : Int} {st : Statics}
    {fuel : Nat} {a : Int} {e1 : Engine} {st1 : Statics} (hs : e.Settles)
    (h : e.ToppleAll dg av st fuel = Except.ok (a, e1, st1))
    (dg2 : Option Grid) (av2 : Int) (st2 : Statics) (fuel2 : Nat) (a2 : Int) (e2 : Engine)
    (st3 : Statics) (h2 : e1.ToppleAll dg2 av2 st2 fuel2 = Except.ok (a2, e2, st3)) :
    a2 = 0 := by
  have hl := h
  unfold Engine.ToppleAll at hl
  obtain ⟨fr, -, hfo⟩ := toppleLoop_general dg fuel fuel 0 0 e st a e1 st1 hl
  have hdiss : e.toppling.toppling_method = TopplingMethod.Rossum2011_diss → a2 = 0 := by
    intro hm
    have hl2 := h2
    unfold Engine.ToppleAll at hl2
    exact (toppleLoop_general dg2 fuel2 fuel2 0 0 e1 st2 a2 e2 st3 hl2).2.1
      (fr.method.trans hm)
  rcases hs with hit | ⟨hit, ht⟩ | hm
  · exact (ToppleAll_idle (fr.iterator.trans hit) (hfo hit).1 h2).1
  · by_cases hm : e.toppling.toppling_method = TopplingMethod.Rossum2011_diss
    · exact hdiss hm
    · have hbelow := toppleLoop_randomAll dg fuel fuel 0 0 e st a e1 st1 hit hm (tablePermutation_onto ht) hl
      exact ToppleAll_below (fr.iterator.trans hit) (by rw [fr.method]; exact hm)
        (ToppleAll_table (by rw [hit]; decide) ht h) hbelow h2
  · exact hdiss hm

/-- After a relaxation of a resuming engine has returned, a following relaxation returns, with 0,
for every state of the generators; under a rule other than Rossum2011-diss it leaves
the grid as it is. -/
theorem second_ToppleAll_returns {e : Engine} {dg : Option Grid} {av : Int} {st : Statics}
    {fuel : Nat} {a : Int} {e1 : Engine} {st1 : Statics} (hr : e.Resumes)
    (h : e.ToppleAll dg av st fuel = Except.ok (a, e1, st1))
    (dg2 : Option Grid) (av2 : Int) (st2 : Statics) (fuel2 : Nat) :
    ∃ e2 st3, e1.ToppleAll dg2 av2 st2 (fuel2 + 1) = Except.ok (0, e2, st3)
      ∧ (e.toppling.toppling_method ≠ TopplingMethod.Rossum2011_diss → e2.grid = e1.grid)
      ∧ (e.toppling.toppling_iterator = TopplingIterator.FOLLOW_ACTIVITY → st3 = st2) := by
  have hl := h
  unfold Engine.ToppleAll at hl
  obtain ⟨fr, -, hfo⟩ := toppleLoop_general dg fuel fuel 0 0 e st a e1 st1 hl
  rcases hr with hit | ⟨hit, ht, hm, hb⟩ | ⟨hm, hit, ht, hb, hd⟩
  · obtain ⟨hnil, hcnt⟩ := hfo hit
    obtain ⟨e2, he2, hg2, -⟩ := ToppleAll_idle_returns e1 dg2 av2 st2 fuel2
      (fr.iterator.trans hit) hnil (fun hc => hcnt (by rw [← fr.count]; exact hc))
    exact ⟨e2, st2, he2, fun _ => hg2, fun _ => rfl⟩
  · have hq := toppleLoop_randomAll_quiet dg fuel fuel 0 0 e st a e1 st1 hit hm (tablePermutation_onto ht) hl
    obtain ⟨e2, st3, he2, hg2⟩ := ToppleAll_quiet_returns e1 dg2 av2 st2 fuel2
      (fr.iterator.trans hit) (ToppleAll_table (by rw [hit]; decide) ht h)
      (by rw [fr.boundary_type]; exact hb) hq
    exact ⟨e2, st3, he2, fun _ => hg2, fun hfa => by rw [hit] at hfa; cases hfa⟩
  · obtain ⟨e2, st3, he2⟩ := ToppleAll_diss_returns e1 dg2 av2 st2 fuel2
      (fr.method.trans hm) (fr.iterator.trans hit)
      (ToppleAll_table (by rw [hit]; decide) ht h) (fr.boundary_type.trans hb)
      (ToppleAll_directions hb hd h)
    exact ⟨e2, st3, he2, fun hne => absurd hm hne, fun hfa => by rw [hit] at hfa; cases hfa⟩

/-! ### Two relaxations in a row: the sandpile -/

theorem relaxDiss_none {s : SandPile} (h : s.diss_toppling = none) (av : Int) (st : Statics)
    (fuel : Nat) : s.relaxDiss av st fuel = Except.ok (av, s, st) := by
  unfold SandPile.relaxDiss
  rw [h]
  rfl

theorem relaxDiss_run {s : SandPile} {dt : Toppling} {dg : Grid} {av : Int} {st : Statics}
    {fuel : Nat} {a : Int} {e : Engine} {st1 : Statics}
    (hdt : s.diss_toppling = some dt) (hdg : s.diss_grid = some dg)
    (h : Engine.ToppleAll (Engine.mk dg dt) none av st fuel = Except.ok (a, e, st1)) :
    s.relaxDiss av st fuel
      = Except.ok (a, { s with diss_grid := some e.grid, diss_toppling := some e.toppling },
          st1) := by
  unfold SandPile.relaxDiss
  rw [hdt, hdg]
  simp only []
  rw [h]
  rfl

theorem relaxPrimary_none {s : SandPile} (h : s.toppling = none) (av : Int) (st : Statics)
    (fuel : Nat) : s.relaxPrimary av st fuel = Except.ok (av, s, st) := by
  unfold SandPile.relaxPrimary
  rw [h]
  rfl

theorem relaxPrimary_run {s : SandPile} {t : Toppling} {g : Grid} {av : Int} {st : Statics}
    {fuel : Nat} {a : Int} {e : Engine} {st1 : Statics}
    (ht : s.toppling = some t) (hg : s.grid = some g)
    (h : Engine.ToppleAll (Engine.mk g t) s.diss_grid av st fuel = Except.ok (a, e, st1)) :
    s.relaxPrimary av st fuel
      = Except.ok (a, { s with grid := some e.grid, toppling := some e.toppling }, st1) := by
  unfold SandPile.relaxPrimary
  rw [ht, hg]
  simp only []
  rw [h]
  rfl

theorem relaxDiss_inv {s : SandPile} {av : Int} {st : Statics} {fuel : Nat} {a0 : Int}
    {sd : SandPile} {st0 : Statics}
    (h : s.relaxDiss av st fuel = Except.ok (a0, sd, st0)) :
    sd.grid = s.grid ∧ sd.toppling = s.toppling
    ∧ ((s.diss_toppling = none ∧ sd.diss_toppling = none ∧ sd.diss_grid = s.diss_grid
          ∧ a0 = av ∧ st0 = st)
      ∨ ∃ dt dg ed, s.diss_toppling = some dt ∧ s.diss_grid = some dg
          ∧ Engine.ToppleAll (Engine.mk dg dt) none av st fuel = Except.ok (a0, ed, st0)
          ∧ sd.diss_toppling = some ed.toppling ∧ sd.diss_grid = some ed.grid) := by
  cases hdt : s.diss_toppling with
  | none =>
    rw [relaxDiss_none hdt] at h
    have := Except.ok.inj h
    simp only [Prod.mk.injEq] at this
    obtain ⟨rfl, rfl, rfl⟩ := this
    exact ⟨rfl, rfl, Or.inl ⟨rfl, hdt, rfl, rfl, rfl⟩⟩
  | some dt =>
    cases hdg : s.diss_grid with
    | none =>
      unfold SandPile.relaxDiss at h
      rw [hdt, hdg] at h
      simp [throw, throwThe, MonadExceptOf.throw] at h
    | some dg =>
      cases hT : Engine.ToppleAll (Engine.mk dg dt) none av st fuel with
      | error err =>
        unfold SandPile.relaxDiss at h
        rw [hdt, hdg] at h
        simp only [] at h
        rw [hT] at h
        simp [bind, Except.bind] at h
      | ok r =>
        obtain ⟨a, e, st1⟩ := r
        rw [relaxDiss_run hdt hdg hT] at h
        have := Except.ok.inj h
        simp only [Prod.mk.injEq] at this
        obtain ⟨rfl, rfl, rfl⟩ := this
        exact ⟨rfl, rfl, Or.inr ⟨dt, dg, e, rfl, rfl, hT, rfl, rfl⟩⟩

theorem relaxPrimary_inv {s : SandPile} {av : Int} {st : Statics} {fuel : Nat} {a1 : Int}
    {sp : SandPile} {st1 : Statics}
    (h : s.relaxPrimary av st fuel = Except.ok (a1, sp, st1)) :
    sp.diss_grid = s.diss_grid ∧ sp.diss_toppling = s.diss_toppling
    ∧ ((s.toppling = none ∧ sp.toppling = none ∧ sp.grid = s.grid ∧ a1 = av ∧ st1 = st)
      ∨ ∃ t g e, s.toppling = some t ∧ s.grid = some g
          ∧ Engine.ToppleAll (Engine.mk g t) s.diss_grid av st fuel = Except.ok (a1, e, st1)
          ∧ sp.toppling = some e.toppling ∧ sp.grid = some e.grid) := by
  cases ht : s.toppling with
  | none =>
    rw [relaxPrimary_none ht] at h
    have := Except.ok.inj h
    simp only [Prod.mk.injEq] at this
    obtain ⟨rfl, rfl, rfl⟩ := this
    exact ⟨rfl, rfl, Or.inl ⟨rfl, ht, rfl, rfl, rfl⟩⟩
  | some t =>
    cases hg : s.grid with
    | none =>
      unfold SandPile.relaxPrimary at h
      rw [ht, hg] at h
      simp [throw, throwThe, MonadExceptOf.throw] at h
    | some g =>
      cases hT : Engine.ToppleAll (Engine.mk g t) s.diss_grid av st fuel with
      | error err =>
        unfold SandPile.relaxPrimary at h
        rw [ht, hg] at h
        simp only [] at h
        rw [hT] at h
        simp [bind, Except.bind] at h
      | ok r =>
        obtain ⟨a, e, st2⟩ := r
        rw [relaxPrimary_run ht hg hT] at h
        have := Except.ok.inj h
        simp only [Prod.mk.injEq] at this
        obtain ⟨rfl, rfl, rfl⟩ := this
        exact ⟨rfl, rfl, Or.inr ⟨t, g, e, rfl, rfl, hT, rfl, rfl⟩⟩

theorem Relax_of_zero {s : SandPile} {measure : Bool} {st : Statics} {fuel : Nat} {a0 : Int}
    {sd : SandPile} {st0 : Statics} {sp : SandPile} {st1 : Statics}
    (hd : s.relaxDiss 0 st fuel = Except.ok (a0, sd, st0))
    (hp : sd.relaxPrimary a0 st0 fuel = Except.ok (0, sp, st1)) :
    s.Relax measure st fuel = Except.ok (0, sp, st1) := by
  unfold SandPile.Relax
  simp only [hd, hp, bind, Except.bind]
  rfl

/-- C5 (amended): for every sandpile in which the toppling that decides the avalanche size (the primary
one, or the dissipation one when there is no primary) settles, i.e. uses FollowActivity
(as the constructor configures the primary one), or RandomAll with an index table that
is a permutation of the cell indices (as the constructor configures the dissipation
one), or has the Rossum2011-diss rule: if a call to `Relax` terminates, an immediately
following `Relax` (no `Drive` in between) yields avalanche size 0 whenever it returns.
It does return, for every state of the generators, when both topplings resume
(`Engine.Resumes`: FollowActivity; RandomAll under another rule on a grid that is not
FullyConnected; the dissipation side as the constructor builds it); the heights of the
primary grid are then as before unless the primary rule is Rossum2011-diss, and without a
dissipation toppling under FollowActivity the generators are as before. -/
theorem C5_second_relax_yields_zero (s : SandPile) (measure : Bool) (st : Statics) (fuel : Nat)
    (a : Int) (s1 : SandPile) (st1 : Statics)
    (hprim : ∀ t g, s.toppling = some t → s.grid = some g → (Engine.mk g t).Settles)
    (hdiss : s.toppling = none → ∀ dt dg, s.diss_toppling = some dt → s.diss_grid = some dg →
      (Engine.mk dg dt).Settles)
    (h : s.Relax measure st fuel = Except.ok (a, s1, st1)) :
    (∀ (measure2 : Bool) (st2 : Statics) (fuel2 : Nat) (r : Int × SandPile × Statics),
        s1.Relax measure2 st2 fuel2 = Except.ok r → r.1 = 0)
    ∧ ((∀ t g, s.toppling = some t → s.grid = some g → (Engine.mk g t).Resumes) →
        (∀ dt dg, s.diss_toppling = some dt → s.diss_grid = some dg →
          (Engine.mk dg dt).Resumes) →
        ∀ (measure2 : Bool) (st2 : Statics) (fuel2 : Nat),
          ∃ s2 st3, s1.Relax measure2 st2 (fuel2 + 1) = Except.ok (0, s2, st3)
            ∧ ((∀ t, s.toppling = some t →
                  t.toppling_method ≠ TopplingMethod.Rossum2011_diss) →
                s2.heights = s1.heights)
            ∧ (s.diss_toppling = none →
                (∀ t, s.toppling = some t →
                  t.toppling_iterator = TopplingIterator.FOLLOW_ACTIVITY) →
                st3 = st2)) := by
  obtain ⟨a0, sd, st0, a1, sp, hd, hp, -, hg1, ht1, hdt1, hdg1⟩ := Relax_ok h
  obtain ⟨hgd, htd, hD⟩ := relaxDiss_inv hd
  obtain ⟨hdgp, hdtp, hP⟩ := relaxPrimary_inv hp
  -- the dissipation side of `s1`
  have hD1 : (s.diss_toppling = none ∧ s1.diss_toppling = none)
      ∨ ∃ dt dg ed, s.diss_toppling = some dt ∧ s.diss_grid = some dg
          ∧ Engine.ToppleAll (Engine.mk dg dt) none 0 st fuel = Except.ok (a0, ed, st0)
          ∧ s1.diss_toppling = some ed.toppling ∧ s1.diss_grid = some ed.grid := by
    rcases hD with ⟨h1, h2, -, -, -⟩ | ⟨dt, dg, ed, h1, h2, h3, h4, h5⟩
    · exact Or.inl ⟨h1, by rw [hdt1, hdtp, h2]⟩
    · exact Or.inr ⟨dt, dg, ed, h1, h2, h3, by rw [hdt1, hdtp, h4], by rw [hdg1, hdgp, h5]⟩
  -- the primary side of `s1`
  have hP1 : (s.toppling = none ∧ s1.toppling = none ∧ s1.grid = s.grid)
      ∨ ∃ t g e, s.toppling = some t ∧ s.grid = some g
          ∧ Engine.ToppleAll (Engine.mk g t) sd.diss_grid a0 st0 fuel = Except.ok (a1, e, st1)
          ∧ s1.toppling = some e.toppling ∧ s1.grid = some e.grid := by
    rcases hP with ⟨h1, h2, h3, -, -⟩ | ⟨t, g, e, h1, h2, h3, h4, h5⟩
    · exact Or.inl ⟨by rw [← htd, h1], by rw [ht1, h2], by rw [hg1, h3, hgd]⟩
    · exact Or.inr ⟨t, g, e, by rw [← htd, h1], by rw [← hgd, h2], h3, by rw [ht1, h4],
        by rw [hg1, h5]⟩
  refine ⟨fun measure2 st2 fuel2 r hr => ?_, fun hRp hRd measure2 st2 fuel2 => ?_⟩
  · obtain ⟨b0, td, tt0, b1, tp, hd2, hp2, hr1, -⟩ :=
      @Relax_ok _ _ _ _ r.1 r.2.1 r.2.2 hr
    obtain ⟨hgd2, htd2, hD2⟩ := relaxDiss_inv hd2
    obtain ⟨-, -, hP2⟩ := relaxPrimary_inv hp2
    have hb1 : b1 = 0 := by
      rcases hP1 with ⟨hn, hn1, -⟩ | ⟨t, g, e, hts, hgs, hT, ht1e, hg1e⟩
      · -- no primary toppling: the count of the dissipation toppling stands
        have hb : b1 = b0 := by
          rcases hP2 with ⟨-, -, -, hb, -⟩ | ⟨t2, g2, e2, h1, -⟩
          · exact hb
          · rw [htd2, hn1] at h1; cases h1
        rw [hb]
        rcases hD2 with ⟨-, -, -, hb0, -⟩ | ⟨dt2, dg2, ed2, h1, h2, hT2, -, -⟩
        · exact hb0
        · rcases hD1 with ⟨-, hn2⟩ | ⟨dt, dg, ed, hdts, hdgs, hTd, h4, h5⟩
          · rw [hn2] at h1; cases h1
          · rw [h4] at h1
            rw [h5] at h2
            cases h1
            cases h2
            exact second_ToppleAll_zero (hdiss hn dt dg hdts hdgs) hTd none 0 st2 fuel2 b0 ed2
              tt0 hT2
      · rcases hP2 with ⟨hn2, -⟩ | ⟨t2, g2, e2, h1, h2, hT2, -, -⟩
        · rw [htd2, ht1e] at hn2; cases hn2
        · rw [htd2, ht1e] at h1
          rw [hgd2, hg1e] at h2
          cases h1
          cases h2
          exact second_ToppleAll_zero (hprim t g hts hgs) hT td.diss_grid b0 tt0 fuel2 b1 e2
            r.2.2 hT2
    rw [hr1, hb1]
    simp
  · -- the dissipation toppling of `s1` returns
    have hdiss2 : ∃ sd2 st3, s1.relaxDiss 0 st2 (fuel2 + 1) = Except.ok (0, sd2, st3)
        ∧ sd2.grid = s1.grid ∧ sd2.toppling = s1.toppling
        ∧ (s.diss_toppling = none → st3 = st2) := by
      rcases hD1 with ⟨-, hn2⟩ | ⟨dt, dg, ed, hdts, hdgs, hTd, h4, h5⟩
      · exact ⟨s1, st2, relaxDiss_none hn2 0 st2 (fuel2 + 1), rfl, rfl, fun _ => rfl⟩
      · obtain ⟨e2, st3, hT2, -, -⟩ :=
          second_ToppleAll_returns (hRd dt dg hdts hdgs) hTd none 0 st2 fuel2
        exact ⟨_, st3, relaxDiss_run h4 h5 hT2, rfl, rfl,
          fun hn => by rw [hn] at hdts; cases hdts⟩
    obtain ⟨sd2, st3, hd2, hg2, ht2, hst3⟩ := hdiss2
    rcases hP1 with ⟨hn, hn1, -⟩ | ⟨t, g, e, hts, hgs, hT, ht1e, hg1e⟩
    · refine ⟨sd2, st3, Relax_of_zero hd2 (relaxPrimary_none (ht2.trans hn1) 0 st3 _),
        fun _ => ?_, fun hdn _ => hst3 hdn⟩
      simp only [SandPile.heights, hg2]
    · obtain ⟨e2, st4, hT2, hgrid, hsame⟩ :=
        second_ToppleAll_returns (hRp t g hts hgs) hT sd2.diss_grid 0 st3 fuel2
      refine ⟨_, st4,
        Relax_of_zero hd2 (relaxPrimary_run (ht2.trans ht1e) (hg2.trans hg1e) hT2),
        fun hne => ?_, fun hdn hfa => ?_⟩
      · simp only [SandPile.heights, hg1e, hgrid (hne t hts)]
      · rw [hsame (hfa t hts), hst3 hdn]

/-- Witness of C5 (amended): the driven 2 by 2 BTW sandpile, whose first `Relax` is an avalanche of
size 1 that leaves the heights 1, 0, 0, 1; and the 2 by 2 Rossum2011 sandpile right after
construction, which has a dissipation grid: the `Relax` after its first `Relax` returns 0
for every state of the generators. -/
theorem C5_second_relax_yields_zero_witness :
    (∃ s st a s1 st1, drivenPile = Except.ok (s, st)
      ∧ s.shape = (true, some TopplingIterator.FOLLOW_ACTIVITY, false)
      ∧ s.Relax true st 10 = Except.ok (a, s1, st1) ∧ a = 1 ∧ s1.heights = [1, 0, 0, 1]
      ∧ (∀ (measure2 : Bool) (st2 : Statics) (fuel2 : Nat) (r : Int × SandPile × Statics),
          s1.Relax measure2 st2 fuel2 = Except.ok r → r.1 = 0)
      ∧ (∀ (measure2 : Bool) (st2 : Statics) (fuel2 : Nat),
          ∃ s2, s1.Relax measure2 st2 (fuel2 + 1) = Except.ok (0, s2, st2)
            ∧ s2.heights = s1.heights))
    ∧ (∃ s st a s1 st1,
        SandPile.new 2 TopplingMethod.Rossum2011 BoundaryType.BT_UNDEFINED
          (Statics.initial (constSeed 0)) = Except.ok (s, st)
        ∧ s.diss_toppling.isSome = true
        ∧ s.Relax true st 5 = Except.ok (a, s1, st1)
        ∧ (∀ (measure2 : Bool) (st2 : Statics) (fuel2 : Nat),
            ∃ s2 st3, s1.Relax measure2 st2 (fuel2 + 1) = Except.ok (0, s2, st3)
              ∧ s2.heights = s1.heights)) := by
  constructor
  · obtain ⟨hshape, hrel⟩ := drivenPile_facts
    have hmeth : (Run.value drivenPile).map
        (fun p => p.1.toppling.map (fun t => t.toppling_method))
        = some (some TopplingMethod.Bak_Tang_Wiesenfeld1987) := by decide!
    obtain ⟨p, hp⟩ : ∃ p, drivenPile = Except.ok p := by
      cases h : drivenPile with
      | ok p => exact ⟨p, rfl⟩
      | error e => rw [h] at hshape; simp [Run.value] at hshape
    rw [hp] at hshape hrel hmeth
    simp only [Run.value, Option.map_some', Option.some.injEq, bind, Except.bind]
      at hshape hrel hmeth
    obtain ⟨r, hr⟩ : ∃ r, p.1.Relax true p.2 10 = Except.ok r := by
      cases h : p.1.Relax true p.2 10 with
      | ok r => exact ⟨r, rfl⟩
      | error e => rw [h] at hrel; simp [Run.value] at hrel
    rw [hr] at hrel
    simp only [Run.value, Option.map_some', Option.some.injEq, Prod.mk.injEq] at hrel
    have hsh := hshape
    simp only [SandPile.shape, Prod.mk.injEq] at hsh
    have hfa : ∀ t, p.1.toppling = some t →
        t.toppling_iterator = TopplingIterator.FOLLOW_ACTIVITY := by
      intro t ht
      have := hsh.2.1; rw [ht] at this; simpa using this
    have hbtw : ∀ t, p.1.toppling = some t →
        t.toppling_method ≠ TopplingMethod.Rossum2011_diss := by
      intro t ht
      rw [ht] at hmeth
      simp only [Option.map_some', Option.some.injEq] at hmeth
      rw [hmeth]
      decide
    have hnd : p.1.diss_toppling = none := by
      have := hsh.2.2
      cases hd : p.1.diss_toppling with
      | none => rfl
      | some dt => rw [hd] at this; simp at this
    have hsome : p.1.toppling ≠ none := by
      intro hn; have := hsh.2.1; rw [hn] at this; simp at this
    obtain ⟨h1, h2⟩ := C5_second_relax_yields_zero p.1 true p.2 10 r.1 r.2.1 r.2.2
      (fun t g ht _ => Or.inl (hfa t ht)) (fun hn => absurd hn hsome) hr
    refine ⟨p.1, p.2, r.1, r.2.1, r.2.2, hp, hshape, hr, hrel.1, hrel.2, h1, ?_⟩
    intro measure2 st2 fuel2
    obtain ⟨s2, st3, hs2, hh, hst⟩ := h2 (fun t g ht _ => Or.inl (hfa t ht))
      (fun dt dg hdt _ => by rw [hnd] at hdt; cases hdt) measure2 st2 fuel2
    have hst3 : st3 = st2 := hst hnd hfa
    rw [hst3] at hs2
    exact ⟨s2, hs2, hh hbtw⟩
  · obtain ⟨⟨s, st⟩, hnew⟩ := new_returns 2 TopplingMethod.Rossum2011
      BoundaryType.BT_UNDEFINED (Statics.initial (constSeed 0)) (by decide)
    obtain ⟨g, t, hf⟩ := new_fresh hnew (by decide)
    obtain ⟨d, dt, hd, hdt, hb, -, -, hit, hm, htab, hdir⟩ := new_diss_engine hnew (Or.inl rfl)
    have hv : (Run.value (SandPile.new 2 TopplingMethod.Rossum2011 BoundaryType.BT_UNDEFINED
        (Statics.initial (constSeed 0)) >>= fun p => p.1.Relax true p.2 5)).isSome = true := by
      decide!
    rw [hnew] at hv
    obtain ⟨r, hr⟩ : ∃ r, s.Relax true st 5 = Except.ok r := Run.of_isSome hv
    have hfa : ∀ t2, s.toppling = some t2 →
        t2.toppling_iterator = TopplingIterator.FOLLOW_ACTIVITY := by
      intro t2 ht2
      rw [hf.toppling] at ht2
      cases ht2
      exact hf.iterator
    have hne : ∀ t2, s.toppling = some t2 →
        t2.toppling_method ≠ TopplingMethod.Rossum2011_diss := by
      intro t2 ht2
      rw [hf.toppling] at ht2
      cases ht2
      rw [hf.method]
      decide
    obtain ⟨-, h2⟩ := C5_second_relax_yields_zero s true st 5 r.1 r.2.1 r.2.2
      (fun t2 g2 ht2 _ => Or.inl (hfa t2 ht2))
      (fun hn => by rw [hf.toppling] at hn; cases hn) hr
    refine ⟨s, st, r.1, r.2.1, r.2.2, hnew, by rw [hdt]; rfl, hr, ?_⟩
    intro measure2 st2 fuel2
    obtain ⟨s2, st3, hs2, hh, -⟩ := h2 (fun t2 g2 ht2 _ => Or.inl (hfa t2 ht2))
      (fun dt2 dg2 hdt2 hdg2 => by
        rw [hdt] at hdt2
        rw [hd] at hdg2
        cases hdt2
        cases hdg2
        exact Or.inr (Or.inr ⟨hm, hit, ⟨fun i => i, htab, by simp⟩, hb, hdir⟩))
      measure2 st2 fuel2
    exact ⟨s2, st3, hs2, hh hne⟩

end Sandpile
